import Mathlib

/-!
Dungeon-finder manager (NewLFGMgr): embedding and verified properties

A shallow embedding of `NewLFGMgr.cpp`, `LFGEnums.h`, `LFGStructs.h`, `NewLFGQueue.h`
and the join handler and the role-check packet builder of `LFGHandler.cpp`.

* Unsigned machine integers are natural numbers; a wrap-around is written `% 2^w`
  at the places where the source can wrap.
* `std::unordered_map`, `std::map` and `std::unordered_set` are association lists and
  lists; a loop over a container runs in list order.
* A call that cannot return normally in the source (a failed `ASSERT`, `at` on a missing
  key, a read through a null or dangling reference) is a `Fault`.
* The host (players, groups, world singletons) is read through records of the
  accessors the manager calls.
-/

set_option linter.unusedVariables false

namespace NewLFG

/-! ## LFGEnums.h -/

def SPELL_LFG_DUNGEON_DESERTER : Nat := 71041
def SPELL_LFG_DUNGEON_COOLDOWN : Nat := 71328

/-- Role-check time limit, `2min`, in milliseconds. -/
def LFG_ROLE_CHECK_TIME_LIMIT : Int := 120000

/-- Queue update interval, `5s`, in milliseconds. -/
def LFG_QUEUE_UPDATE_INTERVAL : Int := 5000

def LFG_ROLE_LEADER : Nat := 0x1
def LFG_ROLE_TANK : Nat := 0x2
def LFG_ROLE_HEAL : Nat := 0x4
def LFG_ROLE_DAMAGE : Nat := 0x8
def LFG_ROLE_MASK_ALL_NEEDED : Nat := LFG_ROLE_TANK ||| LFG_ROLE_HEAL ||| LFG_ROLE_DAMAGE

inductive LFGUpdateReason where
  | Default | LeaderUnk1 | LeaveRaidbrowser | JoinRaidbrowser | RolecheckAborted | Unk1
  | JoinQueue | RolecheckFailed | RemovedFromQueue | ProposalFailed | ProposalDeclined
  | GroupFound | Unk2 | AddedToQueue | ProposalBegin | UpdateStatus | GroupMemberOffline
  | GroupDisbandUnk | JoinQueueInitial | DungeonFinished | PartyRoleNotAvailable
  | JoinLFGObjectFailed
deriving DecidableEq, Repr

inductive LFGLockStatusType where
  | None | InsufficientExpansion | TooLowLevel | TooHighLevel | TooLowGearScore
  | TooHighGearScore | RaidLocked | AttunementTooLowLevel | AttunementTooHighLevel
  | QuestNotCompleted | MissingItem | NotInSeason | MissingAchievement
deriving DecidableEq, Repr

namespace LFGFlags
def Unk1 : Nat := 0x001
def Unk2 : Nat := 0x002
def Seasonal : Nat := 0x004
def Unk3 : Nat := 0x008
def Unk4 : Nat := 0x040
def Unk5 : Nat := 0x200
end LFGFlags

/-- Values of `enum class LFGType : uint8`; `TypeID` of a dungeon entry is compared with them. -/
def LFGType.None : Nat := 0
def LFGType.Dungeon : Nat := 1
def LFGType.Raid : Nat := 2
def LFGType.World : Nat := 4
def LFGType.Heroic : Nat := 5
def LFGType.Random : Nat := 6

inductive LFGJoinResult where
  | OK | JoinFailed | GroupFull | InternalError | NotMeetRequirements | MixedRaidAndDungeon
  | MultipleRealms | Disconnected | PartyInfoFailed | DungeonInvalid | Deserter
  | PartyDeserter | RandomCooldown | PartyRandomCooldown | TooManyMembers
  | UsingBattleground | RolecheckFailed
deriving DecidableEq, Repr

inductive LFGRoleCheckState where
  | Default | Finished | Initializing | MissingRole | WrongRoles | Aborted | NoRole
deriving DecidableEq, Repr

/-! ## Host types read by the manager (declared outside the files embedded here) -/

/-- An object guid, with the kinds the manager asks about (`IsPlayer`, `IsGroup`, `IsEmpty`). -/
inductive ObjectGuid where
  | Empty
  | Player (counter : Nat)
  | Group (counter : Nat)
  | Other (counter : Nat)
deriving DecidableEq, Repr

def ObjectGuid.IsPlayer : ObjectGuid → Bool
  | .Player _ => true
  | _ => false

def ObjectGuid.IsGroup : ObjectGuid → Bool
  | .Group _ => true
  | _ => false

/-- Player classes named by `HasInvalidRoles`; every other class value is `CLASS_OTHER`. -/
inductive Classes where
  | CLASS_WARRIOR | CLASS_PALADIN | CLASS_HUNTER | CLASS_ROGUE | CLASS_PRIEST
  | CLASS_DEATH_KNIGHT | CLASS_SHAMAN | CLASS_MAGE | CLASS_WARLOCK | CLASS_DRUID
  | CLASS_OTHER (id : Nat)
deriving DecidableEq, Repr

inductive Team where
  | ALLIANCE | HORDE | TEAM_OTHER
deriving DecidableEq, Repr

inductive HolidayIds where
  | HOLIDAY_HALLOWS_END | HOLIDAY_FIRE_FESTIVAL | HOLIDAY_BREWFEST | HOLIDAY_LOVE_IS_IN_THE_AIR
deriving DecidableEq, Repr

inductive DisableType where
  | DISABLE_TYPE_MAP | DISABLE_TYPE_LFG_MAP
deriving DecidableEq, Repr

/-- The accessors of `Player` (and of its session) that the manager reads. The average item
level is a `float` in the source and is carried as a whole number here. `GetBoundInstance`
takes the optional third argument of the second raid-lock test as an `Option`. -/
structure Player where
  GetGUID : ObjectGuid
  getClass : Classes
  HasPermission : Bool
  InBattleground : Bool
  InArena : Bool
  InBattlegroundQueue : Bool
  HasAura : Nat → Bool
  getLevel : Nat
  GetExpansion : Nat
  GetBoundInstance : Nat → Nat → Option Bool → Bool
  GetAverageItemLevel : Nat
  HasAchieved : Nat → Bool
  GetTeam : Team
  GetQuestRewardStatus : Nat → Bool
  HasItemCount : Nat → Bool

/-- A group: its guid, leader, member count and the chain of member references; a reference
whose `GetSource()` is null (member not in the world) is `none`. -/
structure Group where
  GetGUID : ObjectGuid
  GetLeaderGUID : ObjectGuid
  GetMembersCount : Nat
  members : List (Option Player)

structure AccessRequirement where
  achievement : Nat
  quest_A : Nat
  quest_H : Nat
  item : Nat
  item2 : Nat
deriving DecidableEq, Repr

/-- World singletons and constants read at call time: `ObjectAccessor`, `sGroupMgr`,
`DisableMgr`, `sObjectMgr`, the game-event holidays, `GameTime`, and the constants
`MAXGROUPSIZE` and `DUNGEON_DIFFICULTY_NORMAL`. -/
structure Host where
  FindConnectedPlayer : ObjectGuid → Option Player
  GetGroupByGUID : ObjectGuid → Option Group
  IsDisabledFor : DisableType → Nat → Player → Bool
  GetAccessRequirement : Nat → Nat → Option AccessRequirement
  IsHolidayActive : HolidayIds → Bool
  GetGameTime : Int
  MAXGROUPSIZE : Nat
  DUNGEON_DIFFICULTY_NORMAL : Nat

/-- A row of the master activity store (`LFGDungeonEntry`); `Entry` is the slot code returned
by `Entry()`. -/
structure LFGDungeonEntry where
  ID : Nat
  MapID : Nat
  DifficultyID : Nat
  TypeID : Nat
  MinLevel : Nat
  Maxlevel : Nat
  ExpansionLevel : Nat
  Flags : Nat
  RandomID : Nat
  Entry : Nat
deriving DecidableEq, Repr

structure LFGDungeonsGroupingMapEntry where
  LfgDungeonsID : Nat
  RandomLfgDungeonsID : Nat
deriving DecidableEq, Repr

/-- A world location; the coordinates are `float` in the source and only compared with zero. -/
structure WorldLocation where
  mapId : Nat
  x : Int
  y : Int
  z : Int
  o : Int
deriving DecidableEq, Repr

structure AreaTriggerStruct where
  target_X : Int
  target_Y : Int
  target_Z : Int
  target_Orientation : Int
deriving DecidableEq, Repr

/-! ## LFGStructs.h -/

structure LFGRewardData where
  MaxLevel : Nat
  MainRewardQuestID : Nat
  AlternatvieRewardQuestID : Nat
  ShortateRewardQuestID : Nat
  CompletionsPerPeriod : Nat
  DailyReset : Bool
deriving DecidableEq, Repr

/-- Catalog record, the primary struct for the template table. `DungeonEntry` is a non-null
pointer into the master store in every record the loader creates. -/
structure LFGDungeonData where
  DungeonEntry : LFGDungeonEntry
  Entrance : WorldLocation
  RequiredItemLevel : Nat
  CompletionRewards : List LFGRewardData
deriving DecidableEq, Repr

structure LFGDungeonLockData where
  Reason : LFGLockStatusType
  SubReason1 : Nat
  SubReason2 : Nat
deriving DecidableEq, Repr

structure LFGRideTicket where
  ID : Nat := 0
  Type_ : Nat := 3
  Time : Int := 0
  RequesterGUID : ObjectGuid := ObjectGuid.Empty
deriving DecidableEq, Repr

abbrev LockMap := List (Nat × LFGDungeonLockData)

structure LFGJoinResultData where
  Result : LFGJoinResult
  ResultDetail : LFGRoleCheckState
  RideTicket : LFGRideTicket := {}
  PlayerLockMap : List (ObjectGuid × LockMap) := []
deriving DecidableEq, Repr

structure LFGUpdateStatusData where
  IsParty : Bool := false
  Joined : Bool := false
  LFGJoined : Bool := false
  Queued : Bool := false
  Comment : String := ""
  UpdateReason : LFGUpdateReason
  RideTicket : LFGRideTicket := {}
  Slots : List Nat := []
deriving DecidableEq, Repr

structure LFGPartyMemberRoleData where
  RoleMask : Nat := 0
  RoleConfirmed : Bool := false
deriving DecidableEq, Repr

structure LFGRolecheckUpdateData where
  State : LFGRoleCheckState := LFGRoleCheckState.Default
  Slots : List Nat := []
  PartyMemberRoles : List (ObjectGuid × LFGPartyMemberRoleData) := []
  IsBeginning : Bool := false
deriving DecidableEq, Repr

structure LFGJoinData where
  SelectedDungeonIDs : List Nat := []
  RandomDungeonID : Nat := 0
  PartyMemberRoleData : List (ObjectGuid × LFGPartyMemberRoleData) := []
deriving DecidableEq, Repr

structure LFGQueueData where
deriving DecidableEq, Repr

/-- Queue-side record of a ticket. The source member `LFGJoinData& JoinData` refers to the
element of the join-data map it was created from; here it is the key of that element. The
reference dangles once that element is erased, also when an element is created under the
same key later: the manager records the tickets whose reference dangles in
`danglingJoinData`, and a read through such a reference does not return. -/
structure LFGQueuePlayerData where
  JoinData : ObjectGuid
  RideTicket : LFGRideTicket
  CurrentDungeonID : Nat := 0
  Comment : String := ""
  InstanceCompleted : Bool := false
  NeedsQueueUpdate : Bool := true
deriving DecidableEq, Repr

/-! ## Containers -/

/-- Lookup in an association list (`find`): the first element stored under the key. -/
def mapFind {κ α : Type} [DecidableEq κ] (k : κ) : List (κ × α) → Option α
  | [] => none
  | e :: m => if e.1 = k then some e.2 else mapFind k m

/-- Erase by key (`erase(key)`). -/
def mapErase {κ α : Type} [DecidableEq κ] (k : κ) (m : List (κ × α)) : List (κ × α) :=
  m.filter (fun e => decide (e.1 ≠ k))

/-- Insert unless the key is present (`emplace`). -/
def mapEmplace {κ α : Type} [DecidableEq κ] (k : κ) (v : α) (m : List (κ × α)) :
    List (κ × α) :=
  match mapFind k m with
  | some _ => m
  | none => m ++ [(k, v)]

/-- Update in place the element under the key (`m[k].field = ...`), after inserting the
default value `d` when the key is absent (`operator[]`). -/
def mapModify {κ α : Type} [DecidableEq κ] (k : κ) (d : α) (f : α → α) :
    List (κ × α) → List (κ × α)
  | [] => [(k, f d)]
  | e :: m => if e.1 = k then (e.1, f e.2) :: m else e :: mapModify k d f m

/-- Insert into a set (`unordered_set::insert`). -/
def setInsert (x : Nat) (s : List Nat) : List Nat :=
  if x ∈ s then s else s ++ [x]

/-- Erase from a set (`unordered_set::erase`). -/
def setErase (x : Nat) (s : List Nat) : List Nat :=
  s.filter (fun y => decide (y ≠ x))

/-! ## NewLFGQueue.h and NewLFGMgr.h -/

structure NewLFGQueue where
  lfgQueueData : List (Nat × LFGQueueData) := []
deriving DecidableEq, Repr

/-- The manager: its dungeon caches, the queue data caches, the ticket counter, the queue and
the remaining queue update interval (milliseconds). `danglingJoinData` is not a member of
the source class: it holds the ids of the tickets whose queue entry refers
(`LFGQueuePlayerData::JoinData`) to an element of `_lfgJoinData` that has been erased. -/
structure NewLFGMgr where
  lfgDungeonData : List (Nat × LFGDungeonData) := []
  lfgDungeonsIdsForRandomDungeonId : List (Nat × List Nat) := []
  lfgJoinData : List (ObjectGuid × LFGJoinData) := []
  lfgRoleCheckTimers : List (ObjectGuid × Int) := []
  lfgQueuePlayerData : List (Nat × LFGQueuePlayerData) := []
  nextAvailableTicketId : Nat := 0
  lfgQueue : NewLFGQueue := {}
  lfgQueueUpdateInterval : Int := LFG_QUEUE_UPDATE_INTERVAL
  danglingJoinData : List Nat := []
deriving DecidableEq, Repr

/-- Ways a call ends without returning: a failed `ASSERT`, `at` on a missing key, a call
through a null `DungeonEntry`, a read through a dangling `JoinData` reference. -/
inductive Fault where
  | assertion | outOfRange | nullDeref | danglingReference
deriving DecidableEq, Repr

/-- Packets handed to a session. -/
inductive Packet where
  | JoinResult (data : LFGJoinResultData)
  | UpdateStatus (data : LFGUpdateStatusData)
  | RoleChosen (player : ObjectGuid) (roleMask : Nat)
  | RoleCheckUpdate (data : LFGRolecheckUpdateData)
deriving DecidableEq, Repr

/-- A packet together with the player whose session receives it. -/
structure Notification where
  recipient : ObjectGuid
  packet : Packet
deriving DecidableEq, Repr

/-- The constructor `NewLFGMgr::NewLFGMgr()`. -/
def NewLFGMgr.new : NewLFGMgr := {}

/-- Update in place the element under the key when it is present (writes through an iterator
returned by `find`). -/
def mapAdjust {κ α : Type} [DecidableEq κ] (k : κ) (f : α → α) :
    List (κ × α) → List (κ × α)
  | [] => []
  | e :: m => if e.1 = k then (e.1, f e.2) :: m else e :: mapAdjust k f m

/-! ## Role legality and role-set validity (NewLFGMgr.cpp, lines 30-150) -/

def HasInvalidRoles (player : Player) (roleMask : Nat) : Bool :=
  match player.getClass with
  | .CLASS_DEATH_KNIGHT | .CLASS_WARRIOR =>
    decide (roleMask &&& LFG_ROLE_HEAL ≠ 0)
  | .CLASS_WARLOCK | .CLASS_MAGE | .CLASS_HUNTER | .CLASS_ROGUE =>
    decide (roleMask &&& (LFG_ROLE_HEAL ||| LFG_ROLE_TANK) ≠ 0)
  | .CLASS_PRIEST | .CLASS_SHAMAN =>
    decide (roleMask &&& LFG_ROLE_TANK ≠ 0)
  | _ => false

/-- The six `uint8` counters of `IsRoleCheckValid`: the roles still open and the hybrids
still to distribute. -/
structure RoleTally where
  numDps : Nat
  numTank : Nat
  numHeal : Nat
  dpsTank : Nat
  dpsHeal : Nat
  tankHeal : Nat
deriving DecidableEq, Repr

/-- Body of the first loop of `IsRoleCheckValid` for one member mask (the `switch`);
`none` is `return false`. -/
def roleTallyStep (t : RoleTally) (mask : Nat) : Option RoleTally :=
  let k := mask &&& LFG_ROLE_MASK_ALL_NEEDED
  if k = LFG_ROLE_DAMAGE then
    if t.numDps = 0 then none else some { t with numDps := t.numDps - 1 }
  else if k = LFG_ROLE_TANK then
    if t.numTank = 0 then none else some { t with numTank := t.numTank - 1 }
  else if k = LFG_ROLE_HEAL then
    if t.numHeal = 0 then none else some { t with numHeal := t.numHeal - 1 }
  else if k = (LFG_ROLE_DAMAGE ||| LFG_ROLE_TANK) then
    some { t with dpsTank := (t.dpsTank + 1) % 256 }
  else if k = (LFG_ROLE_DAMAGE ||| LFG_ROLE_HEAL) then
    some { t with dpsHeal := (t.dpsHeal + 1) % 256 }
  else if k = (LFG_ROLE_TANK ||| LFG_ROLE_HEAL) then
    some { t with tankHeal := (t.tankHeal + 1) % 256 }
  else if k = LFG_ROLE_MASK_ALL_NEEDED then
    some t
  else none

/-- The first loop of `IsRoleCheckValid` over the member masks. -/
def roleTally : RoleTally → List Nat → Option RoleTally
  | t, [] => some t
  | t, m :: ms =>
    match roleTallyStep t m with
    | none => none
    | some t1 => roleTally t1 ms

/-- Body of the second loop of `IsRoleCheckValid` for one value of `tankHealAsTank`:
`true` is `return true`, `false` is falling through to the next iteration. -/
def roleSplitOk (t : RoleTally) (tankHealAsTank : Nat) : Bool :=
  let dpsTankAsTank := min (t.numTank - tankHealAsTank) t.dpsTank
  let tankHealAsHeal := t.tankHeal - tankHealAsTank
  if t.numHeal < tankHealAsHeal then false
  else
    let dpsHealAsHeal := min (t.numHeal - tankHealAsHeal) t.dpsHeal
    let dpsTankAsDps := t.dpsTank - dpsTankAsTank
    let dpsHealAsDps := t.dpsHeal - dpsHealAsHeal
    decide (dpsTankAsDps + dpsHealAsDps ≤ t.numDps)

/-- The second loop of `IsRoleCheckValid`, with the number of iterations left and the current
`tankHealAsTank`. When the bound is 255 the `uint8` loop variable wraps to 0 after the last
iteration and the loop starts over, so the source does not return: `none`. -/
def roleSplitLoop (t : RoleTally) (maxTankHealAsTank : Nat) : Nat → Nat → Option Bool
  | 0, _ => if maxTankHealAsTank = 255 then none else some false
  | left + 1, tankHealAsTank =>
    if roleSplitOk t tankHealAsTank then some true
    else roleSplitLoop t maxTankHealAsTank left (tankHealAsTank + 1)

/-- `IsRoleCheckValid(selected, numDps, numTank, numHeal)`; `none` when the source loops
forever. -/
def IsRoleCheckValid (selected : List (ObjectGuid × Nat)) (numDps numTank numHeal : Nat) :
    Option Bool :=
  if numDps + numHeal + numTank < selected.length then some false
  else
    match roleTally ⟨numDps, numTank, numHeal, 0, 0, 0⟩ (selected.map Prod.snd) with
    | none => some false
    | some t =>
      if t.numDps + t.numTank < t.dpsTank then some false
      else if t.numDps + t.numHeal < t.dpsHeal then some false
      else if t.numTank + t.numHeal < t.tankHeal then some false
      else
        let maxTankHealAsTank := min t.tankHeal t.numTank
        roleSplitLoop t maxTankHealAsTank (maxTankHealAsTank + 1) 0

/-! ## Base eligibility (lines 153-203) -/

/-- One member reference of the group loop of `GetPlayerAndGroupJoinResult`. -/
def groupMemberJoinResult (player groupPlayer : Player) (result : LFGJoinResult) :
    LFGJoinResult :=
  let r1 :=
    if !groupPlayer.HasPermission then LFGJoinResult.InternalError
    else if groupPlayer.InBattleground || groupPlayer.InArena
        || groupPlayer.InBattlegroundQueue then LFGJoinResult.UsingBattleground
    else result
  if groupPlayer.HasAura SPELL_LFG_DUNGEON_DESERTER then LFGJoinResult.Deserter
  else if groupPlayer.HasAura SPELL_LFG_DUNGEON_COOLDOWN then LFGJoinResult.RandomCooldown
  else if player.HasAura 9454 then LFGJoinResult.InternalError
  else r1

/-- The group loop of `GetPlayerAndGroupJoinResult`: runs while the result is `OK`, counts
the members that are in the world in the `uint8` `memberCount`. -/
def groupJoinLoop (player : Player) :
    List (Option Player) → LFGJoinResult → Nat → LFGJoinResult × Nat
  | [], result, memberCount => (result, memberCount)
  | itr :: rest, result, memberCount =>
    if result ≠ LFGJoinResult.OK then (result, memberCount)
    else
      match itr with
      | none => groupJoinLoop player rest result memberCount
      | some groupPlayer =>
        groupJoinLoop player rest (groupMemberJoinResult player groupPlayer result)
          ((memberCount + 1) % 256)

/-- `GetPlayerAndGroupJoinResult(player, roleMask)`, with `player->GetGroup()` as `group`. -/
def GetPlayerAndGroupJoinResult (host : Host) (player : Player) (group : Option Group)
    (roleMask : Nat) : LFGJoinResult :=
  let result :=
    if !player.HasPermission then LFGJoinResult.InternalError else LFGJoinResult.OK
  if HasInvalidRoles player roleMask then LFGJoinResult.InternalError
  else if player.InBattleground || player.InArena || player.InBattlegroundQueue then
    LFGJoinResult.UsingBattleground
  else if player.HasAura SPELL_LFG_DUNGEON_DESERTER then LFGJoinResult.Deserter
  else if player.HasAura SPELL_LFG_DUNGEON_COOLDOWN then LFGJoinResult.RandomCooldown
  else if player.HasAura 9454 then LFGJoinResult.InternalError
  else
    match group with
    | none => result
    | some g =>
      if g.GetMembersCount > host.MAXGROUPSIZE then LFGJoinResult.TooManyMembers
      else if g.GetMembersCount = host.MAXGROUPSIZE then LFGJoinResult.GroupFull
      else
        let (result1, memberCount) := groupJoinLoop player g.members result 0
        if result1 = LFGJoinResult.OK ∧ memberCount ≠ g.GetMembersCount then
          LFGJoinResult.Disconnected
        else result1

/-! ## Loading the catalog (lines 206-316) -/

/-- A row of `lfg_dungeon_template`. -/
structure DungeonTemplateRow where
  dungeonId : Nat
  position_x : Int
  position_y : Int
  position_z : Int
  orientation : Int
  requiredItemLevel : Nat
deriving DecidableEq, Repr

/-- A row of `lfg_dungeon_rewards`. -/
structure DungeonRewardRow where
  dungeonId : Nat
  maxLevel : Nat
  firstQuestId : Nat
  otherQuestId : Nat
  shortageQuestId : Nat
  completionsPerPeriod : Nat
  dailyReset : Nat
deriving DecidableEq, Repr

/-- What `InitializeDungeonData` reads: the two tables (a query without rows gives a null
result), the master activity store, the grouping store and the map entrance triggers. -/
structure LoadSources where
  lfg_dungeon_template : List DungeonTemplateRow
  lfg_dungeon_rewards : List DungeonRewardRow
  sLFGDungeonStore : List LFGDungeonEntry
  sLFGDungeonsGroupingMapStore : List LFGDungeonsGroupingMapEntry
  GetMapEntranceTrigger : Nat → Option AreaTriggerStruct

/-- `sLFGDungeonStore.LookupEntry(id)`. -/
def LookupEntry (store : List LFGDungeonEntry) (id : Nat) : Option LFGDungeonEntry :=
  store.find? (fun e => decide (e.ID = id))

/-- The first `do ... while` loop of `InitializeDungeonData` over the template rows. -/
def loadTemplateRows (src : LoadSources) :
    List DungeonTemplateRow → List (Nat × LFGDungeonData) → List (Nat × LFGDungeonData)
  | [], data => data
  | row :: rows, data =>
    match LookupEntry src.sLFGDungeonStore row.dungeonId with
    | none => loadTemplateRows src rows data
    | some entry =>
      if row.position_x = 0 ∧ row.position_y = 0 ∧ row.position_z = 0
          ∧ entry.TypeID ≠ LFGType.Random then
        match src.GetMapEntranceTrigger entry.MapID with
        | none => loadTemplateRows src rows data
        | some trigger =>
          loadTemplateRows src rows
            (mapEmplace entry.ID
              { DungeonEntry := entry,
                Entrance := ⟨entry.MapID, trigger.target_X, trigger.target_Y, trigger.target_Z,
                  trigger.target_Orientation⟩,
                RequiredItemLevel := row.requiredItemLevel,
                CompletionRewards := [] } data)
      else
        loadTemplateRows src rows
          (mapEmplace entry.ID
            { DungeonEntry := entry,
              Entrance := ⟨entry.MapID, row.position_x, row.position_y, row.position_z,
                row.orientation⟩,
              RequiredItemLevel := row.requiredItemLevel,
              CompletionRewards := [] } data)

/-- The second `do ... while` loop of `InitializeDungeonData` over the reward rows. -/
def loadRewardRows :
    List DungeonRewardRow → List (Nat × LFGDungeonData) → List (Nat × LFGDungeonData)
  | [], data => data
  | row :: rows, data =>
    match mapFind row.dungeonId data with
    | none => loadRewardRows rows data
    | some _ =>
      loadRewardRows rows
        (mapAdjust row.dungeonId (fun d =>
          { d with CompletionRewards := d.CompletionRewards ++
              [⟨row.maxLevel, row.firstQuestId, row.otherQuestId, row.shortageQuestId,
                row.completionsPerPeriod, decide (row.dailyReset ≠ 0)⟩] }) data)

/-- The statement `_lfgDungeonsIdsForRandomDungeonId[randomId].insert(id)`. -/
def randomGroupInsert (randomId id : Nat) (index : List (Nat × List Nat)) :
    List (Nat × List Nat) :=
  mapModify randomId [] (setInsert id) index

/-- Inner loop over the master store for one random catalog entry. -/
def randomGroupFromStore (data : List (Nat × LFGDungeonData)) (randomId : Nat) :
    List LFGDungeonEntry → List (Nat × List Nat) → List (Nat × List Nat)
  | [], index => index
  | entry :: rest, index =>
    if (mapFind entry.ID data).isSome ∧ entry.RandomID = randomId
        ∧ entry.TypeID ≠ LFGType.Random then
      randomGroupFromStore data randomId rest (randomGroupInsert randomId entry.ID index)
    else randomGroupFromStore data randomId rest index

/-- Inner loop over the grouping store for one random catalog entry. -/
def randomGroupFromGrouping (data : List (Nat × LFGDungeonData)) (randomId : Nat) :
    List LFGDungeonsGroupingMapEntry → List (Nat × List Nat) → List (Nat × List Nat)
  | [], index => index
  | entry :: rest, index =>
    if entry.RandomLfgDungeonsID = randomId ∧ (mapFind entry.LfgDungeonsID data).isSome then
      randomGroupFromGrouping data randomId rest
        (randomGroupInsert randomId entry.LfgDungeonsID index)
    else randomGroupFromGrouping data randomId rest index

/-- The loop that builds the random dungeon group caches; `itrs` is the part of the catalog
still to visit, `data` the whole catalog. -/
def buildRandomGroups (src : LoadSources) (data : List (Nat × LFGDungeonData)) :
    List (Nat × LFGDungeonData) → List (Nat × List Nat) → List (Nat × List Nat)
  | [], index => index
  | itr :: itrs, index =>
    if itr.2.DungeonEntry.TypeID ≠ LFGType.Random then buildRandomGroups src data itrs index
    else
      buildRandomGroups src data itrs
        (randomGroupFromGrouping data itr.2.DungeonEntry.ID src.sLFGDungeonsGroupingMapStore
          (randomGroupFromStore data itr.2.DungeonEntry.ID src.sLFGDungeonStore index))

/-- `NewLFGMgr::InitializeDungeonData()`: returns early when a table has no rows. -/
def InitializeDungeonData (mgr : NewLFGMgr) (src : LoadSources) : NewLFGMgr :=
  if src.lfg_dungeon_template = [] then mgr
  else
    let data := loadTemplateRows src src.lfg_dungeon_template mgr.lfgDungeonData
    if src.lfg_dungeon_rewards = [] then { mgr with lfgDungeonData := data }
    else
      let data1 := loadRewardRows src.lfg_dungeon_rewards data
      { mgr with
        lfgDungeonData := data1,
        lfgDungeonsIdsForRandomDungeonId :=
          buildRandomGroups src data1 data1 mgr.lfgDungeonsIdsForRandomDungeonId }

/-! ## Dungeon selection and locks (lines 593-733) -/

/-- State of the type loop of `ValidateAndBuildDungeonSelection`. -/
structure SelectionScan where
  hasDungeon : Bool := false
  hasRaid : Bool := false
  randomDungeonId : Nat := 0
deriving DecidableEq, Repr

/-- The type loop of `ValidateAndBuildDungeonSelection` over the selection; `size` is
`dungeonIdSet.size()`. The first component is the join result of an early `return`. -/
def scanSelection (data : List (Nat × LFGDungeonData)) (size : Nat) :
    List Nat → SelectionScan → Except Fault (Option LFGJoinResult × SelectionScan)
  | [], scan => .ok (none, scan)
  | dungeonId :: rest, scan =>
    match mapFind dungeonId data with
    | none => .error Fault.outOfRange
    | some d =>
      if d.DungeonEntry.TypeID = LFGType.Dungeon then
        scanSelection data size rest { scan with hasDungeon := true }
      else if d.DungeonEntry.TypeID = LFGType.Raid then
        scanSelection data size rest { scan with hasRaid := true }
      else if d.DungeonEntry.TypeID = LFGType.Random then
        if size > 1 then .ok (some LFGJoinResult.InternalError, scan)
        else scanSelection data size rest { scan with randomDungeonId := d.DungeonEntry.ID }
      else .ok (some LFGJoinResult.InternalError, scan)

/-- Outcome of `ValidateAndBuildDungeonSelection`: the three reference parameters and the
random group cache (which `operator[]` may extend). -/
structure SelectionOutcome where
  dungeonIdSet : List Nat
  result : LFGJoinResult
  randomDungeonId : Nat
  index : List (Nat × List Nat)
deriving DecidableEq, Repr

/-- `NewLFGMgr::ValidateAndBuildDungeonSelection`, called with `result = OK` and
`randomDungeonId = 0`. -/
def ValidateAndBuildDungeonSelection (mgr : NewLFGMgr) (dungeonIdSet : List Nat) :
    Except Fault SelectionOutcome :=
  let index := mgr.lfgDungeonsIdsForRandomDungeonId
  let ids := dungeonIdSet.filter (fun id => (mapFind id mgr.lfgDungeonData).isSome)
  if ids = [] then .ok ⟨ids, LFGJoinResult.InternalError, 0, index⟩
  else
    match scanSelection mgr.lfgDungeonData ids.length ids {} with
    | .error f => .error f
    | .ok (some r, scan) => .ok ⟨ids, r, scan.randomDungeonId, index⟩
    | .ok (none, scan) =>
      let dungeonTypeCount :=
        (if scan.hasDungeon then 1 else 0) + (if scan.hasRaid then 1 else 0)
          + (if scan.randomDungeonId ≠ 0 then 1 else 0)
      if dungeonTypeCount > 1 then
        .ok ⟨ids, LFGJoinResult.MixedRaidAndDungeon, scan.randomDungeonId, index⟩
      else if scan.randomDungeonId ≠ 0 then
        let index1 := mapModify scan.randomDungeonId [] id index
        .ok ⟨(mapFind scan.randomDungeonId index1).getD [], LFGJoinResult.OK,
          scan.randomDungeonId, index1⟩
      else .ok ⟨ids, LFGJoinResult.OK, 0, index⟩

def IsSeasonActive (host : Host) (dungeonId : Nat) : Bool :=
  if dungeonId = 285 then host.IsHolidayActive HolidayIds.HOLIDAY_HALLOWS_END
  else if dungeonId = 286 then host.IsHolidayActive HolidayIds.HOLIDAY_FIRE_FESTIVAL
  else if dungeonId = 287 then host.IsHolidayActive HolidayIds.HOLIDAY_BREWFEST
  else if dungeonId = 288 then host.IsHolidayActive HolidayIds.HOLIDAY_LOVE_IS_IN_THE_AIR
  else false

/-- The access-requirement part of the lock cascade of `CheckDungeonIdsForLocks`. -/
def checkAccessRequirement (player : Player) (ar : AccessRequirement) :
    Option LFGLockStatusType :=
  if ar.achievement ≠ 0 ∧ !player.HasAchieved ar.achievement then
    some LFGLockStatusType.MissingAchievement
  else if player.GetTeam = Team.ALLIANCE ∧ ar.quest_A ≠ 0
      ∧ !player.GetQuestRewardStatus ar.quest_A then
    some LFGLockStatusType.QuestNotCompleted
  else if player.GetTeam = Team.HORDE ∧ ar.quest_H ≠ 0
      ∧ !player.GetQuestRewardStatus ar.quest_H then
    some LFGLockStatusType.QuestNotCompleted
  else if ar.item ≠ 0 then
    if !player.HasItemCount ar.item ∧ (ar.item2 = 0 ∨ !player.HasItemCount ar.item2) then
      some LFGLockStatusType.MissingItem
    else none
  else if ar.item2 ≠ 0 ∧ !player.HasItemCount ar.item2 then
    some LFGLockStatusType.MissingItem
  else none

/-- The lock cascade of `CheckDungeonIdsForLocks` for one catalog record: the value of
`reason` after the `if` chain. -/
def checkLockReason (host : Host) (player : Player) (data : LFGDungeonData) :
    Option LFGLockStatusType :=
  let playerLevel := player.getLevel
  let expansion := player.GetExpansion
  let denyJoin := !player.HasPermission
  let e := data.DungeonEntry
  if denyJoin then some LFGLockStatusType.None
  else if e.ExpansionLevel > expansion then some LFGLockStatusType.InsufficientExpansion
  else if host.IsDisabledFor DisableType.DISABLE_TYPE_MAP e.MapID player then
    some LFGLockStatusType.None
  else if host.IsDisabledFor DisableType.DISABLE_TYPE_LFG_MAP e.MapID player then
    some LFGLockStatusType.None
  else if e.DifficultyID > host.DUNGEON_DIFFICULTY_NORMAL
      ∧ player.GetBoundInstance e.MapID e.DifficultyID none then
    some LFGLockStatusType.RaidLocked
  else if e.DifficultyID > host.DUNGEON_DIFFICULTY_NORMAL
      ∧ player.GetBoundInstance e.MapID e.DifficultyID
          (some (decide (e.TypeID = LFGType.Raid))) then
    some LFGLockStatusType.RaidLocked
  else if e.MinLevel > playerLevel then some LFGLockStatusType.TooLowLevel
  else if e.Maxlevel < playerLevel then some LFGLockStatusType.TooHighLevel
  else if e.Flags &&& LFGFlags.Seasonal ≠ 0 ∧ !IsSeasonActive host e.ID then
    some LFGLockStatusType.NotInSeason
  else if data.RequiredItemLevel > player.GetAverageItemLevel then
    some LFGLockStatusType.TooLowGearScore
  else
    match host.GetAccessRequirement e.MapID e.DifficultyID with
    | some ar => checkAccessRequirement player ar
    | none => none

/-- `NewLFGMgr::CheckDungeonIdsForLocks(player, dungeonIds, lockMap)`: returns the lock map. -/
def CheckDungeonIdsForLocks (mgr : NewLFGMgr) (host : Host) (player : Player) :
    List Nat → LockMap → Except Fault LockMap
  | [], lockMap => .ok lockMap
  | dungeonId :: rest, lockMap =>
    match mapFind dungeonId mgr.lfgDungeonData with
    | none => .error Fault.outOfRange
    | some data =>
      if data.DungeonEntry.TypeID = LFGType.Random then
        CheckDungeonIdsForLocks mgr host player rest lockMap
      else
        match checkLockReason host player data with
        | none => CheckDungeonIdsForLocks mgr host player rest lockMap
        | some reason =>
          if reason = LFGLockStatusType.TooLowGearScore then
            CheckDungeonIdsForLocks mgr host player rest
              (mapEmplace data.DungeonEntry.Entry
                ⟨reason, data.RequiredItemLevel, player.GetAverageItemLevel⟩ lockMap)
          else
            CheckDungeonIdsForLocks mgr host player rest
              (mapEmplace data.DungeonEntry.Entry ⟨reason, 0, 0⟩ lockMap)

/-! ## Packet sending helpers (lines 466-581) -/

/-- The expression `_lfgDungeonData[dungeonId].DungeonEntry->Entry()`: for an id without a
catalog record `operator[]` creates one with a null `DungeonEntry`, and the call faults. -/
def slotOfDungeonId (mgr : NewLFGMgr) (dungeonId : Nat) : Except Fault Nat :=
  match mapFind dungeonId mgr.lfgDungeonData with
  | some d => .ok d.DungeonEntry.Entry
  | none => .error Fault.nullDeref

/-- The `std::transform` of the selected dungeon ids to their slot codes. -/
def slotsOfDungeonIds (mgr : NewLFGMgr) : List Nat → Except Fault (List Nat)
  | [] => .ok []
  | dungeonId :: rest =>
    match slotOfDungeonId mgr dungeonId with
    | .error f => .error f
    | .ok slot =>
      match slotsOfDungeonIds mgr rest with
      | .error f => .error f
      | .ok slots => .ok (slot :: slots)

/-- The slot list of a status or role-check update: the random dungeon alone, or every
selected dungeon. -/
def slotsOfJoinData (mgr : NewLFGMgr) (jd : LFGJoinData) : Except Fault (List Nat) :=
  if jd.RandomDungeonID ≠ 0 then
    match slotOfDungeonId mgr jd.RandomDungeonID with
    | .error f => .error f
    | .ok slot => .ok [slot]
  else slotsOfDungeonIds mgr jd.SelectedDungeonIDs

/-- The loop `for (it : PartyMemberRoleData) if (FindConnectedPlayer(it.first)) send`. -/
def sendToMembers (host : Host) (members : List (ObjectGuid × LFGPartyMemberRoleData))
    (packet : Packet) : List Notification :=
  members.filterMap (fun it =>
    match host.FindConnectedPlayer it.1 with
    | some _ => some ⟨it.1, packet⟩
    | none => none)

/-- The flags `SendStatusUpdate` sets from the reason (the `switch` and the line after it). -/
def statusFlags (reason : LFGUpdateReason) : LFGUpdateStatusData :=
  let updateData : LFGUpdateStatusData := { UpdateReason := reason }
  let updateData :=
    match reason with
    | .JoinQueueInitial => { updateData with Joined := true }
    | .AddedToQueue | .JoinQueue => { updateData with Joined := true, Queued := true }
    | _ => updateData
  { updateData with LFGJoined := decide (reason ≠ LFGUpdateReason.RemovedFromQueue) }

/-- `SendStatusUpdate(ticketId, reason)`. The JoinRequest is read through the reference
`itr->second.JoinData` of the queue entry: when the element it refers to has been erased
(the ticket is in `danglingJoinData`, or no element is left under the key) the source reads
freed memory and the call does not return. -/
def SendStatusUpdate (mgr : NewLFGMgr) (host : Host) (ticketId : Nat)
    (reason : LFGUpdateReason) : Except Fault (List Notification) :=
  match mapFind ticketId mgr.lfgQueuePlayerData with
  | none => .ok []
  | some q =>
    if ticketId ∈ mgr.danglingJoinData then .error Fault.danglingReference
    else
      match mapFind q.JoinData mgr.lfgJoinData with
      | none => .error Fault.danglingReference
      | some jd =>
        match slotsOfJoinData mgr jd with
        | .error f => .error f
        | .ok slots =>
          let updateData : LFGUpdateStatusData :=
            { statusFlags reason with
              IsParty := decide (jd.PartyMemberRoleData.length > 1),
              RideTicket := q.RideTicket,
              Comment := q.Comment,
              Slots := slots }
          .ok (sendToMembers host jd.PartyMemberRoleData (Packet.UpdateStatus updateData))

/-- `SendJoinResult(guid, result, resultDetail, lockData)`: only the player, or the leader of
the group, receives it. -/
def SendJoinResult (host : Host) (guid : ObjectGuid) (result : LFGJoinResult)
    (resultDetail : LFGRoleCheckState) (lockData : Option (List (ObjectGuid × LockMap))) :
    List Notification :=
  let joinResult : LFGJoinResultData :=
    { Result := result, ResultDetail := resultDetail, PlayerLockMap := lockData.getD [] }
  let player : Option ObjectGuid :=
    if guid.IsPlayer then (host.FindConnectedPlayer guid).map (fun _ => guid)
    else if guid.IsGroup then
      match host.GetGroupByGUID guid with
      | some group =>
        (host.FindConnectedPlayer group.GetLeaderGUID).map (fun _ => group.GetLeaderGUID)
      | none => none
    else none
  match player with
  | some p => [⟨p, Packet.JoinResult joinResult⟩]
  | none => []

/-- `SendRoleChosen(guid, playerGuid, selectedRoles)`; the session call takes the roles as
`uint8`. -/
def SendRoleChosen (mgr : NewLFGMgr) (host : Host) (guid playerGuid : ObjectGuid)
    (selectedRoles : Nat) : List Notification :=
  match mapFind guid mgr.lfgJoinData with
  | none => []
  | some jd =>
    sendToMembers host jd.PartyMemberRoleData (Packet.RoleChosen playerGuid (selectedRoles % 256))

/-- `WorldSession::SendLfgRoleCheckUpdateNew(rolecheckData)` (LFGHandler.cpp, lines 323-334)
on the session of `recipient`: the packet lists every member of the role table with the
member's level, read through `ASSERT_NOTNULL(ObjectAccessor::FindConnectedPlayer(member))`,
so the call does not return when a member of the table is not connected. -/
def SendLfgRoleCheckUpdateNew (host : Host) (recipient : ObjectGuid)
    (rolecheckData : LFGRolecheckUpdateData) : Except Fault Notification :=
  if rolecheckData.PartyMemberRoles.all
      (fun itr => (host.FindConnectedPlayer itr.1).isSome) then
    .ok ⟨recipient, Packet.RoleCheckUpdate rolecheckData⟩
  else .error Fault.assertion

/-- The loop `for (it : PartyMemberRoleData) if (FindConnectedPlayer(it.first))
player->GetSession()->SendLfgRoleCheckUpdateNew(rolecheckData)` of `SendRolecheckUpdate`. -/
def sendRolecheckToMembers (host : Host) (rolecheckData : LFGRolecheckUpdateData) :
    List (ObjectGuid × LFGPartyMemberRoleData) → Except Fault (List Notification)
  | [] => .ok []
  | it :: rest =>
    match host.FindConnectedPlayer it.1 with
    | none => sendRolecheckToMembers host rolecheckData rest
    | some _ =>
      match SendLfgRoleCheckUpdateNew host it.1 rolecheckData with
      | .error f => .error f
      | .ok n =>
        match sendRolecheckToMembers host rolecheckData rest with
        | .error f => .error f
        | .ok out => .ok (n :: out)

def SendRolecheckUpdate (mgr : NewLFGMgr) (host : Host) (guid : ObjectGuid)
    (state : LFGRoleCheckState) (beginning : Bool) : Except Fault (List Notification) :=
  match mapFind guid mgr.lfgJoinData with
  | none => .ok []
  | some jd =>
    match slotsOfJoinData mgr jd with
    | .error f => .error f
    | .ok slots =>
      let rolecheckData : LFGRolecheckUpdateData :=
        { State := state, Slots := slots, PartyMemberRoles := jd.PartyMemberRoleData,
          IsBeginning := beginning }
      sendRolecheckToMembers host rolecheckData jd.PartyMemberRoleData

/-- `SendQueueStatus(ticketId)`: the body is commented out in the source, nothing is sent. -/
def SendQueueStatus (_mgr : NewLFGMgr) (_host : Host) (_ticketId : Nat) : List Notification :=
  []

/-! ## Tickets and the queue (lines 736-775, 957-972) -/

/-- Modelled from the spec: `NewLFGQueue::AddTicketToQueue`, whose body is not in the files
embedded here; the scheduler holds the queued tickets, so the ticket id is entered. -/
def NewLFGQueue.AddTicketToQueue (queue : NewLFGQueue) (queueData : LFGQueuePlayerData) :
    NewLFGQueue :=
  { queue with lfgQueueData := mapEmplace queueData.RideTicket.ID {} queue.lfgQueueData }

/-- Modelled from the spec: `NewLFGQueue::RemoveTicketFromQueue`, whose body is not in the
files embedded here; the ticket is removed from the scheduler. -/
def NewLFGQueue.RemoveTicketFromQueue (queue : NewLFGQueue) (ticketId : Nat) : NewLFGQueue :=
  { queue with lfgQueueData := mapErase ticketId queue.lfgQueueData }

/-- Modelled from the spec: `NewLFGQueue::Update`, whose body is not in the files embedded
here; the matchmaking pass is a stub and changes nothing. -/
def NewLFGQueue.Update (queue : NewLFGQueue) (playerData : List (Nat × LFGQueuePlayerData)) :
    NewLFGQueue × List (Nat × LFGQueuePlayerData) :=
  (queue, playerData)

/-- The ids of the tickets whose queue entry refers to the JoinRequest stored under `guid`. -/
def referringTickets (guid : ObjectGuid) (entries : List (Nat × LFGQueuePlayerData)) :
    List Nat :=
  (entries.filter (fun e => decide (e.2.JoinData = guid))).map Prod.fst

/-- The statement `_lfgJoinData.erase(guid)`: the element under the key is destroyed, and the
`JoinData` reference of every queue entry that refers to it dangles from then on. -/
def eraseJoinData (guid : ObjectGuid) (mgr : NewLFGMgr) : NewLFGMgr :=
  { mgr with
    lfgJoinData := mapErase guid mgr.lfgJoinData,
    danglingJoinData :=
      mgr.danglingJoinData ++ referringTickets guid mgr.lfgQueuePlayerData }

/-- `GenerateTicketID()`: the assertion, then the post-increment of the `uint32` counter. -/
def GenerateTicketID (mgr : NewLFGMgr) : Except Fault (Nat × NewLFGMgr) :=
  if mgr.nextAvailableTicketId = 2 ^ 32 - 1 then .error Fault.assertion
  else
    .ok (mgr.nextAvailableTicketId,
      { mgr with nextAvailableTicketId := (mgr.nextAvailableTicketId + 1) % 2 ^ 32 })

def GenerateTicket (mgr : NewLFGMgr) (host : Host) (requesterGuid : ObjectGuid) :
    Except Fault (LFGRideTicket × NewLFGMgr) :=
  match GenerateTicketID mgr with
  | .error f => .error f
  | .ok (id, mgr1) =>
    .ok ({ ID := id, Time := host.GetGameTime, RequesterGUID := requesterGuid }, mgr1)

/-- `AddTicketToQueue(ticket)`: the `emplace` creates the queue entry with a reference to the
element `_lfgJoinData.at(ticket.RequesterGUID)`, which exists at that moment (an entry that
is already stored under the ticket id is left as it is). -/
def AddTicketToQueue (mgr : NewLFGMgr) (host : Host) (ticket : LFGRideTicket) :
    Except Fault (NewLFGMgr × List Notification) :=
  match mapFind ticket.RequesterGUID mgr.lfgJoinData with
  | none => .error Fault.outOfRange
  | some _ =>
    let mgr1 := { mgr with
      lfgQueuePlayerData :=
        mapEmplace ticket.ID { JoinData := ticket.RequesterGUID, RideTicket := ticket }
          mgr.lfgQueuePlayerData,
      danglingJoinData :=
        if (mapFind ticket.ID mgr.lfgQueuePlayerData).isSome then mgr.danglingJoinData
        else setErase ticket.ID mgr.danglingJoinData }
    match SendStatusUpdate mgr1 host ticket.ID LFGUpdateReason.JoinQueueInitial with
    | .error f => .error f
    | .ok out1 =>
      match mapFind ticket.ID mgr1.lfgQueuePlayerData with
      | none => .error Fault.outOfRange
      | some q =>
        let mgr2 := { mgr1 with lfgQueue := mgr1.lfgQueue.AddTicketToQueue q }
        match SendStatusUpdate mgr2 host ticket.ID LFGUpdateReason.AddedToQueue with
        | .error f => .error f
        | .ok out2 => .ok (mgr2, out1 ++ out2)

def RemoveTicketFromQueue (mgr : NewLFGMgr) (host : Host) (ticketId : Nat)
    (erasePlayerData : Bool) : Except Fault (NewLFGMgr × List Notification) :=
  match mapFind ticketId mgr.lfgQueuePlayerData with
  | none => .ok (mgr, [])
  | some itr =>
    let mgr1 := { mgr with lfgQueue := mgr.lfgQueue.RemoveTicketFromQueue ticketId }
    match SendStatusUpdate mgr1 host ticketId LFGUpdateReason.RemovedFromQueue with
    | .error f => .error f
    | .ok out =>
      if erasePlayerData then
        let mgr2 := eraseJoinData itr.RideTicket.RequesterGUID mgr1
        .ok ({ mgr2 with lfgQueuePlayerData := mapErase ticketId mgr2.lfgQueuePlayerData }, out)
      else .ok (mgr1, out)

def LaunchRoleCheck (mgr : NewLFGMgr) (host : Host) (guid : ObjectGuid) :
    Except Fault (NewLFGMgr × List Notification) :=
  let mgr1 := { mgr with
    lfgRoleCheckTimers :=
      mapModify guid 0 (fun _ => LFG_ROLE_CHECK_TIME_LIMIT) mgr.lfgRoleCheckTimers }
  match SendRolecheckUpdate mgr1 host guid LFGRoleCheckState.Initializing true with
  | .error f => .error f
  | .ok out => .ok (mgr1, out)

def CancelRoleCheck (mgr : NewLFGMgr) (host : Host) (guid : ObjectGuid) :
    Except Fault (NewLFGMgr × List Notification) :=
  match SendRolecheckUpdate mgr host guid LFGRoleCheckState.Aborted false with
  | .error f => .error f
  | .ok out => .ok (eraseJoinData guid mgr, out)

/-! ## Opcode handler helpers (lines 324-458) -/

/-- The loop `for (member : group) CheckDungeonIdsForLocks(member, dungeonIds,
lockdata[member guid])` of step 3. -/
def groupLocks (mgr : NewLFGMgr) (host : Host) (dungeonIds : List Nat) :
    List (Option Player) → List (ObjectGuid × LockMap) → Except Fault (List (ObjectGuid × LockMap))
  | [], lockdata => .ok lockdata
  | none :: rest, lockdata => groupLocks mgr host dungeonIds rest lockdata
  | some groupPlayer :: rest, lockdata =>
    match CheckDungeonIdsForLocks mgr host groupPlayer dungeonIds
        ((mapFind groupPlayer.GetGUID lockdata).getD []) with
    | .error f => .error f
    | .ok lockMap =>
      groupLocks mgr host dungeonIds rest
        (mapModify groupPlayer.GetGUID [] (fun _ => lockMap) lockdata)

/-- The first part of step 3 (lines 341-348): the lock data of the solo player, stored under
`guid`, or of every group member that is in the world, stored under the member's guid. -/
def memberLocks (mgr : NewLFGMgr) (host : Host) (player : Player) (group : Option Group)
    (guid : ObjectGuid) (dungeonIds : List Nat) : Except Fault (List (ObjectGuid × LockMap)) :=
  match group with
  | none =>
    match CheckDungeonIdsForLocks mgr host player dungeonIds [] with
    | .error f => .error f
    | .ok lockMap => .ok [(guid, lockMap)]
  | some g => groupLocks mgr host dungeonIds g.members []

/-- The two nested loops `dungeonIds.erase(it.first & 0x00FFFFFF)` over the lock data. -/
def eraseLockedDungeons (lockdata : List (ObjectGuid × LockMap)) (dungeonIds : List Nat) :
    List Nat :=
  lockdata.foldl
    (fun ids itr => itr.2.foldl (fun ids1 it => setErase (it.1 &&& 0x00FFFFFF) ids1) ids)
    dungeonIds

/-- The last loop of step 3: whether some lock-data entry sets `NotMeetRequirements`. -/
def locksFailJoin (lockdata : List (ObjectGuid × LockMap)) (dungeonIds : List Nat)
    (randomDungeonId : Nat) : Bool :=
  lockdata.any (fun itr =>
    dungeonIds.isEmpty || (decide (randomDungeonId = 0) && !itr.2.isEmpty))

/-- What steps 1 to 3 of `ProcessLFGJoinRequest` leave in the local variables, and the random
group cache after step 2. -/
structure JoinChecks where
  result : LFGJoinResult
  randomDungeonId : Nat
  dungeonIds : List Nat
  guid : ObjectGuid
  lockdata : List (ObjectGuid × LockMap)
  index : List (Nat × List Nat)
deriving DecidableEq, Repr

/-- The requester guid of `ProcessLFGJoinRequest` (line 335):
`group ? group->GetGUID() : player->GetGUID()`. -/
def requesterGuid (player : Player) (group : Option Group) : ObjectGuid :=
  match group with
  | some g => g.GetGUID
  | none => player.GetGUID

/-- Steps 1 to 3 of `ProcessLFGJoinRequest` (lines 326-366). -/
def joinChecks (mgr : NewLFGMgr) (host : Host) (player : Player) (group : Option Group)
    (dungeonIds : List Nat) (roleMask : Nat) : Except Fault JoinChecks :=
  let result := GetPlayerAndGroupJoinResult host player group roleMask
  let guid := requesterGuid player group
  if result ≠ LFGJoinResult.OK then
    .ok ⟨result, 0, dungeonIds, guid, [], mgr.lfgDungeonsIdsForRandomDungeonId⟩
  else
    match ValidateAndBuildDungeonSelection mgr dungeonIds with
    | .error f => .error f
    | .ok sel =>
      if sel.result ≠ LFGJoinResult.OK then
        .ok ⟨sel.result, sel.randomDungeonId, sel.dungeonIdSet, guid, [], sel.index⟩
      else
        match memberLocks mgr host player group guid sel.dungeonIdSet with
        | .error f => .error f
        | .ok lockdata =>
          let ids := eraseLockedDungeons lockdata sel.dungeonIdSet
          let result1 :=
            if locksFailJoin lockdata ids sel.randomDungeonId then
              LFGJoinResult.NotMeetRequirements
            else LFGJoinResult.OK
          .ok ⟨result1, sel.randomDungeonId, ids, guid, lockdata, sel.index⟩

/-- The loop `PartyMemberRoleData[member guid].RoleMask = 0` over the group members. -/
def resetMemberRoles :
    List (Option Player) → List (ObjectGuid × LFGPartyMemberRoleData) →
      List (ObjectGuid × LFGPartyMemberRoleData)
  | [], roles => roles
  | none :: rest, roles => resetMemberRoles rest roles
  | some groupPlayer :: rest, roles =>
    resetMemberRoles rest
      (mapModify groupPlayer.GetGUID {} (fun d => { d with RoleMask := 0 }) roles)

/-- The block "Prepare join data" (lines 371-381): the writes to `_lfgJoinData[guid]`; the
role mask is stored in a `uint8`. -/
def prepareJoinData (player : Player) (group : Option Group) (randomDungeonId : Nat)
    (dungeonIds : List Nat) (roleMask : Nat) (jd : LFGJoinData) : LFGJoinData :=
  let roles :=
    match group with
    | some g => resetMemberRoles g.members jd.PartyMemberRoleData
    | none => jd.PartyMemberRoleData
  { SelectedDungeonIDs := jd.SelectedDungeonIDs ++ dungeonIds,
    RandomDungeonID := randomDungeonId,
    PartyMemberRoleData :=
      mapModify player.GetGUID {}
        (fun d => { d with RoleMask := roleMask % 256, RoleConfirmed := true }) roles }

/-- `NewLFGMgr::ProcessLFGJoinRequest(player, dungeonIds, roleMask)`. -/
def ProcessLFGJoinRequest (mgr : NewLFGMgr) (host : Host) (player : Player)
    (group : Option Group) (dungeonIds : List Nat) (roleMask : Nat) :
    Except Fault (NewLFGMgr × List Notification) :=
  match joinChecks mgr host player group dungeonIds roleMask with
  | .error f => .error f
  | .ok c =>
    let mgr0 := { mgr with lfgDungeonsIdsForRandomDungeonId := c.index }
    if c.result = LFGJoinResult.OK then
      let mgr1 := { mgr0 with
        lfgJoinData :=
          mapModify c.guid {}
            (prepareJoinData player group c.randomDungeonId c.dungeonIds roleMask)
            mgr0.lfgJoinData }
      match group with
      | none =>
        match GenerateTicket mgr1 host c.guid with
        | .error f => .error f
        | .ok (ticket, mgr2) => AddTicketToQueue mgr2 host ticket
      | some _ => LaunchRoleCheck mgr1 host c.guid
    else
      .ok (mgr0, SendJoinResult host c.guid c.result LFGRoleCheckState.Default (some c.lockdata))

/-- `NewLFGMgr::ProcessLFGLeaveRequest(ticketId, groupGuid)`. -/
def ProcessLFGLeaveRequest (mgr : NewLFGMgr) (host : Host) (ticketId : Nat)
    (groupGuid : ObjectGuid) : Except Fault (NewLFGMgr × List Notification) :=
  match mapFind groupGuid mgr.lfgRoleCheckTimers with
  | some _ => CancelRoleCheck mgr host groupGuid
  | none =>
    match mapFind ticketId mgr.lfgQueuePlayerData with
    | some it =>
      let keepData := decide (it.CurrentDungeonID ≠ 0) && !it.InstanceCompleted
      RemoveTicketFromQueue mgr host ticketId (!keepData)
    | none => .ok (mgr, [])

/-- The count of members that have yet to pick a role, in the `uint8` `remainingPlayers`. -/
def remainingPlayers (roles : List (ObjectGuid × LFGPartyMemberRoleData)) : Nat :=
  (roles.filter (fun it => !it.2.RoleConfirmed)).length % 256

/-- The two writes `itr->second.PartyMemberRoleData[playerGuid].RoleMask = desiredRoles` and
`.RoleConfirmed = true` of `ProcessPlayerRoleRequest` (lines 427-428); the mask is stored in
a `uint8`. -/
def recordRole (groupGuid playerGuid : ObjectGuid) (desiredRoles : Nat)
    (joinData : List (ObjectGuid × LFGJoinData)) : List (ObjectGuid × LFGJoinData) :=
  mapAdjust groupGuid (fun jd =>
    { jd with
      PartyMemberRoleData :=
        mapModify playerGuid {}
          (fun d => { d with RoleMask := desiredRoles % 256, RoleConfirmed := true })
          jd.PartyMemberRoleData }) joinData

/-- `NewLFGMgr::ProcessPlayerRoleRequest(groupGuid, playerGuid, desiredRoles)`. -/
def ProcessPlayerRoleRequest (mgr : NewLFGMgr) (host : Host) (groupGuid playerGuid : ObjectGuid)
    (desiredRoles : Nat) : Except Fault (NewLFGMgr × List Notification) :=
  let cheater :=
    match host.FindConnectedPlayer playerGuid with
    | some player => HasInvalidRoles player desiredRoles
    | none => false
  if cheater then .ok (mgr, [])
  else
    match mapFind groupGuid mgr.lfgJoinData with
    | none => .ok (mgr, [])
    | some _ =>
      let mgr1 := { mgr with
        lfgJoinData := recordRole groupGuid playerGuid desiredRoles mgr.lfgJoinData }
      let out1 := SendRoleChosen mgr1 host groupGuid playerGuid desiredRoles
      if desiredRoles = 0 then
        let out2 := SendJoinResult host groupGuid LFGJoinResult.RolecheckFailed
          LFGRoleCheckState.NoRole none
        match SendRolecheckUpdate mgr1 host groupGuid LFGRoleCheckState.NoRole false with
        | .error f => .error f
        | .ok out3 =>
          let mgr2 := eraseJoinData groupGuid mgr1
          .ok ({ mgr2 with
            lfgRoleCheckTimers := mapErase groupGuid mgr2.lfgRoleCheckTimers },
            out1 ++ out2 ++ out3)
      else
        let roles :=
          match mapFind groupGuid mgr1.lfgJoinData with
          | some jd => jd.PartyMemberRoleData
          | none => []
        if remainingPlayers roles = 0 then
          match SendRolecheckUpdate mgr1 host groupGuid LFGRoleCheckState.Finished false with
          | .error f => .error f
          | .ok out2 =>
            match GenerateTicket mgr1 host groupGuid with
            | .error f => .error f
            | .ok (ticket, mgr2) =>
              match AddTicketToQueue mgr2 host ticket with
              | .error f => .error f
              | .ok (mgr3, out3) =>
                .ok ({ mgr3 with
                  lfgRoleCheckTimers := mapErase groupGuid mgr3.lfgRoleCheckTimers },
                  out1 ++ out2 ++ out3)
        else
          match SendRolecheckUpdate mgr1 host groupGuid LFGRoleCheckState.Initializing false with
          | .error f => .error f
          | .ok out2 => .ok (mgr1, out1 ++ out2)

/-! ## The periodic update (lines 778-818) -/

/-- The loop of `Update` over the role-check timers: returns the timers that are kept. -/
def updateRoleCheckTimers (host : Host) (diff : Nat) :
    List (ObjectGuid × Int) → NewLFGMgr →
      Except Fault (List (ObjectGuid × Int) × NewLFGMgr × List Notification)
  | [], mgr => .ok ([], mgr, [])
  | itr :: rest, mgr =>
    let second := itr.2 - (diff : Int)
    if second ≤ 0 then
      match SendRolecheckUpdate mgr host itr.1 LFGRoleCheckState.MissingRole false with
      | .error f => .error f
      | .ok out1 =>
        match updateRoleCheckTimers host diff rest (eraseJoinData itr.1 mgr) with
        | .error f => .error f
        | .ok (kept, mgr1, out2) => .ok (kept, mgr1, out1 ++ out2)
    else
      match updateRoleCheckTimers host diff rest mgr with
      | .error f => .error f
      | .ok (kept, mgr1, out2) => .ok ((itr.1, second) :: kept, mgr1, out2)

/-- The loop of the queue-update pass over the queue entries. -/
def pushQueueStatus (mgr : NewLFGMgr) (host : Host) :
    List (Nat × LFGQueuePlayerData) → List (Nat × LFGQueuePlayerData) × List Notification
  | [] => ([], [])
  | data :: rest =>
    let (rest1, out) := pushQueueStatus mgr host rest
    if !data.2.NeedsQueueUpdate then (data :: rest1, out)
    else
      ((data.1, { data.2 with NeedsQueueUpdate := false }) :: rest1,
        SendQueueStatus mgr host data.1 ++ out)

/-- `NewLFGMgr::Update(diff)`. -/
def Update (mgr : NewLFGMgr) (host : Host) (diff : Nat) :
    Except Fault (NewLFGMgr × List Notification) :=
  match updateRoleCheckTimers host diff mgr.lfgRoleCheckTimers mgr with
  | .error f => .error f
  | .ok (kept, mgr1, out1) =>
    let mgr2 := { mgr1 with
      lfgRoleCheckTimers := kept,
      lfgQueueUpdateInterval := mgr1.lfgQueueUpdateInterval - (diff : Int) }
    if mgr2.lfgQueueUpdateInterval ≤ 0 then
      let (queue, playerData) := mgr2.lfgQueue.Update mgr2.lfgQueuePlayerData
      let (playerData1, out2) := pushQueueStatus mgr2 host playerData
      .ok ({ mgr2 with
        lfgQueueUpdateInterval := LFG_QUEUE_UPDATE_INTERVAL,
        lfgQueue := queue,
        lfgQueuePlayerData := playerData1 }, out1 ++ out2)
    else .ok (mgr2, out1)

/-! ## The join handler (LFGHandler.cpp, lines 35-50) -/

/-- `WorldSession::HandleLfgJoinOpcode`: the slots of the packet become the dungeon id set. -/
def HandleLfgJoinOpcode (mgr : NewLFGMgr) (host : Host) (player : Player) (group : Option Group)
    (slots : List Nat) (roles : Nat) : Except Fault (NewLFGMgr × List Notification) :=
  if slots.length = 0 then .ok (mgr, [])
  else
    let dungeonIds := slots.foldl (fun ids slot => setInsert (slot &&& 0x00FFFFFF) ids) []
    ProcessLFGJoinRequest mgr host player group dungeonIds roles

/-! ## Specification side: role assignments -/

/-- The three roles a party member can fill. -/
inductive PartyRole where
  | Tank | Heal | Damage
deriving DecidableEq, Repr

/-- The bit of a role in a role mask. -/
def PartyRole.bit : PartyRole → Nat
  | .Tank => LFG_ROLE_TANK
  | .Heal => LFG_ROLE_HEAL
  | .Damage => LFG_ROLE_DAMAGE

/-- The role is contained in the mask. -/
def RoleOffered (mask : Nat) (r : PartyRole) : Prop := mask &&& r.bit ≠ 0

/-- There is an assignment of one offered role to every mask of the list that uses at most
`nT` tanks, `nH` healers and `nD` damage dealers. -/
def RoleAssignment (masks : List Nat) (nT nH nD : Nat) : Prop :=
  ∃ roles : List PartyRole, List.Forall₂ RoleOffered masks roles ∧
    roles.count PartyRole.Tank ≤ nT ∧ roles.count PartyRole.Heal ≤ nH ∧
    roles.count PartyRole.Damage ≤ nD

/-- The needed-role bits of a mask, the value the `switch` of `IsRoleCheckValid` inspects. -/
def roleKind (mask : Nat) : Nat := mask &&& LFG_ROLE_MASK_ALL_NEEDED

/-- Counting form of `RoleAssignment`: no mask without a needed role, and numbers of hybrids
(`x` damage-tanks and `z` tank-healers as tank, `y` damage-healers as heal, `aT`, `aH` of the
all-role members as tank and heal) that respect the capacities. -/
def SplitFeasible (ms : List Nat) (nT nH nD : Nat) : Prop :=
  (ms.map roleKind).count 0 = 0 ∧
  ∃ x y z aT aH : Nat,
    x ≤ (ms.map roleKind).count 10 ∧ y ≤ (ms.map roleKind).count 12 ∧
    z ≤ (ms.map roleKind).count 6 ∧ aT + aH ≤ (ms.map roleKind).count 14 ∧
    (ms.map roleKind).count 2 + x + z + aT ≤ nT ∧
    (ms.map roleKind).count 4 + y + ((ms.map roleKind).count 6 - z) + aH ≤ nH ∧
    (ms.map roleKind).count 8 + ((ms.map roleKind).count 10 - x)
      + ((ms.map roleKind).count 12 - y) + ((ms.map roleKind).count 14 - aT - aH) ≤ nD

/-- Number of masks of the list with the given needed-role bits. -/
def kindCount (k : Nat) (masks : List Nat) : Nat := (masks.map roleKind).count k

/-! ## Runs of the manager -/

/-- A call of one of the four entry points, with its arguments. -/
inductive Call where
  | Join (player : Player) (group : Option Group) (dungeonIds : List Nat) (roleMask : Nat)
  | Leave (ticketId : Nat) (groupGuid : ObjectGuid)
  | SetRoles (groupGuid playerGuid : ObjectGuid) (desiredRoles : Nat)
  | Tick (diff : Nat)

/-- Run one call against the manager, reading the host as it is at the time of the call. -/
def Call.run (mgr : NewLFGMgr) (host : Host) : Call → Except Fault (NewLFGMgr × List Notification)
  | .Join player group dungeonIds roleMask =>
    ProcessLFGJoinRequest mgr host player group dungeonIds roleMask
  | .Leave ticketId groupGuid => ProcessLFGLeaveRequest mgr host ticketId groupGuid
  | .SetRoles groupGuid playerGuid desiredRoles =>
    ProcessPlayerRoleRequest mgr host groupGuid playerGuid desiredRoles
  | .Tick diff => Update mgr host diff

/-- Run a sequence of calls, collecting the notifications in the order they are emitted. -/
def runCalls (host : Host) : NewLFGMgr → List Call → Except Fault (NewLFGMgr × List Notification)
  | mgr, [] => .ok (mgr, [])
  | mgr, call :: calls =>
    match call.run mgr host with
    | .error f => .error f
    | .ok (mgr1, out1) =>
      match runCalls host mgr1 calls with
      | .error f => .error f
      | .ok (mgr2, out2) => .ok (mgr2, out1 ++ out2)

/-- The manager states reachable from a freshly constructed manager by loading the dungeon
data and then any sequence of join, leave, role-selection and update calls that return. -/
inductive Reachable : NewLFGMgr → Prop where
  | init (src : LoadSources) : Reachable (InitializeDungeonData NewLFGMgr.new src)
  | step {mgr mgr1 : NewLFGMgr} {out : List Notification} (h : Reachable mgr) (host : Host)
      (call : Call) (hrun : call.run mgr host = .ok (mgr1, out)) : Reachable mgr1

/-- The keys of an association list. -/
def mapKeys {κ α : Type} (m : List (κ × α)) : List κ := m.map Prod.fst

/-- The keys of the join-data map and of the queue-entry map are pairwise distinct. -/
def KeysDistinct (mgr : NewLFGMgr) : Prop :=
  (mapKeys mgr.lfgJoinData).Nodup ∧ (mapKeys mgr.lfgQueuePlayerData).Nodup

/-- The dungeon id has a catalog record. -/
def InCatalog (mgr : NewLFGMgr) (id : Nat) : Prop :=
  (mapFind id mgr.lfgDungeonData).isSome = true

/-- The pre-computed expansion set of a random dungeon id (empty when none is cached). -/
def expansionSet (mgr : NewLFGMgr) (randomDungeonId : Nat) : List Nat :=
  (mapFind randomDungeonId mgr.lfgDungeonsIdsForRandomDungeonId).getD []

/-- Well-formedness of the caches: every catalog record is stored under the id of its
dungeon entry, every member of a cached random group has a catalog record, and so has every
dungeon id selected in a JoinRequest. -/
structure CachesWellFormed (mgr : NewLFGMgr) : Prop where
  keyed : ∀ e ∈ mgr.lfgDungeonData, e.2.DungeonEntry.ID = e.1
  groups : ∀ e ∈ mgr.lfgDungeonsIdsForRandomDungeonId, ∀ id ∈ e.2, InCatalog mgr id
  selected : ∀ e ∈ mgr.lfgJoinData, ∀ id ∈ e.2.SelectedDungeonIDs, InCatalog mgr id

/-- Every member of every group of the index has a record in `data`. -/
def GroupsIn (data : List (Nat × LFGDungeonData)) (index : List (Nat × List Nat)) : Prop :=
  ∀ e ∈ index, ∀ id ∈ e.2, (mapFind id data).isSome = true

/-- The players the lock step evaluates: the solo player, or the members of the group that
are in the world. -/
def evaluatedMembers (player : Player) (group : Option Group) : List Player :=
  match group with
  | none => [player]
  | some g => g.members.filterMap (fun itr => itr)

/-- The activity is locked for the player: it has a catalog record of non-random type for
which the lock cascade gives a reason. -/
def LockedFor (mgr : NewLFGMgr) (host : Host) (p : Player) (id : Nat) : Prop :=
  ∃ data, mapFind id mgr.lfgDungeonData = some data ∧
    data.DungeonEntry.TypeID ≠ LFGType.Random ∧ (checkLockReason host p data).isSome = true

/-- The slot is the slot code of an activity of the list that is locked for the player. -/
def LockedSlot (mgr : NewLFGMgr) (host : Host) (p : Player) (ids : List Nat) (slot : Nat) :
    Prop :=
  ∃ id ∈ ids, ∃ data, mapFind id mgr.lfgDungeonData = some data ∧
    data.DungeonEntry.TypeID ≠ LFGType.Random ∧ (checkLockReason host p data).isSome = true ∧
    data.DungeonEntry.Entry = slot

/-- The role masks of a join request, as the table `IsRoleCheckValid` takes. -/
def roleTable (jd : LFGJoinData) : List (ObjectGuid × Nat) :=
  jd.PartyMemberRoleData.map (fun it => (it.1, it.2.RoleMask))

/-- The state of a run that returned; the fresh manager stands for a run that did not. -/
def finalState (r : Except Fault (NewLFGMgr × List Notification)) : NewLFGMgr :=
  match r with
  | .ok (mgr, _) => mgr
  | .error _ => NewLFGMgr.new

/-- The notifications of a run that returned. -/
def emitted (r : Except Fault (NewLFGMgr × List Notification)) : List Notification :=
  match r with
  | .ok (_, out) => out
  | .error _ => []

/-- Whether a run returned. -/
def returned (r : Except Fault (NewLFGMgr × List Notification)) : Bool :=
  match r with
  | .ok _ => true
  | .error _ => false

/-- The role-check states of the role-check updates among the notifications, in order. -/
def roleCheckStates (out : List Notification) : List LFGRoleCheckState :=
  out.filterMap (fun n =>
    match n.packet with
    | Packet.RoleCheckUpdate d => some d.State
    | _ => none)

/-! ## A concrete world used to exercise the model -/

/-- A level-80 player with the join permission and nothing that blocks a join. -/
def plainPlayer (counter : Nat) (cls : Classes) : Player :=
  { GetGUID := ObjectGuid.Player counter, getClass := cls, HasPermission := true,
    InBattleground := false, InArena := false, InBattlegroundQueue := false,
    HasAura := fun _ => false, getLevel := 80, GetExpansion := 2,
    GetBoundInstance := fun _ _ _ => false, GetAverageItemLevel := 200,
    HasAchieved := fun _ => true, GetTeam := Team.ALLIANCE,
    GetQuestRewardStatus := fun _ => true, HasItemCount := fun _ => true }

/-- A warrior. -/
def playerA : Player := plainPlayer 1 Classes.CLASS_WARRIOR

/-- A paladin. -/
def playerB : Player := plainPlayer 2 Classes.CLASS_PALADIN

/-- The group of `playerA` (leader) and `playerB`, both in the world. -/
def groupAB : Group :=
  { GetGUID := ObjectGuid.Group 1, GetLeaderGUID := ObjectGuid.Player 1, GetMembersCount := 2,
    members := [some playerA, some playerB] }

/-- A host in which both players are connected and nothing is disabled. -/
def demoHost : Host :=
  { FindConnectedPlayer := fun g =>
      if g = ObjectGuid.Player 1 then some playerA
      else if g = ObjectGuid.Player 2 then some playerB else none,
    GetGroupByGUID := fun g => if g = ObjectGuid.Group 1 then some groupAB else none,
    IsDisabledFor := fun _ _ _ => false,
    GetAccessRequirement := fun _ _ => none,
    IsHolidayActive := fun _ => false,
    GetGameTime := 1000,
    MAXGROUPSIZE := 5,
    DUNGEON_DIFFICULTY_NORMAL := 0 }

/-- A store row whose slot code carries the id in its low 24 bits and the type above. -/
def demoEntry (id type minLevel randomId : Nat) : LFGDungeonEntry :=
  { ID := id, MapID := id, DifficultyID := 0, TypeID := type, MinLevel := minLevel,
    Maxlevel := 85, ExpansionLevel := 0, Flags := 0, RandomID := randomId,
    Entry := id + type * 2 ^ 24 }

/-- Two dungeons (101 from level 15, 102 from level 85) grouped under the random dungeon 301. -/
def demoSources : LoadSources :=
  { lfg_dungeon_template :=
      [⟨101, 1, 1, 1, 0, 0⟩, ⟨102, 1, 1, 1, 0, 0⟩, ⟨301, 0, 0, 0, 0, 0⟩],
    lfg_dungeon_rewards := [⟨301, 85, 1, 2, 3, 1, 1⟩],
    sLFGDungeonStore :=
      [demoEntry 101 LFGType.Dungeon 15 301, demoEntry 102 LFGType.Dungeon 85 301,
        demoEntry 301 LFGType.Random 15 0],
    sLFGDungeonsGroupingMapStore := [],
    GetMapEntranceTrigger := fun _ => none }

/-- The manager after loading `demoSources`. -/
def demoMgr : NewLFGMgr := InitializeDungeonData NewLFGMgr.new demoSources

/-- The ids returned by `n` successive calls of `GenerateTicketID`, and the manager left. -/
def generateTicketIDs : Nat → NewLFGMgr → Except Fault (List Nat × NewLFGMgr)
  | 0, mgr => .ok ([], mgr)
  | n + 1, mgr =>
    match GenerateTicketID mgr with
    | .error f => .error f
    | .ok (id, mgr1) =>
      match generateTicketIDs n mgr1 with
      | .error f => .error f
      | .ok (ids, mgr2) => .ok (id :: ids, mgr2)

/-- A group of two in which both members pick the tank role: the leader on joining, the
second member in the role check. -/
def wrongRolesRun : Except Fault (NewLFGMgr × List Notification) :=
  runCalls demoHost demoMgr
    [Call.Join playerA (some groupAB) [101] 2,
      Call.SetRoles (ObjectGuid.Group 1) (ObjectGuid.Player 2) 2]

/-- A solo player joins for dungeon 101 twice in a row. -/
def doubleJoinRun : Except Fault (NewLFGMgr × List Notification) :=
  runCalls demoHost demoMgr
    [Call.Join playerA none [101] 2, Call.Join playerA none [101] 2]

/-- A group of two completes its role check and is queued; then the leader submits the empty
role mask. -/
def orphanedTicketRun : Except Fault (NewLFGMgr × List Notification) :=
  runCalls demoHost demoMgr
    [Call.Join playerA (some groupAB) [101] 2,
      Call.SetRoles (ObjectGuid.Group 1) (ObjectGuid.Player 2) 8,
      Call.SetRoles (ObjectGuid.Group 1) (ObjectGuid.Player 1) 0]

/-- A group of two starts a role check and the leader leaves before it completes. -/
def abortedRoleCheckRun : Except Fault (NewLFGMgr × List Notification) :=
  runCalls demoHost demoMgr
    [Call.Join playerA (some groupAB) [101] 2, Call.Leave 0 (ObjectGuid.Group 1)]

/-- A solo player joins with the random dungeon 301 and an id that has no catalog record. -/
def randomJoinUnknownRun : Except Fault (NewLFGMgr × List Notification) :=
  runCalls demoHost demoMgr [Call.Join playerA none [301, 999] 2]

/-- A level-80 solo player joins for the random dungeon 301, whose group holds dungeon 102
that needs level 85. -/
def randomJoinRun : Except Fault (NewLFGMgr × List Notification) :=
  runCalls demoHost demoMgr [Call.Join playerA none [301] 2]

/-! ## Notions used to state the selection and eligibility properties -/

/-- The selection after the ids without a catalog record are dropped (the `EraseIf` of
`ValidateAndBuildDungeonSelection`). -/
def knownIds (mgr : NewLFGMgr) (dungeonIds : List Nat) : List Nat :=
  dungeonIds.filter (fun id => (mapFind id mgr.lfgDungeonData).isSome)

/-- The `TypeID` of the catalog record of an activity id, when it has one. -/
def typeOfId (mgr : NewLFGMgr) (id : Nat) : Option Nat :=
  (mapFind id mgr.lfgDungeonData).map (fun d => d.DungeonEntry.TypeID)

/-- The selection holds an activity of the given type. -/
def HasType (mgr : NewLFGMgr) (ids : List Nat) (type : Nat) : Prop :=
  ∃ id ∈ ids, typeOfId mgr id = some type

/-- The join result of a selection check that returned. -/
def selectionResult (r : Except Fault SelectionOutcome) : Option LFGJoinResult :=
  match r with
  | .ok sel => some sel.result
  | .error _ => none

/-- The base check of a solo player as the specification words it: the conditions are tried in
the order permission, class-role legality, battleground / arena / battleground queue,
deserter debuff, random-cooldown debuff, GM freeze, and the first one that fails gives the
result. -/
def firstFailingCondition (player : Player) (roleMask : Nat) : LFGJoinResult :=
  if !player.HasPermission then LFGJoinResult.InternalError
  else if HasInvalidRoles player roleMask then LFGJoinResult.InternalError
  else if player.InBattleground || player.InArena || player.InBattlegroundQueue then
    LFGJoinResult.UsingBattleground
  else if player.HasAura SPELL_LFG_DUNGEON_DESERTER then LFGJoinResult.Deserter
  else if player.HasAura SPELL_LFG_DUNGEON_COOLDOWN then LFGJoinResult.RandomCooldown
  else if player.HasAura 9454 then LFGJoinResult.InternalError
  else LFGJoinResult.OK

/-- The requester passes every individual check of the base check. -/
def passesIndividualChecks (player : Player) (roleMask : Nat) : Prop :=
  player.HasPermission = true ∧ HasInvalidRoles player roleMask = false ∧
  player.InBattleground = false ∧ player.InArena = false ∧
  player.InBattlegroundQueue = false ∧
  player.HasAura SPELL_LFG_DUNGEON_DESERTER = false ∧
  player.HasAura SPELL_LFG_DUNGEON_COOLDOWN = false ∧ player.HasAura 9454 = false

/-- The group member passes the checks the group loop makes on the member itself:
permission, battleground / arena / battleground queue, deserter and random-cooldown debuff. -/
def memberPassesChecks (groupPlayer : Player) : Prop :=
  groupPlayer.HasPermission = true ∧ groupPlayer.InBattleground = false ∧
  groupPlayer.InArena = false ∧ groupPlayer.InBattlegroundQueue = false ∧
  groupPlayer.HasAura SPELL_LFG_DUNGEON_DESERTER = false ∧
  groupPlayer.HasAura SPELL_LFG_DUNGEON_COOLDOWN = false

/-- The members of the group that are in the world (`GetSource()` is not null). -/
def reachableMembers (g : Group) : List Player :=
  g.members.filterMap (fun itr => itr)

/-- A paladin who lacks the join permission and carries the deserter debuff. -/
def deserterWithoutPermission : Player :=
  { plainPlayer 3 Classes.CLASS_PALADIN with
    HasPermission := false,
    HasAura := fun spell => decide (spell = SPELL_LFG_DUNGEON_DESERTER) }

/-- The group of `playerA` and `playerB` starts a role check: the leader joins for dungeon 101
with the tank role. -/
def roleCheckRun : Except Fault (NewLFGMgr × List Notification) :=
  runCalls demoHost demoMgr [Call.Join playerA (some groupAB) [101] 2]

/-! ## Notions used to state the role-check and queueing properties -/

/-- The slots of the JoinRequest can be encoded: its random dungeon (when one is recorded) and
its selected dungeons have catalog records. -/
def JoinDataInCatalog (mgr : NewLFGMgr) (jd : LFGJoinData) : Prop :=
  (jd.RandomDungeonID ≠ 0 → InCatalog mgr jd.RandomDungeonID) ∧
  ∀ id ∈ jd.SelectedDungeonIDs, InCatalog mgr id

/-- The ticket counter is in the `uint32` range and every queue entry is stored under a ticket
id that was already handed out. -/
def TicketsBelowCounter (mgr : NewLFGMgr) : Prop :=
  mgr.nextAvailableTicketId < 2 ^ 32 ∧
  ∀ e ∈ mgr.lfgQueuePlayerData, e.1 < mgr.nextAvailableTicketId

/-- The role table of a JoinRequest after the mask of a member is recorded as confirmed
(lines 427-428); the mask is stored in a `uint8`. -/
def recordedRoles (playerGuid : ObjectGuid) (desiredRoles : Nat) (jd : LFGJoinData) :
    List (ObjectGuid × LFGPartyMemberRoleData) :=
  mapModify playerGuid {}
    (fun d => { d with RoleMask := desiredRoles % 256, RoleConfirmed := true })
    jd.PartyMemberRoleData

/-- The status update `SendStatusUpdate` builds for a ticket of a JoinRequest. -/
def statusUpdateOf (reason : LFGUpdateReason) (jd : LFGJoinData) (ticket : LFGRideTicket)
    (slots : List Nat) : LFGUpdateStatusData :=
  { statusFlags reason with
    IsParty := decide (jd.PartyMemberRoleData.length > 1),
    RideTicket := ticket,
    Comment := "",
    Slots := slots }

/-- The ticket `GenerateTicket` makes for the requester in this state. -/
def nextTicket (mgr : NewLFGMgr) (host : Host) (requesterGuid : ObjectGuid) : LFGRideTicket :=
  { ID := mgr.nextAvailableTicketId, Time := host.GetGameTime, RequesterGUID := requesterGuid }

/-- The queue entry `AddTicketToQueue` creates for a ticket. -/
def queueEntryOf (ticket : LFGRideTicket) : LFGQueuePlayerData :=
  { JoinData := ticket.RequesterGUID, RideTicket := ticket }

/-- The JoinRequest of the demo group while its role check runs: the leader holds the tank
role, the second member has not answered. -/
def roleCheckJoinData : LFGJoinData :=
  { SelectedDungeonIDs := [101], RandomDungeonID := 0,
    PartyMemberRoleData :=
      [(ObjectGuid.Player 1, ⟨2, true⟩), (ObjectGuid.Player 2, ⟨0, false⟩)] }

/-- The join results of the join-result notifications among the notifications, in order. -/
def joinResults (out : List Notification) : List LFGJoinResult :=
  out.filterMap (fun n =>
    match n.packet with
    | Packet.JoinResult d => some d.Result
    | _ => none)

/-- The reasons and ticket ids of the status updates among the notifications, in order. -/
def statusUpdates (out : List Notification) : List (LFGUpdateReason × Nat) :=
  out.filterMap (fun n =>
    match n.packet with
    | Packet.UpdateStatus d => some (d.UpdateReason, d.RideTicket.ID)
    | _ => none)

/-- The result of steps 1 to 3 of a join, when they return. -/
def joinChecksResult (r : Except Fault JoinChecks) : Option LFGJoinResult :=
  match r with
  | .ok c => some c.result
  | .error _ => none

/-- A solo player joins for dungeon 101 on the loaded caches. -/
def soloJoinRun : Except Fault (NewLFGMgr × List Notification) :=
  runCalls demoHost demoMgr [Call.Join playerA none [101] 2]

/-- The demo group starts a role check through its leader, then the second member sends a
join request for the same group. -/
def rejoinRun : Except Fault (NewLFGMgr × List Notification) :=
  runCalls demoHost demoMgr
    [Call.Join playerA (some groupAB) [101] 2, Call.Join playerB (some groupAB) [101] 8]

/-! ## Notions used to state the leave, timer and lock properties -/

/-- The manager after a sequence of update ticks with the given deltas, and what they emit. -/
def tickRun (host : Host) (mgr : NewLFGMgr) (diffs : List Nat) :
    Except Fault (NewLFGMgr × List Notification) :=
  runCalls host mgr (diffs.map Call.Tick)

/-- The keys of the role-check timer map are pairwise distinct. -/
def TimersDistinct (mgr : NewLFGMgr) : Prop :=
  (mapKeys mgr.lfgRoleCheckTimers).Nodup

/-- The test `_lfgQueueUpdateInterval <= 0s` of `Update` after the decrement by `diff`
(lines 800-801): whether this tick runs the queue-update pass. -/
def queueUpdateDue (mgr : NewLFGMgr) (diff : Nat) : Bool :=
  decide (mgr.lfgQueueUpdateInterval - (diff : Int) ≤ 0)

/-- The deltas accumulated since the last tick that ran the queue-update pass (since the start
when none did), after the ticks with the given deltas; `acc` is the amount accumulated before
them. -/
def sinceLastPass (host : Host) : NewLFGMgr → List Nat → Int → Int
  | _, [], acc => acc
  | mgr, diff :: diffs, acc =>
    sinceLastPass host (finalState (Update mgr host diff)) diffs
      (if queueUpdateDue mgr diff then 0 else acc + (diff : Int))

/-- The access requirement of the activity, `sObjectMgr->GetAccessRequirement(MapID,
DifficultyID)`. -/
def accessRequirementOf (host : Host) (data : LFGDungeonData) : Option AccessRequirement :=
  host.GetAccessRequirement data.DungeonEntry.MapID data.DungeonEntry.DifficultyID

/-- The player is saved to the map and difficulty of the activity (either of the two
`GetBoundInstance` look-ups of the source). -/
def savedToInstance (player : Player) (e : LFGDungeonEntry) : Bool :=
  player.GetBoundInstance e.MapID e.DifficultyID none ||
    player.GetBoundInstance e.MapID e.DifficultyID (some (decide (e.TypeID = LFGType.Raid)))

/-- An access requirement is present and names an achievement the player has not earned. -/
def missingAchievement (player : Player) (ar : Option AccessRequirement) : Bool :=
  match ar with
  | some a => decide (a.achievement ≠ 0) && !player.HasAchieved a.achievement
  | none => false

/-- An access requirement is present and the quest it names for the player's faction has not
been rewarded. -/
def questNotRewarded (player : Player) (ar : Option AccessRequirement) : Bool :=
  match ar with
  | some a =>
    (decide (player.GetTeam = Team.ALLIANCE) && decide (a.quest_A ≠ 0) &&
        !player.GetQuestRewardStatus a.quest_A) ||
      (decide (player.GetTeam = Team.HORDE) && decide (a.quest_H ≠ 0) &&
        !player.GetQuestRewardStatus a.quest_H)
  | none => false

/-- An access requirement is present and either item1 is set and the player has neither item1
nor a set item2, or item1 is unset and item2 is set and not owned. -/
def missingItem (player : Player) (ar : Option AccessRequirement) : Bool :=
  match ar with
  | some a =>
    (decide (a.item ≠ 0) && !player.HasItemCount a.item &&
        !(decide (a.item2 ≠ 0) && player.HasItemCount a.item2)) ||
      (decide (a.item = 0) && decide (a.item2 ≠ 0) && !player.HasItemCount a.item2)
  | none => false

/-- The lock rules in the order the specification lists them: the condition of each rule for
the player and the activity, and the lock reason the rule gives. -/
def lockRules (host : Host) (player : Player) (data : LFGDungeonData) :
    List (Bool × LFGLockStatusType) :=
  let e := data.DungeonEntry
  let ar := accessRequirementOf host data
  [(!player.HasPermission, LFGLockStatusType.None),
    (decide (e.ExpansionLevel > player.GetExpansion), LFGLockStatusType.InsufficientExpansion),
    (host.IsDisabledFor DisableType.DISABLE_TYPE_MAP e.MapID player ||
      host.IsDisabledFor DisableType.DISABLE_TYPE_LFG_MAP e.MapID player,
      LFGLockStatusType.None),
    (decide (e.DifficultyID > host.DUNGEON_DIFFICULTY_NORMAL) && savedToInstance player e,
      LFGLockStatusType.RaidLocked),
    (decide (e.MinLevel > player.getLevel), LFGLockStatusType.TooLowLevel),
    (decide (e.Maxlevel < player.getLevel), LFGLockStatusType.TooHighLevel),
    (decide (e.Flags &&& LFGFlags.Seasonal ≠ 0) && !IsSeasonActive host e.ID,
      LFGLockStatusType.NotInSeason),
    (decide (data.RequiredItemLevel > player.GetAverageItemLevel),
      LFGLockStatusType.TooLowGearScore),
    (missingAchievement player ar, LFGLockStatusType.MissingAchievement),
    (questNotRewarded player ar, LFGLockStatusType.QuestNotCompleted),
    (missingItem player ar, LFGLockStatusType.MissingItem)]

/-- The reason of the first lock rule that matches, if any. -/
def firstMatchingRule (host : Host) (player : Player) (data : LFGDungeonData) :
    Option LFGLockStatusType :=
  ((lockRules host player data).find? (fun rule => rule.1)).map (fun rule => rule.2)

/-- The lock the specification records for a reason: `TooLowGearScore` carries the required
item level and the player's item level, every other reason carries `(0, 0)`. -/
def lockOfReason (player : Player) (data : LFGDungeonData) (reason : LFGLockStatusType) :
    LFGDungeonLockData :=
  if reason = LFGLockStatusType.TooLowGearScore then
    ⟨reason, data.RequiredItemLevel, player.GetAverageItemLevel⟩
  else ⟨reason, 0, 0⟩

/-- The lock map after the lock of the first matching rule, if any, is entered under the slot
code of the activity. -/
def recordFirstMatchingRule (host : Host) (player : Player) (data : LFGDungeonData)
    (lockMap : LockMap) : LockMap :=
  match firstMatchingRule host player data with
  | some reason => mapEmplace data.DungeonEntry.Entry (lockOfReason player data reason) lockMap
  | none => lockMap

/-- The player matches none of the lock rules that come before the level rules: join
permission, expansion, disabled map, raid lock. -/
@[reducible]
def passesRulesBeforeLevel (host : Host) (player : Player) (data : LFGDungeonData) : Prop :=
  player.HasPermission = true ∧
  data.DungeonEntry.ExpansionLevel ≤ player.GetExpansion ∧
  host.IsDisabledFor DisableType.DISABLE_TYPE_MAP data.DungeonEntry.MapID player = false ∧
  host.IsDisabledFor DisableType.DISABLE_TYPE_LFG_MAP data.DungeonEntry.MapID player = false ∧
  ¬ (data.DungeonEntry.DifficultyID > host.DUNGEON_DIFFICULTY_NORMAL ∧
    savedToInstance player data.DungeonEntry = true)

/-- The player's level is within the level range of the activity. -/
@[reducible]
def passesLevelRules (player : Player) (data : LFGDungeonData) : Prop :=
  data.DungeonEntry.MinLevel ≤ player.getLevel ∧ player.getLevel ≤ data.DungeonEntry.Maxlevel

/-- The activity is not a seasonal one out of season. -/
@[reducible]
def passesSeasonRule (host : Host) (data : LFGDungeonData) : Prop :=
  ¬ (data.DungeonEntry.Flags &&& LFGFlags.Seasonal ≠ 0 ∧
    IsSeasonActive host data.DungeonEntry.ID = false)

/-- The player matches no access-requirement rule of the activity. -/
def passesAccessRules (host : Host) (player : Player) (data : LFGDungeonData) : Prop :=
  ∀ ar, accessRequirementOf host data = some ar → checkAccessRequirement player ar = none

/-- The catalog record of dungeon 102 of the demo world (levels 85 to 85, no required item
level). -/
def demoDungeon102 : LFGDungeonData :=
  { DungeonEntry := demoEntry 102 LFGType.Dungeon 85 301, Entrance := ⟨102, 1, 1, 1, 0⟩,
    RequiredItemLevel := 0, CompletionRewards := [] }

/-- A catalog record like dungeon 102 of the demo world with the given level range and
required item level. -/
def demoDungeonWith (minLevel maxLevel requiredItemLevel : Nat) : LFGDungeonData :=
  { DungeonEntry := { demoEntry 102 LFGType.Dungeon minLevel 301 with Maxlevel := maxLevel },
    Entrance := ⟨102, 1, 1, 1, 0⟩, RequiredItemLevel := requiredItemLevel,
    CompletionRewards := [] }

/-- A manager whose catalog holds the given record under the id 102 and nothing else. -/
def demoCatalog (data : LFGDungeonData) : NewLFGMgr :=
  { NewLFGMgr.new with lfgDungeonData := [(102, data)] }

/-- A party of five with one tank, one healer and three damage dealers. -/
def fullParty : List (ObjectGuid × Nat) :=
  [(ObjectGuid.Player 1, LFG_ROLE_TANK), (ObjectGuid.Player 2, LFG_ROLE_HEAL),
    (ObjectGuid.Player 3, LFG_ROLE_DAMAGE), (ObjectGuid.Player 4, LFG_ROLE_DAMAGE),
    (ObjectGuid.Player 5, LFG_ROLE_DAMAGE)]

/-- The JoinRequest of the solo player of the demo world after joining for dungeon 101. -/
def soloJoinData : LFGJoinData :=
  { SelectedDungeonIDs := [101], RandomDungeonID := 0,
    PartyMemberRoleData := [(ObjectGuid.Player 1, ⟨2, true⟩)] }

/-- The ticket of the solo player of the demo world. -/
def soloTicket : LFGRideTicket :=
  { ID := 0, Time := 1000, RequesterGUID := ObjectGuid.Player 1 }

/-- The state after the solo join of the demo world, with the queue entry marked as running
dungeon 101. -/
def runningInstanceMgr : NewLFGMgr :=
  { finalState soloJoinRun with
    lfgQueuePlayerData :=
      [(0, { JoinData := ObjectGuid.Player 1, RideTicket := soloTicket,
              CurrentDungeonID := 101 })] }

/-- The status update `RemovedFromQueue` for the ticket of the solo player of the demo
world. -/
def soloRemovedUpdate : Notification :=
  ⟨ObjectGuid.Player 1, Packet.UpdateStatus
    { UpdateReason := LFGUpdateReason.RemovedFromQueue, RideTicket := soloTicket,
      Slots := [16777317] }⟩

/-! ## Getters (NewLFGMgr.cpp, lines 825-955) -/

/-- Body of the loop of `GetAvailableSeasonalRandomAndRaidDungeonIds` for one catalog record:
`false` is a `continue`, `true` reaches the `insert`. -/
def availableDungeon (host : Host) (playerLevel playerExpansion : Nat) (data : LFGDungeonData) :
    Bool :=
  let e := data.DungeonEntry
  let typeStage :=
    if e.TypeID = LFGType.Random ∨ e.TypeID = LFGType.Raid then true
    else if e.TypeID = LFGType.Dungeon then
      decide (e.Flags &&& (LFGFlags.Seasonal ||| LFGFlags.Unk4) ≠ 0)
    else false
  if !typeStage then false
  else if e.Flags &&& LFGFlags.Seasonal ≠ 0 ∧ !IsSeasonActive host e.ID then false
  else if playerLevel < e.MinLevel ∨ playerLevel > e.Maxlevel then false
  else if playerExpansion < e.ExpansionLevel then false
  else true

/-- `NewLFGMgr::GetAvailableSeasonalRandomAndRaidDungeonIds(playerLevel, playerExpansion)`. -/
def GetAvailableSeasonalRandomAndRaidDungeonIds (mgr : NewLFGMgr) (host : Host)
    (playerLevel playerExpansion : Nat) : List Nat :=
  mgr.lfgDungeonData.foldl
    (fun dungeons itr =>
      if availableDungeon host playerLevel playerExpansion itr.2 then
        setInsert itr.2.DungeonEntry.ID dungeons
      else dungeons) []

/-- The first loop of `GetLockedDungeonsForPlayer` over the master store: every entry without
a catalog record that is not of type world is locked with `None`. -/
def lockedByDefault (mgr : NewLFGMgr) : List LFGDungeonEntry → LockMap → LockMap
  | [], lockMap => lockMap
  | entry :: rest, lockMap =>
    if (mapFind entry.ID mgr.lfgDungeonData).isSome then lockedByDefault mgr rest lockMap
    else if entry.TypeID = LFGType.World then lockedByDefault mgr rest lockMap
    else
      lockedByDefault mgr rest
        (mapEmplace entry.Entry ⟨LFGLockStatusType.None, 0, 0⟩ lockMap)

/-- The access-requirement part of the lock cascade of `GetLockedDungeonsForPlayer`
(lines 926-941). -/
def lockedDungeonAccessReason (player : Player) (ar : AccessRequirement) :
    Option LFGLockStatusType :=
  if ar.achievement ≠ 0 ∧ !player.HasAchieved ar.achievement then
    some LFGLockStatusType.MissingAchievement
  else if player.GetTeam = Team.ALLIANCE ∧ ar.quest_A ≠ 0
      ∧ !player.GetQuestRewardStatus ar.quest_A then
    some LFGLockStatusType.QuestNotCompleted
  else if player.GetTeam = Team.HORDE ∧ ar.quest_H ≠ 0
      ∧ !player.GetQuestRewardStatus ar.quest_H then
    some LFGLockStatusType.QuestNotCompleted
  else if ar.item ≠ 0 then
    if !player.HasItemCount ar.item ∧ (ar.item2 = 0 ∨ !player.HasItemCount ar.item2) then
      some LFGLockStatusType.MissingItem
    else none
  else if ar.item2 ≠ 0 ∧ !player.HasItemCount ar.item2 then
    some LFGLockStatusType.MissingItem
  else none

/-- The lock cascade of `GetLockedDungeonsForPlayer` for one catalog record (lines 906-942):
the value of `reason` after the `if` chain. The level, the expansion and `denyJoin` are read
once before the loops. -/
def lockedDungeonReason (host : Host) (player : Player) (playerLevel expansion : Nat)
    (denyJoin : Bool) (data : LFGDungeonData) : Option LFGLockStatusType :=
  if denyJoin then some LFGLockStatusType.None
  else if data.DungeonEntry.ExpansionLevel > expansion then
    some LFGLockStatusType.InsufficientExpansion
  else if host.IsDisabledFor DisableType.DISABLE_TYPE_MAP data.DungeonEntry.MapID player then
    some LFGLockStatusType.None
  else if host.IsDisabledFor DisableType.DISABLE_TYPE_LFG_MAP data.DungeonEntry.MapID player then
    some LFGLockStatusType.None
  else if data.DungeonEntry.DifficultyID > host.DUNGEON_DIFFICULTY_NORMAL
      ∧ player.GetBoundInstance data.DungeonEntry.MapID data.DungeonEntry.DifficultyID none then
    some LFGLockStatusType.RaidLocked
  else if data.DungeonEntry.DifficultyID > host.DUNGEON_DIFFICULTY_NORMAL
      ∧ player.GetBoundInstance data.DungeonEntry.MapID data.DungeonEntry.DifficultyID
          (some (decide (data.DungeonEntry.TypeID = LFGType.Raid))) then
    some LFGLockStatusType.RaidLocked
  else if data.DungeonEntry.MinLevel > playerLevel then some LFGLockStatusType.TooLowLevel
  else if data.DungeonEntry.Maxlevel < playerLevel then some LFGLockStatusType.TooHighLevel
  else if data.DungeonEntry.Flags &&& LFGFlags.Seasonal ≠ 0
      ∧ !IsSeasonActive host data.DungeonEntry.ID then
    some LFGLockStatusType.NotInSeason
  else if data.RequiredItemLevel > player.GetAverageItemLevel then
    some LFGLockStatusType.TooLowGearScore
  else
    match host.GetAccessRequirement data.DungeonEntry.MapID data.DungeonEntry.DifficultyID with
    | some ar => lockedDungeonAccessReason player ar
    | none => none

/-- The second loop of `GetLockedDungeonsForPlayer` over the catalog records. -/
def lockedDungeonsLoop (host : Host) (player : Player) (playerLevel expansion : Nat)
    (denyJoin : Bool) : List (Nat × LFGDungeonData) → LockMap → LockMap
  | [], lockMap => lockMap
  | itr :: rest, lockMap =>
    match lockedDungeonReason host player playerLevel expansion denyJoin itr.2 with
    | none => lockedDungeonsLoop host player playerLevel expansion denyJoin rest lockMap
    | some reason =>
      if reason = LFGLockStatusType.TooLowGearScore then
        lockedDungeonsLoop host player playerLevel expansion denyJoin rest
          (mapEmplace itr.2.DungeonEntry.Entry
            ⟨reason, itr.2.RequiredItemLevel, player.GetAverageItemLevel⟩ lockMap)
      else
        lockedDungeonsLoop host player playerLevel expansion denyJoin rest
          (mapEmplace itr.2.DungeonEntry.Entry ⟨reason, 0, 0⟩ lockMap)

/-- `NewLFGMgr::GetLockedDungeonsForPlayer(playerGuid)`, with the master store
`sLFGDungeonStore` it iterates; a player who is not connected gets the empty map. -/
def GetLockedDungeonsForPlayer (mgr : NewLFGMgr) (host : Host) (store : List LFGDungeonEntry)
    (playerGuid : ObjectGuid) : LockMap :=
  match host.FindConnectedPlayer playerGuid with
  | none => []
  | some player =>
    lockedDungeonsLoop host player player.getLevel player.GetExpansion (!player.HasPermission)
      mgr.lfgDungeonData (lockedByDefault mgr store [])

/-! ## Notions used to state the properties of the getters, the loader and the validator -/

/-- The keys of the catalog are pairwise distinct. -/
def CatalogDistinct (mgr : NewLFGMgr) : Prop :=
  (mapKeys mgr.lfgDungeonData).Nodup

/-- The conditions the specification gives for an activity to be available at a level and an
expansion: (i) type random or raid, or type dungeon with the seasonal or the LFR flag;
(ii) the level is within the level range; (iii) the required expansion is at most the given
one; (iv) with the seasonal flag, the season is active. -/
def AvailableAt (host : Host) (level expansion : Nat) (data : LFGDungeonData) : Prop :=
  (data.DungeonEntry.TypeID = LFGType.Random ∨ data.DungeonEntry.TypeID = LFGType.Raid ∨
    (data.DungeonEntry.TypeID = LFGType.Dungeon ∧
      (data.DungeonEntry.Flags &&& LFGFlags.Seasonal ≠ 0 ∨
        data.DungeonEntry.Flags &&& LFGFlags.Unk4 ≠ 0))) ∧
  (data.DungeonEntry.MinLevel ≤ level ∧ level ≤ data.DungeonEntry.Maxlevel) ∧
  data.DungeonEntry.ExpansionLevel ≤ expansion ∧
  (data.DungeonEntry.Flags &&& LFGFlags.Seasonal ≠ 0 →
    IsSeasonActive host data.DungeonEntry.ID = true)

/-- The conditions of `AvailableAt` other than the one on the season. -/
def AvailableApartFromSeason (level expansion : Nat) (data : LFGDungeonData) : Prop :=
  (data.DungeonEntry.TypeID = LFGType.Random ∨ data.DungeonEntry.TypeID = LFGType.Raid ∨
    (data.DungeonEntry.TypeID = LFGType.Dungeon ∧
      (data.DungeonEntry.Flags &&& LFGFlags.Seasonal ≠ 0 ∨
        data.DungeonEntry.Flags &&& LFGFlags.Unk4 ≠ 0))) ∧
  (data.DungeonEntry.MinLevel ≤ level ∧ level ≤ data.DungeonEntry.Maxlevel) ∧
  data.DungeonEntry.ExpansionLevel ≤ expansion

/-- The catalog records `CheckDungeonIdsForLocks` runs the lock cascade on for a selection:
those of the selected ids that are not of type random, in the order of the selection. -/
def recordsToCheck (mgr : NewLFGMgr) (ids : List Nat) : List LFGDungeonData :=
  ids.filterMap (fun id =>
    match mapFind id mgr.lfgDungeonData with
    | some data => if data.DungeonEntry.TypeID = LFGType.Random then none else some data
    | none => none)

/-- The lock map after the lock of the first matching rule of each record of the list, if
any, is entered under the slot code of the record, in the order of the list. -/
def recordLocks (host : Host) (player : Player) (records : List LFGDungeonData)
    (lockMap : LockMap) : LockMap :=
  records.foldl (fun m data => recordFirstMatchingRule host player data m) lockMap

/-- The lock of the first matching rule for the player and the activity, if any. -/
def lockFor (host : Host) (player : Player) (data : LFGDungeonData) :
    Option LFGDungeonLockData :=
  (firstMatchingRule host player data).map (lockOfReason player data)

/-- The simpler validator of the specification: the member-count check, the first pass over
the masks and the three pairwise capacity checks, and then acceptance. -/
def simpleRoleCheck (selected : List (ObjectGuid × Nat)) (numDps numTank numHeal : Nat) :
    Bool :=
  if numDps + numHeal + numTank < selected.length then false
  else
    match roleTally ⟨numDps, numTank, numHeal, 0, 0, 0⟩ (selected.map Prod.snd) with
    | none => false
    | some t =>
      if t.numDps + t.numTank < t.dpsTank then false
      else if t.numDps + t.numHeal < t.dpsHeal then false
      else if t.numTank + t.numHeal < t.tankHeal then false
      else true

/-- The member of the store has the random parent `r` and is not itself of type random. -/
def StoreChild (src : LoadSources) (r e : Nat) : Prop :=
  ∃ entry ∈ src.sLFGDungeonStore,
    entry.ID = e ∧ entry.RandomID = r ∧ entry.TypeID ≠ LFGType.Random

/-- The supplemental grouping table has a row linking `e` to `r`. -/
def GroupingChild (src : LoadSources) (r e : Nat) : Prop :=
  ∃ row ∈ src.sLFGDungeonsGroupingMapStore,
    row.LfgDungeonsID = e ∧ row.RandomLfgDungeonsID = r

/-- The paladin of the demo world, frozen by a game master (aura 9454). -/
def frozenPlayerB : Player :=
  { playerB with HasAura := fun spell => decide (spell = 9454) }

/-- The group of `playerA` (leader) and the frozen `frozenPlayerB`, both in the world. -/
def groupWithFrozen : Group :=
  { GetGUID := ObjectGuid.Group 1, GetLeaderGUID := ObjectGuid.Player 1, GetMembersCount := 2,
    members := [some playerA, some frozenPlayerB] }

/-- The demo sources with a reward table without rows. -/
def demoSourcesNoRewards : LoadSources :=
  { demoSources with lfg_dungeon_rewards := [] }

/-- A store row like `demoEntry` that carries the seasonal flag. -/
def seasonalEntry (id type : Nat) : LFGDungeonEntry :=
  { demoEntry id type 15 0 with Flags := LFGFlags.Seasonal }

/-- Two activities with the seasonal flag: the dungeon 285, which is in the season table, and
the raid 500, which is not. -/
def seasonalSources : LoadSources :=
  { lfg_dungeon_template := [⟨285, 1, 1, 1, 0, 0⟩, ⟨500, 1, 1, 1, 0, 0⟩],
    lfg_dungeon_rewards := [⟨285, 85, 1, 2, 3, 1, 1⟩],
    sLFGDungeonStore := [seasonalEntry 285 LFGType.Dungeon, seasonalEntry 500 LFGType.Raid],
    sLFGDungeonsGroupingMapStore := [],
    GetMapEntranceTrigger := fun _ => none }

/-- The manager after loading `seasonalSources`. -/
def seasonalMgr : NewLFGMgr := InitializeDungeonData NewLFGMgr.new seasonalSources

/-- The catalog record of the raid 500 after loading `seasonalSources`. -/
def seasonalRaid500 : LFGDungeonData :=
  { DungeonEntry := seasonalEntry 500 LFGType.Raid, Entrance := ⟨500, 1, 1, 1, 0⟩,
    RequiredItemLevel := 0, CompletionRewards := [] }

/-- A host like the demo host in which every holiday is active. -/
def holidayHost : Host :=
  { demoHost with IsHolidayActive := fun _ => true }

/-! ## Notions used to state when the role-check updates can be delivered -/

/-- Every member of the role table is connected, which `SendLfgRoleCheckUpdateNew` asserts
when it builds the packet. -/
@[reducible]
def AllConnected (host : Host) (roles : List (ObjectGuid × LFGPartyMemberRoleData)) : Prop :=
  ∀ it ∈ roles, (host.FindConnectedPlayer it.1).isSome = true

/-- The demo host after the paladin has disconnected: only `playerA` is connected. -/
def hostAfterLogout : Host :=
  { demoHost with
    FindConnectedPlayer := fun g => if g = ObjectGuid.Player 1 then some playerA else none }

/-- The fault of a call that did not return. -/
def faultOf {α : Type} (r : Except Fault α) : Option Fault :=
  match r with
  | .error f => some f
  | .ok _ => none

/-- A solo player joins twice and then leaves with the first ticket: the JoinRequest that both
queue entries refer to is erased, and the entry of the second ticket stays. -/
def leftBehindTicketRun : Except Fault (NewLFGMgr × List Notification) :=
  runCalls demoHost demoMgr
    [Call.Join playerA none [101] 2, Call.Join playerA none [101] 2,
      Call.Leave 0 (ObjectGuid.Player 1)]

/-- The run `leftBehindTicketRun` followed by a third join of the same player, which creates
a new JoinRequest under the guid of the erased one. -/
def leftBehindTicketRejoinRun : Except Fault (NewLFGMgr × List Notification) :=
  runCalls demoHost demoMgr
    [Call.Join playerA none [101] 2, Call.Join playerA none [101] 2,
      Call.Leave 0 (ObjectGuid.Player 1), Call.Join playerA none [101] 2]

/-- Every member of the role table of every JoinRequest is connected. -/
@[reducible]
def MembersConnected (host : Host) (mgr : NewLFGMgr) : Prop :=
  ∀ e ∈ mgr.lfgJoinData, AllConnected host e.2.PartyMemberRoleData

/-! ## Role-set validity: the validator decides the existence of a role assignment -/

theorem land_mod_sixteen (m c : Nat) (hc : 15 &&& c = c) : m &&& c = (m % 16) &&& c := by
  have h : m % 16 = m &&& 15 := by
    have := Nat.and_pow_two_sub_one_eq_mod m 4
    simpa using this.symm
  rw [h, Nat.and_assoc, hc]

theorem roleKind_cases (m : Nat) :
    (roleKind m = 0 ∨ roleKind m = 2 ∨ roleKind m = 4 ∨ roleKind m = 6 ∨ roleKind m = 8 ∨
      roleKind m = 10 ∨ roleKind m = 12 ∨ roleKind m = 14) ∧
    m &&& 2 = roleKind m &&& 2 ∧ m &&& 4 = roleKind m &&& 4 ∧ m &&& 8 = roleKind m &&& 8 := by
  have h16 : roleKind m = (m % 16) &&& 14 := land_mod_sixteen m 14 (by decide)
  rw [h16, land_mod_sixteen m 2 (by decide), land_mod_sixteen m 4 (by decide),
    land_mod_sixteen m 8 (by decide)]
  have hlt : m % 16 < 16 := Nat.mod_lt _ (by decide)
  generalize m % 16 = r at hlt
  interval_cases r <;> decide

theorem roleSplitLoop_eq (t : RoleTally) (mx : Nat) :
    ∀ (left start : Nat), roleSplitLoop t mx left start =
      if ∃ i, i < left ∧ roleSplitOk t (start + i) = true then some true
      else if mx = 255 then none else some false := by
  intro left
  induction left with
  | zero => intro start; simp [roleSplitLoop]
  | succ n ih =>
    intro start
    rw [roleSplitLoop]
    by_cases h0 : roleSplitOk t start = true
    · have : ∃ i, i < n + 1 ∧ roleSplitOk t (start + i) = true := ⟨0, by omega, by simpa using h0⟩
      simp [h0, this]
    · rw [if_neg h0, ih]
      have hiff : (∃ i, i < n ∧ roleSplitOk t (start + 1 + i) = true) ↔
          (∃ i, i < n + 1 ∧ roleSplitOk t (start + i) = true) := by
        constructor
        · rintro ⟨i, hi, hok⟩
          exact ⟨i + 1, by omega, by rw [← hok]; congr 1; omega⟩
        · rintro ⟨i, hi, hok⟩
          cases i with
          | zero => exact absurd (by simpa using hok) h0
          | succ j => exact ⟨j, by omega, by rw [← hok]; congr 1; omega⟩
      simp only [hiff]

theorem kindCount_nil (k : Nat) : kindCount k [] = 0 := rfl

theorem kindCount_cons (k m : Nat) (ms : List Nat) :
    kindCount k (m :: ms) = kindCount k ms + if roleKind m = k then 1 else 0 := by
  simp [kindCount, List.count_cons]

/-- The first loop as a function of the kind counts. -/
theorem roleTally_eq (ms : List Nat) : ∀ (t : RoleTally),
    t.dpsTank < 256 → t.dpsHeal < 256 → t.tankHeal < 256 →
    roleTally t ms =
      if kindCount 0 ms = 0 ∧ kindCount 8 ms ≤ t.numDps ∧ kindCount 2 ms ≤ t.numTank ∧
          kindCount 4 ms ≤ t.numHeal then
        some ⟨t.numDps - kindCount 8 ms, t.numTank - kindCount 2 ms,
          t.numHeal - kindCount 4 ms, (t.dpsTank + kindCount 10 ms) % 256,
          (t.dpsHeal + kindCount 12 ms) % 256, (t.tankHeal + kindCount 6 ms) % 256⟩
      else none := by
  induction ms with
  | nil =>
    intro t h1 h2 h3
    simp [roleTally, kindCount_nil, Nat.mod_eq_of_lt h1, Nat.mod_eq_of_lt h2,
      Nat.mod_eq_of_lt h3]
  | cons m ms ih =>
    intro t h1 h2 h3
    have hk := (roleKind_cases m).1
    have hstep : roleTallyStep t m =
        (if roleKind m = 8 then (if t.numDps = 0 then none else some { t with numDps := t.numDps - 1 })
        else if roleKind m = 2 then (if t.numTank = 0 then none else some { t with numTank := t.numTank - 1 })
        else if roleKind m = 4 then (if t.numHeal = 0 then none else some { t with numHeal := t.numHeal - 1 })
        else if roleKind m = 10 then some { t with dpsTank := (t.dpsTank + 1) % 256 }
        else if roleKind m = 12 then some { t with dpsHeal := (t.dpsHeal + 1) % 256 }
        else if roleKind m = 6 then some { t with tankHeal := (t.tankHeal + 1) % 256 }
        else if roleKind m = 14 then some t else none) := rfl
    rw [roleTally, hstep]
    simp only [kindCount_cons]
    clear hstep
    rcases hk with h | h | h | h | h | h | h | h <;> simp only [h] <;> simp
    · by_cases h0 : t.numTank = 0
      · simp [h0]
      · simp only [h0, if_false]
        rw [ih] <;> first | exact h1 | exact h2 | exact h3 |
          (dsimp only; split_ifs <;> first | rfl | omega | (simp only [Option.some.injEq, RoleTally.mk.injEq, true_and, and_true]; omega))
    · by_cases h0 : t.numHeal = 0
      · simp [h0]
      · simp only [h0, if_false]
        rw [ih] <;> first | exact h1 | exact h2 | exact h3 |
          (dsimp only; split_ifs <;> first | rfl | omega | (simp only [Option.some.injEq, RoleTally.mk.injEq, true_and, and_true]; omega))
    · rw [ih] <;> first | exact h1 | exact h2 | exact h3 | exact Nat.mod_lt _ (by decide) |
        (dsimp only; split_ifs <;> first | rfl | omega | (simp only [Option.some.injEq, RoleTally.mk.injEq, true_and, and_true]; omega))
    · by_cases h0 : t.numDps = 0
      · simp [h0]
      · simp only [h0, if_false]
        rw [ih] <;> first | exact h1 | exact h2 | exact h3 |
          (dsimp only; split_ifs <;> first | rfl | omega | (simp only [Option.some.injEq, RoleTally.mk.injEq, true_and, and_true]; omega))
    · rw [ih] <;> first | exact h1 | exact h2 | exact h3 | exact Nat.mod_lt _ (by decide) |
        (dsimp only; split_ifs <;> first | rfl | omega | (simp only [Option.some.injEq, RoleTally.mk.injEq, true_and, and_true]; omega))
    · rw [ih] <;> first | exact h1 | exact h2 | exact h3 | exact Nat.mod_lt _ (by decide) |
        (dsimp only; split_ifs <;> first | rfl | omega | (simp only [Option.some.injEq, RoleTally.mk.injEq, true_and, and_true]; omega))
    · rw [ih] <;> first | exact h1 | exact h2 | exact h3

theorem length_eq_kindCount (ms : List Nat) :
    ms.length = kindCount 0 ms + kindCount 2 ms + kindCount 4 ms + kindCount 6 ms
      + kindCount 8 ms + kindCount 10 ms + kindCount 12 ms + kindCount 14 ms := by
  induction ms with
  | nil => simp [kindCount_nil]
  | cons m ms ih =>
    simp only [kindCount_cons, List.length_cons]
    rcases (roleKind_cases m).1 with h | h | h | h | h | h | h | h <;> simp [h] <;> omega

theorem splitFeasible_iff (ms : List Nat) (nT nH nD : Nat) :
    SplitFeasible ms nT nH nD ↔
      kindCount 0 ms = 0 ∧
      ∃ x y z aT aH : Nat,
        x ≤ kindCount 10 ms ∧ y ≤ kindCount 12 ms ∧ z ≤ kindCount 6 ms ∧
        aT + aH ≤ kindCount 14 ms ∧
        kindCount 2 ms + x + z + aT ≤ nT ∧
        kindCount 4 ms + y + (kindCount 6 ms - z) + aH ≤ nH ∧
        kindCount 8 ms + (kindCount 10 ms - x) + (kindCount 12 ms - y)
          + (kindCount 14 ms - aT - aH) ≤ nD := Iff.rfl

theorem roleOffered_kind (m : Nat) (r : PartyRole) :
    RoleOffered m r ↔ roleKind m &&& r.bit ≠ 0 := by
  have h := roleKind_cases m
  cases r <;> simp only [RoleOffered, PartyRole.bit, LFG_ROLE_TANK, LFG_ROLE_HEAL,
    LFG_ROLE_DAMAGE]
  · rw [h.2.1]
  · rw [h.2.2.1]
  · rw [h.2.2.2]

theorem roleAssignment_splitFeasible (ms : List Nat) :
    ∀ nT nH nD, RoleAssignment ms nT nH nD → SplitFeasible ms nT nH nD := by
  induction ms with
  | nil =>
    intro nT nH nD _
    rw [splitFeasible_iff]
    exact ⟨rfl, 0, 0, 0, 0, 0, by simp [kindCount_nil]⟩
  | cons m ms ih =>
    rintro nT nH nD ⟨roles, hF, hT, hH, hD⟩
    cases hF with
    | cons hr hrest =>
      rename_i r rs
      rw [roleOffered_kind] at hr
      rw [splitFeasible_iff]
      have e0 := kindCount_cons 0 m ms
      have e2 := kindCount_cons 2 m ms
      have e4 := kindCount_cons 4 m ms
      have e6 := kindCount_cons 6 m ms
      have e8 := kindCount_cons 8 m ms
      have e10 := kindCount_cons 10 m ms
      have e12 := kindCount_cons 12 m ms
      have e14 := kindCount_cons 14 m ms
      cases r
      · simp only [PartyRole.bit, LFG_ROLE_TANK, LFG_ROLE_HEAL, LFG_ROLE_DAMAGE] at hr
        simp [List.count_cons] at hT hH hD
        have hih := ih (nT - 1) nH nD ⟨rs, hrest, by omega, by omega, by omega⟩
        rw [splitFeasible_iff] at hih
        obtain ⟨h0, x, y, z, aT, aH, hx⟩ := hih
        rcases (roleKind_cases m).1 with h | h | h | h | h | h | h | h <;>
          simp only [h] at hr <;> simp [h] at e0 e2 e4 e6 e8 e10 e12 e14
        · exact absurd rfl hr
        · exact ⟨by omega, x, y, z, aT, aH, by omega⟩
        · exact absurd rfl hr
        · exact ⟨by omega, x, y, z + 1, aT, aH, by omega⟩
        · exact absurd rfl hr
        · exact ⟨by omega, x + 1, y, z, aT, aH, by omega⟩
        · exact absurd rfl hr
        · exact ⟨by omega, x, y, z, aT + 1, aH, by omega⟩
      · simp only [PartyRole.bit, LFG_ROLE_TANK, LFG_ROLE_HEAL, LFG_ROLE_DAMAGE] at hr
        simp [List.count_cons] at hT hH hD
        have hih := ih nT (nH - 1) nD ⟨rs, hrest, by omega, by omega, by omega⟩
        rw [splitFeasible_iff] at hih
        obtain ⟨h0, x, y, z, aT, aH, hx⟩ := hih
        rcases (roleKind_cases m).1 with h | h | h | h | h | h | h | h <;>
          simp only [h] at hr <;> simp [h] at e0 e2 e4 e6 e8 e10 e12 e14
        · exact absurd rfl hr
        · exact absurd rfl hr
        · exact ⟨by omega, x, y, z, aT, aH, by omega⟩
        · exact ⟨by omega, x, y, z, aT, aH, by omega⟩
        · exact absurd rfl hr
        · exact absurd rfl hr
        · exact ⟨by omega, x, y + 1, z, aT, aH, by omega⟩
        · exact ⟨by omega, x, y, z, aT, aH + 1, by omega⟩
      · simp only [PartyRole.bit, LFG_ROLE_TANK, LFG_ROLE_HEAL, LFG_ROLE_DAMAGE] at hr
        simp [List.count_cons] at hT hH hD
        have hih := ih nT nH (nD - 1) ⟨rs, hrest, by omega, by omega, by omega⟩
        rw [splitFeasible_iff] at hih
        obtain ⟨h0, x, y, z, aT, aH, hx⟩ := hih
        rcases (roleKind_cases m).1 with h | h | h | h | h | h | h | h <;>
          simp only [h] at hr <;> simp [h] at e0 e2 e4 e6 e8 e10 e12 e14
        · exact absurd rfl hr
        · exact absurd rfl hr
        · exact absurd rfl hr
        · exact absurd rfl hr
        · exact ⟨by omega, x, y, z, aT, aH, by omega⟩
        · exact ⟨by omega, x, y, z, aT, aH, by omega⟩
        · exact ⟨by omega, x, y, z, aT, aH, by omega⟩
        · exact ⟨by omega, x, y, z, aT, aH, by omega⟩

theorem roleAssignment_cons_tank {m : Nat} {ms : List Nat} {nT nH nD : Nat}
    (hr : roleKind m &&& 2 ≠ 0) (hn : 1 ≤ nT) (h : RoleAssignment ms (nT - 1) nH nD) :
    RoleAssignment (m :: ms) nT nH nD := by
  obtain ⟨rs, hF, h1, h2, h3⟩ := h
  refine ⟨PartyRole.Tank :: rs, List.Forall₂.cons ((roleOffered_kind m _).2 hr) hF, ?_, ?_, ?_⟩
    <;> simp [List.count_cons] <;> omega

theorem roleAssignment_cons_heal {m : Nat} {ms : List Nat} {nT nH nD : Nat}
    (hr : roleKind m &&& 4 ≠ 0) (hn : 1 ≤ nH) (h : RoleAssignment ms nT (nH - 1) nD) :
    RoleAssignment (m :: ms) nT nH nD := by
  obtain ⟨rs, hF, h1, h2, h3⟩ := h
  refine ⟨PartyRole.Heal :: rs, List.Forall₂.cons ((roleOffered_kind m _).2 hr) hF, ?_, ?_, ?_⟩
    <;> simp [List.count_cons] <;> omega

theorem roleAssignment_cons_damage {m : Nat} {ms : List Nat} {nT nH nD : Nat}
    (hr : roleKind m &&& 8 ≠ 0) (hn : 1 ≤ nD) (h : RoleAssignment ms nT nH (nD - 1)) :
    RoleAssignment (m :: ms) nT nH nD := by
  obtain ⟨rs, hF, h1, h2, h3⟩ := h
  refine ⟨PartyRole.Damage :: rs, List.Forall₂.cons ((roleOffered_kind m _).2 hr) hF, ?_, ?_, ?_⟩
    <;> simp [List.count_cons] <;> omega

theorem splitFeasible_roleAssignment (ms : List Nat) :
    ∀ nT nH nD, SplitFeasible ms nT nH nD → RoleAssignment ms nT nH nD := by
  induction ms with
  | nil =>
    intro nT nH nD _
    exact ⟨[], List.Forall₂.nil, by simp, by simp, by simp⟩
  | cons m ms ih =>
    intro nT nH nD hsf
    rw [splitFeasible_iff] at hsf
    obtain ⟨h0, x, y, z, aT, aH, hx, hy, hz, ha, hT, hH, hD⟩ := hsf
    have e0 := kindCount_cons 0 m ms
    have e2 := kindCount_cons 2 m ms
    have e4 := kindCount_cons 4 m ms
    have e6 := kindCount_cons 6 m ms
    have e8 := kindCount_cons 8 m ms
    have e10 := kindCount_cons 10 m ms
    have e12 := kindCount_cons 12 m ms
    have e14 := kindCount_cons 14 m ms
    rcases (roleKind_cases m).1 with h | h | h | h | h | h | h | h <;>
      simp [h] at e0 e2 e4 e6 e8 e10 e12 e14
    · exfalso; omega
    · exact roleAssignment_cons_tank (by rw [h]; decide) (by omega)
        (ih _ _ _ ((splitFeasible_iff _ _ _ _).2 ⟨by omega, x, y, z, aT, aH, by omega⟩))
    · exact roleAssignment_cons_heal (by rw [h]; decide) (by omega)
        (ih _ _ _ ((splitFeasible_iff _ _ _ _).2 ⟨by omega, x, y, z, aT, aH, by omega⟩))
    · by_cases hz0 : z = 0
      · exact roleAssignment_cons_heal (by rw [h]; decide) (by omega)
          (ih _ _ _ ((splitFeasible_iff _ _ _ _).2 ⟨by omega, x, y, z, aT, aH, by omega⟩))
      · exact roleAssignment_cons_tank (by rw [h]; decide) (by omega)
          (ih _ _ _ ((splitFeasible_iff _ _ _ _).2 ⟨by omega, x, y, z - 1, aT, aH, by omega⟩))
    · exact roleAssignment_cons_damage (by rw [h]; decide) (by omega)
        (ih _ _ _ ((splitFeasible_iff _ _ _ _).2 ⟨by omega, x, y, z, aT, aH, by omega⟩))
    · by_cases hx0 : x = 0
      · exact roleAssignment_cons_damage (by rw [h]; decide) (by omega)
          (ih _ _ _ ((splitFeasible_iff _ _ _ _).2 ⟨by omega, x, y, z, aT, aH, by omega⟩))
      · exact roleAssignment_cons_tank (by rw [h]; decide) (by omega)
          (ih _ _ _ ((splitFeasible_iff _ _ _ _).2 ⟨by omega, x - 1, y, z, aT, aH, by omega⟩))
    · by_cases hy0 : y = 0
      · exact roleAssignment_cons_damage (by rw [h]; decide) (by omega)
          (ih _ _ _ ((splitFeasible_iff _ _ _ _).2 ⟨by omega, x, y, z, aT, aH, by omega⟩))
      · exact roleAssignment_cons_heal (by rw [h]; decide) (by omega)
          (ih _ _ _ ((splitFeasible_iff _ _ _ _).2 ⟨by omega, x, y - 1, z, aT, aH, by omega⟩))
    · by_cases ht0 : aT = 0
      · by_cases hh0 : aH = 0
        · exact roleAssignment_cons_damage (by rw [h]; decide) (by omega)
            (ih _ _ _ ((splitFeasible_iff _ _ _ _).2 ⟨by omega, x, y, z, aT, aH, by omega⟩))
        · exact roleAssignment_cons_heal (by rw [h]; decide) (by omega)
            (ih _ _ _ ((splitFeasible_iff _ _ _ _).2 ⟨by omega, x, y, z, aT, aH - 1, by omega⟩))
      · exact roleAssignment_cons_tank (by rw [h]; decide) (by omega)
          (ih _ _ _ ((splitFeasible_iff _ _ _ _).2 ⟨by omega, x, y, z, aT - 1, aH, by omega⟩))

theorem roleSplitOk_iff (t : RoleTally) (i : Nat) :
    roleSplitOk t i = true ↔
      t.tankHeal - i ≤ t.numHeal ∧
      (t.dpsTank - min (t.numTank - i) t.dpsTank) +
        (t.dpsHeal - min (t.numHeal - (t.tankHeal - i)) t.dpsHeal) ≤ t.numDps := by
  unfold roleSplitOk
  simp only []
  split_ifs with h
  · simp; omega
  · simp; omega

theorem split_arith_complete (c2 c4 c6 c8 c10 c12 c14 x y z aT aH : Nat)
    (h2 : c2 ≤ 1) (h4 : c4 ≤ 1) (h8 : c8 ≤ 3)
    (hx : x ≤ c10) (hy : y ≤ c12) (hz : z ≤ c6) (ha : aT + aH ≤ c14)
    (hT : c2 + x + z + aT ≤ 1) (hH : c4 + y + (c6 - z) + aH ≤ 1)
    (hD : c8 + (c10 - x) + (c12 - y) + (c14 - aT - aH) ≤ 3) :
    z < min c6 (1 - c2) + 1 ∧ c6 - z ≤ 1 - c4 ∧
      (c10 - min (1 - c2 - z) c10) + (c12 - min (1 - c4 - (c6 - z)) c12) ≤ 3 - c8 := by
  obtain ⟨d, hd⟩ : ∃ d, d + z = c6 := ⟨c6 - z, by omega⟩
  have e1 : c6 - z = d := by omega
  rw [e1] at hH ⊢
  obtain ⟨p, hp⟩ : ∃ p, p = min (1 - c2 - z) c10 := ⟨_, rfl⟩
  obtain ⟨q, hq⟩ : ∃ q, q = min (1 - c4 - d) c12 := ⟨_, rfl⟩
  rw [← hp, ← hq]
  have hp1 : x ≤ p := by omega
  have hp2 : p ≤ c10 := by omega
  have hq1 : y ≤ q := by omega
  have hq2 : q ≤ c12 := by omega
  clear hp hq
  refine ⟨by omega, by omega, by omega⟩

theorem split_arith_sound (c2 c4 c6 c8 c10 c12 c14 i : Nat)
    (hsum : c2 + c4 + c6 + c8 + c10 + c12 + c14 ≤ 5)
    (h2 : c2 ≤ 1) (h4 : c4 ≤ 1) (h8 : c8 ≤ 3)
    (hi : i < min c6 (1 - c2) + 1) (hok1 : c6 - i ≤ 1 - c4)
    (hok2 : (c10 - min (1 - c2 - i) c10) + (c12 - min (1 - c4 - (c6 - i)) c12) ≤ 3 - c8) :
    ∃ x y z aT aH : Nat,
      x ≤ c10 ∧ y ≤ c12 ∧ z ≤ c6 ∧ aT + aH ≤ c14 ∧ c2 + x + z + aT ≤ 1 ∧
      c4 + y + (c6 - z) + aH ≤ 1 ∧ c8 + (c10 - x) + (c12 - y) + (c14 - aT - aH) ≤ 3 := by
  obtain ⟨d, hd⟩ : ∃ d, d + i = c6 := ⟨c6 - i, by omega⟩
  have e1 : c6 - i = d := by omega
  rw [e1] at hok1 hok2
  obtain ⟨T, hT⟩ : ∃ T, T + c2 + i = 1 := ⟨1 - c2 - i, by omega⟩
  obtain ⟨H, hH⟩ : ∃ H, H + c4 + d = 1 := ⟨1 - c4 - d, by omega⟩
  have e2 : 1 - c2 - i = T := by omega
  have e3 : 1 - c4 - d = H := by omega
  rw [e2, e3] at hok2
  obtain ⟨x, hx⟩ : ∃ x, x = min T c10 := ⟨_, rfl⟩
  obtain ⟨y, hy⟩ : ∃ y, y = min H c12 := ⟨_, rfl⟩
  rw [← hx, ← hy] at hok2
  have hx1 : x ≤ T ∧ x ≤ c10 ∧ (x = T ∨ x = c10) := by omega
  have hy1 : y ≤ H ∧ y ≤ c12 ∧ (y = H ∨ y = c12) := by omega
  clear hx hy
  obtain ⟨aT, haT⟩ : ∃ a, a = min c14 (T - x) := ⟨_, rfl⟩
  have ht1 : aT ≤ c14 ∧ aT + x ≤ T ∧ (aT = c14 ∨ aT + x = T) := by omega
  clear haT
  obtain ⟨aH, haH⟩ : ∃ a, a = min (c14 - aT) (H - y) := ⟨_, rfl⟩
  have hh1 : aH + aT ≤ c14 ∧ aH + y ≤ H ∧ (aH + aT = c14 ∨ aH + y = H) := by omega
  clear haH
  refine ⟨x, y, i, aT, aH, by omega, by omega, by omega, by omega, by omega, ?_, ?_⟩
  · rw [e1]; omega
  · obtain ⟨dx, hdx⟩ : ∃ dx, dx + x = c10 := ⟨c10 - x, by omega⟩
    obtain ⟨dy, hdy⟩ : ∃ dy, dy + y = c12 := ⟨c12 - y, by omega⟩
    obtain ⟨r, hr⟩ : ∃ r, r + aT + aH = c14 := ⟨c14 - aT - aH, by omega⟩
    have e4 : c10 - x = dx := by omega
    have e5 : c12 - y = dy := by omega
    have e6 : c14 - aT - aH = r := by omega
    rw [e4, e5] at hok2
    rw [e4, e5, e6]
    omega

theorem isRoleCheckValid_splitFeasible (selected : List (ObjectGuid × Nat)) :
    ∃ b, IsRoleCheckValid selected 3 1 1 = some b ∧
      (b = true ↔ SplitFeasible (selected.map Prod.snd) 1 1 3) := by
  set ms := selected.map Prod.snd with hms
  have hlen : selected.length = ms.length := by simp [hms]
  have hsum := length_eq_kindCount ms
  unfold IsRoleCheckValid
  rw [← hms, hlen, splitFeasible_iff]
  by_cases hbig : 3 + 1 + 1 < ms.length
  · rw [if_pos hbig]
    refine ⟨false, rfl, ?_⟩
    simp only [Bool.false_eq_true, false_iff]
    rintro ⟨h0, x, y, z, aT, aH, h⟩
    omega
  · rw [if_neg hbig, roleTally_eq ms _ (by decide) (by decide) (by decide)]
    dsimp only
    by_cases hc : kindCount 0 ms = 0 ∧ kindCount 8 ms ≤ 3 ∧ kindCount 2 ms ≤ 1 ∧ kindCount 4 ms ≤ 1
    · rw [if_pos hc]
      dsimp only
      obtain ⟨h0, h8, h2, h4⟩ := hc
      have e10 : (0 + kindCount 10 ms) % 256 = kindCount 10 ms := by omega
      have e12 : (0 + kindCount 12 ms) % 256 = kindCount 12 ms := by omega
      have e6 : (0 + kindCount 6 ms) % 256 = kindCount 6 ms := by omega
      rw [e10, e12, e6]
      by_cases hs1 : 3 - kindCount 8 ms + (1 - kindCount 2 ms) < kindCount 10 ms
      · rw [if_pos hs1]
        refine ⟨false, rfl, ?_⟩
        simp only [Bool.false_eq_true, false_iff]
        rintro ⟨_, x, y, z, aT, aH, h⟩
        omega
      rw [if_neg hs1]
      by_cases hs2 : 3 - kindCount 8 ms + (1 - kindCount 4 ms) < kindCount 12 ms
      · rw [if_pos hs2]
        refine ⟨false, rfl, ?_⟩
        simp only [Bool.false_eq_true, false_iff]
        rintro ⟨_, x, y, z, aT, aH, h⟩
        omega
      rw [if_neg hs2]
      by_cases hs3 : 1 - kindCount 2 ms + (1 - kindCount 4 ms) < kindCount 6 ms
      · rw [if_pos hs3]
        refine ⟨false, rfl, ?_⟩
        simp only [Bool.false_eq_true, false_iff]
        rintro ⟨_, x, y, z, aT, aH, h⟩
        omega
      rw [if_neg hs3, roleSplitLoop_eq]
      have hmx : min (kindCount 6 ms) (1 - kindCount 2 ms) ≠ 255 := by omega
      by_cases hex : ∃ i, i < min (kindCount 6 ms) (1 - kindCount 2 ms) + 1 ∧
          roleSplitOk ⟨3 - kindCount 8 ms, 1 - kindCount 2 ms, 1 - kindCount 4 ms,
            kindCount 10 ms, kindCount 12 ms, kindCount 6 ms⟩ (0 + i) = true
      · rw [if_pos hex]
        refine ⟨true, rfl, ?_⟩
        simp only [true_iff]
        obtain ⟨i, hi, hok⟩ := hex
        rw [roleSplitOk_iff, Nat.zero_add] at hok
        dsimp only at hok
        exact ⟨h0, split_arith_sound _ _ _ _ _ _ _ i (by omega) h2 h4 h8 hi hok.1 hok.2⟩
      · rw [if_neg hex, if_neg hmx]
        refine ⟨false, rfl, ?_⟩
        simp only [Bool.false_eq_true, false_iff]
        rintro ⟨_, x, y, z, aT, aH, hx, hy, hz, ha, hT, hH, hD⟩
        apply hex
        have hc := split_arith_complete _ _ _ _ _ _ _ x y z aT aH h2 h4 h8 hx hy hz ha hT hH hD
        refine ⟨z, hc.1, ?_⟩
        rw [roleSplitOk_iff, Nat.zero_add]
        exact hc.2
    · rw [if_neg hc]
      refine ⟨false, rfl, ?_⟩
      simp only [Bool.false_eq_true, false_iff]
      rintro ⟨h0, x, y, z, aT, aH, h⟩
      apply hc
      omega

/-- C1: for the composition 1 tank, 1 heal, 3 dps and every table of member role masks,
`IsRoleCheckValid` returns, and returns `true` exactly when there is an assignment giving every
member one role among tank, heal, damage that is contained in the member's mask, with at
most 1 tank, 1 healer and 3 damage dealers. -/
theorem IsRoleCheckValid_iff_assignment (selected : List (ObjectGuid × Nat)) :
    ∃ b, IsRoleCheckValid selected 3 1 1 = some b ∧
      (b = true ↔ RoleAssignment (selected.map Prod.snd) 1 1 3) := by
  obtain ⟨b, hb, hiff⟩ := isRoleCheckValid_splitFeasible selected
  exact ⟨b, hb, hiff.trans
    ⟨splitFeasible_roleAssignment _ 1 1 3, roleAssignment_splitFeasible _ 1 1 3⟩⟩

/-! ## Ticket ids -/

theorem generateTicketID_ok (mgr : NewLFGMgr) (h : mgr.nextAvailableTicketId < 2 ^ 32 - 1) :
    GenerateTicketID mgr = .ok (mgr.nextAvailableTicketId,
      { mgr with nextAvailableTicketId := mgr.nextAvailableTicketId + 1 }) := by
  unfold GenerateTicketID
  rw [if_neg (by omega)]
  have : (mgr.nextAvailableTicketId + 1) % 2 ^ 32 = mgr.nextAvailableTicketId + 1 :=
    Nat.mod_eq_of_lt (by omega)
  rw [this]

theorem generateTicketIDs_range (n : Nat) : ∀ (mgr : NewLFGMgr),
    mgr.nextAvailableTicketId + n ≤ 2 ^ 32 - 1 →
    generateTicketIDs n mgr = .ok (List.range' mgr.nextAvailableTicketId n,
      { mgr with nextAvailableTicketId := mgr.nextAvailableTicketId + n }) := by
  induction n with
  | zero => intro mgr _; rfl
  | succ n ih =>
    intro mgr h
    rw [generateTicketIDs, generateTicketID_ok mgr (by omega)]
    dsimp only
    rw [ih _ (by simp only []; omega)]
    simp only [List.range'_succ]
    congr 3
    omega

/-- C5: on a manager whose ticket counter is `c < 2^32 - 1`, `GenerateTicketID` returns `c`
and leaves the counter at `c + 1`; when the counter is `2^32 - 1` the call fails on the
assertion; from a fresh manager the first `n` generated ids are `0, ..., n - 1`; and the ids
of successive calls from any state are strictly increasing, so none is issued twice. -/
theorem GenerateTicketID_counter (mgr : NewLFGMgr) (n : Nat) :
    (mgr.nextAvailableTicketId < 2 ^ 32 - 1 →
      GenerateTicketID mgr = .ok (mgr.nextAvailableTicketId,
        { mgr with nextAvailableTicketId := mgr.nextAvailableTicketId + 1 })) ∧
    (mgr.nextAvailableTicketId = 2 ^ 32 - 1 → GenerateTicketID mgr = .error Fault.assertion) ∧
    (n ≤ 2 ^ 32 - 1 →
      generateTicketIDs n NewLFGMgr.new = .ok (List.range n,
        { NewLFGMgr.new with nextAvailableTicketId := n })) ∧
    (mgr.nextAvailableTicketId + n ≤ 2 ^ 32 - 1 →
      ∃ ids mgr1, generateTicketIDs n mgr = .ok (ids, mgr1) ∧ ids.length = n ∧
        ids.Pairwise (· < ·) ∧ ids.Nodup ∧ mgr1.nextAvailableTicketId = mgr.nextAvailableTicketId + n) := by
  refine ⟨generateTicketID_ok mgr, ?_, ?_, ?_⟩
  · intro h
    unfold GenerateTicketID
    rw [if_pos h]
  · intro h
    have := generateTicketIDs_range n NewLFGMgr.new (by simpa [NewLFGMgr.new] using h)
    rw [this, List.range_eq_range']
    simp [NewLFGMgr.new]
  · intro h
    refine ⟨_, _, generateTicketIDs_range n mgr h, by simp, ?_, ?_, rfl⟩
    · exact List.pairwise_lt_range' _ _
    · exact List.nodup_range' _ _

/-- Witness of `GenerateTicketID_counter` on the fresh manager, on a saturated counter and
for three successive calls. -/
theorem GenerateTicketID_counter_witness :
    GenerateTicketID NewLFGMgr.new = .ok (0, { NewLFGMgr.new with nextAvailableTicketId := 1 }) ∧
    GenerateTicketID { NewLFGMgr.new with nextAvailableTicketId := 2 ^ 32 - 1 }
      = .error Fault.assertion ∧
    generateTicketIDs 3 NewLFGMgr.new
      = .ok ([0, 1, 2], { NewLFGMgr.new with nextAvailableTicketId := 3 }) :=
  ⟨(GenerateTicketID_counter NewLFGMgr.new 0).1 (by decide),
    (GenerateTicketID_counter { NewLFGMgr.new with nextAvailableTicketId := 2 ^ 32 - 1 } 0).2.1 rfl,
    (GenerateTicketID_counter NewLFGMgr.new 3).2.2.1 (by decide)⟩

/-! ## What a returning call leaves in the manager -/

theorem GenerateTicket_state {mgr mgr1 : NewLFGMgr} {host : Host} {guid : ObjectGuid}
    {ticket : LFGRideTicket} (h : GenerateTicket mgr host guid = .ok (ticket, mgr1)) :
    mgr.nextAvailableTicketId ≠ 2 ^ 32 - 1 ∧
    ticket = { ID := mgr.nextAvailableTicketId, Time := host.GetGameTime, RequesterGUID := guid } ∧
    mgr1 = { mgr with nextAvailableTicketId := (mgr.nextAvailableTicketId + 1) % 2 ^ 32 } := by
  unfold GenerateTicket GenerateTicketID at h
  by_cases hmax : mgr.nextAvailableTicketId = 2 ^ 32 - 1
  · rw [if_pos hmax] at h
    exact absurd h (by simp)
  · rw [if_neg hmax] at h
    simp only [Except.ok.injEq, Prod.mk.injEq] at h
    exact ⟨hmax, h.1.symm, h.2.symm⟩

theorem AddTicketToQueue_state {mgr mgr1 : NewLFGMgr} {host : Host} {ticket : LFGRideTicket}
    {out : List Notification} (h : AddTicketToQueue mgr host ticket = .ok (mgr1, out)) :
    ∃ queue, mgr1 = { mgr with
      lfgQueuePlayerData :=
        mapEmplace ticket.ID { JoinData := ticket.RequesterGUID, RideTicket := ticket }
          mgr.lfgQueuePlayerData,
      lfgQueue := queue,
      danglingJoinData :=
        if (mapFind ticket.ID mgr.lfgQueuePlayerData).isSome then mgr.danglingJoinData
        else setErase ticket.ID mgr.danglingJoinData } := by
  unfold AddTicketToQueue at h
  split at h
  · simp at h
  · dsimp only at h
    split at h
    · simp at h
    · split at h
      · simp at h
      · split at h
        · simp at h
        · simp only [Except.ok.injEq, Prod.mk.injEq] at h
          exact ⟨_, h.1.symm⟩

theorem RemoveTicketFromQueue_state {mgr mgr1 : NewLFGMgr} {host : Host} {ticketId : Nat}
    {erasePlayerData : Bool} {out : List Notification}
    (h : RemoveTicketFromQueue mgr host ticketId erasePlayerData = .ok (mgr1, out)) :
    (mapFind ticketId mgr.lfgQueuePlayerData = none ∧ mgr1 = mgr ∧ out = []) ∨
    ∃ itr, mapFind ticketId mgr.lfgQueuePlayerData = some itr ∧
      SendStatusUpdate { mgr with lfgQueue := mgr.lfgQueue.RemoveTicketFromQueue ticketId } host
        ticketId LFGUpdateReason.RemovedFromQueue = .ok out ∧
      ((erasePlayerData = true ∧ mgr1 = { mgr with
          lfgQueue := mgr.lfgQueue.RemoveTicketFromQueue ticketId,
          lfgJoinData := mapErase itr.RideTicket.RequesterGUID mgr.lfgJoinData,
          lfgQueuePlayerData := mapErase ticketId mgr.lfgQueuePlayerData,
          danglingJoinData :=
            mgr.danglingJoinData ++
              referringTickets itr.RideTicket.RequesterGUID mgr.lfgQueuePlayerData }) ∨
       (erasePlayerData = false ∧ mgr1 = { mgr with
          lfgQueue := mgr.lfgQueue.RemoveTicketFromQueue ticketId })) := by
  unfold RemoveTicketFromQueue at h
  split at h
  · rename_i hfind
    simp only [Except.ok.injEq, Prod.mk.injEq] at h
    exact Or.inl ⟨hfind, h.1.symm, h.2.symm⟩
  · rename_i itr hfind
    dsimp only at h
    split at h
    · simp at h
    · rename_i out1 hsend
      refine Or.inr ⟨itr, hfind, ?_⟩
      split_ifs at h with he
      · simp only [Except.ok.injEq, Prod.mk.injEq] at h
        exact ⟨h.2 ▸ hsend, Or.inl ⟨he, h.1.symm⟩⟩
      · simp only [Except.ok.injEq, Prod.mk.injEq] at h
        exact ⟨h.2 ▸ hsend, Or.inr ⟨by simpa using he, h.1.symm⟩⟩

theorem LaunchRoleCheck_state {mgr mgr1 : NewLFGMgr} {host : Host} {guid : ObjectGuid}
    {out : List Notification} (h : LaunchRoleCheck mgr host guid = .ok (mgr1, out)) :
    mgr1 = { mgr with
      lfgRoleCheckTimers :=
        mapModify guid 0 (fun _ => LFG_ROLE_CHECK_TIME_LIMIT) mgr.lfgRoleCheckTimers } ∧
    SendRolecheckUpdate mgr1 host guid LFGRoleCheckState.Initializing true = .ok out := by
  unfold LaunchRoleCheck at h
  dsimp only at h
  split at h
  · simp at h
  · rename_i out1 hsend
    simp only [Except.ok.injEq, Prod.mk.injEq] at h
    rw [← h.1, ← h.2]
    exact ⟨rfl, hsend⟩

theorem CancelRoleCheck_state {mgr mgr1 : NewLFGMgr} {host : Host} {guid : ObjectGuid}
    {out : List Notification} (h : CancelRoleCheck mgr host guid = .ok (mgr1, out)) :
    mgr1 = { mgr with
      lfgJoinData := mapErase guid mgr.lfgJoinData,
      danglingJoinData :=
        mgr.danglingJoinData ++ referringTickets guid mgr.lfgQueuePlayerData } ∧
    SendRolecheckUpdate mgr host guid LFGRoleCheckState.Aborted false = .ok out := by
  unfold CancelRoleCheck at h
  split at h
  · simp at h
  · rename_i out1 hsend
    simp only [Except.ok.injEq, Prod.mk.injEq] at h
    rw [← h.1, ← h.2]
    exact ⟨rfl, hsend⟩

theorem ProcessLFGJoinRequest_state {mgr mgr1 : NewLFGMgr} {host : Host} {player : Player}
    {group : Option Group} {dungeonIds : List Nat} {roleMask : Nat} {out : List Notification}
    (h : ProcessLFGJoinRequest mgr host player group dungeonIds roleMask = .ok (mgr1, out)) :
    ∃ c, joinChecks mgr host player group dungeonIds roleMask = .ok c ∧
      ((c.result ≠ LFGJoinResult.OK ∧
          mgr1 = { mgr with lfgDungeonsIdsForRandomDungeonId := c.index }) ∨
       (c.result = LFGJoinResult.OK ∧ group = none ∧
          mgr.nextAvailableTicketId ≠ 2 ^ 32 - 1 ∧
          ∃ queue, mgr1 = { mgr with
            lfgDungeonsIdsForRandomDungeonId := c.index,
            lfgJoinData :=
              mapModify c.guid {}
                (prepareJoinData player group c.randomDungeonId c.dungeonIds roleMask)
                mgr.lfgJoinData,
            nextAvailableTicketId := (mgr.nextAvailableTicketId + 1) % 2 ^ 32,
            lfgQueuePlayerData :=
              mapEmplace mgr.nextAvailableTicketId
                { JoinData := c.guid,
                  RideTicket :=
                    { ID := mgr.nextAvailableTicketId, Time := host.GetGameTime,
                      RequesterGUID := c.guid } } mgr.lfgQueuePlayerData,
            lfgQueue := queue,
            danglingJoinData :=
              if (mapFind mgr.nextAvailableTicketId mgr.lfgQueuePlayerData).isSome then
                mgr.danglingJoinData
              else setErase mgr.nextAvailableTicketId mgr.danglingJoinData }) ∨
       (c.result = LFGJoinResult.OK ∧ (∃ g, group = some g) ∧
          mgr1 = { mgr with
            lfgDungeonsIdsForRandomDungeonId := c.index,
            lfgJoinData :=
              mapModify c.guid {}
                (prepareJoinData player group c.randomDungeonId c.dungeonIds roleMask)
                mgr.lfgJoinData,
            lfgRoleCheckTimers :=
              mapModify c.guid 0 (fun _ => LFG_ROLE_CHECK_TIME_LIMIT)
                mgr.lfgRoleCheckTimers })) := by
  unfold ProcessLFGJoinRequest at h
  split at h
  · simp at h
  · rename_i c hc
    refine ⟨c, hc, ?_⟩
    dsimp only at h
    by_cases hres : c.result = LFGJoinResult.OK
    · rw [if_pos hres] at h
      cases group with
      | none =>
        dsimp only at h
        split at h
        · simp at h
        · rename_i ticket mgr2 hgen
          obtain ⟨hmax, hticket, hmgr2⟩ := GenerateTicket_state hgen
          obtain ⟨queue, hq⟩ := AddTicketToQueue_state h
          refine Or.inr (Or.inl ⟨hres, rfl, hmax, queue, ?_⟩)
          rw [hq, hmgr2, hticket]
      | some g =>
        dsimp only at h
        exact Or.inr (Or.inr ⟨hres, ⟨g, rfl⟩, (LaunchRoleCheck_state h).1⟩)
    · rw [if_neg hres] at h
      simp only [Except.ok.injEq, Prod.mk.injEq] at h
      exact Or.inl ⟨hres, h.1.symm⟩

theorem ProcessLFGLeaveRequest_state {mgr mgr1 : NewLFGMgr} {host : Host} {ticketId : Nat}
    {groupGuid : ObjectGuid} {out : List Notification}
    (h : ProcessLFGLeaveRequest mgr host ticketId groupGuid = .ok (mgr1, out)) :
    ((∃ t, mapFind groupGuid mgr.lfgRoleCheckTimers = some t) ∧
        mgr1 = { mgr with
          lfgJoinData := mapErase groupGuid mgr.lfgJoinData,
          danglingJoinData :=
            mgr.danglingJoinData ++ referringTickets groupGuid mgr.lfgQueuePlayerData }) ∨
    (mapFind groupGuid mgr.lfgRoleCheckTimers = none ∧
      ((mapFind ticketId mgr.lfgQueuePlayerData = none ∧ mgr1 = mgr ∧ out = []) ∨
       ∃ it, mapFind ticketId mgr.lfgQueuePlayerData = some it ∧
        (((it.CurrentDungeonID = 0 ∨ it.InstanceCompleted = true) ∧ mgr1 = { mgr with
            lfgQueue := mgr.lfgQueue.RemoveTicketFromQueue ticketId,
            lfgJoinData := mapErase it.RideTicket.RequesterGUID mgr.lfgJoinData,
            lfgQueuePlayerData := mapErase ticketId mgr.lfgQueuePlayerData,
            danglingJoinData :=
              mgr.danglingJoinData ++
                referringTickets it.RideTicket.RequesterGUID mgr.lfgQueuePlayerData }) ∨
         ((it.CurrentDungeonID ≠ 0 ∧ it.InstanceCompleted = false) ∧ mgr1 = { mgr with
            lfgQueue := mgr.lfgQueue.RemoveTicketFromQueue ticketId })))) := by
  unfold ProcessLFGLeaveRequest at h
  split at h
  · rename_i t ht
    exact Or.inl ⟨⟨t, ht⟩, (CancelRoleCheck_state h).1⟩
  · rename_i ht
    refine Or.inr ⟨ht, ?_⟩
    split at h
    · rename_i it hit
      dsimp only at h
      rcases RemoveTicketFromQueue_state h with ⟨hnone, _, _⟩ | ⟨itr, hfind, _, hcase⟩
      · rw [hnone] at hit
        simp at hit
      · rw [hit] at hfind
        simp only [Option.some.injEq] at hfind
        subst hfind
        refine Or.inr ⟨it, hit, ?_⟩
        rcases hcase with ⟨he, hm⟩ | ⟨he, hm⟩
        · refine Or.inl ⟨?_, hm⟩
          simp only [Bool.not_eq_true', Bool.and_eq_false_imp, decide_eq_true_eq,
            Bool.not_eq_false'] at he
          by_cases h0 : it.CurrentDungeonID = 0
          · exact Or.inl h0
          · exact Or.inr (by simpa using he h0)
        · refine Or.inr ⟨?_, hm⟩
          simpa using he
    · rename_i hit
      simp only [Except.ok.injEq, Prod.mk.injEq] at h
      exact Or.inl ⟨hit, h.1.symm, h.2.symm⟩

/-- The write `PartyMemberRoleData[playerGuid] = (desiredRoles, confirmed)` of
`ProcessPlayerRoleRequest` on the join-data map. -/
theorem ProcessPlayerRoleRequest_state {mgr mgr1 : NewLFGMgr} {host : Host}
    {groupGuid playerGuid : ObjectGuid} {desiredRoles : Nat} {out : List Notification}
    (h : ProcessPlayerRoleRequest mgr host groupGuid playerGuid desiredRoles = .ok (mgr1, out)) :
    (mgr1 = mgr ∧ out = []) ∨
    ∃ jd0, mapFind groupGuid mgr.lfgJoinData = some jd0 ∧
      ((desiredRoles = 0 ∧ mgr1 = { mgr with
          lfgJoinData := mapErase groupGuid (recordRole groupGuid playerGuid desiredRoles
            mgr.lfgJoinData),
          lfgRoleCheckTimers := mapErase groupGuid mgr.lfgRoleCheckTimers,
          danglingJoinData :=
            mgr.danglingJoinData ++ referringTickets groupGuid mgr.lfgQueuePlayerData }) ∨
       (desiredRoles ≠ 0 ∧ mgr.nextAvailableTicketId ≠ 2 ^ 32 - 1 ∧
          ∃ queue, mgr1 = { mgr with
            lfgJoinData := recordRole groupGuid playerGuid desiredRoles mgr.lfgJoinData,
            nextAvailableTicketId := (mgr.nextAvailableTicketId + 1) % 2 ^ 32,
            lfgQueuePlayerData :=
              mapEmplace mgr.nextAvailableTicketId
                { JoinData := groupGuid,
                  RideTicket :=
                    { ID := mgr.nextAvailableTicketId, Time := host.GetGameTime,
                      RequesterGUID := groupGuid } } mgr.lfgQueuePlayerData,
            lfgQueue := queue,
            lfgRoleCheckTimers := mapErase groupGuid mgr.lfgRoleCheckTimers,
            danglingJoinData :=
              if (mapFind mgr.nextAvailableTicketId mgr.lfgQueuePlayerData).isSome then
                mgr.danglingJoinData
              else setErase mgr.nextAvailableTicketId mgr.danglingJoinData }) ∨
       (desiredRoles ≠ 0 ∧ mgr1 = { mgr with
          lfgJoinData := recordRole groupGuid playerGuid desiredRoles mgr.lfgJoinData })) := by
  unfold ProcessPlayerRoleRequest at h
  dsimp only at h
  split at h
  · simp only [Except.ok.injEq, Prod.mk.injEq] at h
    exact Or.inl ⟨h.1.symm, h.2.symm⟩
  · split at h
    · simp only [Except.ok.injEq, Prod.mk.injEq] at h
      exact Or.inl ⟨h.1.symm, h.2.symm⟩
    · rename_i jd0 hjd0
      refine Or.inr ⟨jd0, hjd0, ?_⟩
      split at h
      · rename_i h0
        split at h
        · simp at h
        · simp only [Except.ok.injEq, Prod.mk.injEq] at h
          exact Or.inl ⟨h0, h.1.symm⟩
      · rename_i h0
        split at h
        · split at h
          · simp at h
          · split at h
            · simp at h
            · rename_i ticket mgr2 hgen
              obtain ⟨hmax, hticket, hmgr2⟩ := GenerateTicket_state hgen
              split at h
              · simp at h
              · rename_i mgr3 out3 hadd
                obtain ⟨queue, hq⟩ := AddTicketToQueue_state hadd
                simp only [Except.ok.injEq, Prod.mk.injEq] at h
                refine Or.inr (Or.inl ⟨h0, hmax, queue, ?_⟩)
                rw [← h.1, hq, hmgr2, hticket]
        · split at h
          · simp at h
          · simp only [Except.ok.injEq, Prod.mk.injEq] at h
            exact Or.inr (Or.inr ⟨h0, h.1.symm⟩)

theorem pushQueueStatus_eq (mgr : NewLFGMgr) (host : Host) (l : List (Nat × LFGQueuePlayerData)) :
    pushQueueStatus mgr host l =
      (l.map (fun data => (data.1, { data.2 with NeedsQueueUpdate := false })), []) := by
  induction l with
  | nil => rfl
  | cons data rest ih =>
    rw [pushQueueStatus, ih]
    dsimp only
    by_cases hflag : data.2.NeedsQueueUpdate = true
    · simp [hflag, SendQueueStatus]
    · have hf : data.2.NeedsQueueUpdate = false := by simpa using hflag
      simp only [hf, Bool.not_false, if_true, List.map_cons, Prod.mk.injEq, List.cons.injEq,
        and_true]
      obtain ⟨k, d⟩ := data
      cases d
      simp only at hf
      subst hf
      rfl

theorem updateRoleCheckTimers_state (host : Host) (diff : Nat)
    (timers : List (ObjectGuid × Int)) :
    ∀ (mgr mgr1 : NewLFGMgr) (kept : List (ObjectGuid × Int)) (out : List Notification),
      updateRoleCheckTimers host diff timers mgr = .ok (kept, mgr1, out) →
      kept = (timers.map (fun t => (t.1, t.2 - (diff : Int)))).filter
        (fun t => decide (¬ t.2 ≤ 0)) ∧
      mgr1 = { mgr with
        lfgJoinData :=
          (timers.filter (fun t => decide (t.2 - (diff : Int) ≤ 0))).foldl
            (fun jd t => mapErase t.1 jd) mgr.lfgJoinData,
        danglingJoinData :=
          (timers.filter (fun t => decide (t.2 - (diff : Int) ≤ 0))).foldl
            (fun d t => d ++ referringTickets t.1 mgr.lfgQueuePlayerData)
            mgr.danglingJoinData } := by
  induction timers with
  | nil =>
    intro mgr mgr1 kept out h
    simp only [updateRoleCheckTimers, Except.ok.injEq, Prod.mk.injEq] at h
    exact ⟨h.1.symm, h.2.1.symm⟩
  | cons itr rest ih =>
    intro mgr mgr1 kept out h
    rw [updateRoleCheckTimers] at h
    by_cases hexp : itr.2 - (diff : Int) ≤ 0
    · rw [if_pos hexp] at h
      split at h
      · simp at h
      · split at h
        · simp at h
        · rename_i kept1 mgr2 out2 hrest
          simp only [Except.ok.injEq, Prod.mk.injEq] at h
          obtain ⟨hk, hm⟩ := ih _ _ _ _ hrest
          dsimp only [eraseJoinData] at hm
          rw [← h.1, ← h.2.1, hk, hm]
          constructor
          · rw [List.map_cons, List.filter_cons, if_neg (by simpa using hexp)]
          · rw [List.filter_cons, if_pos (by simpa using hexp), List.foldl_cons,
              List.foldl_cons]
    · rw [if_neg hexp] at h
      split at h
      · simp at h
      · rename_i kept1 mgr2 out2 hrest
        simp only [Except.ok.injEq, Prod.mk.injEq] at h
        obtain ⟨hk, hm⟩ := ih _ _ _ _ hrest
        rw [← h.1, ← h.2.1, hk, hm]
        constructor
        · rw [List.map_cons, List.filter_cons, if_pos (by simpa using hexp)]
        · rw [List.filter_cons, if_neg (by simpa using hexp)]

theorem Update_state {mgr mgr1 : NewLFGMgr} {host : Host} {diff : Nat} {out : List Notification}
    (h : Update mgr host diff = .ok (mgr1, out)) :
    mgr1 = { mgr with
      lfgJoinData :=
        (mgr.lfgRoleCheckTimers.filter (fun t => decide (t.2 - (diff : Int) ≤ 0))).foldl
          (fun jd t => mapErase t.1 jd) mgr.lfgJoinData,
      lfgRoleCheckTimers :=
        (mgr.lfgRoleCheckTimers.map (fun t => (t.1, t.2 - (diff : Int)))).filter
          (fun t => decide (¬ t.2 ≤ 0)),
      lfgQueueUpdateInterval :=
        if mgr.lfgQueueUpdateInterval - (diff : Int) ≤ 0 then LFG_QUEUE_UPDATE_INTERVAL
        else mgr.lfgQueueUpdateInterval - (diff : Int),
      lfgQueuePlayerData :=
        if mgr.lfgQueueUpdateInterval - (diff : Int) ≤ 0 then
          mgr.lfgQueuePlayerData.map
            (fun data => (data.1, { data.2 with NeedsQueueUpdate := false }))
        else mgr.lfgQueuePlayerData,
      danglingJoinData :=
        (mgr.lfgRoleCheckTimers.filter (fun t => decide (t.2 - (diff : Int) ≤ 0))).foldl
          (fun d t => d ++ referringTickets t.1 mgr.lfgQueuePlayerData)
          mgr.danglingJoinData } := by
  unfold Update at h
  split at h
  · simp at h
  · rename_i kept mgr2 out1 hloop
    obtain ⟨hk, hm⟩ := updateRoleCheckTimers_state host diff _ _ _ _ _ hloop
    rw [hm] at h
    by_cases hint : mgr.lfgQueueUpdateInterval - (diff : Int) ≤ 0
    · rw [if_pos hint] at h
      simp only [NewLFGQueue.Update, pushQueueStatus_eq, Except.ok.injEq, Prod.mk.injEq] at h
      rw [← h.1, hk, if_pos hint, if_pos hint]
    · rw [if_neg hint] at h
      simp only [Except.ok.injEq, Prod.mk.injEq] at h
      rw [← h.1, hk, if_neg hint, if_neg hint]

/-! ## Runs on the concrete world -/

theorem reachable_runCalls (host : Host) (calls : List Call) :
    ∀ (mgr mgr1 : NewLFGMgr) (out : List Notification), Reachable mgr →
      runCalls host mgr calls = .ok (mgr1, out) → Reachable mgr1 := by
  induction calls with
  | nil =>
    intro mgr mgr1 out h hrun
    simp only [runCalls, Except.ok.injEq, Prod.mk.injEq] at hrun
    exact hrun.1 ▸ h
  | cons call calls ih =>
    intro mgr mgr1 out h hrun
    rw [runCalls] at hrun
    split at hrun
    · exact absurd hrun (by simp)
    · rename_i mgr2 out2 hstep
      split at hrun
      · exact absurd hrun (by simp)
      · rename_i mgr3 out3 hrest
        simp only [Except.ok.injEq, Prod.mk.injEq] at hrun
        exact hrun.1 ▸ ih mgr2 mgr3 out3 (Reachable.step h host call hstep) hrest

theorem reachable_finalState (host : Host) (calls : List Call) (src : LoadSources)
    (h : returned (runCalls host (InitializeDungeonData NewLFGMgr.new src) calls) = true) :
    Reachable (finalState (runCalls host (InitializeDungeonData NewLFGMgr.new src) calls)) := by
  generalize hr : runCalls host (InitializeDungeonData NewLFGMgr.new src) calls = r at h
  match r, hr with
  | .ok (mgr1, out), hr => exact reachable_runCalls host calls _ mgr1 out (Reachable.init src) hr
  | .error _, _ => exact absurd h (by simp [returned])

/-- C3 (counterexample): a solo player who joins twice holds two queue entries that carry the
same `RequesterGUID`, so "no two entries of the ticket map carry the same RequesterGUID" fails
in a reachable state. -/
theorem requester_with_two_tickets :
    ¬ ∀ mgr : NewLFGMgr, Reachable mgr →
      (mgr.lfgQueuePlayerData.map (fun e => e.2.RideTicket.RequesterGUID)).Nodup := by
  intro h
  have hreach : Reachable (finalState doubleJoinRun) :=
    reachable_finalState demoHost _ demoSources (by decide)
  exact absurd (h _ hreach) (by decide)

/-- C4 (the code at the failing input): after a queued group's leader submits the empty role
mask, the queue entry of ticket 0 is still there, not in post-instance retention
(`CurrentDungeonID = 0`), and the join-data map has no JoinRequest under its requester; a leave
request for that ticket then reads the erased JoinRequest through the entry's reference and
does not return. -/
theorem orphaned_ticket_after_empty_mask :
    returned orphanedTicketRun = true ∧
    (finalState orphanedTicketRun).lfgQueuePlayerData.map
      (fun e => (e.1, e.2.RideTicket.RequesterGUID, e.2.CurrentDungeonID, e.2.InstanceCompleted))
      = [(0, ObjectGuid.Group 1, 0, false)] ∧
    mapFind (ObjectGuid.Group 1) (finalState orphanedTicketRun).lfgJoinData = none ∧
    returned (ProcessLFGLeaveRequest (finalState orphanedTicketRun) demoHost 0
      (ObjectGuid.Group 1)) = false := by
  decide

/-- C9 (the code at the failing input): after a role check is cancelled by a leave request
(`Aborted` is emitted and the JoinRequest is erased) the role-check timer of the group is still
in the timer map. -/
theorem timer_left_after_aborted_role_check :
    returned abortedRoleCheckRun = true ∧
    roleCheckStates (emitted abortedRoleCheckRun)
      = [LFGRoleCheckState.Initializing, LFGRoleCheckState.Initializing,
          LFGRoleCheckState.Aborted, LFGRoleCheckState.Aborted] ∧
    mapFind (ObjectGuid.Group 1) (finalState abortedRoleCheckRun).lfgJoinData = none ∧
    mapFind (ObjectGuid.Group 1) (finalState abortedRoleCheckRun).lfgRoleCheckTimers
      = some LFG_ROLE_CHECK_TIME_LIMIT := by
  decide

/-- C7 (counterexample): a successful random join whose stored selection is not the expansion
set of the random dungeon: the expansion of 301 is 101 and 102, the JoinRequest stores 101 only,
because 102 is locked for the player; and a join whose selection has the two elements 301 and
999 (no catalog record) succeeds as a random join. -/
theorem random_join_drops_locked_member :
    returned randomJoinRun = true ∧
    (mapFind (ObjectGuid.Player 1) (finalState randomJoinRun).lfgJoinData).map
      (fun jd => (jd.RandomDungeonID, jd.SelectedDungeonIDs)) = some (301, [101]) ∧
    mapFind 301 (finalState randomJoinRun).lfgDungeonsIdsForRandomDungeonId = some [101, 102] ∧
    returned randomJoinUnknownRun = true ∧
    (mapFind (ObjectGuid.Player 1) (finalState randomJoinUnknownRun).lfgJoinData).map
      (fun jd => jd.RandomDungeonID) = some 301 := by
  decide

/-- C2 (the code at the failing input): the last member of a role check picks the tank role
that the leader already holds; the resulting masks fail `IsRoleCheckValid`, yet the role check
ends with `Finished` (never `WrongRoles`), ticket 0 is generated and a queue entry is created. -/
theorem roleRequest_invalid_roles_enqueued :
    returned wrongRolesRun = true ∧
    (mapFind (ObjectGuid.Group 1) (finalState wrongRolesRun).lfgJoinData).map
      (fun jd => IsRoleCheckValid (roleTable jd) 3 1 1) = some (some false) ∧
    roleCheckStates (emitted wrongRolesRun)
      = [LFGRoleCheckState.Initializing, LFGRoleCheckState.Initializing,
          LFGRoleCheckState.Finished, LFGRoleCheckState.Finished] ∧
    mapKeys (finalState wrongRolesRun).lfgQueuePlayerData = [0] ∧
    (finalState wrongRolesRun).nextAvailableTicketId = 1 := by
  decide

/-! ## Association lists -/

theorem mapFind_none_iff {κ α : Type} [DecidableEq κ] (k : κ) (m : List (κ × α)) :
    mapFind k m = none ↔ k ∉ mapKeys m := by
  induction m with
  | nil => simp [mapFind, mapKeys]
  | cons e m ih =>
    unfold mapFind
    by_cases h : e.1 = k
    · simp [h, mapKeys]
    · rw [if_neg h, ih]
      simp only [mapKeys, List.map_cons, List.mem_cons, not_or]
      exact ⟨fun hm => ⟨fun hk => h hk.symm, hm⟩, fun hm => hm.2⟩

theorem mapFind_some_mem {κ α : Type} [DecidableEq κ] {k : κ} {m : List (κ × α)} {v : α}
    (h : mapFind k m = some v) : (k, v) ∈ m := by
  induction m with
  | nil => simp [mapFind] at h
  | cons e m ih =>
    unfold mapFind at h
    by_cases hk : e.1 = k
    · rw [if_pos hk] at h
      simp only [Option.some.injEq] at h
      rw [← hk, ← h]
      exact List.mem_cons_self _ _
    · rw [if_neg hk] at h
      exact List.mem_cons_of_mem _ (ih h)

theorem mapKeys_mapAdjust {κ α : Type} [DecidableEq κ] (k : κ) (f : α → α) (m : List (κ × α)) :
    mapKeys (mapAdjust k f m) = mapKeys m := by
  induction m with
  | nil => rfl
  | cons e m ih =>
    unfold mapAdjust
    by_cases h : e.1 = k
    · rw [if_pos h]; rfl
    · rw [if_neg h]
      simp only [mapKeys, List.map_cons] at ih ⊢
      rw [ih]

theorem mapKeys_mapErase {κ α : Type} [DecidableEq κ] (k : κ) (m : List (κ × α)) :
    mapKeys (mapErase k m) = (mapKeys m).filter (fun x => decide (x ≠ k)) := by
  simp only [mapErase, mapKeys, List.filter_map]
  rfl

theorem mapKeys_mapModify {κ α : Type} [DecidableEq κ] (k : κ) (d : α) (f : α → α)
    (m : List (κ × α)) :
    mapKeys (mapModify k d f m) = if k ∈ mapKeys m then mapKeys m else mapKeys m ++ [k] := by
  induction m with
  | nil => simp [mapModify, mapKeys]
  | cons e m ih =>
    unfold mapModify
    by_cases h : e.1 = k
    · rw [if_pos h]
      simp [mapKeys, h]
    · rw [if_neg h]
      simp only [mapKeys, List.map_cons, List.mem_cons] at ih ⊢
      rw [ih]
      have hne : ¬ k = e.1 := fun hk => h hk.symm
      by_cases hm : k ∈ List.map Prod.fst m
      · simp [hm]
      · simp [hm, hne]

theorem mapKeys_mapEmplace {κ α : Type} [DecidableEq κ] (k : κ) (v : α) (m : List (κ × α)) :
    mapKeys (mapEmplace k v m) = if k ∈ mapKeys m then mapKeys m else mapKeys m ++ [k] := by
  unfold mapEmplace
  split
  · rename_i w hw
    have : k ∈ mapKeys m := by
      by_contra hc
      rw [(mapFind_none_iff k m).2 hc] at hw
      simp at hw
    rw [if_pos this]
  · rename_i hw
    rw [if_neg ((mapFind_none_iff k m).1 hw)]
    simp [mapKeys]

theorem nodup_keys_step {κ : Type} [DecidableEq κ] (k : κ) (l : List κ) (h : l.Nodup) :
    (if k ∈ l then l else l ++ [k]).Nodup := by
  split_ifs with hk
  · exact h
  · rw [List.nodup_append]
    refine ⟨h, List.nodup_singleton k, ?_⟩
    intro a ha hb
    simp only [List.mem_singleton] at hb
    exact hk (hb ▸ ha)

theorem nodup_mapModify {κ α : Type} [DecidableEq κ] (k : κ) (d : α) (f : α → α)
    (m : List (κ × α)) (h : (mapKeys m).Nodup) : (mapKeys (mapModify k d f m)).Nodup := by
  rw [mapKeys_mapModify]
  exact nodup_keys_step k _ h

theorem nodup_mapEmplace {κ α : Type} [DecidableEq κ] (k : κ) (v : α)
    (m : List (κ × α)) (h : (mapKeys m).Nodup) : (mapKeys (mapEmplace k v m)).Nodup := by
  rw [mapKeys_mapEmplace]
  exact nodup_keys_step k _ h

theorem nodup_mapErase {κ α : Type} [DecidableEq κ] (k : κ) (m : List (κ × α))
    (h : (mapKeys m).Nodup) : (mapKeys (mapErase k m)).Nodup := by
  rw [mapKeys_mapErase]
  exact h.filter _

theorem nodup_mapAdjust {κ α : Type} [DecidableEq κ] (k : κ) (f : α → α)
    (m : List (κ × α)) (h : (mapKeys m).Nodup) : (mapKeys (mapAdjust k f m)).Nodup := by
  rw [mapKeys_mapAdjust]
  exact h

theorem nodup_foldl_mapErase {κ α β : Type} [DecidableEq κ] (g : β → κ) (l : List β) :
    ∀ (m : List (κ × α)), (mapKeys m).Nodup →
      (mapKeys (l.foldl (fun jd t => mapErase (g t) jd) m)).Nodup := by
  induction l with
  | nil => intro m h; exact h
  | cons t l ih =>
    intro m h
    rw [List.foldl_cons]
    exact ih _ (nodup_mapErase _ _ h)

/-! ## Membership in updated association lists -/

theorem mem_mapEmplace {κ α : Type} [DecidableEq κ] {k : κ} {v : α} {m : List (κ × α)}
    {e : κ × α} (h : e ∈ mapEmplace k v m) : e ∈ m ∨ e = (k, v) := by
  unfold mapEmplace at h
  split at h
  · exact Or.inl h
  · simpa using h

theorem mem_mapAdjust {κ α : Type} [DecidableEq κ] {k : κ} {f : α → α} {m : List (κ × α)}
    {e : κ × α} (h : e ∈ mapAdjust k f m) : e ∈ m ∨ ∃ v, (k, v) ∈ m ∧ e = (k, f v) := by
  induction m with
  | nil => simp [mapAdjust] at h
  | cons a m ih =>
    unfold mapAdjust at h
    by_cases hk : a.1 = k
    · rw [if_pos hk] at h
      rcases List.mem_cons.1 h with h1 | h1
      · refine Or.inr ⟨a.2, ?_, ?_⟩
        · rw [← hk]; exact List.mem_cons_self _ _
        · rw [h1, hk]
      · exact Or.inl (List.mem_cons_of_mem _ h1)
    · rw [if_neg hk] at h
      rcases List.mem_cons.1 h with h1 | h1
      · exact Or.inl (h1 ▸ List.mem_cons_self _ _)
      · rcases ih h1 with h2 | ⟨v, hv, he⟩
        · exact Or.inl (List.mem_cons_of_mem _ h2)
        · exact Or.inr ⟨v, List.mem_cons_of_mem _ hv, he⟩

theorem mem_mapModify {κ α : Type} [DecidableEq κ] {k : κ} {d : α} {f : α → α}
    {m : List (κ × α)} {e : κ × α} (h : e ∈ mapModify k d f m) :
    e ∈ m ∨ (∃ v, (k, v) ∈ m ∧ e = (k, f v)) ∨ e = (k, f d) := by
  induction m with
  | nil =>
    simp only [mapModify, List.mem_singleton] at h
    exact Or.inr (Or.inr h)
  | cons a m ih =>
    unfold mapModify at h
    by_cases hk : a.1 = k
    · rw [if_pos hk] at h
      rcases List.mem_cons.1 h with h1 | h1
      · refine Or.inr (Or.inl ⟨a.2, ?_, ?_⟩)
        · rw [← hk]; exact List.mem_cons_self _ _
        · rw [h1, hk]
      · exact Or.inl (List.mem_cons_of_mem _ h1)
    · rw [if_neg hk] at h
      rcases List.mem_cons.1 h with h1 | h1
      · exact Or.inl (h1 ▸ List.mem_cons_self _ _)
      · rcases ih h1 with h2 | ⟨v, hv, he⟩ | h2
        · exact Or.inl (List.mem_cons_of_mem _ h2)
        · exact Or.inr (Or.inl ⟨v, List.mem_cons_of_mem _ hv, he⟩)
        · exact Or.inr (Or.inr h2)

theorem mem_mapErase {κ α : Type} [DecidableEq κ] {k : κ} {m : List (κ × α)}
    {e : κ × α} (h : e ∈ mapErase k m) : e ∈ m :=
  (List.mem_filter.1 h).1

theorem mem_foldl_mapErase {κ α β : Type} [DecidableEq κ] (g : β → κ) (l : List β) :
    ∀ (m : List (κ × α)) (e : κ × α),
      e ∈ l.foldl (fun jd t => mapErase (g t) jd) m → e ∈ m := by
  induction l with
  | nil => intro m e h; exact h
  | cons t l ih =>
    intro m e h
    rw [List.foldl_cons] at h
    exact mem_mapErase (ih _ _ h)

theorem mapFind_mapModify_self {κ α : Type} [DecidableEq κ] (k : κ) (d : α) (f : α → α)
    (m : List (κ × α)) :
    mapFind k (mapModify k d f m) = some (f ((mapFind k m).getD d)) := by
  induction m with
  | nil => simp [mapModify, mapFind]
  | cons a m ih =>
    unfold mapModify
    by_cases hk : a.1 = k
    · rw [if_pos hk]
      simp [mapFind, hk]
    · rw [if_neg hk]
      simp only [mapFind, if_neg hk]
      exact ih

theorem mapFind_isSome_of_keys {κ α β : Type} [DecidableEq κ] {k : κ} {m : List (κ × α)}
    {m1 : List (κ × β)} (hkeys : mapKeys m1 = mapKeys m) :
    (mapFind k m1).isSome = (mapFind k m).isSome := by
  by_cases h : k ∈ mapKeys m
  · have h1 : mapFind k m ≠ none := fun hn => (mapFind_none_iff k m).1 hn h
    have h2 : mapFind k m1 ≠ none := fun hn => (mapFind_none_iff k m1).1 hn (hkeys ▸ h)
    rw [Option.isSome_iff_ne_none.2 h1, Option.isSome_iff_ne_none.2 h2]
  · rw [(mapFind_none_iff k m).2 h, (mapFind_none_iff k m1).2 (hkeys ▸ h)]
    rfl

theorem mapFind_isSome_mapEmplace {κ α : Type} [DecidableEq κ] {k k1 : κ} {v : α}
    {m : List (κ × α)} (h : (mapFind k m).isSome = true) :
    (mapFind k (mapEmplace k1 v m)).isSome = true := by
  have hk : k ∈ mapKeys m := by
    by_contra hc
    rw [(mapFind_none_iff k m).2 hc] at h
    simp at h
  have : k ∈ mapKeys (mapEmplace k1 v m) := by
    rw [mapKeys_mapEmplace]
    split_ifs
    · exact hk
    · exact List.mem_append_left _ hk
  apply Option.isSome_iff_ne_none.2
  intro hn
  exact (mapFind_none_iff _ _).1 hn this

/-! ## One JoinRequest per requester, one queue entry per ticket id -/

theorem InitializeDungeonData_queue_fields (mgr : NewLFGMgr) (src : LoadSources) :
    (InitializeDungeonData mgr src).lfgJoinData = mgr.lfgJoinData ∧
    (InitializeDungeonData mgr src).lfgQueuePlayerData = mgr.lfgQueuePlayerData ∧
    (InitializeDungeonData mgr src).lfgRoleCheckTimers = mgr.lfgRoleCheckTimers ∧
    (InitializeDungeonData mgr src).nextAvailableTicketId = mgr.nextAvailableTicketId := by
  unfold InitializeDungeonData
  split_ifs <;> exact ⟨rfl, rfl, rfl, rfl⟩

theorem keysDistinct_step {mgr mgr1 : NewLFGMgr} {host : Host} {call : Call}
    {out : List Notification} (hrun : call.run mgr host = .ok (mgr1, out))
    (h : KeysDistinct mgr) : KeysDistinct mgr1 := by
  obtain ⟨hj, hq⟩ := h
  cases call with
  | Join player group dungeonIds roleMask =>
    obtain ⟨c, _, hcase⟩ := ProcessLFGJoinRequest_state hrun
    rcases hcase with ⟨_, hm⟩ | ⟨_, _, _, queue, hm⟩ | ⟨_, _, hm⟩ <;> subst hm
    · exact ⟨hj, hq⟩
    · exact ⟨nodup_mapModify _ _ _ _ hj, nodup_mapEmplace _ _ _ hq⟩
    · exact ⟨nodup_mapModify _ _ _ _ hj, hq⟩
  | Leave ticketId groupGuid =>
    rcases ProcessLFGLeaveRequest_state hrun with ⟨_, hm⟩ | ⟨_, hcase⟩
    · subst hm
      exact ⟨nodup_mapErase _ _ hj, hq⟩
    · rcases hcase with ⟨_, hm, _⟩ | ⟨it, _, ⟨_, hm⟩ | ⟨_, hm⟩⟩ <;> subst hm
      · exact ⟨hj, hq⟩
      · exact ⟨nodup_mapErase _ _ hj, nodup_mapErase _ _ hq⟩
      · exact ⟨hj, hq⟩
  | SetRoles groupGuid playerGuid desiredRoles =>
    rcases ProcessPlayerRoleRequest_state hrun with ⟨hm, _⟩ | ⟨jd0, _, hcase⟩
    · subst hm
      exact ⟨hj, hq⟩
    · rcases hcase with ⟨_, hm⟩ | ⟨_, _, queue, hm⟩ | ⟨_, hm⟩ <;> subst hm
      · exact ⟨nodup_mapErase _ _ (nodup_mapAdjust _ _ _ hj), hq⟩
      · exact ⟨nodup_mapAdjust _ _ _ hj, nodup_mapEmplace _ _ _ hq⟩
      · exact ⟨nodup_mapAdjust _ _ _ hj, hq⟩
  | Tick diff =>
    have hm := Update_state hrun
    subst hm
    refine ⟨nodup_foldl_mapErase _ _ _ hj, ?_⟩
    dsimp only
    split_ifs
    · simpa [mapKeys, List.map_map, Function.comp_def] using hq
    · exact hq

/-- Every queue entry is stored under the id of its ticket. -/
theorem ticketKeyed_step {mgr mgr1 : NewLFGMgr} {host : Host} {call : Call}
    {out : List Notification} (hrun : call.run mgr host = .ok (mgr1, out))
    (h : ∀ e ∈ mgr.lfgQueuePlayerData, e.2.RideTicket.ID = e.1) :
    ∀ e ∈ mgr1.lfgQueuePlayerData, e.2.RideTicket.ID = e.1 := by
  have hemplace : ∀ (guid : ObjectGuid) (time : Int),
      ∀ e ∈ mapEmplace mgr.nextAvailableTicketId
        ({ JoinData := guid,
           RideTicket := { ID := mgr.nextAvailableTicketId, Time := time, RequesterGUID := guid } } :
          LFGQueuePlayerData) mgr.lfgQueuePlayerData, e.2.RideTicket.ID = e.1 := by
    intro guid time e he
    rcases mem_mapEmplace he with h1 | h1
    · exact h e h1
    · rw [h1]
  cases call with
  | Join player group dungeonIds roleMask =>
    obtain ⟨c, _, hcase⟩ := ProcessLFGJoinRequest_state hrun
    rcases hcase with ⟨_, hm⟩ | ⟨_, _, _, queue, hm⟩ | ⟨_, _, hm⟩ <;> subst hm
    · exact h
    · exact hemplace _ _
    · exact h
  | Leave ticketId groupGuid =>
    rcases ProcessLFGLeaveRequest_state hrun with ⟨_, hm⟩ | ⟨_, hcase⟩
    · subst hm
      exact h
    · rcases hcase with ⟨_, hm, _⟩ | ⟨it, _, ⟨_, hm⟩ | ⟨_, hm⟩⟩ <;> subst hm
      · exact h
      · exact fun e he => h e (mem_mapErase he)
      · exact h
  | SetRoles groupGuid playerGuid desiredRoles =>
    rcases ProcessPlayerRoleRequest_state hrun with ⟨hm, _⟩ | ⟨jd0, _, hcase⟩
    · subst hm
      exact h
    · rcases hcase with ⟨_, hm⟩ | ⟨_, _, queue, hm⟩ | ⟨_, hm⟩ <;> subst hm
      · exact h
      · exact hemplace _ _
      · exact h
  | Tick diff =>
    have hm := Update_state hrun
    subst hm
    dsimp only
    split_ifs
    · intro e he
      obtain ⟨e0, he0, rfl⟩ := List.mem_map.1 he
      exact h e0 he0
    · exact h

theorem reachable_ticketKeyed (mgr : NewLFGMgr) (h : Reachable mgr) :
    ∀ e ∈ mgr.lfgQueuePlayerData, e.2.RideTicket.ID = e.1 := by
  induction h with
  | init src =>
    rw [(InitializeDungeonData_queue_fields NewLFGMgr.new src).2.1]
    intro e he
    simp [NewLFGMgr.new] at he
  | step _ host call hrun ih => exact ticketKeyed_step hrun ih

theorem reachable_keysDistinct (mgr : NewLFGMgr) (h : Reachable mgr) : KeysDistinct mgr := by
  induction h with
  | init src =>
    obtain ⟨hj, hq, _, _⟩ := InitializeDungeonData_queue_fields NewLFGMgr.new src
    unfold KeysDistinct
    rw [hj, hq]
    exact ⟨List.nodup_nil, List.nodup_nil⟩
  | step _ host call hrun ih => exact keysDistinct_step hrun ih

/-- C3 (amended): in every manager state reachable from the initial state by any sequence of
join, leave, role-selection and update calls, each requester guid has at most one JoinRequest
(the keys of the join-data map are pairwise distinct) and each ticket id has at most one queue
entry (no two entries of the ticket map carry the same ticket id). -/
theorem reachable_keys_distinct (mgr : NewLFGMgr) (h : Reachable mgr) :
    (mapKeys mgr.lfgJoinData).Nodup ∧
    (mgr.lfgQueuePlayerData.map (fun e => e.2.RideTicket.ID)).Nodup := by
  obtain ⟨hj, hq⟩ := reachable_keysDistinct mgr h
  refine ⟨hj, ?_⟩
  have hkeyed := reachable_ticketKeyed mgr h
  have : mgr.lfgQueuePlayerData.map (fun e => e.2.RideTicket.ID) = mapKeys mgr.lfgQueuePlayerData := by
    unfold mapKeys
    exact List.map_congr_left hkeyed
  rw [this]
  exact hq

/-- Witness of `reachable_keys_distinct` on the state reached by a double join. -/
theorem reachable_keys_distinct_witness :
    Reachable (finalState doubleJoinRun) ∧
    (mapKeys (finalState doubleJoinRun).lfgJoinData).Nodup ∧
    ((finalState doubleJoinRun).lfgQueuePlayerData.map (fun e => e.2.RideTicket.ID)).Nodup :=
  ⟨reachable_finalState demoHost _ demoSources (by decide),
    reachable_keys_distinct (finalState doubleJoinRun)
      (reachable_finalState demoHost _ demoSources (by decide))⟩

/-! ## The loader builds well-formed caches -/

theorem loadTemplateRows_keyed (src : LoadSources) (rows : List DungeonTemplateRow) :
    ∀ data : List (Nat × LFGDungeonData), (∀ e ∈ data, e.2.DungeonEntry.ID = e.1) →
      ∀ e ∈ loadTemplateRows src rows data, e.2.DungeonEntry.ID = e.1 := by
  induction rows with
  | nil => intro data h; exact h
  | cons row rows ih =>
    intro data h
    rw [loadTemplateRows]
    split
    · exact ih data h
    · rename_i entry _
      split
      · split
        · exact ih data h
        · apply ih
          intro e he
          rcases mem_mapEmplace he with h1 | h1
          · exact h e h1
          · rw [h1]
      · apply ih
        intro e he
        rcases mem_mapEmplace he with h1 | h1
        · exact h e h1
        · rw [h1]

theorem loadRewardRows_keyed (rows : List DungeonRewardRow) :
    ∀ data : List (Nat × LFGDungeonData), (∀ e ∈ data, e.2.DungeonEntry.ID = e.1) →
      ∀ e ∈ loadRewardRows rows data, e.2.DungeonEntry.ID = e.1 := by
  induction rows with
  | nil => intro data h; exact h
  | cons row rows ih =>
    intro data h
    rw [loadRewardRows]
    split
    · exact ih data h
    · apply ih
      intro e he
      rcases mem_mapAdjust he with h1 | ⟨v, hv, h1⟩
      · exact h e h1
      · rw [h1]
        exact h (row.dungeonId, v) hv

theorem groupsIn_insert {data : List (Nat × LFGDungeonData)} {index : List (Nat × List Nat)}
    (randomId id : Nat) (hid : (mapFind id data).isSome = true) (h : GroupsIn data index) :
    GroupsIn data (randomGroupInsert randomId id index) := by
  intro e he x hx
  unfold randomGroupInsert at he
  rcases mem_mapModify he with h1 | ⟨v, hv, h1⟩ | h1
  · exact h e h1 x hx
  · rw [h1] at hx
    simp only [setInsert] at hx
    split_ifs at hx
    · exact h _ hv x hx
    · rcases List.mem_append.1 hx with h2 | h2
      · exact h _ hv x h2
      · simp only [List.mem_singleton] at h2
        rw [h2]; exact hid
  · rw [h1] at hx
    simp only [setInsert, List.not_mem_nil, if_false, List.nil_append,
      List.mem_singleton] at hx
    rw [hx]; exact hid

theorem groupsIn_fromStore (data : List (Nat × LFGDungeonData)) (randomId : Nat)
    (store : List LFGDungeonEntry) :
    ∀ index, GroupsIn data index → GroupsIn data (randomGroupFromStore data randomId store index) := by
  induction store with
  | nil => intro index h; exact h
  | cons entry rest ih =>
    intro index h
    rw [randomGroupFromStore]
    split_ifs with hc
    · exact ih _ (groupsIn_insert randomId entry.ID hc.1 h)
    · exact ih _ h

theorem groupsIn_fromGrouping (data : List (Nat × LFGDungeonData)) (randomId : Nat)
    (store : List LFGDungeonsGroupingMapEntry) :
    ∀ index, GroupsIn data index →
      GroupsIn data (randomGroupFromGrouping data randomId store index) := by
  induction store with
  | nil => intro index h; exact h
  | cons entry rest ih =>
    intro index h
    rw [randomGroupFromGrouping]
    split_ifs with hc
    · exact ih _ (groupsIn_insert randomId entry.LfgDungeonsID hc.2 h)
    · exact ih _ h

theorem groupsIn_build (src : LoadSources) (data : List (Nat × LFGDungeonData))
    (itrs : List (Nat × LFGDungeonData)) :
    ∀ index, GroupsIn data index → GroupsIn data (buildRandomGroups src data itrs index) := by
  induction itrs with
  | nil => intro index h; exact h
  | cons itr rest ih =>
    intro index h
    rw [buildRandomGroups]
    split_ifs
    · exact ih _ h
    · exact ih _ (groupsIn_fromGrouping _ _ _ _ (groupsIn_fromStore _ _ _ _ h))

theorem InitializeDungeonData_wellFormed (src : LoadSources) :
    CachesWellFormed (InitializeDungeonData NewLFGMgr.new src) := by
  have hnil : ∀ e ∈ ([] : List (Nat × LFGDungeonData)), e.2.DungeonEntry.ID = e.1 := by
    intro e he; simp at he
  unfold InitializeDungeonData
  split_ifs
  · exact ⟨by intro e he; simp [NewLFGMgr.new] at he, by intro e he; simp [NewLFGMgr.new] at he,
      by intro e he; simp [NewLFGMgr.new] at he⟩
  · exact ⟨loadTemplateRows_keyed src _ _ hnil, by intro e he; simp [NewLFGMgr.new] at he,
      by intro e he; simp [NewLFGMgr.new] at he⟩
  · refine ⟨loadRewardRows_keyed _ _ (loadTemplateRows_keyed src _ _ hnil), ?_,
      by intro e he; simp [NewLFGMgr.new] at he⟩
    exact groupsIn_build src _ _ _ (by intro e he; simp [NewLFGMgr.new] at he)

/-! ## Dungeon selection -/

theorem scanSelection_random (data : List (Nat × LFGDungeonData)) (size : Nat)
    (ids : List Nat) : ∀ scan0 scan : SelectionScan,
    scanSelection data size ids scan0 = .ok (none, scan) →
    scan.randomDungeonId ≠ scan0.randomDungeonId →
    size ≤ 1 ∧ ∃ x ∈ ids, ∃ d, mapFind x data = some d ∧
      d.DungeonEntry.TypeID = LFGType.Random ∧ d.DungeonEntry.ID = scan.randomDungeonId := by
  induction ids with
  | nil =>
    intro scan0 scan h hne
    simp only [scanSelection, Except.ok.injEq, Prod.mk.injEq, true_and] at h
    exact absurd (by rw [h]) hne
  | cons x rest ih =>
    intro scan0 scan h hne
    rw [scanSelection] at h
    split at h
    · simp at h
    · rename_i d hd
      split_ifs at h with h1 h2 h3 h4
      · obtain ⟨hs, y, hy, hrest⟩ := ih _ _ h hne
        exact ⟨hs, y, List.mem_cons_of_mem _ hy, hrest⟩
      · obtain ⟨hs, y, hy, hrest⟩ := ih _ _ h hne
        exact ⟨hs, y, List.mem_cons_of_mem _ hy, hrest⟩
      · simp at h
      · by_cases hlast : scan.randomDungeonId = d.DungeonEntry.ID
        · exact ⟨by omega, x, List.mem_cons_self _ _, d, hd, h3, hlast.symm⟩
        · obtain ⟨hs, y, hy, hrest⟩ := ih _ _ h hlast
          exact ⟨hs, y, List.mem_cons_of_mem _ hy, hrest⟩
      · simp at h

theorem scanSelection_error (data : List (Nat × LFGDungeonData)) (size : Nat)
    (ids : List Nat) : ∀ (scan0 scan : SelectionScan) (r : LFGJoinResult),
    scanSelection data size ids scan0 = .ok (some r, scan) → r = LFGJoinResult.InternalError := by
  induction ids with
  | nil =>
    intro scan0 scan r h
    simp [scanSelection] at h
  | cons x rest ih =>
    intro scan0 scan r h
    rw [scanSelection] at h
    split at h
    · simp at h
    · split_ifs at h
      · exact ih _ _ _ h
      · exact ih _ _ _ h
      · simp only [Except.ok.injEq, Prod.mk.injEq, Option.some.injEq] at h
        exact h.1.symm
      · exact ih _ _ _ h
      · simp only [Except.ok.injEq, Prod.mk.injEq, Option.some.injEq] at h
        exact h.1.symm

theorem ValidateAndBuildDungeonSelection_state {mgr : NewLFGMgr} {dungeonIds : List Nat}
    {sel : SelectionOutcome} (h : ValidateAndBuildDungeonSelection mgr dungeonIds = .ok sel) :
    (sel.result ≠ LFGJoinResult.OK ∧ sel.index = mgr.lfgDungeonsIdsForRandomDungeonId ∧
      sel.dungeonIdSet = dungeonIds.filter (fun id => (mapFind id mgr.lfgDungeonData).isSome)) ∨
    (sel.result = LFGJoinResult.OK ∧ sel.randomDungeonId = 0 ∧
      sel.index = mgr.lfgDungeonsIdsForRandomDungeonId ∧
      sel.dungeonIdSet = dungeonIds.filter (fun id => (mapFind id mgr.lfgDungeonData).isSome)) ∨
    (sel.result = LFGJoinResult.OK ∧ sel.randomDungeonId ≠ 0 ∧
      (dungeonIds.filter (fun id => (mapFind id mgr.lfgDungeonData).isSome)).length = 1 ∧
      (∃ x d, x ∈ dungeonIds.filter (fun id => (mapFind id mgr.lfgDungeonData).isSome) ∧
        mapFind x mgr.lfgDungeonData = some d ∧ d.DungeonEntry.TypeID = LFGType.Random ∧
        d.DungeonEntry.ID = sel.randomDungeonId) ∧
      sel.index = mapModify sel.randomDungeonId [] id mgr.lfgDungeonsIdsForRandomDungeonId ∧
      sel.dungeonIdSet = expansionSet mgr sel.randomDungeonId) := by
  unfold ValidateAndBuildDungeonSelection at h
  dsimp only at h
  split_ifs at h with hempty
  · simp only [Except.ok.injEq] at h
    subst h
    exact Or.inl ⟨by simp, rfl, rfl⟩
  · split at h
    · simp at h
    · rename_i r scan hscan
      simp only [Except.ok.injEq] at h
      subst h
      have hr := scanSelection_error _ _ _ _ _ _ hscan
      exact Or.inl ⟨by simp [hr], rfl, rfl⟩
    · rename_i scan hscan
      generalize ((if scan.hasDungeon = true then 1 else 0) + (if scan.hasRaid = true then 1 else 0)
        + (if scan.randomDungeonId ≠ 0 then 1 else 0) : Nat) = cnt at h
      by_cases hcount : cnt > 1
      · rw [if_pos hcount] at h
        simp only [Except.ok.injEq] at h
        subst h
        exact Or.inl ⟨by simp, rfl, rfl⟩
      · rw [if_neg hcount] at h
        by_cases hrand : scan.randomDungeonId ≠ 0
        · rw [if_pos hrand] at h
          simp only [Except.ok.injEq] at h
          subst h
          obtain ⟨hsize, x, hx, d, hd, hty, hid⟩ :=
            scanSelection_random _ _ _ _ _ hscan (by simpa using hrand)
          refine Or.inr (Or.inr ⟨rfl, hrand, ?_, ⟨x, d, hx, hd, hty, hid⟩, rfl, ?_⟩)
          · have hpos : 0 < (dungeonIds.filter
                (fun id => (mapFind id mgr.lfgDungeonData).isSome)).length :=
              List.length_pos.2 hempty
            omega
          · simp only [expansionSet]
            rw [mapFind_mapModify_self]
            rfl
        · rw [if_neg hrand] at h
          simp only [Except.ok.injEq] at h
          subst h
          exact Or.inr (Or.inl ⟨rfl, rfl, rfl, rfl⟩)

/-! ## The checks of a join request -/

theorem mem_setErase (x id : Nat) (s : List Nat) : id ∈ setErase x s ↔ id ∈ s ∧ id ≠ x := by
  simp [setErase]

theorem mem_foldl_setErase (lm : LockMap) : ∀ (ids : List Nat) (id : Nat),
    id ∈ lm.foldl (fun ids1 it => setErase (it.1 &&& 0x00FFFFFF) ids1) ids ↔
      id ∈ ids ∧ ∀ it ∈ lm, it.1 &&& 0x00FFFFFF ≠ id := by
  induction lm with
  | nil => intro ids id; simp
  | cons it rest ih =>
    intro ids id
    rw [List.foldl_cons, ih, mem_setErase]
    simp only [List.mem_cons, forall_eq_or_imp]
    constructor
    · rintro ⟨⟨h1, h2⟩, h3⟩
      exact ⟨h1, fun h => h2 h.symm, h3⟩
    · rintro ⟨h1, h2, h3⟩
      exact ⟨⟨h1, fun h => h2 h.symm⟩, h3⟩

theorem mem_eraseLockedDungeons (lockdata : List (ObjectGuid × LockMap)) :
    ∀ (ids : List Nat) (id : Nat),
    id ∈ eraseLockedDungeons lockdata ids ↔
      id ∈ ids ∧ ∀ e ∈ lockdata, ∀ it ∈ e.2, it.1 &&& 0x00FFFFFF ≠ id := by
  induction lockdata with
  | nil => intro ids id; simp [eraseLockedDungeons]
  | cons e rest ih =>
    intro ids id
    unfold eraseLockedDungeons at ih ⊢
    rw [List.foldl_cons, ih, mem_foldl_setErase]
    simp only [List.mem_cons, forall_eq_or_imp]
    tauto

theorem joinChecks_state {mgr : NewLFGMgr} {host : Host} {player : Player}
    {group : Option Group} {dungeonIds : List Nat} {roleMask : Nat} {c : JoinChecks}
    (h : joinChecks mgr host player group dungeonIds roleMask = .ok c) :
    (GetPlayerAndGroupJoinResult host player group roleMask ≠ LFGJoinResult.OK ∧
      c.result = GetPlayerAndGroupJoinResult host player group roleMask ∧
      c.randomDungeonId = 0 ∧ c.dungeonIds = dungeonIds ∧ c.lockdata = [] ∧
      c.index = mgr.lfgDungeonsIdsForRandomDungeonId) ∨
    (GetPlayerAndGroupJoinResult host player group roleMask = LFGJoinResult.OK ∧
      ∃ sel, ValidateAndBuildDungeonSelection mgr dungeonIds = .ok sel ∧
        c.randomDungeonId = sel.randomDungeonId ∧ c.index = sel.index ∧
        ((sel.result ≠ LFGJoinResult.OK ∧ c.result = sel.result ∧
            c.dungeonIds = sel.dungeonIdSet ∧ c.lockdata = []) ∨
         (sel.result = LFGJoinResult.OK ∧
            memberLocks mgr host player group c.guid sel.dungeonIdSet = .ok c.lockdata ∧
            c.dungeonIds = eraseLockedDungeons c.lockdata sel.dungeonIdSet ∧
            c.result = if locksFailJoin c.lockdata c.dungeonIds sel.randomDungeonId then
              LFGJoinResult.NotMeetRequirements else LFGJoinResult.OK))) := by
  unfold joinChecks at h
  dsimp only at h
  by_cases hbase : GetPlayerAndGroupJoinResult host player group roleMask = LFGJoinResult.OK
  · rw [if_neg (by simpa using hbase)] at h
    split at h
    · simp at h
    · rename_i sel hsel
      refine Or.inr ⟨hbase, sel, hsel, ?_⟩
      by_cases hres : sel.result = LFGJoinResult.OK
      · rw [if_neg (by simpa using hres)] at h
        split at h
        · simp at h
        · rename_i lockdata hlocks
          simp only [Except.ok.injEq] at h
          subst h
          exact ⟨rfl, rfl, Or.inr ⟨hres, hlocks, rfl, rfl⟩⟩
      · rw [if_pos hres] at h
        simp only [Except.ok.injEq] at h
        subst h
        exact ⟨rfl, rfl, Or.inl ⟨hres, rfl, rfl, rfl⟩⟩
  · rw [if_pos hbase] at h
    simp only [Except.ok.injEq] at h
    subst h
    exact Or.inl ⟨hbase, rfl, rfl, rfl, rfl, rfl⟩

theorem joinChecks_guid {mgr : NewLFGMgr} {host : Host} {player : Player}
    {group : Option Group} {dungeonIds : List Nat} {roleMask : Nat} {c : JoinChecks}
    (h : joinChecks mgr host player group dungeonIds roleMask = .ok c) :
    c.guid = requesterGuid player group := by
  unfold joinChecks at h
  dsimp only at h
  by_cases hbase : GetPlayerAndGroupJoinResult host player group roleMask = LFGJoinResult.OK
  · rw [if_neg (by simpa using hbase)] at h
    split at h
    · simp at h
    · rename_i sel hsel
      by_cases hres : sel.result = LFGJoinResult.OK
      · rw [if_neg (by simpa using hres)] at h
        split at h
        · simp at h
        · simp only [Except.ok.injEq] at h
          subst h
          rfl
      · rw [if_pos hres] at h
        simp only [Except.ok.injEq] at h
        subst h
        rfl
  · rw [if_pos hbase] at h
    simp only [Except.ok.injEq] at h
    subst h
    rfl

/-! ## A rejected join changes nothing -/

theorem mapFind_mapModify_ne {κ α : Type} [DecidableEq κ] (k k1 : κ) (d : α) (f : α → α)
    (m : List (κ × α)) (h : k1 ≠ k) : mapFind k1 (mapModify k d f m) = mapFind k1 m := by
  induction m with
  | nil =>
    simp only [mapModify, mapFind]
    rw [if_neg (fun hk => h hk.symm)]
  | cons a m ih =>
    unfold mapModify
    by_cases hk : a.1 = k
    · rw [if_pos hk]
      have hne : ¬ a.1 = k1 := fun h1 => h (h1.symm.trans hk)
      simp only [mapFind, if_neg hne]
    · rw [if_neg hk]
      simp only [mapFind]
      rw [ih]

theorem joinChecks_expansionSet {mgr : NewLFGMgr} {host : Host} {player : Player}
    {group : Option Group} {dungeonIds : List Nat} {roleMask : Nat} {c : JoinChecks}
    (h : joinChecks mgr host player group dungeonIds roleMask = .ok c) (r : Nat) :
    (mapFind r c.index).getD [] = expansionSet mgr r := by
  have hmod : ∀ k, (mapFind r (mapModify k [] id mgr.lfgDungeonsIdsForRandomDungeonId)).getD []
      = expansionSet mgr r := by
    intro k
    by_cases hk : r = k
    · rw [hk, mapFind_mapModify_self]
      rfl
    · rw [mapFind_mapModify_ne _ _ _ _ _ hk]
      rfl
  rcases joinChecks_state h with ⟨_, _, _, _, _, hidx⟩ | ⟨_, sel, hsel, _, hidx, _⟩
  · rw [hidx]; rfl
  · rw [hidx]
    rcases ValidateAndBuildDungeonSelection_state hsel with
      ⟨_, hi, _⟩ | ⟨_, _, hi, _⟩ | ⟨_, _, _, _, hi, _⟩
    · rw [hi]; rfl
    · rw [hi]; rfl
    · rw [hi]; exact hmod _

/-- C6: whenever `ProcessLFGJoinRequest` ends with a join result other than `OK`, the call
returns and the join-data map, the queue entries, the role-check timers and the ticket counter
are exactly as before the call; so are the catalog, the queue, the update interval and the
expansion set of every random dungeon. -/
theorem ProcessLFGJoinRequest_rejected_unchanged (mgr : NewLFGMgr) (host : Host)
    (player : Player) (group : Option Group) (dungeonIds : List Nat) (roleMask : Nat)
    (c : JoinChecks) (hc : joinChecks mgr host player group dungeonIds roleMask = .ok c)
    (hres : c.result ≠ LFGJoinResult.OK) :
    ∃ mgr1 out, ProcessLFGJoinRequest mgr host player group dungeonIds roleMask = .ok (mgr1, out) ∧
      mgr1.lfgJoinData = mgr.lfgJoinData ∧
      mgr1.lfgQueuePlayerData = mgr.lfgQueuePlayerData ∧
      mgr1.lfgRoleCheckTimers = mgr.lfgRoleCheckTimers ∧
      mgr1.nextAvailableTicketId = mgr.nextAvailableTicketId ∧
      mgr1.lfgDungeonData = mgr.lfgDungeonData ∧
      mgr1.lfgQueue = mgr.lfgQueue ∧
      mgr1.lfgQueueUpdateInterval = mgr.lfgQueueUpdateInterval ∧
      (∀ r, expansionSet mgr1 r = expansionSet mgr r) ∧
      out = SendJoinResult host c.guid c.result LFGRoleCheckState.Default (some c.lockdata) := by
  unfold ProcessLFGJoinRequest
  rw [hc]
  dsimp only
  rw [if_neg hres]
  exact ⟨_, _, rfl, rfl, rfl, rfl, rfl, rfl, rfl, rfl, fun r => joinChecks_expansionSet hc r, rfl⟩

/-- Witness of `ProcessLFGJoinRequest_rejected_unchanged`: a level-80 solo player asks for
dungeon 102 (level 85) and is rejected with `NotMeetRequirements`. -/
theorem ProcessLFGJoinRequest_rejected_unchanged_witness :
    ∃ mgr1 out, ProcessLFGJoinRequest demoMgr demoHost playerA none [102] 2 = .ok (mgr1, out) ∧
      mgr1.lfgJoinData = demoMgr.lfgJoinData ∧
      mgr1.lfgQueuePlayerData = demoMgr.lfgQueuePlayerData ∧
      mgr1.lfgRoleCheckTimers = demoMgr.lfgRoleCheckTimers ∧
      mgr1.nextAvailableTicketId = demoMgr.nextAvailableTicketId ∧
      mgr1.lfgDungeonData = demoMgr.lfgDungeonData ∧
      mgr1.lfgQueue = demoMgr.lfgQueue ∧
      mgr1.lfgQueueUpdateInterval = demoMgr.lfgQueueUpdateInterval ∧
      (∀ r, expansionSet mgr1 r = expansionSet demoMgr r) ∧
      out = SendJoinResult demoHost (ObjectGuid.Player 1) LFGJoinResult.NotMeetRequirements
        LFGRoleCheckState.Default
        (some [(ObjectGuid.Player 1, [(102 + 2 ^ 24, ⟨LFGLockStatusType.TooLowLevel, 0, 0⟩)])]) :=
  ProcessLFGJoinRequest_rejected_unchanged demoMgr demoHost playerA none [102] 2
    ⟨LFGJoinResult.NotMeetRequirements, 0, [], ObjectGuid.Player 1,
      [(ObjectGuid.Player 1, [(102 + 2 ^ 24, ⟨LFGLockStatusType.TooLowLevel, 0, 0⟩)])],
      [(301, [101, 102])]⟩ rfl (by decide)

/-! ## The caches stay well-formed -/

theorem mem_expansionSet_inCatalog {mgr : NewLFGMgr} (h : CachesWellFormed mgr) (r id : Nat)
    (hid : id ∈ expansionSet mgr r) : InCatalog mgr id := by
  unfold expansionSet at hid
  cases hf : mapFind r mgr.lfgDungeonsIdsForRandomDungeonId with
  | none => rw [hf] at hid; simp at hid
  | some l =>
    rw [hf] at hid
    exact h.groups _ (mapFind_some_mem hf) id hid

theorem joinChecks_dungeonIds_inCatalog {mgr : NewLFGMgr} {host : Host} {player : Player}
    {group : Option Group} {dungeonIds : List Nat} {roleMask : Nat} {c : JoinChecks}
    (hwf : CachesWellFormed mgr)
    (h : joinChecks mgr host player group dungeonIds roleMask = .ok c)
    (hok : c.result = LFGJoinResult.OK) : ∀ id ∈ c.dungeonIds, InCatalog mgr id := by
  intro id hid
  rcases joinChecks_state h with ⟨hbase, hres, _⟩ | ⟨_, sel, hsel, _, _, hcase⟩
  · exact absurd (hres ▸ hok) hbase
  · rcases hcase with ⟨hne, hres, _⟩ | ⟨hselok, _, hids, _⟩
    · exact absurd (hres ▸ hok) hne
    · rw [hids] at hid
      have hmem := ((mem_eraseLockedDungeons _ _ _).1 hid).1
      rcases ValidateAndBuildDungeonSelection_state hsel with
        ⟨hne, _⟩ | ⟨_, _, _, hset⟩ | ⟨_, _, _, _, _, hset⟩
      · exact absurd hselok hne
      · rw [hset] at hmem
        exact (List.mem_filter.1 hmem).2
      · rw [hset] at hmem
        exact mem_expansionSet_inCatalog hwf _ _ hmem

theorem joinChecks_index_groups {mgr : NewLFGMgr} {host : Host} {player : Player}
    {group : Option Group} {dungeonIds : List Nat} {roleMask : Nat} {c : JoinChecks}
    (hwf : CachesWellFormed mgr)
    (h : joinChecks mgr host player group dungeonIds roleMask = .ok c) :
    GroupsIn mgr.lfgDungeonData c.index := by
  rcases joinChecks_state h with ⟨_, _, _, _, _, hidx⟩ | ⟨_, sel, hsel, _, hidx, _⟩
  · rw [hidx]; exact hwf.groups
  · rw [hidx]
    rcases ValidateAndBuildDungeonSelection_state hsel with
      ⟨_, hi, _⟩ | ⟨_, _, hi, _⟩ | ⟨_, _, _, _, hi, _⟩
    · rw [hi]; exact hwf.groups
    · rw [hi]; exact hwf.groups
    · rw [hi]
      intro e he id hid
      rcases mem_mapModify he with h1 | ⟨v, hv, h1⟩ | h1
      · exact hwf.groups e h1 id hid
      · rw [h1] at hid
        exact hwf.groups _ hv id hid
      · rw [h1] at hid
        simp at hid

theorem selected_prepareJoinData {mgr : NewLFGMgr} {player : Player} {group : Option Group}
    {randomDungeonId : Nat} {dungeonIds : List Nat} {roleMask : Nat}
    (hsel : ∀ e ∈ mgr.lfgJoinData, ∀ id ∈ e.2.SelectedDungeonIDs, InCatalog mgr id)
    (hids : ∀ id ∈ dungeonIds, InCatalog mgr id) (guid : ObjectGuid) :
    ∀ e ∈ mapModify guid {} (prepareJoinData player group randomDungeonId dungeonIds roleMask)
        mgr.lfgJoinData, ∀ id ∈ e.2.SelectedDungeonIDs, InCatalog mgr id := by
  intro e he id hid
  rcases mem_mapModify he with h1 | ⟨v, hv, h1⟩ | h1
  · exact hsel e h1 id hid
  · rw [h1] at hid
    simp only [prepareJoinData, List.mem_append] at hid
    rcases hid with h2 | h2
    · exact hsel _ hv id h2
    · exact hids id h2
  · rw [h1] at hid
    simp only [prepareJoinData, List.mem_append] at hid
    rcases hid with h2 | h2
    · simp at h2
    · exact hids id h2

theorem wellFormed_step {mgr mgr1 : NewLFGMgr} {host : Host} {call : Call}
    {out : List Notification} (hrun : call.run mgr host = .ok (mgr1, out))
    (h : CachesWellFormed mgr) : CachesWellFormed mgr1 := by
  cases call with
  | Join player group dungeonIds roleMask =>
    obtain ⟨c, hc, hcase⟩ := ProcessLFGJoinRequest_state hrun
    have hgroups := joinChecks_index_groups h hc
    rcases hcase with ⟨_, hm⟩ | ⟨hok, _, _, queue, hm⟩ | ⟨hok, _, hm⟩ <;> subst hm
    · exact ⟨h.keyed, hgroups, h.selected⟩
    · exact ⟨h.keyed, hgroups,
        selected_prepareJoinData h.selected (joinChecks_dungeonIds_inCatalog h hc hok) _⟩
    · exact ⟨h.keyed, hgroups,
        selected_prepareJoinData h.selected (joinChecks_dungeonIds_inCatalog h hc hok) _⟩
  | Leave ticketId groupGuid =>
    rcases ProcessLFGLeaveRequest_state hrun with ⟨_, hm⟩ | ⟨_, hcase⟩
    · subst hm
      exact ⟨h.keyed, h.groups, fun e he => h.selected e (mem_mapErase he)⟩
    · rcases hcase with ⟨_, hm, _⟩ | ⟨it, _, ⟨_, hm⟩ | ⟨_, hm⟩⟩ <;> subst hm
      · exact h
      · exact ⟨h.keyed, h.groups, fun e he => h.selected e (mem_mapErase he)⟩
      · exact ⟨h.keyed, h.groups, h.selected⟩
  | SetRoles groupGuid playerGuid desiredRoles =>
    have hrec : ∀ e ∈ recordRole groupGuid playerGuid desiredRoles mgr.lfgJoinData,
        ∀ id ∈ e.2.SelectedDungeonIDs, InCatalog mgr id := by
      intro e he id hid
      unfold recordRole at he
      rcases mem_mapAdjust he with h1 | ⟨v, hv, h1⟩
      · exact h.selected e h1 id hid
      · rw [h1] at hid
        exact h.selected _ hv id hid
    rcases ProcessPlayerRoleRequest_state hrun with ⟨hm, _⟩ | ⟨jd0, _, hcase⟩
    · subst hm
      exact h
    · rcases hcase with ⟨_, hm⟩ | ⟨_, _, queue, hm⟩ | ⟨_, hm⟩ <;> subst hm
      · exact ⟨h.keyed, h.groups, fun e he => hrec e (mem_mapErase he)⟩
      · exact ⟨h.keyed, h.groups, hrec⟩
      · exact ⟨h.keyed, h.groups, hrec⟩
  | Tick diff =>
    have hm := Update_state hrun
    subst hm
    exact ⟨h.keyed, h.groups, fun e he => h.selected e (mem_foldl_mapErase _ _ _ _ he)⟩

theorem reachable_wellFormed (mgr : NewLFGMgr) (h : Reachable mgr) : CachesWellFormed mgr := by
  induction h with
  | init src => exact InitializeDungeonData_wellFormed src
  | step _ host call hrun ih => exact wellFormed_step hrun ih

/-- C8: for every successful join on a manager reachable from the loaded caches, the
JoinRequest stored for the requester exists and every activity id in its resolved selection
(`SelectedDungeonIDs`) has a catalog entry. -/
theorem join_selection_in_catalog (mgr mgr1 : NewLFGMgr) (host : Host) (player : Player)
    (group : Option Group) (dungeonIds : List Nat) (roleMask : Nat) (c : JoinChecks)
    (out : List Notification) (hreach : Reachable mgr)
    (hc : joinChecks mgr host player group dungeonIds roleMask = .ok c)
    (hok : c.result = LFGJoinResult.OK)
    (hrun : ProcessLFGJoinRequest mgr host player group dungeonIds roleMask = .ok (mgr1, out)) :
    ∃ jd, mapFind (requesterGuid player group) mgr1.lfgJoinData = some jd ∧
      ∀ id ∈ jd.SelectedDungeonIDs, (mapFind id mgr1.lfgDungeonData).isSome = true := by
  have hwf1 : CachesWellFormed mgr1 :=
    reachable_wellFormed mgr1 (Reachable.step hreach host
      (Call.Join player group dungeonIds roleMask) hrun)
  obtain ⟨c1, hc1, hcase⟩ := ProcessLFGJoinRequest_state hrun
  rw [hc] at hc1
  simp only [Except.ok.injEq] at hc1
  subst hc1
  have hguid := joinChecks_guid hc
  have hfind : ∃ jd, mapFind (requesterGuid player group) mgr1.lfgJoinData = some jd := by
    rcases hcase with ⟨hne, _⟩ | ⟨_, _, _, queue, hm⟩ | ⟨_, _, hm⟩
    · exact absurd hok hne
    · subst hm
      rw [← hguid]
      exact ⟨_, mapFind_mapModify_self _ _ _ _⟩
    · subst hm
      rw [← hguid]
      exact ⟨_, mapFind_mapModify_self _ _ _ _⟩
  obtain ⟨jd, hjd⟩ := hfind
  exact ⟨jd, hjd, fun id hid => hwf1.selected _ (mapFind_some_mem hjd) id hid⟩

/-! ## The resolved selection of a join -/

theorem eq_ok_of_toOption {ε α : Type} (r : Except ε α) (a : α)
    (h : r.toOption = some a) : r = .ok a := by
  cases r with
  | error e => simp [Except.toOption] at h
  | ok b =>
    simp only [Except.toOption, Option.some.injEq] at h
    rw [h]

theorem eq_ok_of_returned (r : Except Fault (NewLFGMgr × List Notification))
    (h : returned r = true) : r = .ok (finalState r, emitted r) := by
  match r, h with
  | .ok (mgr, out), _ => rfl

/-- Witness of `join_selection_in_catalog`: the random join of a level-80 solo player on the
loaded demo caches. -/
theorem join_selection_in_catalog_witness :
    ∃ jd, mapFind (ObjectGuid.Player 1)
        (finalState (ProcessLFGJoinRequest demoMgr demoHost playerA none [301] 2)).lfgJoinData
        = some jd ∧
      ∀ id ∈ jd.SelectedDungeonIDs,
        (mapFind id (finalState
          (ProcessLFGJoinRequest demoMgr demoHost playerA none [301] 2)).lfgDungeonData).isSome
          = true :=
  join_selection_in_catalog demoMgr _ demoHost playerA none [301] 2
    ⟨LFGJoinResult.OK, 301, [101], ObjectGuid.Player 1,
      [(ObjectGuid.Player 1, [(102 + 2 ^ 24, ⟨LFGLockStatusType.TooLowLevel, 0, 0⟩)])],
      [(301, [101, 102])]⟩ _ (Reachable.init demoSources)
    (eq_ok_of_toOption _ _ (by decide)) rfl (eq_ok_of_returned _ (by decide))

/-- C7 (amended): for every successful join of a requester without a JoinRequest in which a
random activity `r` was picked (`RandomDungeonID = r ≠ 0`), the selection left after the ids
without a catalog entry are dropped is exactly one random-type activity with id `r`, and the
resolved selection stored in the JoinRequest consists exactly of the members of the
pre-computed expansion set of `r` that the lock step did not remove (ids that are not the low
24 bits of a slot in a member's lock map). -/
theorem random_join_selection (mgr mgr1 : NewLFGMgr) (host : Host) (player : Player)
    (group : Option Group) (dungeonIds : List Nat) (roleMask : Nat) (c : JoinChecks)
    (out : List Notification)
    (hc : joinChecks mgr host player group dungeonIds roleMask = .ok c)
    (hok : c.result = LFGJoinResult.OK) (hr : c.randomDungeonId ≠ 0)
    (hfresh : mapFind (requesterGuid player group) mgr.lfgJoinData = none)
    (hrun : ProcessLFGJoinRequest mgr host player group dungeonIds roleMask = .ok (mgr1, out)) :
    (∃ x d, dungeonIds.filter (fun id => (mapFind id mgr.lfgDungeonData).isSome) = [x] ∧
      mapFind x mgr.lfgDungeonData = some d ∧ d.DungeonEntry.TypeID = LFGType.Random ∧
      d.DungeonEntry.ID = c.randomDungeonId) ∧
    ∃ jd, mapFind (requesterGuid player group) mgr1.lfgJoinData = some jd ∧
      jd.RandomDungeonID = c.randomDungeonId ∧
      ∀ id, id ∈ jd.SelectedDungeonIDs ↔
        (id ∈ expansionSet mgr c.randomDungeonId ∧
          ∀ e ∈ c.lockdata, ∀ it ∈ e.2, it.1 &&& 0x00FFFFFF ≠ id) := by
  have hguid := joinChecks_guid hc
  rcases joinChecks_state hc with ⟨hbase, hres, _⟩ | ⟨_, sel, hsel, hrand, _, hcase⟩
  · exact absurd (hres ▸ hok) hbase
  rcases hcase with ⟨hne, hres, _⟩ | ⟨hselok, _, hids, _⟩
  · exact absurd (hres ▸ hok) hne
  rcases ValidateAndBuildDungeonSelection_state hsel with
    ⟨hne, _⟩ | ⟨_, h0, _⟩ | ⟨_, _, hlen, ⟨x, d, hx, hd, hty, hid⟩, _, hset⟩
  · exact absurd hselok hne
  · exact absurd (hrand.trans h0) hr
  constructor
  · refine ⟨x, d, ?_, hd, hty, hrand ▸ hid⟩
    match hl : dungeonIds.filter (fun id => (mapFind id mgr.lfgDungeonData).isSome), hlen, hx with
    | [y], _, hx1 =>
      simp only [List.mem_singleton] at hx1
      rw [hx1]
  · obtain ⟨c1, hc1, hstate⟩ := ProcessLFGJoinRequest_state hrun
    rw [hc] at hc1
    simp only [Except.ok.injEq] at hc1
    subst hc1
    have hjd : mapFind (requesterGuid player group) mgr1.lfgJoinData
        = some (prepareJoinData player group c.randomDungeonId c.dungeonIds roleMask {}) := by
      rcases hstate with ⟨hne, _⟩ | ⟨_, _, _, queue, hm⟩ | ⟨_, _, hm⟩
      · exact absurd hok hne
      · subst hm
        rw [← hguid] at hfresh ⊢
        simp only [mapFind_mapModify_self, hfresh, Option.getD_none]
      · subst hm
        rw [← hguid] at hfresh ⊢
        simp only [mapFind_mapModify_self, hfresh, Option.getD_none]
    refine ⟨_, hjd, rfl, fun id => ?_⟩
    simp only [prepareJoinData, List.nil_append]
    rw [hids, mem_eraseLockedDungeons, hset, hrand]


/-- Witness of `random_join_selection`: the random join of a level-80 solo player on the demo
caches. -/
theorem random_join_selection_witness :
    (∃ x d, [301].filter (fun id => (mapFind id demoMgr.lfgDungeonData).isSome) = [x] ∧
      mapFind x demoMgr.lfgDungeonData = some d ∧ d.DungeonEntry.TypeID = LFGType.Random ∧
      d.DungeonEntry.ID = 301) ∧
    ∃ jd, mapFind (requesterGuid playerA none)
        (finalState (ProcessLFGJoinRequest demoMgr demoHost playerA none [301] 2)).lfgJoinData
        = some jd ∧
      jd.RandomDungeonID = 301 ∧
      ∀ id, id ∈ jd.SelectedDungeonIDs ↔
        (id ∈ expansionSet demoMgr 301 ∧
          ∀ e ∈ [(ObjectGuid.Player 1,
              [(102 + 2 ^ 24, (⟨LFGLockStatusType.TooLowLevel, 0, 0⟩ : LFGDungeonLockData))])],
            ∀ it ∈ e.2, it.1 &&& 0x00FFFFFF ≠ id) :=
  random_join_selection demoMgr _ demoHost playerA none [301] 2
    ⟨LFGJoinResult.OK, 301, [101], ObjectGuid.Player 1,
      [(ObjectGuid.Player 1, [(102 + 2 ^ 24, ⟨LFGLockStatusType.TooLowLevel, 0, 0⟩)])],
      [(301, [101, 102])]⟩ _ (eq_ok_of_toOption _ _ (by decide)) rfl (by decide) (by decide)
    (eq_ok_of_returned _ (by decide))

/-! ## The lock step of a join -/

theorem mem_mapKeys_mapEmplace {κ α : Type} [DecidableEq κ] (k x : κ) (v : α)
    (m : List (κ × α)) : x ∈ mapKeys (mapEmplace k v m) ↔ x ∈ mapKeys m ∨ x = k := by
  rw [mapKeys_mapEmplace]
  split_ifs with h
  · constructor
    · exact Or.inl
    · rintro (h1 | h1)
      · exact h1
      · rw [h1]; exact h
  · simp

theorem CheckDungeonIdsForLocks_keys (mgr : NewLFGMgr) (host : Host) (p : Player)
    (ids : List Nat) : ∀ lockMap : LockMap, (∀ id ∈ ids, InCatalog mgr id) →
    ∃ lm, CheckDungeonIdsForLocks mgr host p ids lockMap = .ok lm ∧
      ∀ slot, slot ∈ mapKeys lm ↔ slot ∈ mapKeys lockMap ∨ LockedSlot mgr host p ids slot := by
  induction ids with
  | nil =>
    intro lockMap _
    refine ⟨lockMap, rfl, fun slot => ?_⟩
    simp [LockedSlot]
  | cons id rest ih =>
    intro lockMap hcat
    have hrest : ∀ x ∈ rest, InCatalog mgr x := fun x hx => hcat x (List.mem_cons_of_mem _ hx)
    have hid : InCatalog mgr id := hcat id (List.mem_cons_self _ _)
    unfold InCatalog at hid
    obtain ⟨data, hdata⟩ := Option.isSome_iff_exists.1 hid
    have hcons : ∀ slot, LockedSlot mgr host p (id :: rest) slot ↔
        (data.DungeonEntry.TypeID ≠ LFGType.Random ∧
          (checkLockReason host p data).isSome = true ∧ data.DungeonEntry.Entry = slot) ∨
        LockedSlot mgr host p rest slot := by
      intro slot
      simp only [LockedSlot, List.mem_cons, exists_eq_or_imp, hdata, Option.some.injEq,
        exists_eq_left']
    rw [CheckDungeonIdsForLocks, hdata]
    dsimp only
    by_cases hty : data.DungeonEntry.TypeID = LFGType.Random
    · rw [if_pos hty]
      obtain ⟨lm, hlm, hkeys⟩ := ih lockMap hrest
      refine ⟨lm, hlm, fun slot => ?_⟩
      rw [hkeys, hcons]
      simp [hty]
    · rw [if_neg hty]
      cases hreason : checkLockReason host p data with
      | none =>
        dsimp only
        obtain ⟨lm, hlm, hkeys⟩ := ih lockMap hrest
        refine ⟨lm, hlm, fun slot => ?_⟩
        rw [hkeys, hcons]
        simp [hreason]
      | some reason =>
        dsimp only
        split_ifs
        · obtain ⟨lm, hlm, hkeys⟩ := ih _ hrest
          refine ⟨lm, hlm, fun slot => ?_⟩
          rw [hkeys, hcons, mem_mapKeys_mapEmplace]
          simp only [hreason, Option.isSome_some, true_and, ne_eq, hty, not_false_eq_true]
          constructor
          · rintro ((h1 | h1) | h1)
            · exact Or.inl h1
            · exact Or.inr (Or.inl h1.symm)
            · exact Or.inr (Or.inr h1)
          · rintro (h1 | h1 | h1)
            · exact Or.inl (Or.inl h1)
            · exact Or.inl (Or.inr h1.symm)
            · exact Or.inr h1
        · obtain ⟨lm, hlm, hkeys⟩ := ih _ hrest
          refine ⟨lm, hlm, fun slot => ?_⟩
          rw [hkeys, hcons, mem_mapKeys_mapEmplace]
          simp only [hreason, Option.isSome_some, true_and, ne_eq, hty, not_false_eq_true]
          constructor
          · rintro ((h1 | h1) | h1)
            · exact Or.inl h1
            · exact Or.inr (Or.inl h1.symm)
            · exact Or.inr (Or.inr h1)
          · rintro (h1 | h1 | h1)
            · exact Or.inl (Or.inl h1)
            · exact Or.inl (Or.inr h1.symm)
            · exact Or.inr h1

theorem mem_mapModify_self {κ α : Type} [DecidableEq κ] (k : κ) (d : α) (f : α → α)
    (m : List (κ × α)) : (k, f ((mapFind k m).getD d)) ∈ mapModify k d f m :=
  mapFind_some_mem (mapFind_mapModify_self k d f m)

theorem mem_mapModify_of_mem {κ α : Type} [DecidableEq κ] (k : κ) (d : α) (f : α → α)
    (m : List (κ × α)) (e : κ × α) (he : e ∈ m) :
    e ∈ mapModify k d f m ∨ (e.1 = k ∧ mapFind k m = some e.2) := by
  induction m with
  | nil => simp at he
  | cons a m ih =>
    unfold mapModify mapFind
    by_cases hk : a.1 = k
    · rw [if_pos hk, if_pos hk]
      rcases List.mem_cons.1 he with h1 | h1
      · exact Or.inr ⟨h1 ▸ hk, by rw [h1]⟩
      · exact Or.inl (List.mem_cons_of_mem _ h1)
    · rw [if_neg hk, if_neg hk]
      rcases List.mem_cons.1 he with h1 | h1
      · exact Or.inl (h1 ▸ List.mem_cons_self _ _)
      · rcases ih h1 with h2 | h2
        · exact Or.inl (List.mem_cons_of_mem _ h2)
        · exact Or.inr h2

theorem mapModify_ne_nil {κ α : Type} [DecidableEq κ] (k : κ) (d : α) (f : α → α)
    (m : List (κ × α)) : mapModify k d f m ≠ [] := by
  cases m with
  | nil => simp [mapModify]
  | cons a m =>
    unfold mapModify
    split_ifs <;> simp

theorem groupLocks_keys (mgr : NewLFGMgr) (host : Host) (ids : List Nat)
    (hcat : ∀ id ∈ ids, InCatalog mgr id) (members : List (Option Player)) :
    ∀ lockdata : List (ObjectGuid × LockMap),
    ∃ ld, groupLocks mgr host ids members lockdata = .ok ld ∧
      (∀ slot, (∃ e ∈ ld, slot ∈ mapKeys e.2) ↔
        (∃ e ∈ lockdata, slot ∈ mapKeys e.2) ∨
          ∃ p ∈ members.filterMap (fun itr => itr), LockedSlot mgr host p ids slot) ∧
      (ld = [] ↔ lockdata = [] ∧ members.filterMap (fun itr => itr) = []) := by
  induction members with
  | nil =>
    intro lockdata
    exact ⟨lockdata, rfl, fun slot => by simp, by simp⟩
  | cons itr rest ih =>
    intro lockdata
    cases itr with
    | none =>
      rw [groupLocks]
      obtain ⟨ld, hld, hkeys, hnil⟩ := ih lockdata
      exact ⟨ld, hld, fun slot => by simpa using hkeys slot, by simpa using hnil⟩
    | some p =>
      rw [groupLocks]
      obtain ⟨lm, hlm, hlmkeys⟩ := CheckDungeonIdsForLocks_keys mgr host p ids
        ((mapFind p.GetGUID lockdata).getD []) hcat
      rw [hlm]
      dsimp only
      obtain ⟨ld, hld, hkeys, hnil⟩ := ih (mapModify p.GetGUID [] (fun _ => lm) lockdata)
      refine ⟨ld, hld, fun slot => ?_, ?_⟩
      · rw [hkeys]
        simp only [List.filterMap_cons, List.mem_cons, exists_eq_or_imp]
        have hstep : (∃ e ∈ mapModify p.GetGUID [] (fun _ => lm) lockdata, slot ∈ mapKeys e.2) ↔
            (∃ e ∈ lockdata, slot ∈ mapKeys e.2) ∨ LockedSlot mgr host p ids slot := by
          constructor
          · rintro ⟨e, he, hs⟩
            rcases mem_mapModify he with h1 | ⟨v, hv, h1⟩ | h1
            · exact Or.inl ⟨e, h1, hs⟩
            · rw [h1] at hs
              rcases (hlmkeys slot).1 hs with h2 | h2
              · cases hf : mapFind p.GetGUID lockdata with
                | none => rw [hf] at h2; simp [mapKeys] at h2
                | some v0 =>
                  rw [hf] at h2
                  exact Or.inl ⟨_, mapFind_some_mem hf, h2⟩
              · exact Or.inr h2
            · rw [h1] at hs
              rcases (hlmkeys slot).1 hs with h2 | h2
              · cases hf : mapFind p.GetGUID lockdata with
                | none => rw [hf] at h2; simp [mapKeys] at h2
                | some v0 =>
                  rw [hf] at h2
                  exact Or.inl ⟨_, mapFind_some_mem hf, h2⟩
              · exact Or.inr h2
          · rintro (⟨e, he, hs⟩ | h2)
            · rcases mem_mapModify_of_mem p.GetGUID [] (fun _ => lm) lockdata e he with h1 | ⟨_, h1⟩
              · exact ⟨e, h1, hs⟩
              · refine ⟨_, mem_mapModify_self p.GetGUID [] (fun _ => lm) lockdata, ?_⟩
                apply (hlmkeys slot).2
                rw [h1]
                exact Or.inl hs
            · exact ⟨_, mem_mapModify_self p.GetGUID [] (fun _ => lm) lockdata,
                (hlmkeys slot).2 (Or.inr h2)⟩
        rw [hstep]
        exact or_assoc
      · rw [hnil]
        simp [mapModify_ne_nil]

theorem memberLocks_keys (mgr : NewLFGMgr) (host : Host) (player : Player)
    (group : Option Group) (guid : ObjectGuid) (ids : List Nat)
    (hcat : ∀ id ∈ ids, InCatalog mgr id) :
    ∃ ld, memberLocks mgr host player group guid ids = .ok ld ∧
      (∀ slot, (∃ e ∈ ld, slot ∈ mapKeys e.2) ↔
        ∃ p ∈ evaluatedMembers player group, LockedSlot mgr host p ids slot) ∧
      (ld = [] ↔ evaluatedMembers player group = []) := by
  cases group with
  | none =>
    obtain ⟨lm, hlm, hkeys⟩ := CheckDungeonIdsForLocks_keys mgr host player ids [] hcat
    refine ⟨[(guid, lm)], ?_, fun slot => ?_, by simp [evaluatedMembers]⟩
    · simp only [memberLocks, hlm]
    · simp only [List.mem_singleton, exists_eq_left, evaluatedMembers, hkeys slot]
      simp [mapKeys]
  | some g =>
    obtain ⟨ld, hld, hkeys, hnil⟩ := groupLocks_keys mgr host ids hcat g.members []
    refine ⟨ld, hld, fun slot => ?_, ?_⟩
    · rw [hkeys]
      simp [evaluatedMembers]
    · rw [hnil]
      simp [evaluatedMembers]

theorem locksFailJoin_iff (ld : List (ObjectGuid × LockMap)) (ids : List Nat) (r : Nat) :
    locksFailJoin ld ids r = true ↔
      (ld ≠ [] ∧ ids = []) ∨ (r = 0 ∧ ∃ e ∈ ld, ∃ slot, slot ∈ mapKeys e.2) := by
  unfold locksFailJoin
  simp only [List.any_eq_true, Bool.or_eq_true, List.isEmpty_iff, Bool.and_eq_true,
    decide_eq_true_eq, Bool.not_eq_true']
  constructor
  · rintro ⟨e, he, h | ⟨h1, h2⟩⟩
    · exact Or.inl ⟨List.ne_nil_of_mem he, h⟩
    · refine Or.inr ⟨h1, e, he, ?_⟩
      cases hl : e.2 with
      | nil => rw [hl] at h2; simp at h2
      | cons a l => exact ⟨a.1, by simp [mapKeys]⟩
  · rintro (⟨h1, h2⟩ | ⟨h1, e, he, slot, hs⟩)
    · obtain ⟨e, he⟩ := List.exists_mem_of_ne_nil _ h1
      exact ⟨e, he, Or.inl h2⟩
    · refine ⟨e, he, Or.inr ⟨h1, ?_⟩⟩
      cases hl : e.2 with
      | nil => rw [hl] at hs; simp [mapKeys] at hs
      | cons a l => simp

theorem lockedSlot_low_bits {mgr : NewLFGMgr} (hwf : CachesWellFormed mgr)
    (hslot : ∀ e ∈ mgr.lfgDungeonData,
      e.2.DungeonEntry.Entry &&& 0x00FFFFFF = e.2.DungeonEntry.ID)
    (host : Host) (p : Player) (ids : List Nat) (id : Nat) :
    (∃ slot, LockedSlot mgr host p ids slot ∧ slot &&& 0x00FFFFFF = id) ↔
      id ∈ ids ∧ LockedFor mgr host p id := by
  constructor
  · rintro ⟨slot, ⟨id1, hid1, data, hdata, hty, hreason, hentry⟩, hlow⟩
    have hmem := mapFind_some_mem hdata
    have h1 := hslot _ hmem
    have h2 := hwf.keyed _ hmem
    simp only at h1 h2
    have : id1 = id := by rw [← hlow, ← hentry, h1, h2]
    subst this
    exact ⟨hid1, data, hdata, hty, hreason⟩
  · rintro ⟨hid, data, hdata, hty, hreason⟩
    have hmem := mapFind_some_mem hdata
    have h1 := hslot _ hmem
    have h2 := hwf.keyed _ hmem
    simp only at h1 h2
    exact ⟨data.DungeonEntry.Entry, ⟨id, hid, data, hdata, hty, hreason, rfl⟩, h1.trans h2⟩

theorem selection_inCatalog {mgr : NewLFGMgr} (hwf : CachesWellFormed mgr)
    {dungeonIds : List Nat} {sel : SelectionOutcome}
    (hsel : ValidateAndBuildDungeonSelection mgr dungeonIds = .ok sel)
    (hselok : sel.result = LFGJoinResult.OK) : ∀ id ∈ sel.dungeonIdSet, InCatalog mgr id := by
  intro id hid
  rcases ValidateAndBuildDungeonSelection_state hsel with
    ⟨hne, _⟩ | ⟨_, _, _, hset⟩ | ⟨_, _, _, _, _, hset⟩
  · exact absurd hselok hne
  · rw [hset] at hid
    exact (List.mem_filter.1 hid).2
  · rw [hset] at hid
    exact mem_expansionSet_inCatalog hwf _ _ hid

/-- C10: for a join on a reachable manager that passed base eligibility and dungeon selection,
with slot codes whose low 24 bits are the activity id and at least one evaluated member, the
checks return; the lock step leaves in the selection exactly the activities that are locked for
no evaluated member; the result is `NotMeetRequirements` if and only if the selection is then
empty or no random activity was picked and some member has a lock; otherwise the result is
`OK` and no remaining id is locked for any member. -/
theorem join_lock_step (mgr : NewLFGMgr) (host : Host) (player : Player)
    (group : Option Group) (dungeonIds : List Nat) (roleMask : Nat) (sel : SelectionOutcome)
    (hreach : Reachable mgr)
    (hslot : ∀ e ∈ mgr.lfgDungeonData,
      e.2.DungeonEntry.Entry &&& 0x00FFFFFF = e.2.DungeonEntry.ID)
    (hbase : GetPlayerAndGroupJoinResult host player group roleMask = LFGJoinResult.OK)
    (hsel : ValidateAndBuildDungeonSelection mgr dungeonIds = .ok sel)
    (hselok : sel.result = LFGJoinResult.OK)
    (hmember : evaluatedMembers player group ≠ []) :
    ∃ c, joinChecks mgr host player group dungeonIds roleMask = .ok c ∧
      (∀ id, id ∈ c.dungeonIds ↔
        id ∈ sel.dungeonIdSet ∧ ∀ p ∈ evaluatedMembers player group, ¬ LockedFor mgr host p id) ∧
      (c.result = LFGJoinResult.NotMeetRequirements ↔
        c.dungeonIds = [] ∨
          (sel.randomDungeonId = 0 ∧
            ∃ p ∈ evaluatedMembers player group, ∃ id ∈ sel.dungeonIdSet,
              LockedFor mgr host p id)) ∧
      (c.result ≠ LFGJoinResult.NotMeetRequirements →
        c.result = LFGJoinResult.OK ∧
        ∀ id ∈ c.dungeonIds, ∀ p ∈ evaluatedMembers player group, ¬ LockedFor mgr host p id) := by
  have hwf := reachable_wellFormed mgr hreach
  have hcat := selection_inCatalog hwf hsel hselok
  obtain ⟨ld, hld, hkeys, hnil⟩ := memberLocks_keys mgr host player group
    (requesterGuid player group) sel.dungeonIdSet hcat
  have hmem : ∀ id, id ∈ eraseLockedDungeons ld sel.dungeonIdSet ↔
      id ∈ sel.dungeonIdSet ∧ ∀ p ∈ evaluatedMembers player group, ¬ LockedFor mgr host p id := by
    intro id
    rw [mem_eraseLockedDungeons]
    constructor
    · rintro ⟨hid, hno⟩
      refine ⟨hid, fun p hp hlocked => ?_⟩
      obtain ⟨slot, hs, hlow⟩ :=
        (lockedSlot_low_bits hwf hslot host p sel.dungeonIdSet id).2 ⟨hid, hlocked⟩
      obtain ⟨e, he, hse⟩ := (hkeys slot).2 ⟨p, hp, hs⟩
      simp only [mapKeys, List.mem_map] at hse
      obtain ⟨it, hit, hit1⟩ := hse
      exact hno e he it hit (by rw [hit1]; exact hlow)
    · rintro ⟨hid, hno⟩
      refine ⟨hid, fun e he it hit hlow => ?_⟩
      have hse : it.1 ∈ mapKeys e.2 := List.mem_map_of_mem _ hit
      obtain ⟨p, hp, hs⟩ := (hkeys it.1).1 ⟨e, he, hse⟩
      exact hno p hp
        ((lockedSlot_low_bits hwf hslot host p sel.dungeonIdSet id).1 ⟨it.1, hs, hlow⟩).2
  have hc : joinChecks mgr host player group dungeonIds roleMask = .ok
      ⟨if locksFailJoin ld (eraseLockedDungeons ld sel.dungeonIdSet) sel.randomDungeonId then
          LFGJoinResult.NotMeetRequirements else LFGJoinResult.OK,
        sel.randomDungeonId, eraseLockedDungeons ld sel.dungeonIdSet,
        requesterGuid player group, ld, sel.index⟩ := by
    unfold joinChecks
    dsimp only
    rw [if_neg (by simp [hbase]), hsel]
    dsimp only
    rw [if_neg (by simp [hselok]), hld]
  refine ⟨_, hc, hmem, ?_, ?_⟩
  · dsimp only
    have hfail := locksFailJoin_iff ld (eraseLockedDungeons ld sel.dungeonIdSet)
      sel.randomDungeonId
    have hany : (∃ e ∈ ld, ∃ slot, slot ∈ mapKeys e.2) ↔
        ∃ p ∈ evaluatedMembers player group, ∃ id ∈ sel.dungeonIdSet,
          LockedFor mgr host p id := by
      constructor
      · rintro ⟨e, he, slot, hs⟩
        obtain ⟨p, hp, hls⟩ := (hkeys slot).1 ⟨e, he, hs⟩
        have := (lockedSlot_low_bits hwf hslot host p sel.dungeonIdSet _).1 ⟨slot, hls, rfl⟩
        exact ⟨p, hp, _, this.1, this.2⟩
      · rintro ⟨p, hp, id, hid, hlocked⟩
        obtain ⟨slot, hs, _⟩ :=
          (lockedSlot_low_bits hwf hslot host p sel.dungeonIdSet id).2 ⟨hid, hlocked⟩
        obtain ⟨e, he, hse⟩ := (hkeys slot).2 ⟨p, hp, hs⟩
        exact ⟨e, he, slot, hse⟩
    have hne : ld ≠ [] := fun h => hmember (hnil.1 h)
    rw [← hany]
    by_cases hf : locksFailJoin ld (eraseLockedDungeons ld sel.dungeonIdSet)
        sel.randomDungeonId = true
    · rw [if_pos hf]
      simp only [true_iff]
      rcases hfail.1 hf with ⟨_, h⟩ | h
      · exact Or.inl h
      · exact Or.inr h
    · rw [if_neg hf]
      simp only [false_iff, reduceCtorEq]
      rintro (h | h)
      · exact hf (hfail.2 (Or.inl ⟨hne, h⟩))
      · exact hf (hfail.2 (Or.inr h))
  · dsimp only
    intro hres
    constructor
    · by_cases hf : locksFailJoin ld (eraseLockedDungeons ld sel.dungeonIdSet)
          sel.randomDungeonId = true
      · rw [if_pos hf] at hres
        exact absurd rfl hres
      · rw [if_neg hf]
    · intro id hid
      exact ((hmem id).1 hid).2


/-- Witness of `join_lock_step`: a level-80 solo player selects the dungeons 101 and 102, of
which 102 needs level 85. -/
theorem join_lock_step_witness :
    ∃ c, joinChecks demoMgr demoHost playerA none [101, 102] 2 = .ok c ∧
      (∀ id, id ∈ c.dungeonIds ↔
        id ∈ [101, 102] ∧ ∀ p ∈ evaluatedMembers playerA none, ¬ LockedFor demoMgr demoHost p id) ∧
      (c.result = LFGJoinResult.NotMeetRequirements ↔
        c.dungeonIds = [] ∨
          ((0 : Nat) = 0 ∧
            ∃ p ∈ evaluatedMembers playerA none, ∃ id ∈ [101, 102],
              LockedFor demoMgr demoHost p id)) ∧
      (c.result ≠ LFGJoinResult.NotMeetRequirements →
        c.result = LFGJoinResult.OK ∧
        ∀ id ∈ c.dungeonIds, ∀ p ∈ evaluatedMembers playerA none,
          ¬ LockedFor demoMgr demoHost p id) :=
  join_lock_step demoMgr demoHost playerA none [101, 102] 2
    ⟨[101, 102], LFGJoinResult.OK, 0, [(301, [101, 102])]⟩
    (Reachable.init demoSources) (by decide) (by decide)
    (eq_ok_of_toOption _ _ (by decide)) rfl (by simp [evaluatedMembers])

/-! ## The selection check: mixed and random selections -/

theorem scanSelection_total (data : List (Nat × LFGDungeonData)) (size : Nat) (ids : List Nat) :
    ∀ scan0 : SelectionScan, (∀ id ∈ ids, (mapFind id data).isSome = true) →
    ∃ r scan, scanSelection data size ids scan0 = .ok (r, scan) := by
  induction ids with
  | nil => intro scan0 _; exact ⟨none, scan0, rfl⟩
  | cons x rest ih =>
    intro scan0 hall
    have hx := hall x (List.mem_cons_self _ _)
    have hrest : ∀ id ∈ rest, (mapFind id data).isSome = true :=
      fun id hid => hall id (List.mem_cons_of_mem _ hid)
    rw [scanSelection]
    cases hd : mapFind x data with
    | none => rw [hd] at hx; simp at hx
    | some d =>
      dsimp only
      split_ifs
      · exact ih _ hrest
      · exact ih _ hrest
      · exact ⟨_, _, rfl⟩
      · exact ih _ hrest
      · exact ⟨_, _, rfl⟩

theorem hasType_cons (mgr : NewLFGMgr) (x : Nat) (rest : List Nat) (type : Nat) :
    HasType mgr (x :: rest) type ↔ typeOfId mgr x = some type ∨ HasType mgr rest type := by
  simp [HasType]

/-- What the type loop leaves: the random id changes only on a random activity, a loop that
runs through saw only dungeons, raids and (in a selection of one) a random activity, and an
early return was caused by an activity of another kind. -/
theorem scanSelection_spec (mgr : NewLFGMgr) (size : Nat) (ids : List Nat) :
    ∀ (scan0 scan : SelectionScan) (r : Option LFGJoinResult),
    scanSelection mgr.lfgDungeonData size ids scan0 = .ok (r, scan) →
    (scan.randomDungeonId ≠ scan0.randomDungeonId → HasType mgr ids LFGType.Random) ∧
    (r = none →
      (∀ id ∈ ids, typeOfId mgr id = some LFGType.Dungeon ∨ typeOfId mgr id = some LFGType.Raid ∨
        (typeOfId mgr id = some LFGType.Random ∧ size ≤ 1)) ∧
      (scan.hasDungeon = true ↔ scan0.hasDungeon = true ∨ HasType mgr ids LFGType.Dungeon) ∧
      (scan.hasRaid = true ↔ scan0.hasRaid = true ∨ HasType mgr ids LFGType.Raid)) ∧
    (r ≠ none → ∃ id ∈ ids, typeOfId mgr id ≠ some LFGType.Dungeon ∧
      typeOfId mgr id ≠ some LFGType.Raid ∧
      (typeOfId mgr id = some LFGType.Random → 1 < size)) := by
  induction ids with
  | nil =>
    intro scan0 scan r h
    simp only [scanSelection, Except.ok.injEq, Prod.mk.injEq] at h
    obtain ⟨hr, hs⟩ := h
    subst hr hs
    simp [HasType]
  | cons x rest ih =>
    intro scan0 scan r h
    rw [scanSelection] at h
    cases hd : mapFind x mgr.lfgDungeonData with
    | none => rw [hd] at h; simp at h
    | some d =>
      rw [hd] at h
      dsimp only at h
      have hty : typeOfId mgr x = some d.DungeonEntry.TypeID := by simp [typeOfId, hd]
      simp only [hasType_cons, List.forall_mem_cons, List.exists_mem_cons_iff, hty,
        Option.some.injEq]
      by_cases h1 : d.DungeonEntry.TypeID = LFGType.Dungeon
      · rw [if_pos h1] at h
        obtain ⟨ha, hb, hc⟩ := ih _ _ _ h
        refine ⟨fun hne => Or.inr (ha hne), fun hr => ?_, fun hr => ?_⟩
        · obtain ⟨hall, hD, hR⟩ := hb hr
          refine ⟨⟨Or.inl h1, hall⟩, ?_, ?_⟩
          · rw [hD]; simp [h1]
          · rw [hR]
            simp only [h1]
            constructor
            · rintro (h2 | h2)
              · exact Or.inl h2
              · exact Or.inr (Or.inr h2)
            · rintro (h2 | h2 | h2)
              · exact Or.inl h2
              · exact absurd h2 (by decide)
              · exact Or.inr h2
        · exact Or.inr (hc hr)
      · rw [if_neg h1] at h
        by_cases h2 : d.DungeonEntry.TypeID = LFGType.Raid
        · rw [if_pos h2] at h
          obtain ⟨ha, hb, hc⟩ := ih _ _ _ h
          refine ⟨fun hne => Or.inr (ha hne), fun hr => ?_, fun hr => ?_⟩
          · obtain ⟨hall, hD, hR⟩ := hb hr
            refine ⟨⟨Or.inr (Or.inl h2), hall⟩, ?_, ?_⟩
            · rw [hD]
              simp only [h2]
              constructor
              · rintro (h3 | h3)
                · exact Or.inl h3
                · exact Or.inr (Or.inr h3)
              · rintro (h3 | h3 | h3)
                · exact Or.inl h3
                · exact absurd h3 (by decide)
                · exact Or.inr h3
            · rw [hR]; simp [h2]
          · exact Or.inr (hc hr)
        · rw [if_neg h2] at h
          by_cases h3 : d.DungeonEntry.TypeID = LFGType.Random
          · rw [if_pos h3] at h
            by_cases h4 : size > 1
            · rw [if_pos h4] at h
              simp only [Except.ok.injEq, Prod.mk.injEq] at h
              obtain ⟨hr, hs⟩ := h
              subst hr hs
              refine ⟨fun hne => absurd rfl hne, fun hr => by simp at hr, fun _ => ?_⟩
              exact Or.inl ⟨by simpa using h1, by simpa using h2, fun _ => h4⟩
            · rw [if_neg h4] at h
              obtain ⟨ha, hb, hc⟩ := ih _ _ _ h
              refine ⟨fun hne => ?_, fun hr => ?_, fun hr => ?_⟩
              · exact Or.inl h3
              · obtain ⟨hall, hD, hR⟩ := hb hr
                refine ⟨⟨Or.inr (Or.inr ⟨h3, by omega⟩), hall⟩, ?_, ?_⟩
                · rw [hD]; simp [h1]
                · rw [hR]; simp [h2]
              · exact Or.inr (hc hr)
          · rw [if_neg h3] at h
            simp only [Except.ok.injEq, Prod.mk.injEq] at h
            obtain ⟨hr, hs⟩ := h
            subst hr hs
            refine ⟨fun hne => absurd rfl hne, fun hr => by simp at hr, fun _ => ?_⟩
            exact Or.inl ⟨by simpa using h1, by simpa using h2, fun h5 => absurd h5 h3⟩

theorem ValidateAndBuildDungeonSelection_empty {mgr : NewLFGMgr} {dungeonIds : List Nat}
    (hempty : knownIds mgr dungeonIds = []) :
    ValidateAndBuildDungeonSelection mgr dungeonIds =
      .ok ⟨[], LFGJoinResult.InternalError, 0, mgr.lfgDungeonsIdsForRandomDungeonId⟩ := by
  unfold knownIds at hempty
  unfold ValidateAndBuildDungeonSelection
  dsimp only
  rw [if_pos hempty, hempty]

theorem ValidateAndBuildDungeonSelection_of_scan {mgr : NewLFGMgr} {dungeonIds : List Nat}
    {r : Option LFGJoinResult} {scan : SelectionScan}
    (hne : knownIds mgr dungeonIds ≠ [])
    (hscan : scanSelection mgr.lfgDungeonData (knownIds mgr dungeonIds).length
      (knownIds mgr dungeonIds) {} = .ok (r, scan)) :
    ValidateAndBuildDungeonSelection mgr dungeonIds = .ok
      (match r with
       | some x =>
         ⟨knownIds mgr dungeonIds, x, scan.randomDungeonId, mgr.lfgDungeonsIdsForRandomDungeonId⟩
       | none =>
         if (if scan.hasDungeon then 1 else 0) + (if scan.hasRaid then 1 else 0)
              + (if scan.randomDungeonId ≠ 0 then 1 else 0) > 1 then
           ⟨knownIds mgr dungeonIds, LFGJoinResult.MixedRaidAndDungeon, scan.randomDungeonId,
             mgr.lfgDungeonsIdsForRandomDungeonId⟩
         else if scan.randomDungeonId ≠ 0 then
           ⟨expansionSet mgr scan.randomDungeonId, LFGJoinResult.OK, scan.randomDungeonId,
             mapModify scan.randomDungeonId [] id mgr.lfgDungeonsIdsForRandomDungeonId⟩
         else
           ⟨knownIds mgr dungeonIds, LFGJoinResult.OK, 0,
             mgr.lfgDungeonsIdsForRandomDungeonId⟩) := by
  unfold knownIds at hne hscan
  unfold ValidateAndBuildDungeonSelection
  dsimp only
  rw [if_neg hne, hscan]
  cases r with
  | some x => rfl
  | none =>
    dsimp only
    generalize ((if scan.hasDungeon = true then 1 else 0) + (if scan.hasRaid = true then 1 else 0)
      + (if scan.randomDungeonId ≠ 0 then 1 else 0) : Nat) = cnt
    by_cases hcount : cnt > 1
    · simp only [if_pos hcount]
      rfl
    · by_cases hrand : scan.randomDungeonId ≠ 0
      · simp only [if_neg hcount, if_pos hrand]
        unfold expansionSet
        rw [mapFind_mapModify_self]
        rfl
      · simp only [if_neg hcount, if_neg hrand]
        rfl

theorem typeOfId_isSome_of_known {mgr : NewLFGMgr} {dungeonIds : List Nat} {id : Nat}
    (h : id ∈ knownIds mgr dungeonIds) : (mapFind id mgr.lfgDungeonData).isSome = true :=
  (List.mem_filter.1 h).2

theorem hasType_unique_of_short {mgr : NewLFGMgr} {ids : List Nat} {t1 t2 : Nat}
    (hlen : ids.length ≤ 1) (h1 : HasType mgr ids t1) (h2 : HasType mgr ids t2) : t1 = t2 := by
  match ids, hlen, h1, h2 with
  | [a], _, ⟨x, hx, hx1⟩, ⟨y, hy, hy1⟩ =>
    simp only [List.mem_singleton] at hx hy
    subst hx hy
    rw [hx1] at hy1
    exact Option.some.inj hy1

/-- C11 (amended): for every selection the selection check returns, and it sets the join
result to `MixedRaidAndDungeon` exactly when the selection, after the ids without a catalog
record are dropped, holds a dungeon-type activity and a raid-type activity and no activity of
another type. -/
theorem mixed_selection_result (mgr : NewLFGMgr) (dungeonIds : List Nat) :
    ∃ sel, ValidateAndBuildDungeonSelection mgr dungeonIds = .ok sel ∧
      (sel.result = LFGJoinResult.MixedRaidAndDungeon ↔
        HasType mgr (knownIds mgr dungeonIds) LFGType.Dungeon ∧
        HasType mgr (knownIds mgr dungeonIds) LFGType.Raid ∧
        ∀ id ∈ knownIds mgr dungeonIds,
          typeOfId mgr id = some LFGType.Dungeon ∨ typeOfId mgr id = some LFGType.Raid) := by
  by_cases hempty : knownIds mgr dungeonIds = []
  · refine ⟨_, ValidateAndBuildDungeonSelection_empty hempty, ?_⟩
    simp [hempty, HasType]
  · obtain ⟨r, scan, hscan⟩ := scanSelection_total mgr.lfgDungeonData
      (knownIds mgr dungeonIds).length (knownIds mgr dungeonIds) {}
      (fun id hid => typeOfId_isSome_of_known hid)
    refine ⟨_, ValidateAndBuildDungeonSelection_of_scan hempty hscan, ?_⟩
    obtain ⟨hrand, hnone, hsome⟩ := scanSelection_spec mgr _ _ _ _ _ hscan
    cases r with
    | some x =>
      have hx := scanSelection_error _ _ _ _ _ _ hscan
      obtain ⟨id, hid, hD, hR, _⟩ := hsome (by simp)
      dsimp only
      constructor
      · intro h; rw [hx] at h; exact absurd h (by decide)
      · rintro ⟨_, _, hall⟩
        rcases hall id hid with h | h
        · exact absurd h hD
        · exact absurd h hR
    | none =>
      obtain ⟨hall, hD, hR⟩ := hnone rfl
      simp only [Bool.false_eq_true, false_or] at hD hR
      dsimp only
      have hshort : ∀ t1 t2, HasType mgr (knownIds mgr dungeonIds) t1 →
          HasType mgr (knownIds mgr dungeonIds) t2 → t1 ≠ t2 →
          1 < (knownIds mgr dungeonIds).length := by
        intro t1 t2 h1 h2 hne
        by_contra hlen
        exact hne (hasType_unique_of_short (by omega) h1 h2)
      have hflags : scan.randomDungeonId ≠ 0 → scan.hasDungeon = false ∧ scan.hasRaid = false := by
        intro hr
        obtain ⟨id, hid, hty⟩ := hrand hr
        have hlen : (knownIds mgr dungeonIds).length ≤ 1 := by
          rcases hall id hid with h | h | h
          · rw [hty] at h; exact absurd h (by decide)
          · rw [hty] at h; exact absurd h (by decide)
          · exact h.2
        constructor
        · by_contra hd
          have := hshort _ _ (hD.1 (by simpa using hd)) ⟨id, hid, hty⟩ (by decide)
          omega
        · by_contra hd
          have := hshort _ _ (hR.1 (by simpa using hd)) ⟨id, hid, hty⟩ (by decide)
          omega
      have hcnt : ((if scan.hasDungeon = true then 1 else 0)
          + (if scan.hasRaid = true then 1 else 0)
          + (if scan.randomDungeonId ≠ 0 then 1 else 0) : Nat) > 1 ↔
          scan.hasDungeon = true ∧ scan.hasRaid = true := by
        by_cases hr : scan.randomDungeonId ≠ 0
        · obtain ⟨h1, h2⟩ := hflags hr
          rw [h1, h2, if_pos hr]
          simp
        · rw [if_neg hr]
          cases scan.hasDungeon <;> cases scan.hasRaid <;> simp
      generalize ((if scan.hasDungeon = true then 1 else 0) + (if scan.hasRaid = true then 1 else 0)
        + (if scan.randomDungeonId ≠ 0 then 1 else 0) : Nat) = cnt at hcnt
      have hres : (if cnt > 1 then
            (⟨knownIds mgr dungeonIds, LFGJoinResult.MixedRaidAndDungeon, scan.randomDungeonId,
              mgr.lfgDungeonsIdsForRandomDungeonId⟩ : SelectionOutcome)
          else if scan.randomDungeonId ≠ 0 then
            ⟨expansionSet mgr scan.randomDungeonId, LFGJoinResult.OK, scan.randomDungeonId,
              mapModify scan.randomDungeonId [] id mgr.lfgDungeonsIdsForRandomDungeonId⟩
          else
            ⟨knownIds mgr dungeonIds, LFGJoinResult.OK, 0,
              mgr.lfgDungeonsIdsForRandomDungeonId⟩).result = LFGJoinResult.MixedRaidAndDungeon ↔
          cnt > 1 := by
        by_cases hc : cnt > 1
        · rw [if_pos hc]
          exact iff_of_true rfl hc
        · rw [if_neg hc]
          by_cases hr : scan.randomDungeonId ≠ 0
          · rw [if_pos hr]
            exact iff_of_false (by simp) hc
          · rw [if_neg hr]
            exact iff_of_false (by simp) hc
      rw [hres, hcnt, hD, hR]
      constructor
      · rintro ⟨h1, h2⟩
        refine ⟨h1, h2, fun id hid => ?_⟩
        have hlen := hshort _ _ h1 h2 (by decide)
        rcases hall id hid with h | h | h
        · exact Or.inl h
        · exact Or.inr h
        · omega
      · rintro ⟨h1, h2, _⟩
        exact ⟨h1, h2⟩

/-- C11 (counterexample): the selection of dungeon 101 and random dungeon 301 holds activities
of two of the three categories (a dungeon and a random dungeon), and the selection check sets
the join result to `InternalError`, not to `MixedRaidAndDungeon`. -/
theorem mixed_random_selection_internal_error :
    HasType demoMgr (knownIds demoMgr [101, 301]) LFGType.Dungeon ∧
    HasType demoMgr (knownIds demoMgr [101, 301]) LFGType.Random ∧
    selectionResult (ValidateAndBuildDungeonSelection demoMgr [101, 301])
      = some LFGJoinResult.InternalError :=
  ⟨⟨101, by decide, by decide⟩, ⟨301, by decide, by decide⟩, by decide⟩

/-- C12: on a manager reachable from the loaded caches the selection check returns; when the
selection, after the ids without a catalog record are dropped, holds a random-type activity
and has more than one element, the result is `InternalError`; when it is exactly one
random-type activity `r` (`r ≠ 0`, the value that stands for "no random dungeon"), the result
stays `OK`, the selection becomes the expansion set of `r` and `r` is recorded as the random
dungeon id; when it holds no random-type activity, the recorded random dungeon id stays 0. -/
theorem random_selection_result (mgr : NewLFGMgr) (dungeonIds : List Nat)
    (hreach : Reachable mgr) :
    ∃ sel, ValidateAndBuildDungeonSelection mgr dungeonIds = .ok sel ∧
      (HasType mgr (knownIds mgr dungeonIds) LFGType.Random →
        1 < (knownIds mgr dungeonIds).length → sel.result = LFGJoinResult.InternalError) ∧
      (∀ r, knownIds mgr dungeonIds = [r] → typeOfId mgr r = some LFGType.Random → r ≠ 0 →
        sel.result = LFGJoinResult.OK ∧ sel.dungeonIdSet = expansionSet mgr r ∧
          sel.randomDungeonId = r) ∧
      (¬ HasType mgr (knownIds mgr dungeonIds) LFGType.Random → sel.randomDungeonId = 0) := by
  have hkeyed := (reachable_wellFormed mgr hreach).keyed
  by_cases hempty : knownIds mgr dungeonIds = []
  · refine ⟨_, ValidateAndBuildDungeonSelection_empty hempty, ?_, ?_, ?_⟩
    · intro _ hlen
      simp [hempty] at hlen
    · intro r hr
      rw [hempty] at hr
      exact absurd hr (by simp)
    · intro _
      rfl
  · obtain ⟨r0, scan, hscan⟩ := scanSelection_total mgr.lfgDungeonData
      (knownIds mgr dungeonIds).length (knownIds mgr dungeonIds) {}
      (fun id hid => typeOfId_isSome_of_known hid)
    refine ⟨_, ValidateAndBuildDungeonSelection_of_scan hempty hscan, ?_, ?_, ?_⟩
    · -- a random activity among several
      rintro ⟨id, hid, hty⟩ hlen
      obtain ⟨_, hnone, _⟩ := scanSelection_spec mgr _ _ _ _ _ hscan
      cases r0 with
      | some x => exact scanSelection_error _ _ _ _ _ _ hscan
      | none =>
        obtain ⟨hall, _, _⟩ := hnone rfl
        rcases hall id hid with h | h | h
        · rw [hty] at h; exact absurd h (by decide)
        · rw [hty] at h; exact absurd h (by decide)
        · omega
    · -- exactly one random activity
      intro r hk hty hr
      rw [hk] at hscan
      obtain ⟨d, hd, hdty⟩ : ∃ d, mapFind r mgr.lfgDungeonData = some d ∧
          d.DungeonEntry.TypeID = LFGType.Random := by
        unfold typeOfId at hty
        cases hd : mapFind r mgr.lfgDungeonData with
        | none => rw [hd] at hty; simp at hty
        | some d =>
          rw [hd] at hty
          exact ⟨d, rfl, by simpa using hty⟩
      have hid : d.DungeonEntry.ID = r := hkeyed _ (mapFind_some_mem hd)
      have h1 : ¬ d.DungeonEntry.TypeID = LFGType.Dungeon := by rw [hdty]; decide
      have h2 : ¬ d.DungeonEntry.TypeID = LFGType.Raid := by rw [hdty]; decide
      rw [scanSelection, hd] at hscan
      dsimp only at hscan
      rw [if_neg h1, if_neg h2, if_pos hdty, if_neg (by simp), scanSelection] at hscan
      simp only [Except.ok.injEq, Prod.mk.injEq] at hscan
      obtain ⟨hr0, hs⟩ := hscan
      subst hr0 hs
      dsimp only
      rw [hid]
      simp [hr]
    · -- no random activity
      intro hno
      obtain ⟨hrand, _, _⟩ := scanSelection_spec mgr _ _ _ _ _ hscan
      have h0 : scan.randomDungeonId = 0 := by
        by_contra hne
        exact hno (hrand hne)
      cases r0 with
      | some x => exact h0
      | none =>
        dsimp only
        rw [h0]
        split_ifs <;> rfl

/-- Witness of `random_selection_result`: the loaded demo caches. -/
theorem random_selection_result_witness :
    ∃ sel, ValidateAndBuildDungeonSelection demoMgr [301] = .ok sel ∧
      (HasType demoMgr (knownIds demoMgr [301]) LFGType.Random →
        1 < (knownIds demoMgr [301]).length → sel.result = LFGJoinResult.InternalError) ∧
      (∀ r, knownIds demoMgr [301] = [r] → typeOfId demoMgr r = some LFGType.Random → r ≠ 0 →
        sel.result = LFGJoinResult.OK ∧ sel.dungeonIdSet = expansionSet demoMgr r ∧
          sel.randomDungeonId = r) ∧
      (¬ HasType demoMgr (knownIds demoMgr [301]) LFGType.Random → sel.randomDungeonId = 0) :=
  random_selection_result demoMgr [301] (Reachable.init demoSources)

/-! ## Base eligibility -/

/-- C13 (the code at the failing input): for a solo player who lacks the join permission and
carries the deserter debuff the base check returns `Deserter`, where the first failing
condition in the stated order (the permission) gives `InternalError`: the permission test is
not chained to the tests after it, so a later failing test replaces its result. For every solo
player the base check returns `OK` exactly when no condition fails, and for a player who holds
the permission it returns the code of the first failing condition. -/
theorem permission_failure_overridden :
    GetPlayerAndGroupJoinResult demoHost deserterWithoutPermission none LFG_ROLE_DAMAGE
      = LFGJoinResult.Deserter ∧
    firstFailingCondition deserterWithoutPermission LFG_ROLE_DAMAGE
      = LFGJoinResult.InternalError ∧
    (∀ (host : Host) (player : Player) (roleMask : Nat),
      GetPlayerAndGroupJoinResult host player none roleMask = LFGJoinResult.OK ↔
        firstFailingCondition player roleMask = LFGJoinResult.OK) ∧
    (∀ (host : Host) (player : Player) (roleMask : Nat), player.HasPermission = true →
      GetPlayerAndGroupJoinResult host player none roleMask
        = firstFailingCondition player roleMask) := by
  refine ⟨by decide, by decide, ?_, ?_⟩
  · intro host player roleMask
    unfold GetPlayerAndGroupJoinResult firstFailingCondition
    dsimp only
    cases player.HasPermission <;> cases HasInvalidRoles player roleMask <;>
      cases player.InBattleground <;> cases player.InArena <;>
      cases player.InBattlegroundQueue <;>
      cases player.HasAura SPELL_LFG_DUNGEON_DESERTER <;>
      cases player.HasAura SPELL_LFG_DUNGEON_COOLDOWN <;>
      cases player.HasAura 9454 <;> simp
  · intro host player roleMask hperm
    unfold GetPlayerAndGroupJoinResult firstFailingCondition
    dsimp only
    rw [hperm]
    rfl

theorem groupMemberJoinResult_ok {player groupPlayer : Player}
    (hfrozen : player.HasAura 9454 = false) (h : memberPassesChecks groupPlayer) :
    groupMemberJoinResult player groupPlayer LFGJoinResult.OK = LFGJoinResult.OK := by
  obtain ⟨h1, h2, h3, h4, h5, h6⟩ := h
  simp [groupMemberJoinResult, h1, h2, h3, h4, h5, h6, hfrozen]

theorem groupJoinLoop_ok (player : Player) (hfrozen : player.HasAura 9454 = false)
    (members : List (Option Player)) :
    ∀ memberCount : Nat, memberCount < 256 →
    (∀ p ∈ members.filterMap (fun itr => itr), memberPassesChecks p) →
    groupJoinLoop player members LFGJoinResult.OK memberCount
      = (LFGJoinResult.OK, (memberCount + (members.filterMap (fun itr => itr)).length) % 256) := by
  induction members with
  | nil =>
    intro n hn _
    simp only [groupJoinLoop, List.filterMap_nil, List.length_nil, Nat.add_zero,
      Nat.mod_eq_of_lt hn]
  | cons itr rest ih =>
    intro n hn hall
    cases itr with
    | none =>
      rw [groupJoinLoop, if_neg (by simp)]
      rw [ih n hn (by simpa using hall)]
      simp
    | some groupPlayer =>
      rw [groupJoinLoop, if_neg (by simp)]
      have hp : memberPassesChecks groupPlayer := hall groupPlayer (by simp)
      rw [groupMemberJoinResult_ok hfrozen hp,
        ih _ (Nat.mod_lt _ (by decide)) (fun p hpm => hall p (by simp [hpm]))]
      have hcons : List.filterMap (fun itr => itr) (some groupPlayer :: rest)
          = groupPlayer :: List.filterMap (fun itr => itr) rest := rfl
      rw [hcons]
      simp only [List.length_cons, Prod.mk.injEq, true_and]
      omega

/-- C14: for a requester who passes every individual check and is in a group: a member count
above the maximum group size gives `TooManyMembers`, a member count equal to it gives
`GroupFull`, and for a smaller group whose members in the world (fewer than 256, the range of
the member counter) all pass their checks the result is `Disconnected` exactly when the number
of members in the world differs from the member count of the group, and `OK` otherwise. -/
theorem group_size_and_disconnected (host : Host) (player : Player) (g : Group) (roleMask : Nat)
    (hself : passesIndividualChecks player roleMask)
    (hcount : (reachableMembers g).length < 256) :
    (host.MAXGROUPSIZE < g.GetMembersCount →
      GetPlayerAndGroupJoinResult host player (some g) roleMask
        = LFGJoinResult.TooManyMembers) ∧
    (g.GetMembersCount = host.MAXGROUPSIZE →
      GetPlayerAndGroupJoinResult host player (some g) roleMask = LFGJoinResult.GroupFull) ∧
    (g.GetMembersCount < host.MAXGROUPSIZE →
      (∀ p ∈ reachableMembers g, memberPassesChecks p) →
      (GetPlayerAndGroupJoinResult host player (some g) roleMask = LFGJoinResult.Disconnected ↔
        (reachableMembers g).length ≠ g.GetMembersCount) ∧
      ((reachableMembers g).length = g.GetMembersCount →
        GetPlayerAndGroupJoinResult host player (some g) roleMask = LFGJoinResult.OK)) := by
  obtain ⟨h1, h2, h3, h4, h5, h6, h7, h8⟩ := hself
  have hbase : GetPlayerAndGroupJoinResult host player (some g) roleMask =
      if g.GetMembersCount > host.MAXGROUPSIZE then LFGJoinResult.TooManyMembers
      else if g.GetMembersCount = host.MAXGROUPSIZE then LFGJoinResult.GroupFull
      else
        if (groupJoinLoop player g.members LFGJoinResult.OK 0).1 = LFGJoinResult.OK ∧
            (groupJoinLoop player g.members LFGJoinResult.OK 0).2 ≠ g.GetMembersCount then
          LFGJoinResult.Disconnected
        else (groupJoinLoop player g.members LFGJoinResult.OK 0).1 := by
    simp [GetPlayerAndGroupJoinResult, h1, h2, h3, h4, h5, h6, h7, h8]
  rw [hbase]
  refine ⟨fun hgt => ?_, fun heq => ?_, fun hlt hall => ?_⟩
  · rw [if_pos hgt]
  · rw [if_neg (by omega), if_pos heq]
  · rw [if_neg (by omega), if_neg (by omega),
      groupJoinLoop_ok player h8 g.members 0 (by decide) hall]
    unfold reachableMembers at hcount ⊢
    simp only [Nat.zero_add, true_and, Nat.mod_eq_of_lt hcount]
    constructor
    · by_cases hne : (List.filterMap (fun itr => itr) g.members).length = g.GetMembersCount
      · rw [if_neg (by simpa using hne)]
        simp [hne]
      · rw [if_pos hne]
        simp [hne]
    · intro heq
      rw [if_neg (by simpa using heq)]

/-- Witness of `group_size_and_disconnected`: the warrior of the demo group of two. -/
theorem group_size_and_disconnected_witness :
    (demoHost.MAXGROUPSIZE < groupAB.GetMembersCount →
      GetPlayerAndGroupJoinResult demoHost playerA (some groupAB) 2
        = LFGJoinResult.TooManyMembers) ∧
    (groupAB.GetMembersCount = demoHost.MAXGROUPSIZE →
      GetPlayerAndGroupJoinResult demoHost playerA (some groupAB) 2 = LFGJoinResult.GroupFull) ∧
    (groupAB.GetMembersCount < demoHost.MAXGROUPSIZE →
      (∀ p ∈ reachableMembers groupAB, memberPassesChecks p) →
      (GetPlayerAndGroupJoinResult demoHost playerA (some groupAB) 2
          = LFGJoinResult.Disconnected ↔
        (reachableMembers groupAB).length ≠ groupAB.GetMembersCount) ∧
      ((reachableMembers groupAB).length = groupAB.GetMembersCount →
        GetPlayerAndGroupJoinResult demoHost playerA (some groupAB) 2 = LFGJoinResult.OK)) :=
  group_size_and_disconnected demoHost playerA groupAB 2
    ⟨rfl, rfl, rfl, rfl, rfl, rfl, rfl, rfl⟩ (by decide)

/-! ## Class-role legality -/

theorem role_bits (m : Nat) :
    (m &&& LFG_ROLE_HEAL ≠ 0 ↔ m.testBit 2 = true) ∧
    (m &&& LFG_ROLE_TANK ≠ 0 ↔ m.testBit 1 = true) ∧
    (m &&& (LFG_ROLE_HEAL ||| LFG_ROLE_TANK) ≠ 0 ↔ (m.testBit 2 = true ∨ m.testBit 1 = true)) := by
  have h4 : m &&& LFG_ROLE_HEAL = (m % 16) &&& 4 := land_mod_sixteen m 4 (by decide)
  have h2 : m &&& LFG_ROLE_TANK = (m % 16) &&& 2 := land_mod_sixteen m 2 (by decide)
  have h6 : m &&& (LFG_ROLE_HEAL ||| LFG_ROLE_TANK) = (m % 16) &&& 6 :=
    land_mod_sixteen m 6 (by decide)
  have hb2 : m.testBit 2 = decide ((m % 16) / 4 % 2 = 1) := by
    rw [Nat.testBit_to_div_mod]
    congr 1
    apply propext
    have : (2 : Nat) ^ 2 = 4 := by decide
    rw [this]
    omega
  have hb1 : m.testBit 1 = decide ((m % 16) / 2 % 2 = 1) := by
    rw [Nat.testBit_to_div_mod]
    congr 1
    apply propext
    have : (2 : Nat) ^ 1 = 2 := by decide
    rw [this]
    omega
  rw [h4, h2, h6, hb2, hb1]
  have hlt : m % 16 < 16 := Nat.mod_lt _ (by decide)
  generalize m % 16 = r at hlt
  interval_cases r <;> decide

theorem HasInvalidRoles_zero (player : Player) : HasInvalidRoles player 0 = false := by
  unfold HasInvalidRoles
  cases player.getClass <;> first | decide | rfl

/-- C15: `HasInvalidRoles` is true exactly when the class is death knight or warrior and the
mask has the heal bit, or the class is warlock, mage, hunter or rogue and the mask has the
heal bit or the tank bit, or the class is priest or shaman and the mask has the tank bit; for
every other class no mask is invalid, and the empty mask and the damage-only mask are valid
for every class. -/
theorem HasInvalidRoles_iff (player : Player) (roleMask : Nat) :
    (HasInvalidRoles player roleMask = true ↔
      ((player.getClass = Classes.CLASS_DEATH_KNIGHT ∨ player.getClass = Classes.CLASS_WARRIOR)
          ∧ roleMask.testBit 2 = true) ∨
      ((player.getClass = Classes.CLASS_WARLOCK ∨ player.getClass = Classes.CLASS_MAGE ∨
          player.getClass = Classes.CLASS_HUNTER ∨ player.getClass = Classes.CLASS_ROGUE)
          ∧ (roleMask.testBit 2 = true ∨ roleMask.testBit 1 = true)) ∨
      ((player.getClass = Classes.CLASS_PRIEST ∨ player.getClass = Classes.CLASS_SHAMAN)
          ∧ roleMask.testBit 1 = true)) ∧
    HasInvalidRoles player 0 = false ∧
    HasInvalidRoles player LFG_ROLE_DAMAGE = false := by
  obtain ⟨hheal, htank, hboth⟩ := role_bits roleMask
  refine ⟨?_, ?_, ?_⟩
  · unfold HasInvalidRoles
    cases player.getClass <;>
      simp only [decide_eq_true_eq, hheal, htank, hboth, reduceCtorEq, false_or, or_false,
        true_or, or_true, true_and, false_and, Bool.false_eq_true]
  · exact HasInvalidRoles_zero player
  · unfold HasInvalidRoles
    cases player.getClass <;> first | decide | rfl

/-! ## Role selection -/

/-- C16: when the role mask passed to `ProcessPlayerRoleRequest` is illegal for the class of
the connected player, the call returns with the manager state unchanged (member roles, join
data, timers, queue entries, ticket counter) and emits no notification. -/
theorem illegal_role_request_ignored (mgr : NewLFGMgr) (host : Host)
    (groupGuid playerGuid : ObjectGuid) (desiredRoles : Nat) (player : Player)
    (hconnected : host.FindConnectedPlayer playerGuid = some player)
    (hillegal : HasInvalidRoles player desiredRoles = true) :
    ProcessPlayerRoleRequest mgr host groupGuid playerGuid desiredRoles = .ok (mgr, []) := by
  unfold ProcessPlayerRoleRequest
  simp only [hconnected, hillegal, if_true]

/-- Witness of `illegal_role_request_ignored`: during the role check of the demo group the
warrior asks for the heal role. -/
theorem illegal_role_request_ignored_witness :
    ProcessPlayerRoleRequest (finalState roleCheckRun) demoHost (ObjectGuid.Group 1)
      (ObjectGuid.Player 1) LFG_ROLE_HEAL = .ok (finalState roleCheckRun, []) :=
  illegal_role_request_ignored (finalState roleCheckRun) demoHost (ObjectGuid.Group 1)
    (ObjectGuid.Player 1) LFG_ROLE_HEAL playerA rfl (by decide)

/-! ## Notifications of a call that returns -/

theorem slotsOfDungeonIds_ok (mgr : NewLFGMgr) (ids : List Nat)
    (h : ∀ id ∈ ids, InCatalog mgr id) : ∃ slots, slotsOfDungeonIds mgr ids = .ok slots := by
  induction ids with
  | nil => exact ⟨[], rfl⟩
  | cons x rest ih =>
    obtain ⟨slots, hs⟩ := ih (fun id hid => h id (List.mem_cons_of_mem _ hid))
    have hx : InCatalog mgr x := h x (List.mem_cons_self _ _)
    unfold InCatalog at hx
    cases hd : mapFind x mgr.lfgDungeonData with
    | none => rw [hd] at hx; simp at hx
    | some d =>
      refine ⟨d.DungeonEntry.Entry :: slots, ?_⟩
      simp only [slotsOfDungeonIds, slotOfDungeonId, hd, hs]

theorem slotsOfJoinData_ok (mgr : NewLFGMgr) (jd : LFGJoinData) (h : JoinDataInCatalog mgr jd) :
    ∃ slots, slotsOfJoinData mgr jd = .ok slots := by
  unfold slotsOfJoinData
  by_cases hr : jd.RandomDungeonID ≠ 0
  · rw [if_pos hr]
    have hx := h.1 hr
    unfold InCatalog at hx
    cases hd : mapFind jd.RandomDungeonID mgr.lfgDungeonData with
    | none => rw [hd] at hx; simp at hx
    | some d =>
      refine ⟨[d.DungeonEntry.Entry], ?_⟩
      simp only [slotOfDungeonId, hd]
  · rw [if_neg hr]
    exact slotsOfDungeonIds_ok mgr _ h.2

theorem slotsOfDungeonIds_congr {mgr mgr1 : NewLFGMgr}
    (h : mgr1.lfgDungeonData = mgr.lfgDungeonData) (ids : List Nat) :
    slotsOfDungeonIds mgr1 ids = slotsOfDungeonIds mgr ids := by
  induction ids with
  | nil => rfl
  | cons x rest ih => simp only [slotsOfDungeonIds, slotOfDungeonId, h, ih]

theorem slotsOfJoinData_congr {mgr mgr1 : NewLFGMgr}
    (h : mgr1.lfgDungeonData = mgr.lfgDungeonData) (jd : LFGJoinData) :
    slotsOfJoinData mgr1 jd = slotsOfJoinData mgr jd := by
  simp only [slotsOfJoinData, slotOfDungeonId, h, slotsOfDungeonIds_congr h]

/-- With every member of the role table connected the packet builder returns. -/
theorem SendLfgRoleCheckUpdateNew_eq (host : Host) (recipient : ObjectGuid)
    (rolecheckData : LFGRolecheckUpdateData)
    (hconn : AllConnected host rolecheckData.PartyMemberRoles) :
    SendLfgRoleCheckUpdateNew host recipient rolecheckData =
      .ok ⟨recipient, Packet.RoleCheckUpdate rolecheckData⟩ := by
  unfold SendLfgRoleCheckUpdateNew
  rw [if_pos]
  rw [List.all_eq_true]
  intro it hit
  exact hconn it hit

theorem sendRolecheckToMembers_eq (host : Host) (rolecheckData : LFGRolecheckUpdateData)
    (hconn : AllConnected host rolecheckData.PartyMemberRoles)
    (members : List (ObjectGuid × LFGPartyMemberRoleData)) :
    sendRolecheckToMembers host rolecheckData members =
      .ok (sendToMembers host members (Packet.RoleCheckUpdate rolecheckData)) := by
  induction members with
  | nil => rfl
  | cons it rest ih =>
    rw [sendRolecheckToMembers]
    cases hc : host.FindConnectedPlayer it.1 with
    | none =>
      simp only [ih, sendToMembers, List.filterMap_cons, hc]
    | some p =>
      simp only [ih, SendLfgRoleCheckUpdateNew_eq host it.1 rolecheckData hconn, sendToMembers,
        List.filterMap_cons, hc]

/-- When some member of the role table is connected and some member is not, the loop ends in
the assertion of the packet builder. -/
theorem sendRolecheckToMembers_assertion (host : Host) (rolecheckData : LFGRolecheckUpdateData)
    (hoffline : ∃ it ∈ rolecheckData.PartyMemberRoles, host.FindConnectedPlayer it.1 = none)
    (members : List (ObjectGuid × LFGPartyMemberRoleData))
    (honline : ∃ it ∈ members, (host.FindConnectedPlayer it.1).isSome = true) :
    sendRolecheckToMembers host rolecheckData members = .error Fault.assertion := by
  have hsend : ∀ recipient, SendLfgRoleCheckUpdateNew host recipient rolecheckData =
      .error Fault.assertion := by
    intro recipient
    unfold SendLfgRoleCheckUpdateNew
    rw [if_neg]
    rw [List.all_eq_true]
    intro hall
    obtain ⟨it, hit, hnone⟩ := hoffline
    have := hall it hit
    rw [hnone] at this
    simp at this
  induction members with
  | nil =>
    obtain ⟨it, hit, _⟩ := honline
    simp at hit
  | cons it rest ih =>
    rw [sendRolecheckToMembers]
    cases hc : host.FindConnectedPlayer it.1 with
    | none =>
      dsimp only
      apply ih
      obtain ⟨it1, hit1, hcon⟩ := honline
      rcases List.mem_cons.1 hit1 with h1 | h1
      · rw [h1, hc] at hcon
        simp at hcon
      · exact ⟨it1, h1, hcon⟩
    | some p =>
      simp only [hsend]

theorem SendRolecheckUpdate_eq (mgr mgr0 : NewLFGMgr) (host : Host) {guid : ObjectGuid}
    {jd : LFGJoinData} {slots : List Nat} (state : LFGRoleCheckState) (beginning : Bool)
    (hjd : mapFind guid mgr.lfgJoinData = some jd)
    (hcatalog : mgr.lfgDungeonData = mgr0.lfgDungeonData)
    (hslots : slotsOfJoinData mgr0 jd = .ok slots)
    (hconn : AllConnected host jd.PartyMemberRoleData) :
    SendRolecheckUpdate mgr host guid state beginning =
      .ok (sendToMembers host jd.PartyMemberRoleData
        (Packet.RoleCheckUpdate ⟨state, slots, jd.PartyMemberRoleData, beginning⟩)) := by
  have hs := (slotsOfJoinData_congr hcatalog jd).trans hslots
  simp only [SendRolecheckUpdate, hjd, hs]
  exact sendRolecheckToMembers_eq host ⟨state, slots, jd.PartyMemberRoleData, beginning⟩ hconn _

theorem SendStatusUpdate_eq (mgr mgr0 : NewLFGMgr) (host : Host) {ticketId : Nat}
    {q : LFGQueuePlayerData} {jd : LFGJoinData} {slots : List Nat} (reason : LFGUpdateReason)
    (hq : mapFind ticketId mgr.lfgQueuePlayerData = some q)
    (hlive : ticketId ∉ mgr.danglingJoinData)
    (hjd : mapFind q.JoinData mgr.lfgJoinData = some jd)
    (hcatalog : mgr.lfgDungeonData = mgr0.lfgDungeonData)
    (hslots : slotsOfJoinData mgr0 jd = .ok slots) :
    SendStatusUpdate mgr host ticketId reason =
      .ok (sendToMembers host jd.PartyMemberRoleData
        (Packet.UpdateStatus { statusUpdateOf reason jd q.RideTicket slots with
          Comment := q.Comment })) := by
  have hs := (slotsOfJoinData_congr hcatalog jd).trans hslots
  simp only [SendStatusUpdate, hq, if_neg hlive, hjd, hs, statusUpdateOf]

theorem sendToMembers_packet (host : Host) (members : List (ObjectGuid × LFGPartyMemberRoleData))
    (packet : Packet) : ∀ n ∈ sendToMembers host members packet, n.packet = packet := by
  intro n hn
  unfold sendToMembers at hn
  obtain ⟨it, _, hit⟩ := List.mem_filterMap.1 hn
  cases hc : host.FindConnectedPlayer it.1 with
  | none => rw [hc] at hit; simp at hit
  | some p =>
    rw [hc] at hit
    simp only [Option.some.injEq] at hit
    rw [← hit]

theorem mem_sendToMembers {host : Host} {members : List (ObjectGuid × LFGPartyMemberRoleData)}
    {guid : ObjectGuid} {d : LFGPartyMemberRoleData} {p : Player} (packet : Packet)
    (hmem : (guid, d) ∈ members) (hconnected : host.FindConnectedPlayer guid = some p) :
    ⟨guid, packet⟩ ∈ sendToMembers host members packet := by
  unfold sendToMembers
  refine List.mem_filterMap.2 ⟨(guid, d), hmem, ?_⟩
  simp only [hconnected]

theorem mapFind_mapAdjust_self {κ α : Type} [DecidableEq κ] (k : κ) (f : α → α)
    (m : List (κ × α)) : mapFind k (mapAdjust k f m) = (mapFind k m).map f := by
  induction m with
  | nil => rfl
  | cons e rest ih =>
    by_cases he : e.1 = k
    · simp [mapAdjust, mapFind, he]
    · simp [mapAdjust, mapFind, he, ih]

theorem mapFind_mapErase_self {κ α : Type} [DecidableEq κ] (k : κ) (m : List (κ × α)) :
    mapFind k (mapErase k m) = none := by
  rw [mapFind_none_iff, mapKeys_mapErase]
  simp

theorem mapFind_recordRole {joinData : List (ObjectGuid × LFGJoinData)}
    {groupGuid : ObjectGuid} {jd : LFGJoinData} (playerGuid : ObjectGuid) (desiredRoles : Nat)
    (hjd : mapFind groupGuid joinData = some jd) :
    mapFind groupGuid (recordRole groupGuid playerGuid desiredRoles joinData) =
      some { jd with PartyMemberRoleData := recordedRoles playerGuid desiredRoles jd } := by
  unfold recordRole
  rw [mapFind_mapAdjust_self, hjd]
  rfl

theorem mem_recordedRoles (playerGuid : ObjectGuid) (desiredRoles : Nat) (jd : LFGJoinData) :
    ∃ d, mapFind playerGuid (recordedRoles playerGuid desiredRoles jd) = some d ∧
      d.RoleMask = desiredRoles % 256 ∧ d.RoleConfirmed = true := by
  unfold recordedRoles
  rw [mapFind_mapModify_self]
  exact ⟨_, rfl, rfl, rfl⟩

theorem eq_error_of_faultOf {α : Type} (r : Except Fault α) (f : Fault)
    (h : faultOf r = some f) : r = .error f := by
  cases r with
  | error e =>
    simp only [faultOf, Option.some.injEq] at h
    rw [h]
  | ok b => simp [faultOf] at h

/-- Recording the mask of a connected member keeps every member of the role table connected. -/
theorem allConnected_recordedRoles {host : Host} (playerGuid : ObjectGuid) (desiredRoles : Nat)
    (jd : LFGJoinData) {member : Player}
    (hmember : host.FindConnectedPlayer playerGuid = some member)
    (hconn : AllConnected host jd.PartyMemberRoleData) :
    AllConnected host (recordedRoles playerGuid desiredRoles jd) := by
  intro it hit
  have hk : it.1 ∈ mapKeys (recordedRoles playerGuid desiredRoles jd) :=
    List.mem_map.2 ⟨it, hit, rfl⟩
  unfold recordedRoles at hk
  rw [mapKeys_mapModify] at hk
  have hcases : it.1 ∈ mapKeys jd.PartyMemberRoleData ∨ it.1 = playerGuid := by
    split_ifs at hk with hin
    · exact Or.inl hk
    · rcases List.mem_append.1 hk with h1 | h1
      · exact Or.inl h1
      · exact Or.inr (by simpa using h1)
  rcases hcases with h1 | h1
  · obtain ⟨e, he, hkey⟩ := List.mem_map.1 h1
    rw [← hkey]
    exact hconn e he
  · rw [h1, hmember]
    rfl

/-! ## Recorded random dungeons have catalog records; queued ticket ids are below the counter -/

theorem joinChecks_random_inCatalog {mgr : NewLFGMgr} {host : Host} {player : Player}
    {group : Option Group} {dungeonIds : List Nat} {roleMask : Nat} {c : JoinChecks}
    (hwf : CachesWellFormed mgr)
    (h : joinChecks mgr host player group dungeonIds roleMask = .ok c)
    (hok : c.result = LFGJoinResult.OK) (hr : c.randomDungeonId ≠ 0) :
    InCatalog mgr c.randomDungeonId := by
  rcases joinChecks_state h with ⟨hbase, hres, _⟩ | ⟨_, sel, hsel, hrand, _, hcase⟩
  · exact absurd (hres ▸ hok) hbase
  · rcases hcase with ⟨hne, hres, _⟩ | ⟨hselok, _, _, _⟩
    · exact absurd (hres ▸ hok) hne
    · rcases ValidateAndBuildDungeonSelection_state hsel with
        ⟨hne, _⟩ | ⟨_, h0, _⟩ | ⟨_, _, _, ⟨x, d, _, hd, _, hid⟩, _, _⟩
      · exact absurd hselok hne
      · exact absurd (hrand.trans h0) hr
      · have hkey : d.DungeonEntry.ID = x := hwf.keyed _ (mapFind_some_mem hd)
        unfold InCatalog
        rw [hrand, ← hid, hkey, hd]
        rfl

theorem random_prepareJoinData {mgr : NewLFGMgr} {player : Player} {group : Option Group}
    {randomDungeonId : Nat} {dungeonIds : List Nat} {roleMask : Nat}
    (hold : ∀ e ∈ mgr.lfgJoinData, e.2.RandomDungeonID ≠ 0 → InCatalog mgr e.2.RandomDungeonID)
    (hnew : randomDungeonId ≠ 0 → InCatalog mgr randomDungeonId) (guid : ObjectGuid) :
    ∀ e ∈ mapModify guid {} (prepareJoinData player group randomDungeonId dungeonIds roleMask)
        mgr.lfgJoinData, e.2.RandomDungeonID ≠ 0 → InCatalog mgr e.2.RandomDungeonID := by
  intro e he
  rcases mem_mapModify he with h1 | ⟨v, _, h1⟩ | h1
  · exact hold e h1
  · rw [h1]
    exact hnew
  · rw [h1]
    exact hnew

theorem randomInCatalog_step {mgr mgr1 : NewLFGMgr} {host : Host} {call : Call}
    {out : List Notification} (hrun : call.run mgr host = .ok (mgr1, out))
    (hwf : CachesWellFormed mgr)
    (h : ∀ e ∈ mgr.lfgJoinData, e.2.RandomDungeonID ≠ 0 → InCatalog mgr e.2.RandomDungeonID) :
    ∀ e ∈ mgr1.lfgJoinData, e.2.RandomDungeonID ≠ 0 → InCatalog mgr1 e.2.RandomDungeonID := by
  cases call with
  | Join player group dungeonIds roleMask =>
    obtain ⟨c, hc, hcase⟩ := ProcessLFGJoinRequest_state hrun
    rcases hcase with ⟨_, hm⟩ | ⟨hok, _, _, queue, hm⟩ | ⟨hok, _, hm⟩ <;> subst hm
    · exact h
    · exact random_prepareJoinData h (joinChecks_random_inCatalog hwf hc hok) _
    · exact random_prepareJoinData h (joinChecks_random_inCatalog hwf hc hok) _
  | Leave ticketId groupGuid =>
    rcases ProcessLFGLeaveRequest_state hrun with ⟨_, hm⟩ | ⟨_, hcase⟩
    · subst hm
      exact fun e he => h e (mem_mapErase he)
    · rcases hcase with ⟨_, hm, _⟩ | ⟨it, _, ⟨_, hm⟩ | ⟨_, hm⟩⟩ <;> subst hm
      · exact h
      · exact fun e he => h e (mem_mapErase he)
      · exact h
  | SetRoles groupGuid playerGuid desiredRoles =>
    have hrec : ∀ e ∈ recordRole groupGuid playerGuid desiredRoles mgr.lfgJoinData,
        e.2.RandomDungeonID ≠ 0 → InCatalog mgr e.2.RandomDungeonID := by
      intro e he
      unfold recordRole at he
      rcases mem_mapAdjust he with h1 | ⟨v, hv, h1⟩
      · exact h e h1
      · rw [h1]
        exact h (groupGuid, v) hv
    rcases ProcessPlayerRoleRequest_state hrun with ⟨hm, _⟩ | ⟨jd0, _, hcase⟩
    · subst hm
      exact h
    · rcases hcase with ⟨_, hm⟩ | ⟨_, _, queue, hm⟩ | ⟨_, hm⟩ <;> subst hm
      · exact fun e he => hrec e (mem_mapErase he)
      · exact hrec
      · exact hrec
  | Tick diff =>
    have hm := Update_state hrun
    subst hm
    exact fun e he => h e (mem_foldl_mapErase _ _ _ _ he)

theorem reachable_joinDataInCatalog (mgr : NewLFGMgr) (h : Reachable mgr) :
    ∀ e ∈ mgr.lfgJoinData, JoinDataInCatalog mgr e.2 := by
  have hrandom : ∀ e ∈ mgr.lfgJoinData, e.2.RandomDungeonID ≠ 0 →
      InCatalog mgr e.2.RandomDungeonID := by
    induction h with
    | init src =>
      rw [(InitializeDungeonData_queue_fields NewLFGMgr.new src).1]
      intro e he
      simp [NewLFGMgr.new] at he
    | step hprev host call hrun ih =>
      exact randomInCatalog_step hrun (reachable_wellFormed _ hprev) ih
  exact fun e he => ⟨hrandom e he, (reachable_wellFormed mgr h).selected e he⟩

theorem ticketsBelowCounter_step {mgr mgr1 : NewLFGMgr} {host : Host} {call : Call}
    {out : List Notification} (hrun : call.run mgr host = .ok (mgr1, out))
    (h : TicketsBelowCounter mgr) : TicketsBelowCounter mgr1 := by
  obtain ⟨hlt, hq⟩ := h
  have hemplace : mgr.nextAvailableTicketId ≠ 2 ^ 32 - 1 →
      ∀ (q : LFGQueuePlayerData),
      (mgr.nextAvailableTicketId + 1) % 2 ^ 32 < 2 ^ 32 ∧
      ∀ e ∈ mapEmplace mgr.nextAvailableTicketId q mgr.lfgQueuePlayerData,
        e.1 < (mgr.nextAvailableTicketId + 1) % 2 ^ 32 := by
    intro hmax q
    have hsucc : (mgr.nextAvailableTicketId + 1) % 2 ^ 32 = mgr.nextAvailableTicketId + 1 :=
      Nat.mod_eq_of_lt (by omega)
    refine ⟨Nat.mod_lt _ (by decide), fun e he => ?_⟩
    rw [hsucc]
    rcases mem_mapEmplace he with h1 | h1
    · exact Nat.lt_succ_of_lt (hq e h1)
    · rw [h1]
      exact Nat.lt_succ_self _
  cases call with
  | Join player group dungeonIds roleMask =>
    obtain ⟨c, _, hcase⟩ := ProcessLFGJoinRequest_state hrun
    rcases hcase with ⟨_, hm⟩ | ⟨_, _, hmax, queue, hm⟩ | ⟨_, _, hm⟩ <;> subst hm
    · exact ⟨hlt, hq⟩
    · exact hemplace hmax _
    · exact ⟨hlt, hq⟩
  | Leave ticketId groupGuid =>
    rcases ProcessLFGLeaveRequest_state hrun with ⟨_, hm⟩ | ⟨_, hcase⟩
    · subst hm
      exact ⟨hlt, hq⟩
    · rcases hcase with ⟨_, hm, _⟩ | ⟨it, _, ⟨_, hm⟩ | ⟨_, hm⟩⟩ <;> subst hm
      · exact ⟨hlt, hq⟩
      · exact ⟨hlt, fun e he => hq e (mem_mapErase he)⟩
      · exact ⟨hlt, hq⟩
  | SetRoles groupGuid playerGuid desiredRoles =>
    rcases ProcessPlayerRoleRequest_state hrun with ⟨hm, _⟩ | ⟨jd0, _, hcase⟩
    · subst hm
      exact ⟨hlt, hq⟩
    · rcases hcase with ⟨_, hm⟩ | ⟨_, hmax, queue, hm⟩ | ⟨_, hm⟩ <;> subst hm
      · exact ⟨hlt, hq⟩
      · exact hemplace hmax _
      · exact ⟨hlt, hq⟩
  | Tick diff =>
    have hm := Update_state hrun
    subst hm
    refine ⟨hlt, ?_⟩
    dsimp only
    split_ifs
    · intro e he
      obtain ⟨e0, he0, rfl⟩ := List.mem_map.1 he
      exact hq e0 he0
    · exact hq

theorem reachable_ticketsBelowCounter (mgr : NewLFGMgr) (h : Reachable mgr) :
    TicketsBelowCounter mgr := by
  induction h with
  | init src =>
    obtain ⟨_, hq, _, hn⟩ := InitializeDungeonData_queue_fields NewLFGMgr.new src
    unfold TicketsBelowCounter
    rw [hq, hn]
    exact ⟨by decide, fun e he => by simp [NewLFGMgr.new] at he⟩
  | step _ host call hrun ih => exact ticketsBelowCounter_step hrun ih

/-! ## The calls evaluated on a well-formed state -/

theorem GenerateTicket_eq (mgr : NewLFGMgr) (host : Host) (guid : ObjectGuid)
    (hmax : mgr.nextAvailableTicketId ≠ 2 ^ 32 - 1) :
    GenerateTicket mgr host guid =
      .ok ({ ID := mgr.nextAvailableTicketId, Time := host.GetGameTime, RequesterGUID := guid },
        { mgr with nextAvailableTicketId := (mgr.nextAvailableTicketId + 1) % 2 ^ 32 }) := by
  unfold GenerateTicket GenerateTicketID
  rw [if_neg hmax]

theorem mapFind_append_fresh {κ α : Type} [DecidableEq κ] (k : κ) (v : α) (m : List (κ × α))
    (h : mapFind k m = none) : mapFind k (m ++ [(k, v)]) = some v := by
  induction m with
  | nil => simp [mapFind]
  | cons e rest ih =>
    by_cases he : e.1 = k
    · simp [mapFind, he] at h
    · simp only [mapFind, he, if_false] at h
      simp only [List.cons_append, mapFind, he, if_false]
      exact ih h

theorem not_mem_setErase_self (x : Nat) (s : List Nat) : x ∉ setErase x s := by
  unfold setErase
  simp

theorem AddTicketToQueue_eq (mgr mgr0 : NewLFGMgr) (host : Host) (ticket : LFGRideTicket)
    {jd : LFGJoinData} {slots : List Nat}
    (hjd : mapFind ticket.RequesterGUID mgr.lfgJoinData = some jd)
    (hfresh : mapFind ticket.ID mgr.lfgQueuePlayerData = none)
    (hcatalog : mgr.lfgDungeonData = mgr0.lfgDungeonData)
    (hslots : slotsOfJoinData mgr0 jd = .ok slots) :
    AddTicketToQueue mgr host ticket =
      .ok ({ mgr with
          lfgQueuePlayerData := mgr.lfgQueuePlayerData ++
            [(ticket.ID, { JoinData := ticket.RequesterGUID, RideTicket := ticket })],
          lfgQueue := mgr.lfgQueue.AddTicketToQueue
            { JoinData := ticket.RequesterGUID, RideTicket := ticket },
          danglingJoinData := setErase ticket.ID mgr.danglingJoinData },
        sendToMembers host jd.PartyMemberRoleData
          (Packet.UpdateStatus (statusUpdateOf LFGUpdateReason.JoinQueueInitial jd ticket slots))
        ++ sendToMembers host jd.PartyMemberRoleData
          (Packet.UpdateStatus (statusUpdateOf LFGUpdateReason.AddedToQueue jd ticket slots))) := by
  have hq := mapFind_append_fresh ticket.ID
    ({ JoinData := ticket.RequesterGUID, RideTicket := ticket } : LFGQueuePlayerData)
    mgr.lfgQueuePlayerData hfresh
  have hlive := not_mem_setErase_self ticket.ID mgr.danglingJoinData
  unfold AddTicketToQueue
  simp only [hjd, mapEmplace, hfresh, Option.isSome_none, Bool.false_eq_true, if_false]
  rw [SendStatusUpdate_eq
    { mgr with
      lfgQueuePlayerData := mgr.lfgQueuePlayerData ++
        [(ticket.ID, { JoinData := ticket.RequesterGUID, RideTicket := ticket })],
      danglingJoinData := setErase ticket.ID mgr.danglingJoinData }
    mgr0 host LFGUpdateReason.JoinQueueInitial hq hlive hjd hcatalog hslots]
  simp only [hq]
  rw [SendStatusUpdate_eq
    { mgr with
      lfgQueuePlayerData := mgr.lfgQueuePlayerData ++
        [(ticket.ID, { JoinData := ticket.RequesterGUID, RideTicket := ticket })],
      lfgQueue := mgr.lfgQueue.AddTicketToQueue
        { JoinData := ticket.RequesterGUID, RideTicket := ticket },
      danglingJoinData := setErase ticket.ID mgr.danglingJoinData }
    mgr0 host LFGUpdateReason.AddedToQueue hq hlive hjd hcatalog hslots]
  rfl

theorem ProcessPlayerRoleRequest_noRole {mgr : NewLFGMgr} (host : Host)
    {groupGuid : ObjectGuid} (playerGuid : ObjectGuid) {jd : LFGJoinData} {slots : List Nat}
    (hjd : mapFind groupGuid mgr.lfgJoinData = some jd)
    (hslots : slotsOfJoinData mgr jd = .ok slots)
    (hconn : AllConnected host (recordedRoles playerGuid 0 jd)) :
    ProcessPlayerRoleRequest mgr host groupGuid playerGuid 0 =
      .ok ({ mgr with
          lfgJoinData := mapErase groupGuid (recordRole groupGuid playerGuid 0 mgr.lfgJoinData),
          lfgRoleCheckTimers := mapErase groupGuid mgr.lfgRoleCheckTimers,
          danglingJoinData :=
            mgr.danglingJoinData ++ referringTickets groupGuid mgr.lfgQueuePlayerData },
        sendToMembers host (recordedRoles playerGuid 0 jd) (Packet.RoleChosen playerGuid 0)
        ++ SendJoinResult host groupGuid LFGJoinResult.RolecheckFailed LFGRoleCheckState.NoRole none
        ++ sendToMembers host (recordedRoles playerGuid 0 jd)
          (Packet.RoleCheckUpdate
            ⟨LFGRoleCheckState.NoRole, slots, recordedRoles playerGuid 0 jd, false⟩)) := by
  have hrec := mapFind_recordRole playerGuid 0 hjd
  have hsend := SendRolecheckUpdate_eq
    { mgr with lfgJoinData := recordRole groupGuid playerGuid 0 mgr.lfgJoinData } mgr host
    LFGRoleCheckState.NoRole false hrec rfl hslots hconn
  unfold ProcessPlayerRoleRequest
  cases hc : host.FindConnectedPlayer playerGuid with
  | none =>
    simp only [Bool.false_eq_true, if_false, hjd, SendRoleChosen, hrec, hsend, if_true,
      eraseJoinData]
  | some p =>
    simp only [HasInvalidRoles_zero, Bool.false_eq_true, if_false, hjd, SendRoleChosen, hrec,
      hsend, if_true, eraseJoinData]

theorem ProcessPlayerRoleRequest_pending {mgr : NewLFGMgr} (host : Host)
    {groupGuid : ObjectGuid} (playerGuid : ObjectGuid) {desiredRoles : Nat} {jd : LFGJoinData}
    {slots : List Nat}
    (hlegal : ∀ p, host.FindConnectedPlayer playerGuid = some p →
      HasInvalidRoles p desiredRoles = false)
    (hjd : mapFind groupGuid mgr.lfgJoinData = some jd)
    (hslots : slotsOfJoinData mgr jd = .ok slots)
    (hroles : desiredRoles ≠ 0)
    (hremaining : remainingPlayers (recordedRoles playerGuid desiredRoles jd) ≠ 0)
    (hconn : AllConnected host (recordedRoles playerGuid desiredRoles jd)) :
    ProcessPlayerRoleRequest mgr host groupGuid playerGuid desiredRoles =
      .ok ({ mgr with
          lfgJoinData := recordRole groupGuid playerGuid desiredRoles mgr.lfgJoinData },
        sendToMembers host (recordedRoles playerGuid desiredRoles jd)
          (Packet.RoleChosen playerGuid (desiredRoles % 256))
        ++ sendToMembers host (recordedRoles playerGuid desiredRoles jd)
          (Packet.RoleCheckUpdate ⟨LFGRoleCheckState.Initializing, slots,
            recordedRoles playerGuid desiredRoles jd, false⟩)) := by
  have hrec := mapFind_recordRole playerGuid desiredRoles hjd
  have hsend := SendRolecheckUpdate_eq
    { mgr with lfgJoinData := recordRole groupGuid playerGuid desiredRoles mgr.lfgJoinData } mgr
    host LFGRoleCheckState.Initializing false hrec rfl hslots hconn
  unfold ProcessPlayerRoleRequest
  cases hc : host.FindConnectedPlayer playerGuid with
  | none =>
    simp only [Bool.false_eq_true, if_false, hjd, SendRoleChosen, hrec, hsend, if_neg hroles,
      if_neg hremaining]
  | some p =>
    simp only [hlegal p hc, Bool.false_eq_true, if_false, hjd, SendRoleChosen, hrec, hsend,
      if_neg hroles, if_neg hremaining]

theorem ProcessPlayerRoleRequest_finished {mgr : NewLFGMgr} (host : Host)
    {groupGuid : ObjectGuid} (playerGuid : ObjectGuid) {desiredRoles : Nat} {jd : LFGJoinData}
    {slots : List Nat}
    (hlegal : ∀ p, host.FindConnectedPlayer playerGuid = some p →
      HasInvalidRoles p desiredRoles = false)
    (hjd : mapFind groupGuid mgr.lfgJoinData = some jd)
    (hslots : slotsOfJoinData mgr jd = .ok slots)
    (hroles : desiredRoles ≠ 0)
    (hremaining : remainingPlayers (recordedRoles playerGuid desiredRoles jd) = 0)
    (hmax : mgr.nextAvailableTicketId ≠ 2 ^ 32 - 1)
    (hfresh : mapFind mgr.nextAvailableTicketId mgr.lfgQueuePlayerData = none)
    (hconn : AllConnected host (recordedRoles playerGuid desiredRoles jd)) :
    ProcessPlayerRoleRequest mgr host groupGuid playerGuid desiredRoles =
      .ok ({ mgr with
          lfgJoinData := recordRole groupGuid playerGuid desiredRoles mgr.lfgJoinData,
          nextAvailableTicketId := (mgr.nextAvailableTicketId + 1) % 2 ^ 32,
          lfgQueuePlayerData := mgr.lfgQueuePlayerData ++
            [(mgr.nextAvailableTicketId, queueEntryOf (nextTicket mgr host groupGuid))],
          lfgQueue := mgr.lfgQueue.AddTicketToQueue
            (queueEntryOf (nextTicket mgr host groupGuid)),
          lfgRoleCheckTimers := mapErase groupGuid mgr.lfgRoleCheckTimers,
          danglingJoinData := setErase mgr.nextAvailableTicketId mgr.danglingJoinData },
        sendToMembers host (recordedRoles playerGuid desiredRoles jd)
          (Packet.RoleChosen playerGuid (desiredRoles % 256))
        ++ sendToMembers host (recordedRoles playerGuid desiredRoles jd)
          (Packet.RoleCheckUpdate ⟨LFGRoleCheckState.Finished, slots,
            recordedRoles playerGuid desiredRoles jd, false⟩)
        ++ (sendToMembers host (recordedRoles playerGuid desiredRoles jd)
            (Packet.UpdateStatus (statusUpdateOf LFGUpdateReason.JoinQueueInitial
              { jd with PartyMemberRoleData := recordedRoles playerGuid desiredRoles jd }
              (nextTicket mgr host groupGuid) slots))
          ++ sendToMembers host (recordedRoles playerGuid desiredRoles jd)
            (Packet.UpdateStatus (statusUpdateOf LFGUpdateReason.AddedToQueue
              { jd with PartyMemberRoleData := recordedRoles playerGuid desiredRoles jd }
              (nextTicket mgr host groupGuid) slots)))) := by
  have hrec := mapFind_recordRole playerGuid desiredRoles hjd
  have hsend := SendRolecheckUpdate_eq
    { mgr with lfgJoinData := recordRole groupGuid playerGuid desiredRoles mgr.lfgJoinData } mgr
    host LFGRoleCheckState.Finished false hrec rfl hslots hconn
  have hgen := GenerateTicket_eq
    { mgr with lfgJoinData := recordRole groupGuid playerGuid desiredRoles mgr.lfgJoinData }
    host groupGuid hmax
  have hadd := AddTicketToQueue_eq
    { mgr with
      lfgJoinData := recordRole groupGuid playerGuid desiredRoles mgr.lfgJoinData,
      nextAvailableTicketId := (mgr.nextAvailableTicketId + 1) % 2 ^ 32 } mgr host
    (nextTicket mgr host groupGuid) hrec hfresh rfl hslots
  unfold ProcessPlayerRoleRequest
  cases hc : host.FindConnectedPlayer playerGuid with
  | none =>
    simp only [Bool.false_eq_true, if_false, hjd, SendRoleChosen, hrec, hsend, if_neg hroles,
      if_pos hremaining, hgen]
    erw [hadd]
    rfl
  | some p =>
    simp only [hlegal p hc, Bool.false_eq_true, if_false, hjd, SendRoleChosen, hrec, hsend,
      if_neg hroles, if_pos hremaining, hgen]
    erw [hadd]
    rfl

/-! ## Role selection during a role check -/

theorem SendJoinResult_group {host : Host} {guid : ObjectGuid} {g : Group} {leader : Player}
    (result : LFGJoinResult) (detail : LFGRoleCheckState)
    (lockData : Option (List (ObjectGuid × LockMap)))
    (hguid : guid.IsGroup = true) (hgroup : host.GetGroupByGUID guid = some g)
    (hleader : host.FindConnectedPlayer g.GetLeaderGUID = some leader) :
    SendJoinResult host guid result detail lockData =
      [⟨g.GetLeaderGUID, Packet.JoinResult
        { Result := result, ResultDetail := detail, PlayerLockMap := lockData.getD [] }⟩] := by
  cases guid with
  | Group n =>
    simp [SendJoinResult, ObjectGuid.IsPlayer, ObjectGuid.IsGroup, hgroup, hleader]
  | Empty => simp [ObjectGuid.IsGroup] at hguid
  | Player n => simp [ObjectGuid.IsGroup] at hguid
  | Other n => simp [ObjectGuid.IsGroup] at hguid

theorem member_receives {host : Host} (playerGuid : ObjectGuid) (desiredRoles : Nat)
    (jd : LFGJoinData) {member : Player}
    (hmember : host.FindConnectedPlayer playerGuid = some member) (packet : Packet) :
    ⟨playerGuid, packet⟩ ∈
      sendToMembers host (recordedRoles playerGuid desiredRoles jd) packet := by
  obtain ⟨d, hd, _⟩ := mem_recordedRoles playerGuid desiredRoles jd
  exact mem_sendToMembers packet (mapFind_some_mem hd) hmember

theorem slots_of_reachable {mgr : NewLFGMgr} (hreach : Reachable mgr) {guid : ObjectGuid}
    {jd : LFGJoinData} (hjd : mapFind guid mgr.lfgJoinData = some jd) :
    ∃ slots, slotsOfJoinData mgr jd = .ok slots :=
  slotsOfJoinData_ok mgr jd (reachable_joinDataInCatalog mgr hreach _ (mapFind_some_mem hjd))

/-- With every member of the role table connected: on a manager reachable from the loaded
caches, for every group that has a JoinRequest (in particular during its role check), when a
connected member submits the empty role mask and the group leader is connected,
`ProcessPlayerRoleRequest` returns and emits, in this order, the role-chosen notifications
for that member with mask 0, one join-result `RolecheckFailed` with detail `NoRole` to the
leader, and the role-check updates with state `NoRole`; afterwards the group has neither a
JoinRequest nor a role-check timer, and the ticket counter and the queue entries are as
before (no ticket was generated). -/
theorem ProcessPlayerRoleRequest_empty_mask (mgr : NewLFGMgr) (host : Host)
    (groupGuid playerGuid : ObjectGuid) (jd : LFGJoinData) (g : Group) (leader member : Player)
    (hreach : Reachable mgr)
    (hjd : mapFind groupGuid mgr.lfgJoinData = some jd)
    (hguid : groupGuid.IsGroup = true)
    (hgroup : host.GetGroupByGUID groupGuid = some g)
    (hleader : host.FindConnectedPlayer g.GetLeaderGUID = some leader)
    (hmember : host.FindConnectedPlayer playerGuid = some member)
    (hconn : AllConnected host jd.PartyMemberRoleData) :
    ∃ mgr1 chosen updates data,
      ProcessPlayerRoleRequest mgr host groupGuid playerGuid 0 = .ok (mgr1,
        chosen ++ [⟨g.GetLeaderGUID, Packet.JoinResult
          { Result := LFGJoinResult.RolecheckFailed, ResultDetail := LFGRoleCheckState.NoRole }⟩]
          ++ updates) ∧
      chosen ≠ [] ∧ (∀ n ∈ chosen, n.packet = Packet.RoleChosen playerGuid 0) ∧
      updates ≠ [] ∧ (∀ n ∈ updates, n.packet = Packet.RoleCheckUpdate data) ∧
      data.State = LFGRoleCheckState.NoRole ∧
      mapFind groupGuid mgr1.lfgJoinData = none ∧
      mapFind groupGuid mgr1.lfgRoleCheckTimers = none ∧
      mgr1.nextAvailableTicketId = mgr.nextAvailableTicketId ∧
      mgr1.lfgQueuePlayerData = mgr.lfgQueuePlayerData := by
  obtain ⟨slots, hslots⟩ := slots_of_reachable hreach hjd
  refine ⟨{ mgr with
      lfgJoinData := mapErase groupGuid (recordRole groupGuid playerGuid 0 mgr.lfgJoinData),
      lfgRoleCheckTimers := mapErase groupGuid mgr.lfgRoleCheckTimers,
      danglingJoinData :=
        mgr.danglingJoinData ++ referringTickets groupGuid mgr.lfgQueuePlayerData },
    sendToMembers host (recordedRoles playerGuid 0 jd) (Packet.RoleChosen playerGuid 0),
    sendToMembers host (recordedRoles playerGuid 0 jd)
      (Packet.RoleCheckUpdate
        ⟨LFGRoleCheckState.NoRole, slots, recordedRoles playerGuid 0 jd, false⟩),
    ⟨LFGRoleCheckState.NoRole, slots, recordedRoles playerGuid 0 jd, false⟩,
    ?_, ?_, sendToMembers_packet _ _ _, ?_, sendToMembers_packet _ _ _, ?_, ?_, ?_, ?_, ?_⟩
  · rw [ProcessPlayerRoleRequest_noRole host playerGuid hjd hslots
        (allConnected_recordedRoles playerGuid 0 jd hmember hconn),
      SendJoinResult_group _ _ none hguid hgroup hleader]
    rfl
  · exact List.ne_nil_of_mem (member_receives playerGuid 0 jd hmember _)
  · exact List.ne_nil_of_mem (member_receives playerGuid 0 jd hmember _)
  · rfl
  · exact mapFind_mapErase_self _ _
  · exact mapFind_mapErase_self _ _
  · rfl
  · rfl

/-- C17 (the code at the failing input): during the role check of the demo group the leader
submits the empty role mask after the other member of the role table has disconnected.
`ProcessPlayerRoleRequest` ends in the assertion of the role-check packet builder
(`ASSERT_NOTNULL(FindConnectedPlayer(member))`), reached while the `NoRole` update is sent,
that is before the JoinRequest and the timer are erased. When every member of the role table
is connected the call does what is claimed (on every reachable manager): it returns and
emits, in this order, the role-chosen notifications for the member with mask 0, one
join-result `RolecheckFailed` with detail `NoRole` to the leader and the role-check updates
`NoRole`; afterwards the group has neither a JoinRequest nor a role-check timer, and the
ticket counter and the queue entries are as before. -/
theorem empty_mask_aborts_when_member_offline :
    ProcessPlayerRoleRequest (finalState roleCheckRun) hostAfterLogout (ObjectGuid.Group 1)
        (ObjectGuid.Player 1) 0 = .error Fault.assertion ∧
    (mapFind (ObjectGuid.Group 1) (finalState roleCheckRun).lfgJoinData
        = some roleCheckJoinData ∧
      mapFind (ObjectGuid.Group 1) (finalState roleCheckRun).lfgRoleCheckTimers
        = some 120000 ∧
      hostAfterLogout.FindConnectedPlayer (ObjectGuid.Player 1) = some playerA ∧
      hostAfterLogout.FindConnectedPlayer (ObjectGuid.Player 2) = none) ∧
    (∀ (mgr : NewLFGMgr) (host : Host) (groupGuid playerGuid : ObjectGuid) (jd : LFGJoinData)
        (g : Group) (leader member : Player),
      Reachable mgr →
      mapFind groupGuid mgr.lfgJoinData = some jd →
      groupGuid.IsGroup = true →
      host.GetGroupByGUID groupGuid = some g →
      host.FindConnectedPlayer g.GetLeaderGUID = some leader →
      host.FindConnectedPlayer playerGuid = some member →
      AllConnected host jd.PartyMemberRoleData →
      ∃ mgr1 chosen updates data,
        ProcessPlayerRoleRequest mgr host groupGuid playerGuid 0 = .ok (mgr1,
          chosen ++ [⟨g.GetLeaderGUID, Packet.JoinResult
            { Result := LFGJoinResult.RolecheckFailed,
              ResultDetail := LFGRoleCheckState.NoRole }⟩]
            ++ updates) ∧
        chosen ≠ [] ∧ (∀ n ∈ chosen, n.packet = Packet.RoleChosen playerGuid 0) ∧
        updates ≠ [] ∧ (∀ n ∈ updates, n.packet = Packet.RoleCheckUpdate data) ∧
        data.State = LFGRoleCheckState.NoRole ∧
        mapFind groupGuid mgr1.lfgJoinData = none ∧
        mapFind groupGuid mgr1.lfgRoleCheckTimers = none ∧
        mgr1.nextAvailableTicketId = mgr.nextAvailableTicketId ∧
        mgr1.lfgQueuePlayerData = mgr.lfgQueuePlayerData) ∧
    (∃ mgr1 data,
      ProcessPlayerRoleRequest (finalState roleCheckRun) demoHost (ObjectGuid.Group 1)
          (ObjectGuid.Player 2) 0 = .ok (mgr1,
        [⟨ObjectGuid.Player 1, Packet.RoleChosen (ObjectGuid.Player 2) 0⟩,
          ⟨ObjectGuid.Player 2, Packet.RoleChosen (ObjectGuid.Player 2) 0⟩,
          ⟨ObjectGuid.Player 1, Packet.JoinResult
            { Result := LFGJoinResult.RolecheckFailed,
              ResultDetail := LFGRoleCheckState.NoRole }⟩,
          ⟨ObjectGuid.Player 1, Packet.RoleCheckUpdate data⟩,
          ⟨ObjectGuid.Player 2, Packet.RoleCheckUpdate data⟩]) ∧
      data.State = LFGRoleCheckState.NoRole ∧
      mgr1.lfgJoinData = [] ∧ mgr1.lfgRoleCheckTimers = [] ∧
      mgr1.lfgQueuePlayerData = [] ∧ mgr1.nextAvailableTicketId = 0) :=
  ⟨eq_error_of_faultOf _ _ (by decide),
    ⟨by decide, by decide, rfl, rfl⟩,
    fun mgr host groupGuid playerGuid jd g leader member hreach hjd hguid hgroup hleader
      hmember hconn =>
      ProcessPlayerRoleRequest_empty_mask mgr host groupGuid playerGuid jd g leader member
        hreach hjd hguid hgroup hleader hmember hconn,
    ⟨(finalState (ProcessPlayerRoleRequest (finalState roleCheckRun) demoHost
        (ObjectGuid.Group 1) (ObjectGuid.Player 2) 0)),
      ⟨LFGRoleCheckState.NoRole, [16777317],
        [(ObjectGuid.Player 1, ⟨2, true⟩), (ObjectGuid.Player 2, ⟨0, true⟩)], false⟩,
      eq_ok_of_toOption _ _ (by decide), rfl, by decide, by decide, by decide, by decide⟩⟩

theorem remainingPlayers_eq_zero_iff (roles : List (ObjectGuid × LFGPartyMemberRoleData))
    (hsize : roles.length < 256) :
    remainingPlayers roles = 0 ↔ ∀ e ∈ roles, e.2.RoleConfirmed = true := by
  unfold remainingPlayers
  have hle := List.length_filter_le (fun it : ObjectGuid × LFGPartyMemberRoleData =>
    !it.2.RoleConfirmed) roles
  rw [Nat.mod_eq_of_lt (by omega), List.length_eq_zero, List.filter_eq_nil_iff]
  simp

theorem fresh_ticket_of_reachable {mgr : NewLFGMgr} (hreach : Reachable mgr) :
    mapFind mgr.nextAvailableTicketId mgr.lfgQueuePlayerData = none := by
  rw [mapFind_none_iff]
  intro hmem
  obtain ⟨e, he, hkey⟩ := List.mem_map.1 hmem
  have := (reachable_ticketsBelowCounter mgr hreach).2 e he
  omega

/-- C18 (the claim fails): during the role check of the demo group the paladin submits the
mask 264, which is non-empty and legal for the class. The call returns, and the mask recorded
for the paladin is 8, not the submitted mask: the role table stores the mask in a `uint8`.
When the leader submits the tank role after the paladin has disconnected, the call does not
return: it ends in the assertion of the role-check packet builder. -/
theorem wide_mask_recorded_truncated :
    HasInvalidRoles playerB 264 = false ∧
    (∃ mgr1 out jd,
      ProcessPlayerRoleRequest (finalState roleCheckRun) demoHost (ObjectGuid.Group 1)
          (ObjectGuid.Player 2) 264 = .ok (mgr1, out) ∧
      mapFind (ObjectGuid.Group 1) mgr1.lfgJoinData = some jd ∧
      mapFind (ObjectGuid.Player 2) jd.PartyMemberRoleData = some ⟨8, true⟩) ∧
    HasInvalidRoles playerA 2 = false ∧
    ProcessPlayerRoleRequest (finalState roleCheckRun) hostAfterLogout (ObjectGuid.Group 1)
        (ObjectGuid.Player 1) 2 = .error Fault.assertion :=
  ⟨by decide,
    ⟨_, _, { roleCheckJoinData with
        PartyMemberRoleData :=
          [(ObjectGuid.Player 1, ⟨2, true⟩), (ObjectGuid.Player 2, ⟨8, true⟩)] },
      eq_ok_of_returned _ (by decide), by decide, by decide⟩,
    by decide, eq_error_of_faultOf _ _ (by decide)⟩

/-- C18 (amended): on a manager reachable from the loaded caches, for every group that has a
JoinRequest (in particular during its role check) whose role-table members are all connected,
and a connected member who submits a non-empty mask that is legal for the class (the role
table has fewer than 256 entries, the range of the counter of unconfirmed members),
`ProcessPlayerRoleRequest` returns with the mask, reduced modulo 256, recorded as confirmed.
When every member is confirmed after recording it (and the ticket counter is below its
maximum) it emits, in this order, the role-chosen notifications, the role-check updates
`Finished` and the status updates `JoinQueueInitial` and `AddedToQueue` carrying the ticket
whose id is the counter value before the call; the queue entry of that ticket exists
afterwards, the counter is one higher and the role-check timer of the group is removed. When
some member is still unconfirmed it emits the role-chosen notifications and the role-check
updates `Initializing`, and timers, queue entries, queue and counter are unchanged. The
member itself receives each kind of notification. -/
theorem role_request_recorded (mgr : NewLFGMgr) (host : Host) (groupGuid playerGuid : ObjectGuid)
    (desiredRoles : Nat) (jd : LFGJoinData) (member : Player)
    (hreach : Reachable mgr)
    (hjd : mapFind groupGuid mgr.lfgJoinData = some jd)
    (hmember : host.FindConnectedPlayer playerGuid = some member)
    (hconn : AllConnected host jd.PartyMemberRoleData)
    (hlegal : HasInvalidRoles member desiredRoles = false)
    (hroles : desiredRoles ≠ 0)
    (hsize : (recordedRoles playerGuid desiredRoles jd).length < 256) :
    ∃ slots,
      mapFind playerGuid (recordedRoles playerGuid desiredRoles jd)
        = some ⟨desiredRoles % 256, true⟩ ∧
      (∀ packet, ⟨playerGuid, packet⟩ ∈
        sendToMembers host (recordedRoles playerGuid desiredRoles jd) packet) ∧
      ((∀ e ∈ recordedRoles playerGuid desiredRoles jd, e.2.RoleConfirmed = true) →
        mgr.nextAvailableTicketId ≠ 2 ^ 32 - 1 →
        ∃ mgr1,
          ProcessPlayerRoleRequest mgr host groupGuid playerGuid desiredRoles = .ok (mgr1,
            sendToMembers host (recordedRoles playerGuid desiredRoles jd)
              (Packet.RoleChosen playerGuid (desiredRoles % 256))
            ++ sendToMembers host (recordedRoles playerGuid desiredRoles jd)
              (Packet.RoleCheckUpdate ⟨LFGRoleCheckState.Finished, slots,
                recordedRoles playerGuid desiredRoles jd, false⟩)
            ++ (sendToMembers host (recordedRoles playerGuid desiredRoles jd)
                (Packet.UpdateStatus (statusUpdateOf LFGUpdateReason.JoinQueueInitial
                  { jd with PartyMemberRoleData := recordedRoles playerGuid desiredRoles jd }
                  (nextTicket mgr host groupGuid) slots))
              ++ sendToMembers host (recordedRoles playerGuid desiredRoles jd)
                (Packet.UpdateStatus (statusUpdateOf LFGUpdateReason.AddedToQueue
                  { jd with PartyMemberRoleData := recordedRoles playerGuid desiredRoles jd }
                  (nextTicket mgr host groupGuid) slots)))) ∧
          mapFind groupGuid mgr1.lfgJoinData
            = some { jd with PartyMemberRoleData := recordedRoles playerGuid desiredRoles jd } ∧
          mapFind mgr.nextAvailableTicketId mgr1.lfgQueuePlayerData
            = some (queueEntryOf (nextTicket mgr host groupGuid)) ∧
          mgr1.nextAvailableTicketId = mgr.nextAvailableTicketId + 1 ∧
          mapFind groupGuid mgr1.lfgRoleCheckTimers = none) ∧
      ((∃ e ∈ recordedRoles playerGuid desiredRoles jd, e.2.RoleConfirmed = false) →
        ∃ mgr1,
          ProcessPlayerRoleRequest mgr host groupGuid playerGuid desiredRoles = .ok (mgr1,
            sendToMembers host (recordedRoles playerGuid desiredRoles jd)
              (Packet.RoleChosen playerGuid (desiredRoles % 256))
            ++ sendToMembers host (recordedRoles playerGuid desiredRoles jd)
              (Packet.RoleCheckUpdate ⟨LFGRoleCheckState.Initializing, slots,
                recordedRoles playerGuid desiredRoles jd, false⟩)) ∧
          mapFind groupGuid mgr1.lfgJoinData
            = some { jd with PartyMemberRoleData := recordedRoles playerGuid desiredRoles jd } ∧
          mgr1.lfgRoleCheckTimers = mgr.lfgRoleCheckTimers ∧
          mgr1.lfgQueuePlayerData = mgr.lfgQueuePlayerData ∧
          mgr1.lfgQueue = mgr.lfgQueue ∧
          mgr1.nextAvailableTicketId = mgr.nextAvailableTicketId) := by
  obtain ⟨slots, hslots⟩ := slots_of_reachable hreach hjd
  have hconn1 := allConnected_recordedRoles playerGuid desiredRoles jd hmember hconn
  have hlegal1 : ∀ p, host.FindConnectedPlayer playerGuid = some p →
      HasInvalidRoles p desiredRoles = false := by
    intro p hp
    rw [hmember] at hp
    rw [← Option.some.inj hp]
    exact hlegal
  have hrec := mapFind_recordRole playerGuid desiredRoles hjd
  refine ⟨slots, ?_, fun packet => member_receives playerGuid desiredRoles jd hmember packet,
    fun hall hmax => ?_, fun hsome => ?_⟩
  · obtain ⟨d, hd, hmask, hconf⟩ := mem_recordedRoles playerGuid desiredRoles jd
    rw [hd]
    cases d
    simp only at hmask hconf
    rw [hmask, hconf]
  · have hremaining := (remainingPlayers_eq_zero_iff _ hsize).2 hall
    have hrun := ProcessPlayerRoleRequest_finished host playerGuid hlegal1 hjd hslots hroles
      hremaining hmax (fresh_ticket_of_reachable hreach) hconn1
    refine ⟨_, hrun, hrec, ?_, ?_, mapFind_mapErase_self _ _⟩
    · exact mapFind_append_fresh _ _ _ (fresh_ticket_of_reachable hreach)
    · have hlt := (reachable_ticketsBelowCounter mgr hreach).1
      exact Nat.mod_eq_of_lt (by omega)
  · have hremaining : remainingPlayers (recordedRoles playerGuid desiredRoles jd) ≠ 0 := by
      intro h0
      obtain ⟨e, he, hfalse⟩ := hsome
      have := (remainingPlayers_eq_zero_iff _ hsize).1 h0 e he
      rw [hfalse] at this
      exact absurd this (by decide)
    have hrun := ProcessPlayerRoleRequest_pending host playerGuid hlegal1 hjd hslots hroles
      hremaining hconn1
    exact ⟨_, hrun, hrec, rfl, rfl, rfl, rfl⟩

/-- Witness of `role_request_recorded`: during the role check of the demo group the second
member picks the damage role. -/
theorem role_request_recorded_witness :
    ∃ slots,
      mapFind (ObjectGuid.Player 2) (recordedRoles (ObjectGuid.Player 2) 8 roleCheckJoinData)
        = some ⟨8, true⟩ ∧
      (∀ packet, ⟨ObjectGuid.Player 2, packet⟩ ∈
        sendToMembers demoHost (recordedRoles (ObjectGuid.Player 2) 8 roleCheckJoinData) packet) ∧
      ((∀ e ∈ recordedRoles (ObjectGuid.Player 2) 8 roleCheckJoinData, e.2.RoleConfirmed = true) →
        (finalState roleCheckRun).nextAvailableTicketId ≠ 2 ^ 32 - 1 →
        ∃ mgr1,
          ProcessPlayerRoleRequest (finalState roleCheckRun) demoHost (ObjectGuid.Group 1)
              (ObjectGuid.Player 2) 8 = .ok (mgr1,
            sendToMembers demoHost (recordedRoles (ObjectGuid.Player 2) 8 roleCheckJoinData)
              (Packet.RoleChosen (ObjectGuid.Player 2) 8)
            ++ sendToMembers demoHost (recordedRoles (ObjectGuid.Player 2) 8 roleCheckJoinData)
              (Packet.RoleCheckUpdate ⟨LFGRoleCheckState.Finished, slots,
                recordedRoles (ObjectGuid.Player 2) 8 roleCheckJoinData, false⟩)
            ++ (sendToMembers demoHost (recordedRoles (ObjectGuid.Player 2) 8 roleCheckJoinData)
                (Packet.UpdateStatus (statusUpdateOf LFGUpdateReason.JoinQueueInitial
                  { roleCheckJoinData with
                    PartyMemberRoleData :=
                      recordedRoles (ObjectGuid.Player 2) 8 roleCheckJoinData }
                  (nextTicket (finalState roleCheckRun) demoHost (ObjectGuid.Group 1)) slots))
              ++ sendToMembers demoHost (recordedRoles (ObjectGuid.Player 2) 8 roleCheckJoinData)
                (Packet.UpdateStatus (statusUpdateOf LFGUpdateReason.AddedToQueue
                  { roleCheckJoinData with
                    PartyMemberRoleData :=
                      recordedRoles (ObjectGuid.Player 2) 8 roleCheckJoinData }
                  (nextTicket (finalState roleCheckRun) demoHost (ObjectGuid.Group 1)) slots)))) ∧
          mapFind (ObjectGuid.Group 1) mgr1.lfgJoinData
            = some { roleCheckJoinData with
                     PartyMemberRoleData :=
                       recordedRoles (ObjectGuid.Player 2) 8 roleCheckJoinData } ∧
          mapFind (finalState roleCheckRun).nextAvailableTicketId mgr1.lfgQueuePlayerData
            = some (queueEntryOf
                (nextTicket (finalState roleCheckRun) demoHost (ObjectGuid.Group 1))) ∧
          mgr1.nextAvailableTicketId = (finalState roleCheckRun).nextAvailableTicketId + 1 ∧
          mapFind (ObjectGuid.Group 1) mgr1.lfgRoleCheckTimers = none) ∧
      ((∃ e ∈ recordedRoles (ObjectGuid.Player 2) 8 roleCheckJoinData, e.2.RoleConfirmed = false) →
        ∃ mgr1,
          ProcessPlayerRoleRequest (finalState roleCheckRun) demoHost (ObjectGuid.Group 1)
              (ObjectGuid.Player 2) 8 = .ok (mgr1,
            sendToMembers demoHost (recordedRoles (ObjectGuid.Player 2) 8 roleCheckJoinData)
              (Packet.RoleChosen (ObjectGuid.Player 2) 8)
            ++ sendToMembers demoHost (recordedRoles (ObjectGuid.Player 2) 8 roleCheckJoinData)
              (Packet.RoleCheckUpdate ⟨LFGRoleCheckState.Initializing, slots,
                recordedRoles (ObjectGuid.Player 2) 8 roleCheckJoinData, false⟩)) ∧
          mapFind (ObjectGuid.Group 1) mgr1.lfgJoinData
            = some { roleCheckJoinData with
                     PartyMemberRoleData :=
                       recordedRoles (ObjectGuid.Player 2) 8 roleCheckJoinData } ∧
          mgr1.lfgRoleCheckTimers = (finalState roleCheckRun).lfgRoleCheckTimers ∧
          mgr1.lfgQueuePlayerData = (finalState roleCheckRun).lfgQueuePlayerData ∧
          mgr1.lfgQueue = (finalState roleCheckRun).lfgQueue ∧
          mgr1.nextAvailableTicketId = (finalState roleCheckRun).nextAvailableTicketId) :=
  role_request_recorded (finalState roleCheckRun) demoHost (ObjectGuid.Group 1)
    (ObjectGuid.Player 2) 8 roleCheckJoinData playerB
    (reachable_finalState demoHost _ demoSources (by decide)) (by decide) rfl (by decide)
    (by decide) (by decide) (by decide)

/-! ## A join that passes all checks -/

theorem joinData_after_join {mgr : NewLFGMgr} {host : Host} {player : Player}
    {group : Option Group} {dungeonIds : List Nat} {roleMask : Nat} {c : JoinChecks}
    (hreach : Reachable mgr)
    (hc : joinChecks mgr host player group dungeonIds roleMask = .ok c)
    (hok : c.result = LFGJoinResult.OK) :
    JoinDataInCatalog mgr
      (prepareJoinData player group c.randomDungeonId c.dungeonIds roleMask
        ((mapFind c.guid mgr.lfgJoinData).getD {})) := by
  have hwf := reachable_wellFormed mgr hreach
  refine ⟨joinChecks_random_inCatalog hwf hc hok, fun id hid => ?_⟩
  simp only [prepareJoinData, List.mem_append] at hid
  rcases hid with h | h
  · cases hf : mapFind c.guid mgr.lfgJoinData with
    | none => rw [hf] at h; simp at h
    | some jd0 =>
      rw [hf] at h
      exact hwf.selected _ (mapFind_some_mem hf) id h
  · exact joinChecks_dungeonIds_inCatalog hwf hc hok id h

theorem ProcessLFGJoinRequest_group {mgr : NewLFGMgr} {host : Host} {player : Player}
    {g : Group} {dungeonIds : List Nat} {roleMask : Nat} {c : JoinChecks} {slots : List Nat}
    (hc : joinChecks mgr host player (some g) dungeonIds roleMask = .ok c)
    (hok : c.result = LFGJoinResult.OK)
    (hslots : slotsOfJoinData mgr
      (prepareJoinData player (some g) c.randomDungeonId c.dungeonIds roleMask
        ((mapFind c.guid mgr.lfgJoinData).getD {})) = .ok slots)
    (hconn : AllConnected host
      (prepareJoinData player (some g) c.randomDungeonId c.dungeonIds roleMask
        ((mapFind c.guid mgr.lfgJoinData).getD {})).PartyMemberRoleData) :
    ProcessLFGJoinRequest mgr host player (some g) dungeonIds roleMask =
      .ok ({ mgr with
          lfgDungeonsIdsForRandomDungeonId := c.index,
          lfgJoinData :=
            mapModify c.guid {}
              (prepareJoinData player (some g) c.randomDungeonId c.dungeonIds roleMask)
              mgr.lfgJoinData,
          lfgRoleCheckTimers :=
            mapModify c.guid 0 (fun _ => LFG_ROLE_CHECK_TIME_LIMIT) mgr.lfgRoleCheckTimers },
        sendToMembers host
          (prepareJoinData player (some g) c.randomDungeonId c.dungeonIds roleMask
            ((mapFind c.guid mgr.lfgJoinData).getD {})).PartyMemberRoleData
          (Packet.RoleCheckUpdate ⟨LFGRoleCheckState.Initializing, slots,
            (prepareJoinData player (some g) c.randomDungeonId c.dungeonIds roleMask
              ((mapFind c.guid mgr.lfgJoinData).getD {})).PartyMemberRoleData, true⟩)) := by
  have hsend := SendRolecheckUpdate_eq
    { mgr with
      lfgDungeonsIdsForRandomDungeonId := c.index,
      lfgJoinData :=
        mapModify c.guid {}
          (prepareJoinData player (some g) c.randomDungeonId c.dungeonIds roleMask)
          mgr.lfgJoinData,
      lfgRoleCheckTimers :=
        mapModify c.guid 0 (fun _ => LFG_ROLE_CHECK_TIME_LIMIT) mgr.lfgRoleCheckTimers }
    mgr host LFGRoleCheckState.Initializing true (mapFind_mapModify_self _ _ _ _) rfl hslots
    hconn
  unfold ProcessLFGJoinRequest
  simp only [hc, hok, if_true, LaunchRoleCheck, hsend]

theorem ProcessLFGJoinRequest_solo {mgr : NewLFGMgr} {host : Host} {player : Player}
    {dungeonIds : List Nat} {roleMask : Nat} {c : JoinChecks} {slots : List Nat}
    (hc : joinChecks mgr host player none dungeonIds roleMask = .ok c)
    (hok : c.result = LFGJoinResult.OK)
    (hmax : mgr.nextAvailableTicketId ≠ 2 ^ 32 - 1)
    (hfresh : mapFind mgr.nextAvailableTicketId mgr.lfgQueuePlayerData = none)
    (hslots : slotsOfJoinData mgr
      (prepareJoinData player none c.randomDungeonId c.dungeonIds roleMask
        ((mapFind c.guid mgr.lfgJoinData).getD {})) = .ok slots) :
    ProcessLFGJoinRequest mgr host player none dungeonIds roleMask =
      .ok ({ mgr with
          lfgDungeonsIdsForRandomDungeonId := c.index,
          lfgJoinData :=
            mapModify c.guid {}
              (prepareJoinData player none c.randomDungeonId c.dungeonIds roleMask)
              mgr.lfgJoinData,
          nextAvailableTicketId := (mgr.nextAvailableTicketId + 1) % 2 ^ 32,
          lfgQueuePlayerData := mgr.lfgQueuePlayerData ++
            [(mgr.nextAvailableTicketId, queueEntryOf (nextTicket mgr host c.guid))],
          lfgQueue := mgr.lfgQueue.AddTicketToQueue
            (queueEntryOf (nextTicket mgr host c.guid)),
          danglingJoinData := setErase mgr.nextAvailableTicketId mgr.danglingJoinData },
        sendToMembers host
          (prepareJoinData player none c.randomDungeonId c.dungeonIds roleMask
            ((mapFind c.guid mgr.lfgJoinData).getD {})).PartyMemberRoleData
          (Packet.UpdateStatus (statusUpdateOf LFGUpdateReason.JoinQueueInitial
            (prepareJoinData player none c.randomDungeonId c.dungeonIds roleMask
              ((mapFind c.guid mgr.lfgJoinData).getD {}))
            (nextTicket mgr host c.guid) slots))
        ++ sendToMembers host
          (prepareJoinData player none c.randomDungeonId c.dungeonIds roleMask
            ((mapFind c.guid mgr.lfgJoinData).getD {})).PartyMemberRoleData
          (Packet.UpdateStatus (statusUpdateOf LFGUpdateReason.AddedToQueue
            (prepareJoinData player none c.randomDungeonId c.dungeonIds roleMask
              ((mapFind c.guid mgr.lfgJoinData).getD {}))
            (nextTicket mgr host c.guid) slots))) := by
  have hgen := GenerateTicket_eq
    { mgr with
      lfgDungeonsIdsForRandomDungeonId := c.index,
      lfgJoinData :=
        mapModify c.guid {}
          (prepareJoinData player none c.randomDungeonId c.dungeonIds roleMask)
          mgr.lfgJoinData }
    host c.guid hmax
  have hadd := AddTicketToQueue_eq
    { mgr with
      lfgDungeonsIdsForRandomDungeonId := c.index,
      lfgJoinData :=
        mapModify c.guid {}
          (prepareJoinData player none c.randomDungeonId c.dungeonIds roleMask)
          mgr.lfgJoinData,
      nextAvailableTicketId := (mgr.nextAvailableTicketId + 1) % 2 ^ 32 }
    mgr host (nextTicket mgr host c.guid) (mapFind_mapModify_self _ _ _ _) hfresh rfl hslots
  unfold ProcessLFGJoinRequest
  simp only [hc, hok, if_true, hgen]
  erw [hadd]
  rfl

theorem mem_mapKeys_of_mapFind {κ α : Type} [DecidableEq κ] {k : κ} {m : List (κ × α)}
    (h : k ∈ mapKeys m) : ∃ v, mapFind k m = some v := by
  cases hf : mapFind k m with
  | none => exact absurd h ((mapFind_none_iff k m).1 hf)
  | some v => exact ⟨v, rfl⟩

/-- The member loop of the join on a role table whose entries are all unanswered: every
member in the world gets an entry, every entry is unanswered with mask 0, and no other key is
added. -/
theorem resetMemberRoles_fresh (members : List (Option Player)) :
    ∀ roles : List (ObjectGuid × LFGPartyMemberRoleData),
    (∀ e ∈ roles, e.2 = ⟨0, false⟩) →
    (∀ e ∈ resetMemberRoles members roles, e.2 = ⟨0, false⟩) ∧
    (∀ k ∈ mapKeys roles, k ∈ mapKeys (resetMemberRoles members roles)) ∧
    (∀ p ∈ members.filterMap (fun itr => itr),
      p.GetGUID ∈ mapKeys (resetMemberRoles members roles)) ∧
    (∀ k ∈ mapKeys (resetMemberRoles members roles),
      k ∈ mapKeys roles ∨ ∃ p ∈ members.filterMap (fun itr => itr), p.GetGUID = k) := by
  induction members with
  | nil =>
    intro roles h
    exact ⟨h, fun k hk => hk, fun p hp => by simp at hp, fun k hk => Or.inl hk⟩
  | cons itr rest ih =>
    intro roles h
    cases itr with
    | none =>
      obtain ⟨h1, h2, h3, h4⟩ := ih roles h
      exact ⟨h1, h2, h3, h4⟩
    | some groupPlayer =>
      have hcons : List.filterMap (fun itr => itr) (some groupPlayer :: rest)
          = groupPlayer :: List.filterMap (fun itr => itr) rest := rfl
      have hstep : ∀ e ∈ mapModify groupPlayer.GetGUID ({} : LFGPartyMemberRoleData)
          (fun d => { d with RoleMask := 0 }) roles, e.2 = ⟨0, false⟩ := by
        intro e he
        rcases mem_mapModify he with h1 | ⟨v, hv, h1⟩ | h1
        · exact h e h1
        · have := h _ hv
          simp only at this
          rw [h1, this]
        · rw [h1]
      obtain ⟨h1, h2, h3, h4⟩ := ih _ hstep
      have hkeys := mapKeys_mapModify groupPlayer.GetGUID ({} : LFGPartyMemberRoleData)
        (fun d => { d with RoleMask := 0 }) roles
      rw [hcons]
      refine ⟨h1, fun k hk => h2 k ?_, fun p hp => ?_, fun k hk => ?_⟩
      · rw [hkeys]
        split_ifs
        · exact hk
        · exact List.mem_append_left _ hk
      · rcases List.mem_cons.1 hp with hp1 | hp1
        · apply h2
          rw [hkeys, hp1]
          split_ifs with hin
          · exact hin
          · simp
        · exact h3 p hp1
      · rcases h4 k hk with h5 | ⟨p, hp, hpk⟩
        · rw [hkeys] at h5
          split_ifs at h5 with hin
          · exact Or.inl h5
          · rcases List.mem_append.1 h5 with h6 | h6
            · exact Or.inl h6
            · simp only [List.mem_singleton] at h6
              exact Or.inr ⟨groupPlayer, List.mem_cons_self _ _, h6.symm⟩
        · exact Or.inr ⟨p, List.mem_cons_of_mem _ hp, hpk⟩

/-- C19 (counterexample): the demo group has a JoinRequest from its leader's join (the leader
is confirmed); the join of the second member passes all checks, and in the JoinRequest it
leaves the leader, who is not the requester, has mask 0 and is confirmed. On the freshly
loaded manager the join of the leader with the mask 264 passes all checks, and the mask the
leader holds in the JoinRequest is 8, not the submitted mask: the role table stores the mask
in a `uint8`. On a host that does not find the second member, who is in the world, among the
connected players, the join of the leader passes all checks and does not return: it ends in
the assertion of the role-check packet builder. -/
theorem rejoin_keeps_confirmation :
    joinChecksResult (joinChecks (finalState roleCheckRun) demoHost playerB (some groupAB)
      [101] 8) = some LFGJoinResult.OK ∧
    returned rejoinRun = true ∧
    (mapFind (ObjectGuid.Group 1) (finalState rejoinRun).lfgJoinData).map
      (fun jd => jd.PartyMemberRoleData)
      = some [(ObjectGuid.Player 1, ⟨0, true⟩), (ObjectGuid.Player 2, ⟨8, true⟩)] ∧
    joinChecksResult (joinChecks demoMgr demoHost playerA (some groupAB) [101] 264)
      = some LFGJoinResult.OK ∧
    returned (ProcessLFGJoinRequest demoMgr demoHost playerA (some groupAB) [101] 264) = true ∧
    (mapFind (ObjectGuid.Group 1)
        (finalState (ProcessLFGJoinRequest demoMgr demoHost playerA (some groupAB) [101]
          264)).lfgJoinData).map (fun jd => jd.PartyMemberRoleData)
      = some [(ObjectGuid.Player 1, ⟨8, true⟩), (ObjectGuid.Player 2, ⟨0, false⟩)] ∧
    joinChecksResult (joinChecks demoMgr hostAfterLogout playerA (some groupAB) [101] 2)
      = some LFGJoinResult.OK ∧
    faultOf (ProcessLFGJoinRequest demoMgr hostAfterLogout playerA (some groupAB) [101] 2)
      = some Fault.assertion := by
  decide

/-- C20 (counterexample): a solo player joins for dungeon 101 on the freshly loaded manager
and passes every check; the call emits no join-result at all, only the status updates
`JoinQueueInitial` and `AddedToQueue` for ticket 0. -/
theorem solo_join_sends_no_join_result :
    joinChecksResult (joinChecks demoMgr demoHost playerA none [101] 2)
      = some LFGJoinResult.OK ∧
    returned soloJoinRun = true ∧
    joinResults (emitted soloJoinRun) = [] ∧
    statusUpdates (emitted soloJoinRun)
      = [(LFGUpdateReason.JoinQueueInitial, 0), (LFGUpdateReason.AddedToQueue, 0)] ∧
    (emitted soloJoinRun).length = 2 := by
  decide

/-- C19 (amended): on a manager reachable from the loaded caches, for every grouped requester
whose join passes all checks and whose group has no JoinRequest yet, when the requester and
every group member in the world are connected, `ProcessLFGJoinRequest` returns and leaves a
JoinRequest for the group in which the requester holds the submitted mask reduced modulo 256
and is confirmed, every other group member in the world has mask 0 and is unconfirmed, and
nobody else has an entry; the role-check timer of the group is set to 120000 ms, the ticket
counter, the queue entries and the queue are as before, and the notifications are the
role-check updates with state `Initializing` and `beginning = true`, one to every member of
the role table, the requester among them. -/
theorem group_join_launches_role_check (mgr : NewLFGMgr) (host : Host) (player : Player)
    (g : Group) (dungeonIds : List Nat) (roleMask : Nat) (c : JoinChecks) (requester : Player)
    (hreach : Reachable mgr)
    (hc : joinChecks mgr host player (some g) dungeonIds roleMask = .ok c)
    (hok : c.result = LFGJoinResult.OK)
    (hfresh : mapFind g.GetGUID mgr.lfgJoinData = none)
    (hconnected : host.FindConnectedPlayer player.GetGUID = some requester)
    (hmembers : ∀ p ∈ reachableMembers g, (host.FindConnectedPlayer p.GetGUID).isSome = true) :
    ∃ mgr1 jd slots,
      ProcessLFGJoinRequest mgr host player (some g) dungeonIds roleMask = .ok (mgr1,
        sendToMembers host jd.PartyMemberRoleData
          (Packet.RoleCheckUpdate
            ⟨LFGRoleCheckState.Initializing, slots, jd.PartyMemberRoleData, true⟩)) ∧
      ⟨player.GetGUID, Packet.RoleCheckUpdate
          ⟨LFGRoleCheckState.Initializing, slots, jd.PartyMemberRoleData, true⟩⟩ ∈
        sendToMembers host jd.PartyMemberRoleData
          (Packet.RoleCheckUpdate
            ⟨LFGRoleCheckState.Initializing, slots, jd.PartyMemberRoleData, true⟩) ∧
      mapFind g.GetGUID mgr1.lfgJoinData = some jd ∧
      mapFind player.GetGUID jd.PartyMemberRoleData = some ⟨roleMask % 256, true⟩ ∧
      (∀ p ∈ reachableMembers g, p.GetGUID ≠ player.GetGUID →
        mapFind p.GetGUID jd.PartyMemberRoleData = some ⟨0, false⟩) ∧
      (∀ e ∈ jd.PartyMemberRoleData,
        e.1 = player.GetGUID ∨ ∃ p ∈ reachableMembers g, p.GetGUID = e.1) ∧
      mapFind g.GetGUID mgr1.lfgRoleCheckTimers = some 120000 ∧
      mgr1.nextAvailableTicketId = mgr.nextAvailableTicketId ∧
      mgr1.lfgQueuePlayerData = mgr.lfgQueuePlayerData ∧
      mgr1.lfgQueue = mgr.lfgQueue := by
  have hguid : c.guid = g.GetGUID := joinChecks_guid hc
  have hnone : (mapFind c.guid mgr.lfgJoinData).getD {} = ({} : LFGJoinData) := by
    rw [hguid, hfresh]
    rfl
  have hcat := joinData_after_join hreach hc hok
  rw [hnone] at hcat
  obtain ⟨slots, hslots⟩ := slotsOfJoinData_ok mgr _ hcat
  obtain ⟨hvals, _, hkeys, honly⟩ := resetMemberRoles_fresh g.members [] (by simp)
  have hkeysOnly : ∀ e ∈ (prepareJoinData player (some g) c.randomDungeonId c.dungeonIds
      roleMask {}).PartyMemberRoleData,
      e.1 = player.GetGUID ∨ ∃ p ∈ reachableMembers g, p.GetGUID = e.1 := by
    intro e he
    simp only [prepareJoinData] at he
    have hk : e.1 ∈ mapKeys (mapModify player.GetGUID ({} : LFGPartyMemberRoleData)
        (fun d => { d with RoleMask := roleMask % 256, RoleConfirmed := true })
        (resetMemberRoles g.members [])) := List.mem_map.2 ⟨e, he, rfl⟩
    rw [mapKeys_mapModify] at hk
    split_ifs at hk with hin
    · rcases honly _ hk with h1 | h1
      · simp [mapKeys] at h1
      · exact Or.inr h1
    · rcases List.mem_append.1 hk with h1 | h1
      · rcases honly _ h1 with h2 | h2
        · simp [mapKeys] at h2
        · exact Or.inr h2
      · exact Or.inl (by simpa using h1)
  have hconn : AllConnected host (prepareJoinData player (some g) c.randomDungeonId
      c.dungeonIds roleMask {}).PartyMemberRoleData := by
    intro e he
    rcases hkeysOnly e he with h1 | ⟨p, hp, h1⟩
    · rw [h1, hconnected]
      rfl
    · rw [← h1]
      exact hmembers p hp
  have hrun := ProcessLFGJoinRequest_group hc hok (hnone.symm ▸ hslots) (hnone.symm ▸ hconn)
  rw [hnone] at hrun
  have hown : mapFind player.GetGUID
      (prepareJoinData player (some g) c.randomDungeonId c.dungeonIds roleMask
        {}).PartyMemberRoleData = some ⟨roleMask % 256, true⟩ := by
    simp only [prepareJoinData]
    rw [mapFind_mapModify_self]
  refine ⟨_, _, slots, hrun, mem_sendToMembers _ (mapFind_some_mem hown) hconnected, ?_, hown,
    fun p hp hne => ?_, hkeysOnly, ?_, rfl, rfl, rfl⟩
  · rw [← hguid]
    dsimp only
    rw [mapFind_mapModify_self, hnone]
  · simp only [prepareJoinData]
    rw [mapFind_mapModify_ne _ _ _ _ _ hne]
    obtain ⟨v, hv⟩ := mem_mapKeys_of_mapFind (hkeys p hp)
    rw [hv, ← hvals _ (mapFind_some_mem hv)]
  · rw [← hguid]
    dsimp only
    rw [mapFind_mapModify_self]
    rfl

/-- Witness of `group_join_launches_role_check`: the leader of the demo group joins for
dungeon 101 with the tank role on the loaded caches. -/
theorem group_join_launches_role_check_witness :
    ∃ mgr1 jd slots,
      ProcessLFGJoinRequest demoMgr demoHost playerA (some groupAB) [101] 2 = .ok (mgr1,
        sendToMembers demoHost jd.PartyMemberRoleData
          (Packet.RoleCheckUpdate
            ⟨LFGRoleCheckState.Initializing, slots, jd.PartyMemberRoleData, true⟩)) ∧
      ⟨playerA.GetGUID, Packet.RoleCheckUpdate
          ⟨LFGRoleCheckState.Initializing, slots, jd.PartyMemberRoleData, true⟩⟩ ∈
        sendToMembers demoHost jd.PartyMemberRoleData
          (Packet.RoleCheckUpdate
            ⟨LFGRoleCheckState.Initializing, slots, jd.PartyMemberRoleData, true⟩) ∧
      mapFind groupAB.GetGUID mgr1.lfgJoinData = some jd ∧
      mapFind playerA.GetGUID jd.PartyMemberRoleData = some ⟨2, true⟩ ∧
      (∀ p ∈ reachableMembers groupAB, p.GetGUID ≠ playerA.GetGUID →
        mapFind p.GetGUID jd.PartyMemberRoleData = some ⟨0, false⟩) ∧
      (∀ e ∈ jd.PartyMemberRoleData,
        e.1 = playerA.GetGUID ∨ ∃ p ∈ reachableMembers groupAB, p.GetGUID = e.1) ∧
      mapFind groupAB.GetGUID mgr1.lfgRoleCheckTimers = some 120000 ∧
      mgr1.nextAvailableTicketId = demoMgr.nextAvailableTicketId ∧
      mgr1.lfgQueuePlayerData = demoMgr.lfgQueuePlayerData ∧
      mgr1.lfgQueue = demoMgr.lfgQueue :=
  group_join_launches_role_check demoMgr demoHost playerA groupAB [101] 2
    ⟨LFGJoinResult.OK, 0, [101], ObjectGuid.Group 1,
      [(ObjectGuid.Player 1, []), (ObjectGuid.Player 2, [])], [(301, [101, 102])]⟩ playerA
    (Reachable.init demoSources) (eq_ok_of_toOption _ _ (by decide)) rfl (by decide) rfl
    (by decide)

theorem sendToMembers_single {host : Host} {guid : ObjectGuid} {p : Player}
    (d : LFGPartyMemberRoleData) (packet : Packet)
    (hconnected : host.FindConnectedPlayer guid = some p) :
    sendToMembers host [(guid, d)] packet = [⟨guid, packet⟩] := by
  simp [sendToMembers, hconnected]

/-- C20 (amended): for a connected solo player whose join passes every check on a freshly
loaded manager, `ProcessLFGJoinRequest` returns and emits no join-result: the notifications
are exactly one status update `JoinQueueInitial` and one status update `AddedToQueue`, in
that order, both to the player and both carrying the ticket with id 0; afterwards the queue
entry of ticket 0 exists, the ticket counter is 1 and no role-check timer exists. -/
theorem solo_join_on_fresh_manager (src : LoadSources) (host : Host) (player : Player)
    (dungeonIds : List Nat) (roleMask : Nat) (c : JoinChecks) (requester : Player)
    (hc : joinChecks (InitializeDungeonData NewLFGMgr.new src) host player none dungeonIds
      roleMask = .ok c)
    (hok : c.result = LFGJoinResult.OK)
    (hconnected : host.FindConnectedPlayer player.GetGUID = some requester) :
    ∃ mgr1 initial added,
      ProcessLFGJoinRequest (InitializeDungeonData NewLFGMgr.new src) host player none
          dungeonIds roleMask = .ok (mgr1,
        [⟨player.GetGUID, Packet.UpdateStatus initial⟩,
          ⟨player.GetGUID, Packet.UpdateStatus added⟩]) ∧
      initial.UpdateReason = LFGUpdateReason.JoinQueueInitial ∧
      added.UpdateReason = LFGUpdateReason.AddedToQueue ∧
      initial.RideTicket = ⟨0, 3, host.GetGameTime, player.GetGUID⟩ ∧
      added.RideTicket = ⟨0, 3, host.GetGameTime, player.GetGUID⟩ ∧
      mapFind 0 mgr1.lfgQueuePlayerData
        = some (queueEntryOf ⟨0, 3, host.GetGameTime, player.GetGUID⟩) ∧
      mgr1.nextAvailableTicketId = 1 ∧
      mgr1.lfgRoleCheckTimers = [] := by
  obtain ⟨hj, hq, ht, hn⟩ := InitializeDungeonData_queue_fields NewLFGMgr.new src
  have hreach := Reachable.init src
  generalize InitializeDungeonData NewLFGMgr.new src = mgr at hc hj hq ht hn hreach ⊢
  have hj0 : mgr.lfgJoinData = [] := hj
  have hq0 : mgr.lfgQueuePlayerData = [] := hq
  have ht0 : mgr.lfgRoleCheckTimers = [] := ht
  have hn0 : mgr.nextAvailableTicketId = 0 := hn
  have hguid : c.guid = player.GetGUID := joinChecks_guid hc
  have hnone : (mapFind c.guid mgr.lfgJoinData).getD {} = ({} : LFGJoinData) := by
    rw [hj0]
    rfl
  have hcat := joinData_after_join hreach hc hok
  rw [hnone] at hcat
  obtain ⟨slots, hslots⟩ := slotsOfJoinData_ok mgr _ hcat
  have hrun := ProcessLFGJoinRequest_solo hc hok (by rw [hn0]; decide)
    (by rw [hq0]; rfl) (hnone.symm ▸ hslots)
  rw [hnone] at hrun
  have hroles : (prepareJoinData player none c.randomDungeonId c.dungeonIds roleMask
      {}).PartyMemberRoleData = [(player.GetGUID, ⟨roleMask % 256, true⟩)] := rfl
  rw [hroles, sendToMembers_single _ _ hconnected, sendToMembers_single _ _ hconnected] at hrun
  refine ⟨_, _, _, hrun, rfl, rfl, ?_, ?_, ?_, ?_, ht0⟩
  · simp only [statusUpdateOf, nextTicket, hn0, hguid]
  · simp only [statusUpdateOf, nextTicket, hn0, hguid]
  · dsimp only
    rw [hq0, hn0]
    simp only [List.nil_append, mapFind, if_true, nextTicket, hn0, hguid]
  · dsimp only
    rw [hn0]
    rfl

/-- Witness of `solo_join_on_fresh_manager`: the warrior joins for dungeon 101 on the loaded
demo caches. -/
theorem solo_join_on_fresh_manager_witness :
    ∃ mgr1 initial added,
      ProcessLFGJoinRequest (InitializeDungeonData NewLFGMgr.new demoSources) demoHost playerA
          none [101] 2 = .ok (mgr1,
        [⟨playerA.GetGUID, Packet.UpdateStatus initial⟩,
          ⟨playerA.GetGUID, Packet.UpdateStatus added⟩]) ∧
      initial.UpdateReason = LFGUpdateReason.JoinQueueInitial ∧
      added.UpdateReason = LFGUpdateReason.AddedToQueue ∧
      initial.RideTicket = ⟨0, 3, demoHost.GetGameTime, playerA.GetGUID⟩ ∧
      added.RideTicket = ⟨0, 3, demoHost.GetGameTime, playerA.GetGUID⟩ ∧
      mapFind 0 mgr1.lfgQueuePlayerData
        = some (queueEntryOf ⟨0, 3, demoHost.GetGameTime, playerA.GetGUID⟩) ∧
      mgr1.nextAvailableTicketId = 1 ∧
      mgr1.lfgRoleCheckTimers = [] :=
  solo_join_on_fresh_manager demoSources demoHost playerA [101] 2
    ⟨LFGJoinResult.OK, 0, [101], ObjectGuid.Player 1, [(ObjectGuid.Player 1, [])],
      [(301, [101, 102])]⟩ playerA
    (eq_ok_of_toOption _ _ (by decide)) rfl rfl

/-! ## The lock cascade -/

theorem missingAchievement_iff (player : Player) (a : AccessRequirement) :
    missingAchievement player (some a) = true ↔
      (a.achievement ≠ 0 ∧ (!player.HasAchieved a.achievement) = true) := by
  simp [missingAchievement]

theorem questNotRewarded_iff (player : Player) (a : AccessRequirement) :
    questNotRewarded player (some a) = true ↔
      ((player.GetTeam = Team.ALLIANCE ∧ a.quest_A ≠ 0
          ∧ (!player.GetQuestRewardStatus a.quest_A) = true) ∨
        (player.GetTeam = Team.HORDE ∧ a.quest_H ≠ 0
          ∧ (!player.GetQuestRewardStatus a.quest_H) = true)) := by
  simp [questNotRewarded, and_assoc]

theorem missingItem_iff (player : Player) (a : AccessRequirement) :
    missingItem player (some a) = true ↔
      ((a.item ≠ 0 ∧ (!player.HasItemCount a.item) = true ∧
          (a.item2 = 0 ∨ (!player.HasItemCount a.item2) = true)) ∨
        (a.item = 0 ∧ a.item2 ≠ 0 ∧ (!player.HasItemCount a.item2) = true)) := by
  simp only [missingItem, Bool.or_eq_true, Bool.and_eq_true, decide_eq_true_eq,
    Bool.not_eq_true', Bool.and_eq_false_imp, ne_eq, and_assoc]
  by_cases h2 : a.item2 = 0
  · simp [h2]
  · simp [h2]

theorem checkAccessRequirement_rules (player : Player) (a : AccessRequirement) :
    checkAccessRequirement player a =
      if missingAchievement player (some a) then some LFGLockStatusType.MissingAchievement
      else if questNotRewarded player (some a) then some LFGLockStatusType.QuestNotCompleted
      else if missingItem player (some a) then some LFGLockStatusType.MissingItem
      else none := by
  unfold checkAccessRequirement
  simp only [missingAchievement_iff, questNotRewarded_iff, missingItem_iff]
  by_cases h1 : a.achievement ≠ 0 ∧ (!player.HasAchieved a.achievement) = true
  · rw [if_pos h1, if_pos h1]
  · rw [if_neg h1, if_neg h1]
    by_cases h2 : player.GetTeam = Team.ALLIANCE ∧ a.quest_A ≠ 0
        ∧ (!player.GetQuestRewardStatus a.quest_A) = true
    · rw [if_pos h2, if_pos (Or.inl h2)]
    · rw [if_neg h2]
      by_cases h3 : player.GetTeam = Team.HORDE ∧ a.quest_H ≠ 0
          ∧ (!player.GetQuestRewardStatus a.quest_H) = true
      · rw [if_pos h3, if_pos (Or.inr h3)]
      · rw [if_neg h3, if_neg (not_or.2 ⟨h2, h3⟩)]
        by_cases h4 : a.item ≠ 0
        · rw [if_pos h4]
          by_cases h5 : (!player.HasItemCount a.item) = true ∧
              (a.item2 = 0 ∨ (!player.HasItemCount a.item2) = true)
          · rw [if_pos h5, if_pos (Or.inl ⟨h4, h5⟩)]
          · rw [if_neg h5, if_neg]
            rintro (h6 | h6)
            · exact h5 h6.2
            · exact h4 h6.1
        · rw [if_neg h4]
          by_cases h5 : a.item2 ≠ 0 ∧ (!player.HasItemCount a.item2) = true
          · rw [if_pos h5, if_pos (Or.inr ⟨by simpa using h4, h5⟩)]
          · rw [if_neg h5, if_neg]
            rintro (h6 | h6)
            · exact h4 h6.1
            · exact h5 h6.2

theorem firstRule_cons (c : Bool) (r : LFGLockStatusType)
    (rest : List (Bool × LFGLockStatusType)) :
    (((c, r) :: rest).find? (fun rule => rule.1)).map (fun rule => rule.2) =
      if c = true then some r
      else (rest.find? (fun rule => rule.1)).map (fun rule => rule.2) := by
  cases c <;> rfl

theorem checkLockReason_rules (host : Host) (player : Player) (data : LFGDungeonData) :
    checkLockReason host player data = firstMatchingRule host player data := by
  unfold checkLockReason firstMatchingRule lockRules accessRequirementOf
  simp only [firstRule_cons]
  by_cases hperm : (!player.HasPermission) = true
  · rw [if_pos hperm, if_pos hperm]
  rw [if_neg hperm, if_neg hperm]
  by_cases hexp : data.DungeonEntry.ExpansionLevel > player.GetExpansion
  · rw [if_pos hexp, if_pos (decide_eq_true hexp)]
  rw [if_neg hexp, if_neg (mt of_decide_eq_true hexp)]
  by_cases hd1 : host.IsDisabledFor DisableType.DISABLE_TYPE_MAP data.DungeonEntry.MapID player
      = true
  · rw [if_pos hd1, if_pos (show (host.IsDisabledFor DisableType.DISABLE_TYPE_MAP
      data.DungeonEntry.MapID player || host.IsDisabledFor DisableType.DISABLE_TYPE_LFG_MAP
      data.DungeonEntry.MapID player) = true from by rw [hd1]; rfl)]
  rw [if_neg hd1]
  by_cases hd2 : host.IsDisabledFor DisableType.DISABLE_TYPE_LFG_MAP data.DungeonEntry.MapID
      player = true
  · rw [if_pos hd2, if_pos (show (host.IsDisabledFor DisableType.DISABLE_TYPE_MAP
      data.DungeonEntry.MapID player || host.IsDisabledFor DisableType.DISABLE_TYPE_LFG_MAP
      data.DungeonEntry.MapID player) = true from by rw [hd2]; simp)]
  rw [if_neg hd2, if_neg (show ¬ (host.IsDisabledFor DisableType.DISABLE_TYPE_MAP
      data.DungeonEntry.MapID player || host.IsDisabledFor DisableType.DISABLE_TYPE_LFG_MAP
      data.DungeonEntry.MapID player) = true from by simp [hd1, hd2])]
  by_cases hb1 : data.DungeonEntry.DifficultyID > host.DUNGEON_DIFFICULTY_NORMAL ∧
      player.GetBoundInstance data.DungeonEntry.MapID data.DungeonEntry.DifficultyID none = true
  · rw [if_pos hb1, if_pos (show (decide (data.DungeonEntry.DifficultyID >
      host.DUNGEON_DIFFICULTY_NORMAL) && savedToInstance player data.DungeonEntry) = true from by
        simp [savedToInstance, hb1.1, hb1.2])]
  rw [if_neg hb1]
  by_cases hb2 : data.DungeonEntry.DifficultyID > host.DUNGEON_DIFFICULTY_NORMAL ∧
      player.GetBoundInstance data.DungeonEntry.MapID data.DungeonEntry.DifficultyID
        (some (decide (data.DungeonEntry.TypeID = LFGType.Raid))) = true
  · rw [if_pos hb2, if_pos (show (decide (data.DungeonEntry.DifficultyID >
      host.DUNGEON_DIFFICULTY_NORMAL) && savedToInstance player data.DungeonEntry) = true from by
        simp [savedToInstance, hb2.1, hb2.2])]
  rw [if_neg hb2, if_neg (show ¬ (decide (data.DungeonEntry.DifficultyID >
      host.DUNGEON_DIFFICULTY_NORMAL) && savedToInstance player data.DungeonEntry) = true from by
        simp only [savedToInstance, Bool.and_eq_true, decide_eq_true_eq, Bool.or_eq_true]
        rintro ⟨h, h1 | h2⟩
        · exact hb1 ⟨h, h1⟩
        · exact hb2 ⟨h, h2⟩)]
  by_cases hmin : data.DungeonEntry.MinLevel > player.getLevel
  · rw [if_pos hmin, if_pos (decide_eq_true hmin)]
  rw [if_neg hmin, if_neg (mt of_decide_eq_true hmin)]
  by_cases hmax : data.DungeonEntry.Maxlevel < player.getLevel
  · rw [if_pos hmax, if_pos (decide_eq_true hmax)]
  rw [if_neg hmax, if_neg (mt of_decide_eq_true hmax)]
  by_cases hseason : data.DungeonEntry.Flags &&& LFGFlags.Seasonal ≠ 0 ∧
      (!IsSeasonActive host data.DungeonEntry.ID) = true
  · rw [if_pos hseason, if_pos (show (decide (data.DungeonEntry.Flags &&& LFGFlags.Seasonal ≠ 0)
      && !IsSeasonActive host data.DungeonEntry.ID) = true from by
        rw [Bool.and_eq_true]; exact ⟨decide_eq_true hseason.1, hseason.2⟩)]
  rw [if_neg hseason, if_neg (show ¬ (decide (data.DungeonEntry.Flags &&& LFGFlags.Seasonal ≠ 0)
      && !IsSeasonActive host data.DungeonEntry.ID) = true from by
        rw [Bool.and_eq_true]; exact fun h => hseason ⟨of_decide_eq_true h.1, h.2⟩)]
  by_cases hilvl : data.RequiredItemLevel > player.GetAverageItemLevel
  · rw [if_pos hilvl, if_pos (decide_eq_true hilvl)]
  rw [if_neg hilvl, if_neg (mt of_decide_eq_true hilvl)]
  cases har : host.GetAccessRequirement data.DungeonEntry.MapID data.DungeonEntry.DifficultyID with
  | none => rfl
  | some a =>
    dsimp only
    rw [checkAccessRequirement_rules]
    rfl

theorem CheckDungeonIdsForLocks_cons (mgr : NewLFGMgr) (host : Host) (player : Player)
    {id : Nat} {data : LFGDungeonData} (rest : List Nat) (lockMap : LockMap)
    (hdata : mapFind id mgr.lfgDungeonData = some data)
    (htype : data.DungeonEntry.TypeID ≠ LFGType.Random) :
    CheckDungeonIdsForLocks mgr host player (id :: rest) lockMap =
      CheckDungeonIdsForLocks mgr host player rest
        (recordFirstMatchingRule host player data lockMap) := by
  rw [CheckDungeonIdsForLocks]
  simp only [hdata]
  rw [if_neg htype, checkLockReason_rules]
  unfold recordFirstMatchingRule lockOfReason
  cases firstMatchingRule host player data with
  | none => rfl
  | some reason =>
    dsimp only
    by_cases hr : reason = LFGLockStatusType.TooLowGearScore
    · rw [if_pos hr, if_pos hr]
    · rw [if_neg hr, if_neg hr]

theorem checkLockReason_after_early (host : Host) (player : Player) (data : LFGDungeonData)
    (h : passesRulesBeforeLevel host player data) :
    checkLockReason host player data =
      if data.DungeonEntry.MinLevel > player.getLevel then some LFGLockStatusType.TooLowLevel
      else if data.DungeonEntry.Maxlevel < player.getLevel then
        some LFGLockStatusType.TooHighLevel
      else if data.DungeonEntry.Flags &&& LFGFlags.Seasonal ≠ 0 ∧
          IsSeasonActive host data.DungeonEntry.ID = false then
        some LFGLockStatusType.NotInSeason
      else if data.RequiredItemLevel > player.GetAverageItemLevel then
        some LFGLockStatusType.TooLowGearScore
      else
        match accessRequirementOf host data with
        | some ar => checkAccessRequirement player ar
        | none => none := by
  obtain ⟨hperm, hexp, hd1, hd2, hraid⟩ := h
  unfold checkLockReason accessRequirementOf
  dsimp only
  rw [if_neg (by simp [hperm]), if_neg (by omega), if_neg (by simp [hd1]),
    if_neg (by simp [hd2])]
  have hb1 : ¬ (data.DungeonEntry.DifficultyID > host.DUNGEON_DIFFICULTY_NORMAL ∧
      player.GetBoundInstance data.DungeonEntry.MapID data.DungeonEntry.DifficultyID
        none = true) :=
    fun hb => hraid ⟨hb.1, by simp [savedToInstance, hb.2]⟩
  have hb2 : ¬ (data.DungeonEntry.DifficultyID > host.DUNGEON_DIFFICULTY_NORMAL ∧
      player.GetBoundInstance data.DungeonEntry.MapID data.DungeonEntry.DifficultyID
        (some (decide (data.DungeonEntry.TypeID = LFGType.Raid))) = true) :=
    fun hb => hraid ⟨hb.1, by simp [savedToInstance, hb.2]⟩
  rw [if_neg hb1, if_neg hb2]
  simp only [Bool.not_eq_true']

theorem recordFirstMatchingRule_none {host : Host} {player : Player} {data : LFGDungeonData}
    (lockMap : LockMap) (h : checkLockReason host player data = none) :
    recordFirstMatchingRule host player data lockMap = lockMap := by
  rw [checkLockReason_rules] at h
  simp only [recordFirstMatchingRule, h]

theorem recordFirstMatchingRule_some {host : Host} {player : Player} {data : LFGDungeonData}
    {reason : LFGLockStatusType} (lockMap : LockMap)
    (h : checkLockReason host player data = some reason) :
    recordFirstMatchingRule host player data lockMap =
      mapEmplace data.DungeonEntry.Entry (lockOfReason player data reason) lockMap := by
  rw [checkLockReason_rules] at h
  simp only [recordFirstMatchingRule, h]


theorem checkLocks_single (mgr : NewLFGMgr) (host : Host) (player : Player) {id : Nat}
    {data : LFGDungeonData} (hdata : mapFind id mgr.lfgDungeonData = some data)
    (htype : data.DungeonEntry.TypeID ≠ LFGType.Random) :
    CheckDungeonIdsForLocks mgr host player [id] [] =
      .ok (recordFirstMatchingRule host player data []) := by
  rw [CheckDungeonIdsForLocks_cons mgr host player [] [] hdata htype, CheckDungeonIdsForLocks]

/-- C25: for every manager, host state and player, and every catalog activity that is not of
random type, `CheckDungeonIdsForLocks` records for the activity the lock of the first matching
rule of the order: no join permission (`None`), required expansion above the player's
(`InsufficientExpansion`), map disabled globally or for LFG (`None`), difficulty above normal
and player saved to the map and difficulty (`RaidLocked`), `MinLevel` above the level
(`TooLowLevel`), `Maxlevel` below the level (`TooHighLevel`), seasonal flag set and season
inactive (`NotInSeason`), required item level above the player's (`TooLowGearScore`), then
with an access requirement present: missing achievement (`MissingAchievement`),
faction-correct quest not rewarded (`QuestNotCompleted`), missing items (`MissingItem`).
The visit of the activity in the loop enters that lock under the slot code of the activity
(an `emplace`, so into an empty lock map it is the only entry), no lock is recorded when no
rule matches, and the detail numbers are `(0, 0)` for every reason other than
`TooLowGearScore`. -/
theorem lock_of_first_matching_rule (mgr : NewLFGMgr) (host : Host) (player : Player) (id : Nat)
    (data : LFGDungeonData) (hdata : mapFind id mgr.lfgDungeonData = some data)
    (htype : data.DungeonEntry.TypeID ≠ LFGType.Random) :
    checkLockReason host player data = firstMatchingRule host player data ∧
    (∀ (rest : List Nat) (lockMap : LockMap),
      CheckDungeonIdsForLocks mgr host player (id :: rest) lockMap =
        CheckDungeonIdsForLocks mgr host player rest
          (recordFirstMatchingRule host player data lockMap)) ∧
    (firstMatchingRule host player data = none →
      CheckDungeonIdsForLocks mgr host player [id] [] = .ok []) ∧
    ∀ reason, firstMatchingRule host player data = some reason →
      ∃ n1 n2, CheckDungeonIdsForLocks mgr host player [id] [] =
          .ok [(data.DungeonEntry.Entry, ⟨reason, n1, n2⟩)] ∧
        (reason ≠ LFGLockStatusType.TooLowGearScore → n1 = 0 ∧ n2 = 0) ∧
        (reason = LFGLockStatusType.TooLowGearScore →
          n1 = data.RequiredItemLevel ∧ n2 = player.GetAverageItemLevel) := by
  refine ⟨checkLockReason_rules host player data,
    fun rest lockMap => CheckDungeonIdsForLocks_cons mgr host player rest lockMap hdata htype,
    ?_, ?_⟩
  · intro hnone
    rw [checkLocks_single mgr host player hdata htype]
    simp only [recordFirstMatchingRule, hnone]
  · intro reason hsome
    rw [checkLocks_single mgr host player hdata htype]
    simp only [recordFirstMatchingRule, hsome, lockOfReason]
    by_cases hr : reason = LFGLockStatusType.TooLowGearScore
    · rw [if_pos hr]
      exact ⟨_, _, rfl, fun h => absurd hr h, fun _ => ⟨rfl, rfl⟩⟩
    · rw [if_neg hr]
      exact ⟨0, 0, rfl, fun _ => ⟨rfl, rfl⟩, fun h => absurd h hr⟩

/-- Witness of `lock_of_first_matching_rule`: for the level-80 warrior of the demo world and
dungeon 102, which needs level 85, the first matching rule is the minimum level and the lock
`TooLowLevel` with details `(0, 0)` is recorded under the slot code of the dungeon. -/
theorem lock_of_first_matching_rule_witness :
    firstMatchingRule demoHost playerA demoDungeon102 = some LFGLockStatusType.TooLowLevel ∧
    CheckDungeonIdsForLocks demoMgr demoHost playerA [102] [] =
      .ok [(16777318, ⟨LFGLockStatusType.TooLowLevel, 0, 0⟩)] := by
  have h := lock_of_first_matching_rule demoMgr demoHost playerA 102 demoDungeon102
    (by decide) (by decide)
  have hrule : firstMatchingRule demoHost playerA demoDungeon102 =
      some LFGLockStatusType.TooLowLevel := by decide
  obtain ⟨n1, n2, hrun, hzero, _⟩ := h.2.2.2 _ hrule
  obtain ⟨h1, h2⟩ := hzero (by decide)
  subst h1
  subst h2
  exact ⟨hrule, hrun⟩

theorem accessRules_none {host : Host} {player : Player} {data : LFGDungeonData}
    (h : passesAccessRules host player data) :
    (match accessRequirementOf host data with
      | some ar => checkAccessRequirement player ar
      | none => none) = none := by
  unfold passesAccessRules at h
  cases har : accessRequirementOf host data with
  | none => rfl
  | some ar => exact h ar har

/-- C26: for a player who matches no lock rule that comes before the item-level rule (join
permission, expansion, disabled map, raid lock, level range, season) and no
access-requirement rule, with item levels as whole numbers: a non-random catalog activity
whose required item level equals the player's item level gets no lock (it is eligible), and
one whose required item level is one above the player's item level is locked with
`TooLowGearScore` carrying the details (required item level, player's item level). -/
theorem item_level_boundary (mgr : NewLFGMgr) (host : Host) (player : Player) (id : Nat)
    (data : LFGDungeonData) (hdata : mapFind id mgr.lfgDungeonData = some data)
    (htype : data.DungeonEntry.TypeID ≠ LFGType.Random)
    (hearly : passesRulesBeforeLevel host player data) (hlevel : passesLevelRules player data)
    (hseason : passesSeasonRule host data) (haccess : passesAccessRules host player data) :
    (data.RequiredItemLevel = player.GetAverageItemLevel →
      CheckDungeonIdsForLocks mgr host player [id] [] = .ok []) ∧
    (data.RequiredItemLevel = player.GetAverageItemLevel + 1 →
      CheckDungeonIdsForLocks mgr host player [id] [] =
        .ok [(data.DungeonEntry.Entry,
          ⟨LFGLockStatusType.TooLowGearScore, player.GetAverageItemLevel + 1,
            player.GetAverageItemLevel⟩)]) := by
  have hreason := checkLockReason_after_early host player data hearly
  obtain ⟨hmin, hmax⟩ := hlevel
  rw [if_neg (by omega), if_neg (by omega), if_neg hseason] at hreason
  rw [checkLocks_single mgr host player hdata htype]
  constructor
  · intro heq
    rw [if_neg (by omega), accessRules_none haccess] at hreason
    rw [recordFirstMatchingRule_none [] hreason]
  · intro heq
    rw [if_pos (by omega)] at hreason
    rw [recordFirstMatchingRule_some [] hreason, lockOfReason, if_pos rfl, heq]
    rfl

/-- Witness of `item_level_boundary`: the warrior of the demo world has item level 200; a
dungeon that requires item level 200 gets no lock, one that requires 201 is locked with
`TooLowGearScore (201, 200)`. -/
theorem item_level_boundary_witness :
    CheckDungeonIdsForLocks (demoCatalog (demoDungeonWith 15 85 200)) demoHost playerA
      [102] [] = .ok [] ∧
    CheckDungeonIdsForLocks (demoCatalog (demoDungeonWith 15 85 201)) demoHost playerA
      [102] [] = .ok [(16777318, ⟨LFGLockStatusType.TooLowGearScore, 201, 200⟩)] :=
  ⟨(item_level_boundary (demoCatalog (demoDungeonWith 15 85 200)) demoHost playerA 102
      (demoDungeonWith 15 85 200) rfl (by decide) (by decide) (by decide) (by decide)
      (fun ar har => by cases har)).1 rfl,
    (item_level_boundary (demoCatalog (demoDungeonWith 15 85 201)) demoHost playerA 102
      (demoDungeonWith 15 85 201) rfl (by decide) (by decide) (by decide) (by decide)
      (fun ar har => by cases har)).2 rfl⟩

/-- C27: for a player who matches no other lock rule (join permission, expansion, disabled
map, raid lock, season, item level, access requirement) and a non-random catalog activity: if
`MinLevel` equals the player's level (and `Maxlevel` is not below it) the activity gets no
lock, and so it does if `Maxlevel` equals the player's level (and `MinLevel` is not above
it); if `MinLevel` is one above the player's level the activity is locked with `TooLowLevel`,
and if `Maxlevel` is one below the player's level (and `MinLevel` is not above it) the
activity is locked with `TooHighLevel`, both with details `(0, 0)`. -/
theorem level_boundaries (mgr : NewLFGMgr) (host : Host) (player : Player) (id : Nat)
    (data : LFGDungeonData) (hdata : mapFind id mgr.lfgDungeonData = some data)
    (htype : data.DungeonEntry.TypeID ≠ LFGType.Random)
    (hearly : passesRulesBeforeLevel host player data) (hseason : passesSeasonRule host data)
    (hilvl : data.RequiredItemLevel ≤ player.GetAverageItemLevel)
    (haccess : passesAccessRules host player data) :
    (data.DungeonEntry.MinLevel = player.getLevel →
      player.getLevel ≤ data.DungeonEntry.Maxlevel →
      CheckDungeonIdsForLocks mgr host player [id] [] = .ok []) ∧
    (data.DungeonEntry.Maxlevel = player.getLevel →
      data.DungeonEntry.MinLevel ≤ player.getLevel →
      CheckDungeonIdsForLocks mgr host player [id] [] = .ok []) ∧
    (data.DungeonEntry.MinLevel = player.getLevel + 1 →
      CheckDungeonIdsForLocks mgr host player [id] [] =
        .ok [(data.DungeonEntry.Entry, ⟨LFGLockStatusType.TooLowLevel, 0, 0⟩)]) ∧
    (data.DungeonEntry.Maxlevel + 1 = player.getLevel →
      data.DungeonEntry.MinLevel ≤ player.getLevel →
      CheckDungeonIdsForLocks mgr host player [id] [] =
        .ok [(data.DungeonEntry.Entry, ⟨LFGLockStatusType.TooHighLevel, 0, 0⟩)]) := by
  have hreason := checkLockReason_after_early host player data hearly
  have hin : ∀ (hmin : data.DungeonEntry.MinLevel ≤ player.getLevel)
      (hmax : player.getLevel ≤ data.DungeonEntry.Maxlevel),
      CheckDungeonIdsForLocks mgr host player [id] [] = .ok [] := by
    intro hmin hmax
    rw [if_neg (by omega), if_neg (by omega), if_neg hseason, if_neg (by omega),
      accessRules_none haccess] at hreason
    rw [checkLocks_single mgr host player hdata htype, recordFirstMatchingRule_none [] hreason]
  refine ⟨fun h1 h2 => hin (by omega) h2, fun h1 h2 => hin h2 (by omega), ?_, ?_⟩
  · intro h1
    rw [if_pos (by omega)] at hreason
    rw [checkLocks_single mgr host player hdata htype,
      recordFirstMatchingRule_some [] hreason, lockOfReason, if_neg (by decide)]
    rfl
  · intro h1 h2
    rw [if_neg (by omega), if_pos (by omega)] at hreason
    rw [checkLocks_single mgr host player hdata htype,
      recordFirstMatchingRule_some [] hreason, lockOfReason, if_neg (by decide)]
    rfl

/-- Witness of `level_boundaries`: for the level-80 warrior of the demo world, a dungeon with
level range 80 to 85 and one with range 15 to 80 get no lock, one with range 81 to 85 is
locked with `TooLowLevel` and one with range 15 to 79 with `TooHighLevel`. -/
theorem level_boundaries_witness :
    CheckDungeonIdsForLocks (demoCatalog (demoDungeonWith 80 85 0)) demoHost playerA
      [102] [] = .ok [] ∧
    CheckDungeonIdsForLocks (demoCatalog (demoDungeonWith 15 80 0)) demoHost playerA
      [102] [] = .ok [] ∧
    CheckDungeonIdsForLocks (demoCatalog (demoDungeonWith 81 85 0)) demoHost playerA
      [102] [] = .ok [(16777318, ⟨LFGLockStatusType.TooLowLevel, 0, 0⟩)] ∧
    CheckDungeonIdsForLocks (demoCatalog (demoDungeonWith 15 79 0)) demoHost playerA
      [102] [] = .ok [(16777318, ⟨LFGLockStatusType.TooHighLevel, 0, 0⟩)] :=
  ⟨(level_boundaries (demoCatalog (demoDungeonWith 80 85 0)) demoHost playerA 102
      (demoDungeonWith 80 85 0) rfl (by decide) (by decide) (by decide) (by decide)
      (fun ar har => by cases har)).1 rfl (by decide),
    (level_boundaries (demoCatalog (demoDungeonWith 15 80 0)) demoHost playerA 102
      (demoDungeonWith 15 80 0) rfl (by decide) (by decide) (by decide) (by decide)
      (fun ar har => by cases har)).2.1 rfl (by decide),
    (level_boundaries (demoCatalog (demoDungeonWith 81 85 0)) demoHost playerA 102
      (demoDungeonWith 81 85 0) rfl (by decide) (by decide) (by decide) (by decide)
      (fun ar har => by cases har)).2.2.1 rfl,
    (level_boundaries (demoCatalog (demoDungeonWith 15 79 0)) demoHost playerA 102
      (demoDungeonWith 15 79 0) rfl (by decide) (by decide) (by decide) (by decide)
      (fun ar har => by cases har)).2.2.2 rfl (by decide)⟩

/-! ## Laws of the role-set validator -/

theorem kindCount_perm {ms1 ms2 : List Nat} (h : ms1.Perm ms2) (k : Nat) :
    kindCount k ms1 = kindCount k ms2 :=
  (h.map roleKind).count_eq k

theorem IsRoleCheckValid_of_perm {sel1 sel2 : List (ObjectGuid × Nat)} (h : sel1.Perm sel2)
    (numDps numTank numHeal : Nat) :
    IsRoleCheckValid sel1 numDps numTank numHeal =
      IsRoleCheckValid sel2 numDps numTank numHeal := by
  have hms : (sel1.map Prod.snd).Perm (sel2.map Prod.snd) := h.map _
  unfold IsRoleCheckValid
  have h0 : (0 : Nat) < 256 := by decide
  rw [roleTally_eq _ _ h0 h0 h0, roleTally_eq _ _ h0 h0 h0, h.length_eq]
  simp only [kindCount_perm hms]

theorem roleTallyStep_all_roles (t : RoleTally) {mask : Nat}
    (hmask : mask &&& LFG_ROLE_MASK_ALL_NEEDED = LFG_ROLE_MASK_ALL_NEEDED) :
    roleTallyStep t mask = some t := by
  unfold roleTallyStep
  simp only [hmask]
  rfl

theorem IsRoleCheckValid_cons_all_roles (selected : List (ObjectGuid × Nat)) (guid : ObjectGuid)
    {mask : Nat} (numDps numTank numHeal : Nat)
    (hmask : mask &&& LFG_ROLE_MASK_ALL_NEEDED = LFG_ROLE_MASK_ALL_NEEDED)
    (hroom : selected.length < numDps + numHeal + numTank) :
    IsRoleCheckValid ((guid, mask) :: selected) numDps numTank numHeal =
      IsRoleCheckValid selected numDps numTank numHeal := by
  unfold IsRoleCheckValid
  rw [if_neg (by simp only [List.length_cons]; omega), if_neg (by omega)]
  simp only [List.map_cons, roleTally, roleTallyStep_all_roles _ hmask]

/-- C28 (counterexample): the party of one tank, one healer and three damage dealers is
accepted for the composition 1 tank, 1 heal, 3 dps, and with a sixth member whose mask is
tank|heal|damage added it is rejected: the validator first compares the number of members
with the number of places. -/
theorem sixth_member_rejected :
    IsRoleCheckValid fullParty 3 1 1 = some true ∧
    IsRoleCheckValid ((ObjectGuid.Player 6, LFG_ROLE_MASK_ALL_NEEDED) :: fullParty) 3 1 1 =
      some false ∧
    IsRoleCheckValid (fullParty ++ [(ObjectGuid.Player 6, LFG_ROLE_MASK_ALL_NEEDED)]) 3 1 1 =
      some false := by
  decide

/-- C28 (amended): for every composition (in particular 1 tank, 1 heal, 3 dps), every member
table that `IsRoleCheckValid` accepts and that has fewer members than the composition has
places, and every additional member whose mask holds tank, heal and damage, the table with
that member added, at whatever place of the iteration order, is also accepted. -/
theorem all_roles_member_keeps_valid (selected added : List (ObjectGuid × Nat))
    (guid : ObjectGuid) (mask numDps numTank numHeal : Nat)
    (hmask : mask &&& LFG_ROLE_MASK_ALL_NEEDED = LFG_ROLE_MASK_ALL_NEEDED)
    (hvalid : IsRoleCheckValid selected numDps numTank numHeal = some true)
    (hroom : selected.length < numDps + numHeal + numTank)
    (hadded : added.Perm ((guid, mask) :: selected)) :
    IsRoleCheckValid added numDps numTank numHeal = some true := by
  rw [IsRoleCheckValid_of_perm hadded,
    IsRoleCheckValid_cons_all_roles selected guid numDps numTank numHeal hmask hroom, hvalid]

/-- Witness of `all_roles_member_keeps_valid`: a tank and a healer are accepted for the
composition 1 tank, 1 heal, 3 dps, and so are they with a member of mask tank|heal|damage
(and the leader bit) placed between them. -/
theorem all_roles_member_keeps_valid_witness :
    IsRoleCheckValid
      [(ObjectGuid.Player 1, 2), (ObjectGuid.Player 3, 15), (ObjectGuid.Player 2, 4)] 3 1 1 =
      some true :=
  all_roles_member_keeps_valid [(ObjectGuid.Player 1, 2), (ObjectGuid.Player 2, 4)]
    [(ObjectGuid.Player 1, 2), (ObjectGuid.Player 3, 15), (ObjectGuid.Player 2, 4)]
    (ObjectGuid.Player 3) 15 3 1 1 (by decide) (by decide) (by decide)
    (List.Perm.swap _ _ _)

/-- C29: `IsRoleCheckValid` is symmetric in the member order: for every member table, every
permutation of it and every composition `(numDps, numTank, numHeal)` the validator gives the
same outcome on both (the same return value, an early rejection in the first pass included,
and the same non-termination). -/
theorem role_check_order_independent (sel1 sel2 : List (ObjectGuid × Nat))
    (numDps numTank numHeal : Nat) (hperm : sel1.Perm sel2) :
    IsRoleCheckValid sel1 numDps numTank numHeal =
      IsRoleCheckValid sel2 numDps numTank numHeal :=
  IsRoleCheckValid_of_perm hperm numDps numTank numHeal

/-- Witness of `role_check_order_independent`: two healers and a tank are rejected in the
first pass in whichever order the second healer is met. -/
theorem role_check_order_independent_witness :
    IsRoleCheckValid
      [(ObjectGuid.Player 1, 4), (ObjectGuid.Player 2, 4), (ObjectGuid.Player 3, 2)] 3 1 1 =
    IsRoleCheckValid
      [(ObjectGuid.Player 3, 2), (ObjectGuid.Player 2, 4), (ObjectGuid.Player 1, 4)] 3 1 1 ∧
    IsRoleCheckValid
      [(ObjectGuid.Player 3, 2), (ObjectGuid.Player 2, 4), (ObjectGuid.Player 1, 4)] 3 1 1 =
      some false :=
  ⟨role_check_order_independent _ _ 3 1 1
    ((List.Perm.swap _ _ _).trans ((List.Perm.cons _ (List.Perm.swap _ _ _)).trans
      (List.Perm.swap _ _ _))), by decide⟩

/-! ## Status updates -/

theorem statusFlags_spec (reason : LFGUpdateReason) :
    (statusFlags reason).UpdateReason = reason ∧
    ((statusFlags reason).LFGJoined = true ↔ reason ≠ LFGUpdateReason.RemovedFromQueue) ∧
    ((statusFlags reason).Joined = true ↔
      reason = LFGUpdateReason.JoinQueueInitial ∨ reason = LFGUpdateReason.JoinQueue ∨
        reason = LFGUpdateReason.AddedToQueue) ∧
    ((statusFlags reason).Queued = true ↔
      reason = LFGUpdateReason.JoinQueue ∨ reason = LFGUpdateReason.AddedToQueue) := by
  cases reason <;> simp [statusFlags]

/-- C30: every status update that `SendStatusUpdate` builds and sends for a reason carries
that reason, and its flags depend on the reason alone: `LFGJoined` is set exactly when the
reason is not `RemovedFromQueue`, `Joined` exactly for `JoinQueueInitial`, `JoinQueue` and
`AddedToQueue`, and `Queued` exactly for `JoinQueue` and `AddedToQueue`. -/
theorem status_update_flags (mgr : NewLFGMgr) (host : Host) (ticketId : Nat)
    (reason : LFGUpdateReason) (out : List Notification)
    (hsend : SendStatusUpdate mgr host ticketId reason = .ok out) :
    ∀ n ∈ out, ∃ d, n.packet = Packet.UpdateStatus d ∧ d.UpdateReason = reason ∧
      (d.LFGJoined = true ↔ reason ≠ LFGUpdateReason.RemovedFromQueue) ∧
      (d.Joined = true ↔
        reason = LFGUpdateReason.JoinQueueInitial ∨ reason = LFGUpdateReason.JoinQueue ∨
          reason = LFGUpdateReason.AddedToQueue) ∧
      (d.Queued = true ↔
        reason = LFGUpdateReason.JoinQueue ∨ reason = LFGUpdateReason.AddedToQueue) := by
  intro n hn
  unfold SendStatusUpdate at hsend
  split at hsend
  · simp only [Except.ok.injEq] at hsend
    rw [← hsend] at hn
    simp at hn
  · split at hsend
    · simp at hsend
    · split at hsend
      · simp at hsend
      · split at hsend
        · simp at hsend
        · simp only [Except.ok.injEq] at hsend
          rw [← hsend] at hn
          exact ⟨_, sendToMembers_packet _ _ _ n hn, statusFlags_spec reason⟩

/-- Witness of `status_update_flags`: the status update sent for the ticket of the solo
player of the demo world with the reason `RemovedFromQueue` has no flag set. -/
theorem status_update_flags_witness :
    SendStatusUpdate (finalState soloJoinRun) demoHost 0 LFGUpdateReason.RemovedFromQueue =
      .ok [⟨ObjectGuid.Player 1, Packet.UpdateStatus
        { UpdateReason := LFGUpdateReason.RemovedFromQueue,
          RideTicket := { ID := 0, Time := 1000, RequesterGUID := ObjectGuid.Player 1 },
          Slots := [16777317] }⟩] ∧
    ∀ n ∈ [(⟨ObjectGuid.Player 1, Packet.UpdateStatus
        { UpdateReason := LFGUpdateReason.RemovedFromQueue,
          RideTicket := { ID := 0, Time := 1000, RequesterGUID := ObjectGuid.Player 1 },
          Slots := [16777317] }⟩ : Notification)],
      ∃ d, n.packet = Packet.UpdateStatus d ∧
        d.UpdateReason = LFGUpdateReason.RemovedFromQueue ∧
        (d.LFGJoined = true ↔
          LFGUpdateReason.RemovedFromQueue ≠ LFGUpdateReason.RemovedFromQueue) ∧
        (d.Joined = true ↔
          LFGUpdateReason.RemovedFromQueue = LFGUpdateReason.JoinQueueInitial ∨
            LFGUpdateReason.RemovedFromQueue = LFGUpdateReason.JoinQueue ∨
            LFGUpdateReason.RemovedFromQueue = LFGUpdateReason.AddedToQueue) ∧
        (d.Queued = true ↔
          LFGUpdateReason.RemovedFromQueue = LFGUpdateReason.JoinQueue ∨
            LFGUpdateReason.RemovedFromQueue = LFGUpdateReason.AddedToQueue) :=
  ⟨eq_ok_of_toOption _ _ (by decide),
    status_update_flags (finalState soloJoinRun) demoHost 0 LFGUpdateReason.RemovedFromQueue _
      (eq_ok_of_toOption _ _ (by decide))⟩

/-! ## Leaving: cancelling a role check, removing a ticket -/

theorem statusUpdates_sendToMembers_rolecheck (host : Host)
    (members : List (ObjectGuid × LFGPartyMemberRoleData)) (d : LFGRolecheckUpdateData) :
    statusUpdates (sendToMembers host members (Packet.RoleCheckUpdate d)) = [] := by
  unfold statusUpdates
  rw [List.filterMap_eq_nil_iff]
  intro n hn
  rw [sendToMembers_packet host members _ n hn]

/-- With the JoinRequest of the group present and every member of its role table connected:
on a manager reachable from the loaded caches, when a role-check timer exists for the
requester guid, `ProcessLFGLeaveRequest` returns, whatever ticket id is passed, and only
erases the JoinRequest of that guid: the queue entries, the scheduler, the timers and the
ticket counter are unchanged and no status update (so no `RemovedFromQueue`) is emitted. What
is emitted is exactly the role-check update with state `Aborted` (the slots and the role
table of the JoinRequest, not a beginning), one to every member of the role table. -/
theorem ProcessLFGLeaveRequest_cancels (mgr : NewLFGMgr) (host : Host) (ticketId : Nat)
    (groupGuid : ObjectGuid) (timer : Int) (jd : LFGJoinData) (hreach : Reachable mgr)
    (htimer : mapFind groupGuid mgr.lfgRoleCheckTimers = some timer)
    (hjd : mapFind groupGuid mgr.lfgJoinData = some jd)
    (hconn : AllConnected host jd.PartyMemberRoleData) :
    ∃ mgr1 slots,
      ProcessLFGLeaveRequest mgr host ticketId groupGuid =
        .ok (mgr1, jd.PartyMemberRoleData.map (fun it =>
          ⟨it.1, Packet.RoleCheckUpdate
            ⟨LFGRoleCheckState.Aborted, slots, jd.PartyMemberRoleData, false⟩⟩)) ∧
      slotsOfJoinData mgr jd = .ok slots ∧
      mgr1.lfgJoinData = mapErase groupGuid mgr.lfgJoinData ∧
      mapFind groupGuid mgr1.lfgJoinData = none ∧
      mgr1.lfgQueuePlayerData = mgr.lfgQueuePlayerData ∧
      mgr1.lfgQueue = mgr.lfgQueue ∧
      mgr1.lfgRoleCheckTimers = mgr.lfgRoleCheckTimers ∧
      mgr1.nextAvailableTicketId = mgr.nextAvailableTicketId := by
  obtain ⟨slots, hslots⟩ := slots_of_reachable hreach hjd
  have hall : ∀ (packet : Packet) (members : List (ObjectGuid × LFGPartyMemberRoleData)),
      AllConnected host members →
      sendToMembers host members packet = members.map (fun it => ⟨it.1, packet⟩) := by
    intro packet members
    induction members with
    | nil => intro _; rfl
    | cons it rest ih =>
      intro hc
      have h1 := hc it (List.mem_cons_self _ _)
      obtain ⟨p, hp⟩ := Option.isSome_iff_exists.1 h1
      have h2 := ih (fun e he => hc e (List.mem_cons_of_mem _ he))
      simp only [sendToMembers, List.filterMap_cons, hp, List.map_cons] at h2 ⊢
      rw [h2]
  refine ⟨eraseJoinData groupGuid mgr, slots, ?_, hslots, rfl, mapFind_mapErase_self _ _, rfl,
    rfl, rfl, rfl⟩
  unfold ProcessLFGLeaveRequest CancelRoleCheck
  simp only [htimer]
  rw [SendRolecheckUpdate_eq mgr mgr host LFGRoleCheckState.Aborted false hjd rfl hslots hconn,
    hall _ _ hconn]

/-- C21 (the code at the failing input): the demo group leaves during its role check after
its second member has disconnected. `ProcessLFGLeaveRequest` ends in the assertion of the
role-check packet builder (`ASSERT_NOTNULL(FindConnectedPlayer(member))`), reached while the
`Aborted` update is sent, that is before the JoinRequest is erased. With both members
connected the same call does what is claimed: both receive the role-check update `Aborted`,
the JoinRequest is erased, the queue entries and the ticket counter are unchanged and no
status update is emitted; the role-check timer stays, so a second leave finds a role check
without a JoinRequest and emits nothing. On every reachable manager on which the guid has a
role-check timer and a JoinRequest whose members are all connected, the call returns with
exactly one `Aborted` update per member of the role table and only the JoinRequest erased. -/
theorem leave_aborts_when_member_offline :
    ProcessLFGLeaveRequest (finalState roleCheckRun) hostAfterLogout 7 (ObjectGuid.Group 1)
      = .error Fault.assertion ∧
    (mapFind (ObjectGuid.Group 1) (finalState roleCheckRun).lfgRoleCheckTimers
        = some 120000 ∧
      mapFind (ObjectGuid.Group 1) (finalState roleCheckRun).lfgJoinData
        = some roleCheckJoinData ∧
      hostAfterLogout.FindConnectedPlayer (ObjectGuid.Player 1) = some playerA ∧
      hostAfterLogout.FindConnectedPlayer (ObjectGuid.Player 2) = none) ∧
    (∃ mgr1 data,
      ProcessLFGLeaveRequest (finalState roleCheckRun) demoHost 7 (ObjectGuid.Group 1) =
        .ok (mgr1, [⟨ObjectGuid.Player 1, Packet.RoleCheckUpdate data⟩,
          ⟨ObjectGuid.Player 2, Packet.RoleCheckUpdate data⟩]) ∧
      data.State = LFGRoleCheckState.Aborted ∧
      mgr1.lfgJoinData = [] ∧
      mgr1.lfgQueuePlayerData = (finalState roleCheckRun).lfgQueuePlayerData ∧
      mgr1.nextAvailableTicketId = (finalState roleCheckRun).nextAvailableTicketId ∧
      mapFind (ObjectGuid.Group 1) mgr1.lfgRoleCheckTimers = some 120000 ∧
      ProcessLFGLeaveRequest mgr1 demoHost 7 (ObjectGuid.Group 1) = .ok (mgr1, [])) ∧
    (∀ (mgr : NewLFGMgr) (host : Host) (ticketId : Nat) (groupGuid : ObjectGuid) (timer : Int)
        (jd : LFGJoinData),
      Reachable mgr →
      mapFind groupGuid mgr.lfgRoleCheckTimers = some timer →
      mapFind groupGuid mgr.lfgJoinData = some jd →
      AllConnected host jd.PartyMemberRoleData →
      ∃ mgr1 slots,
        ProcessLFGLeaveRequest mgr host ticketId groupGuid =
          .ok (mgr1, jd.PartyMemberRoleData.map (fun it =>
            ⟨it.1, Packet.RoleCheckUpdate
              ⟨LFGRoleCheckState.Aborted, slots, jd.PartyMemberRoleData, false⟩⟩)) ∧
        slotsOfJoinData mgr jd = .ok slots ∧
        mgr1.lfgJoinData = mapErase groupGuid mgr.lfgJoinData ∧
        mapFind groupGuid mgr1.lfgJoinData = none ∧
        mgr1.lfgQueuePlayerData = mgr.lfgQueuePlayerData ∧
        mgr1.lfgQueue = mgr.lfgQueue ∧
        mgr1.lfgRoleCheckTimers = mgr.lfgRoleCheckTimers ∧
        mgr1.nextAvailableTicketId = mgr.nextAvailableTicketId) :=
  ⟨eq_error_of_faultOf _ _ (by decide),
    ⟨by decide, by decide, rfl, rfl⟩,
    ⟨(finalState (ProcessLFGLeaveRequest (finalState roleCheckRun) demoHost 7
        (ObjectGuid.Group 1))),
      ⟨LFGRoleCheckState.Aborted, [16777317], roleCheckJoinData.PartyMemberRoleData, false⟩,
      eq_ok_of_toOption _ _ (by decide), rfl, by decide, by decide, by decide, by decide,
      eq_ok_of_toOption _ _ (by decide)⟩,
    fun mgr host ticketId groupGuid timer jd hreach htimer hjd hconn =>
      ProcessLFGLeaveRequest_cancels mgr host ticketId groupGuid timer jd hreach htimer hjd
        hconn⟩

/-- When no role-check timer exists for the requester guid: if no queue entry exists for the
ticket id, `ProcessLFGLeaveRequest` returns, changes nothing and emits nothing; if a queue
entry exists that refers to a JoinRequest which has not been erased since the entry was
created, with its dungeons in the catalog, the call returns and emits the status update
`RemovedFromQueue` of the entry (its ticket, comment and slots) to every connected member of
the JoinRequest, and then, when the entry retains a running instance (`CurrentDungeonID ≠ 0`
and not `InstanceCompleted`), keeps the queue entries and the JoinRequests as they are, and
otherwise erases the queue entry of the ticket id and the JoinRequest of the requester of the
ticket. The timers, the ticket counter and the catalog are unchanged. -/
theorem ProcessLFGLeaveRequest_removes_ticket (mgr : NewLFGMgr) (host : Host) (ticketId : Nat)
    (groupGuid : ObjectGuid) (htimer : mapFind groupGuid mgr.lfgRoleCheckTimers = none) :
    (mapFind ticketId mgr.lfgQueuePlayerData = none →
      ProcessLFGLeaveRequest mgr host ticketId groupGuid = .ok (mgr, [])) ∧
    ∀ q jd, mapFind ticketId mgr.lfgQueuePlayerData = some q →
      ticketId ∉ mgr.danglingJoinData →
      mapFind q.JoinData mgr.lfgJoinData = some jd → JoinDataInCatalog mgr jd →
      ∃ mgr1 slots, slotsOfJoinData mgr jd = .ok slots ∧
        ProcessLFGLeaveRequest mgr host ticketId groupGuid =
          .ok (mgr1, sendToMembers host jd.PartyMemberRoleData
            (Packet.UpdateStatus
              { statusUpdateOf LFGUpdateReason.RemovedFromQueue jd q.RideTicket slots with
                Comment := q.Comment })) ∧
        mgr1.lfgRoleCheckTimers = mgr.lfgRoleCheckTimers ∧
        mgr1.nextAvailableTicketId = mgr.nextAvailableTicketId ∧
        mgr1.lfgDungeonData = mgr.lfgDungeonData ∧
        (q.CurrentDungeonID ≠ 0 ∧ q.InstanceCompleted = false →
          mgr1.lfgQueuePlayerData = mgr.lfgQueuePlayerData ∧
          mgr1.lfgJoinData = mgr.lfgJoinData) ∧
        (¬ (q.CurrentDungeonID ≠ 0 ∧ q.InstanceCompleted = false) →
          mgr1.lfgQueuePlayerData = mapErase ticketId mgr.lfgQueuePlayerData ∧
          mgr1.lfgJoinData = mapErase q.RideTicket.RequesterGUID mgr.lfgJoinData ∧
          mapFind ticketId mgr1.lfgQueuePlayerData = none ∧
          mapFind q.RideTicket.RequesterGUID mgr1.lfgJoinData = none) := by
  constructor
  · intro hq
    simp only [ProcessLFGLeaveRequest, htimer, hq]
  · intro q jd hq hlive hjd hcat
    obtain ⟨slots, hslots⟩ := slotsOfJoinData_ok mgr jd hcat
    have hsend := SendStatusUpdate_eq
      { mgr with lfgQueue := mgr.lfgQueue.RemoveTicketFromQueue ticketId } mgr host
      LFGUpdateReason.RemovedFromQueue hq hlive hjd rfl hslots
    simp only [ProcessLFGLeaveRequest, htimer, hq, RemoveTicketFromQueue, hsend]
    by_cases hkeep : q.CurrentDungeonID ≠ 0 ∧ q.InstanceCompleted = false
    · have hk : (!(decide (q.CurrentDungeonID ≠ 0) && !q.InstanceCompleted)) = false := by
        simp [hkeep.1, hkeep.2]
      rw [hk]
      exact ⟨_, slots, hslots, rfl, rfl, rfl, rfl, fun _ => ⟨rfl, rfl⟩,
        fun h => absurd hkeep h⟩
    · have hk : (!(decide (q.CurrentDungeonID ≠ 0) && !q.InstanceCompleted)) = true := by
        by_cases h0 : q.CurrentDungeonID = 0
        · simp [h0]
        · have hc : q.InstanceCompleted = true := by
            cases hc : q.InstanceCompleted with
            | true => rfl
            | false => exact absurd ⟨h0, hc⟩ hkeep
          simp [hc]
      rw [hk]
      exact ⟨_, slots, hslots, rfl, rfl, rfl, rfl, fun h => absurd h hkeep,
        fun _ => ⟨rfl, rfl, mapFind_mapErase_self _ _, mapFind_mapErase_self _ _⟩⟩


theorem soloRemovedUpdate_sent :
    sendToMembers demoHost soloJoinData.PartyMemberRoleData
      (Packet.UpdateStatus
        { statusUpdateOf LFGUpdateReason.RemovedFromQueue soloJoinData soloTicket [16777317] with
          Comment := "" }) = [soloRemovedUpdate] := by
  decide

theorem joinDataInCatalog_solo (mgr : NewLFGMgr)
    (h : mgr.lfgDungeonData = demoMgr.lfgDungeonData) : JoinDataInCatalog mgr soloJoinData := by
  refine ⟨fun h0 => absurd rfl h0, ?_⟩
  intro id hid
  simp only [soloJoinData, List.mem_singleton] at hid
  subst hid
  unfold InCatalog
  rw [h]
  decide

/-- The solo player of the demo world, who has no role check, leaves with a ticket id that
does not exist (nothing happens), with the own ticket id (status update `RemovedFromQueue`,
queue entry and JoinRequest erased), and with the own ticket id while the entry retains a
running instance (status update, both kept). -/
theorem solo_leave_removes_ticket :
    ProcessLFGLeaveRequest (finalState soloJoinRun) demoHost 9 (ObjectGuid.Player 1) =
      .ok (finalState soloJoinRun, []) ∧
    (∃ mgr1, ProcessLFGLeaveRequest (finalState soloJoinRun) demoHost 0 (ObjectGuid.Player 1) =
        .ok (mgr1, [soloRemovedUpdate]) ∧
      mgr1.lfgQueuePlayerData = [] ∧ mgr1.lfgJoinData = []) ∧
    ∃ mgr1, ProcessLFGLeaveRequest runningInstanceMgr demoHost 0 (ObjectGuid.Player 1) =
        .ok (mgr1, [soloRemovedUpdate]) ∧
      mgr1.lfgQueuePlayerData = runningInstanceMgr.lfgQueuePlayerData ∧
      mgr1.lfgJoinData = [(ObjectGuid.Player 1, soloJoinData)] :=
  ⟨eq_ok_of_toOption _ _ (by decide),
    ⟨finalState (ProcessLFGLeaveRequest (finalState soloJoinRun) demoHost 0
        (ObjectGuid.Player 1)),
      eq_ok_of_toOption _ _ (by decide), by decide, by decide⟩,
    ⟨finalState (ProcessLFGLeaveRequest runningInstanceMgr demoHost 0 (ObjectGuid.Player 1)),
      eq_ok_of_toOption _ _ (by decide), by decide, by decide⟩⟩

/-- C22 (the code at the failing input): a solo player joins twice and leaves with the first
ticket, which erases the JoinRequest that the queue entries of both tickets refer to. No role
check is active for the player and the queue entry of the second ticket exists, so a leave
with the second ticket sends the status update `RemovedFromQueue` for it: the call reads the
JoinRequest through the reference of the queue entry, which dangles, and neither returns the
status update nor erases the entry. The same happens when the player has joined a third time
in between (the new JoinRequest under the same guid is not the one the entry refers to), and
for the ticket of a group whose JoinRequest was erased by an empty role mask. In the states
in which the entry refers to a JoinRequest that has not been erased the call does what is
claimed. -/
theorem leave_reads_erased_join_request :
    (returned leftBehindTicketRun = true ∧
      mapFind (ObjectGuid.Player 1) (finalState leftBehindTicketRun).lfgRoleCheckTimers = none ∧
      (mapFind 1 (finalState leftBehindTicketRun).lfgQueuePlayerData).map
        (fun q => (q.JoinData, q.CurrentDungeonID)) = some (ObjectGuid.Player 1, 0) ∧
      mapFind (ObjectGuid.Player 1) (finalState leftBehindTicketRun).lfgJoinData = none ∧
      ProcessLFGLeaveRequest (finalState leftBehindTicketRun) demoHost 1 (ObjectGuid.Player 1)
        = .error Fault.danglingReference) ∧
    (returned leftBehindTicketRejoinRun = true ∧
      mapFind (ObjectGuid.Player 1) (finalState leftBehindTicketRejoinRun).lfgRoleCheckTimers
        = none ∧
      (mapFind 1 (finalState leftBehindTicketRejoinRun).lfgQueuePlayerData).map
        (fun q => (q.JoinData, q.CurrentDungeonID)) = some (ObjectGuid.Player 1, 0) ∧
      (mapFind (ObjectGuid.Player 1)
        (finalState leftBehindTicketRejoinRun).lfgJoinData).isSome = true ∧
      ProcessLFGLeaveRequest (finalState leftBehindTicketRejoinRun) demoHost 1
        (ObjectGuid.Player 1) = .error Fault.danglingReference) ∧
    (returned orphanedTicketRun = true ∧
      mapFind (ObjectGuid.Group 1) (finalState orphanedTicketRun).lfgRoleCheckTimers = none ∧
      (mapFind 0 (finalState orphanedTicketRun).lfgQueuePlayerData).isSome = true ∧
      mapFind (ObjectGuid.Group 1) (finalState orphanedTicketRun).lfgJoinData = none ∧
      ProcessLFGLeaveRequest (finalState orphanedTicketRun) demoHost 0 (ObjectGuid.Group 1)
        = .error Fault.danglingReference) ∧
    (∀ (mgr : NewLFGMgr) (host : Host) (ticketId : Nat) (groupGuid : ObjectGuid),
      mapFind groupGuid mgr.lfgRoleCheckTimers = none →
      (mapFind ticketId mgr.lfgQueuePlayerData = none →
        ProcessLFGLeaveRequest mgr host ticketId groupGuid = .ok (mgr, [])) ∧
      ∀ q jd, mapFind ticketId mgr.lfgQueuePlayerData = some q →
        ticketId ∉ mgr.danglingJoinData →
        mapFind q.JoinData mgr.lfgJoinData = some jd → JoinDataInCatalog mgr jd →
        ∃ mgr1 slots, slotsOfJoinData mgr jd = .ok slots ∧
          ProcessLFGLeaveRequest mgr host ticketId groupGuid =
            .ok (mgr1, sendToMembers host jd.PartyMemberRoleData
              (Packet.UpdateStatus
                { statusUpdateOf LFGUpdateReason.RemovedFromQueue jd q.RideTicket slots with
                  Comment := q.Comment })) ∧
          mgr1.lfgRoleCheckTimers = mgr.lfgRoleCheckTimers ∧
          mgr1.nextAvailableTicketId = mgr.nextAvailableTicketId ∧
          mgr1.lfgDungeonData = mgr.lfgDungeonData ∧
          (q.CurrentDungeonID ≠ 0 ∧ q.InstanceCompleted = false →
            mgr1.lfgQueuePlayerData = mgr.lfgQueuePlayerData ∧
            mgr1.lfgJoinData = mgr.lfgJoinData) ∧
          (¬ (q.CurrentDungeonID ≠ 0 ∧ q.InstanceCompleted = false) →
            mgr1.lfgQueuePlayerData = mapErase ticketId mgr.lfgQueuePlayerData ∧
            mgr1.lfgJoinData = mapErase q.RideTicket.RequesterGUID mgr.lfgJoinData ∧
            mapFind ticketId mgr1.lfgQueuePlayerData = none ∧
            mapFind q.RideTicket.RequesterGUID mgr1.lfgJoinData = none)) :=
  ⟨⟨by decide, by decide, by decide, by decide, eq_error_of_faultOf _ _ (by decide)⟩,
    ⟨by decide, by decide, by decide, by decide, eq_error_of_faultOf _ _ (by decide)⟩,
    ⟨by decide, by decide, by decide, by decide, eq_error_of_faultOf _ _ (by decide)⟩,
    fun mgr host ticketId groupGuid htimer =>
      ProcessLFGLeaveRequest_removes_ticket mgr host ticketId groupGuid htimer⟩

/-! ## The periodic update: role-check timers and the queue-update interval -/

theorem mapFind_mapErase_ne {κ α : Type} [DecidableEq κ] {k k1 : κ} (m : List (κ × α))
    (h : k1 ≠ k) : mapFind k (mapErase k1 m) = mapFind k m := by
  induction m with
  | nil => rfl
  | cons e rest ih =>
    unfold mapErase at ih ⊢
    by_cases he : e.1 = k1
    · rw [List.filter_cons, if_neg (by simpa using he), ih, mapFind,
        if_neg (fun hk => h (he.symm.trans hk))]
    · rw [List.filter_cons, if_pos (by simpa using he)]
      unfold mapFind
      rw [ih]

theorem mapFind_foldl_mapErase_ne {κ α β : Type} [DecidableEq κ] (g : β → κ) (k : κ)
    (l : List β) (hl : ∀ t ∈ l, g t ≠ k) :
    ∀ (m : List (κ × α)),
      mapFind k (l.foldl (fun jd t => mapErase (g t) jd) m) = mapFind k m := by
  induction l with
  | nil => intro m; rfl
  | cons t l ih =>
    intro m
    rw [List.foldl_cons, ih (fun s hs => hl s (List.mem_cons_of_mem _ hs)),
      mapFind_mapErase_ne m (hl t (List.mem_cons_self _ _))]

theorem mapFind_foldl_mapErase_mem {κ α β : Type} [DecidableEq κ] (g : β → κ) (k : κ)
    (l : List β) (hl : ∃ t ∈ l, g t = k) :
    ∀ (m : List (κ × α)), mapFind k (l.foldl (fun jd t => mapErase (g t) jd) m) = none := by
  induction l with
  | nil => obtain ⟨t, ht, _⟩ := hl; simp at ht
  | cons t l ih =>
    intro m
    rw [List.foldl_cons]
    by_cases hrest : ∃ s ∈ l, g s = k
    · exact ih hrest _
    · have hne : ∀ s ∈ l, g s ≠ k := fun s hs hk => hrest ⟨s, hs, hk⟩
      obtain ⟨s, hs, hk⟩ := hl
      rcases List.mem_cons.1 hs with rfl | hs
      · rw [mapFind_foldl_mapErase_ne g k l hne, hk, mapFind_mapErase_self]
      · exact absurd hk (hne s hs)

/-- The timers kept by a tick, as `Update_state` gives them. -/
theorem mapFind_tickTimers_kept (diff : Nat) (k : ObjectGuid) (s : Int) :
    ∀ (timers : List (ObjectGuid × Int)), mapFind k timers = some s → (diff : Int) < s →
      mapFind k ((timers.map (fun t => (t.1, t.2 - (diff : Int)))).filter
        (fun t => decide (¬ t.2 ≤ 0))) = some (s - (diff : Int)) := by
  intro timers
  induction timers with
  | nil => intro h; simp [mapFind] at h
  | cons e rest ih =>
    intro h hlt
    unfold mapFind at h
    by_cases he : e.1 = k
    · rw [if_pos he] at h
      simp only [Option.some.injEq] at h
      rw [List.map_cons, List.filter_cons, if_pos (by simp only [decide_eq_true_eq]; omega)]
      unfold mapFind
      rw [if_pos he, h]
    · rw [if_neg he] at h
      rw [List.map_cons, List.filter_cons]
      split_ifs
      · unfold mapFind
        rw [if_neg he]
        exact ih h hlt
      · exact ih h hlt

theorem mapKeys_tickTimers_subset (diff : Nat) (timers : List (ObjectGuid × Int)) :
    (mapKeys ((timers.map (fun t => (t.1, t.2 - (diff : Int)))).filter
      (fun t => decide (¬ t.2 ≤ 0)))).Sublist (mapKeys timers) := by
  unfold mapKeys
  have h1 : ((timers.map (fun t => (t.1, t.2 - (diff : Int)))).filter
      (fun t => decide (¬ t.2 ≤ 0))).Sublist (timers.map (fun t => (t.1, t.2 - (diff : Int)))) :=
    List.filter_sublist _
  have h2 := h1.map Prod.fst
  simpa [List.map_map, Function.comp] using h2

theorem mapFind_tickTimers_expired (diff : Nat) (k : ObjectGuid) (s : Int) :
    ∀ (timers : List (ObjectGuid × Int)), (mapKeys timers).Nodup →
      mapFind k timers = some s → s ≤ (diff : Int) →
      mapFind k ((timers.map (fun t => (t.1, t.2 - (diff : Int)))).filter
        (fun t => decide (¬ t.2 ≤ 0))) = none := by
  intro timers
  induction timers with
  | nil => intro _ h; simp [mapFind] at h
  | cons e rest ih =>
    intro hnd h hle
    have hnd1 : e.1 ∉ mapKeys rest ∧ (mapKeys rest).Nodup := by
      simpa [mapKeys] using hnd
    unfold mapFind at h
    by_cases he : e.1 = k
    · rw [if_pos he] at h
      simp only [Option.some.injEq] at h
      rw [List.map_cons, List.filter_cons, if_neg (by simp only [decide_eq_true_eq]; omega),
        mapFind_none_iff]
      intro hk
      exact hnd1.1 (he ▸ (mapKeys_tickTimers_subset diff rest).subset hk)
    · rw [if_neg he] at h
      rw [List.map_cons, List.filter_cons]
      split_ifs
      · unfold mapFind
        rw [if_neg he]
        exact ih hnd1.2 h hle
      · exact ih hnd1.2 h hle

theorem timersDistinct_step {mgr mgr1 : NewLFGMgr} {host : Host} {call : Call}
    {out : List Notification} (hrun : call.run mgr host = .ok (mgr1, out))
    (h : TimersDistinct mgr) : TimersDistinct mgr1 := by
  unfold TimersDistinct at h ⊢
  cases call with
  | Join player group dungeonIds roleMask =>
    obtain ⟨c, _, hcase⟩ := ProcessLFGJoinRequest_state hrun
    rcases hcase with ⟨_, hm⟩ | ⟨_, _, _, queue, hm⟩ | ⟨_, _, hm⟩
    · rw [hm]; exact h
    · rw [hm]; exact h
    · rw [hm]; exact nodup_mapModify _ _ _ _ h
  | Leave ticketId groupGuid =>
    rcases ProcessLFGLeaveRequest_state hrun with ⟨_, hm⟩ | ⟨_, hcase⟩
    · rw [hm]; exact h
    · rcases hcase with ⟨_, hm, _⟩ | ⟨it, _, ⟨_, hm⟩ | ⟨_, hm⟩⟩
      · rw [hm]; exact h
      · rw [hm]; exact h
      · rw [hm]; exact h
  | SetRoles groupGuid playerGuid desiredRoles =>
    rcases ProcessPlayerRoleRequest_state hrun with ⟨hm, _⟩ | ⟨jd0, _, hcase⟩
    · rw [hm]; exact h
    · rcases hcase with ⟨_, hm⟩ | ⟨_, _, queue, hm⟩ | ⟨_, hm⟩
      · rw [hm]; exact nodup_mapErase _ _ h
      · rw [hm]; exact nodup_mapErase _ _ h
      · rw [hm]; exact h
  | Tick diff =>
    have hm := Update_state hrun
    rw [hm]
    exact (mapKeys_tickTimers_subset diff _).nodup h

theorem reachable_timersDistinct (mgr : NewLFGMgr) (h : Reachable mgr) : TimersDistinct mgr := by
  induction h with
  | init src =>
    unfold TimersDistinct
    rw [(InitializeDungeonData_queue_fields NewLFGMgr.new src).2.2.1]
    exact List.nodup_nil
  | step hprev host call hrun ih => exact timersDistinct_step hrun ih


theorem SendRolecheckUpdate_returns (mgr mgr0 : NewLFGMgr) (host : Host) (guid : ObjectGuid)
    (state : LFGRoleCheckState) (beginning : Bool)
    (hcatalog : mgr.lfgDungeonData = mgr0.lfgDungeonData)
    (hinv : ∀ e ∈ mgr.lfgJoinData, JoinDataInCatalog mgr0 e.2)
    (hconn : MembersConnected host mgr) :
    ∃ out, SendRolecheckUpdate mgr host guid state beginning = .ok out := by
  cases hjd : mapFind guid mgr.lfgJoinData with
  | none => exact ⟨[], by simp only [SendRolecheckUpdate, hjd]⟩
  | some jd =>
    obtain ⟨slots, hslots⟩ := slotsOfJoinData_ok mgr0 jd (hinv _ (mapFind_some_mem hjd))
    exact ⟨_, SendRolecheckUpdate_eq mgr mgr0 host state beginning hjd hcatalog hslots
      (hconn _ (mapFind_some_mem hjd))⟩

theorem updateRoleCheckTimers_returns (mgr0 : NewLFGMgr) (host : Host) (diff : Nat) :
    ∀ (timers : List (ObjectGuid × Int)) (m : NewLFGMgr),
      m.lfgDungeonData = mgr0.lfgDungeonData →
      (∀ e ∈ m.lfgJoinData, JoinDataInCatalog mgr0 e.2) →
      MembersConnected host m →
      ∃ kept m1 out, updateRoleCheckTimers host diff timers m = .ok (kept, m1, out) := by
  intro timers
  induction timers with
  | nil => intro m _ _ _; exact ⟨_, _, _, rfl⟩
  | cons itr rest ih =>
    intro m hcat hinv hconn
    rw [updateRoleCheckTimers]
    by_cases hexp : itr.2 - (diff : Int) ≤ 0
    · rw [if_pos hexp]
      obtain ⟨out1, hsend⟩ := SendRolecheckUpdate_returns m mgr0 host itr.1
        LFGRoleCheckState.MissingRole false hcat hinv hconn
      obtain ⟨kept, m1, out2, hrest⟩ :=
        ih (eraseJoinData itr.1 m) hcat
          (fun e he => hinv e (mem_mapErase he)) (fun e he => hconn e (mem_mapErase he))
      simp only [hsend, hrest]
      exact ⟨_, _, _, rfl⟩
    · rw [if_neg hexp]
      obtain ⟨kept, m1, out2, hrest⟩ := ih m hcat hinv hconn
      simp only [hrest]
      exact ⟨_, _, _, rfl⟩

theorem updateRoleCheckTimers_expired (mgr0 : NewLFGMgr) (host : Host) (diff : Nat)
    (guid : ObjectGuid) (jd : LFGJoinData) (slots : List Nat) (s : Int)
    (hslots : slotsOfJoinData mgr0 jd = .ok slots) (hle : s ≤ (diff : Int)) :
    ∀ (timers : List (ObjectGuid × Int)) (m : NewLFGMgr),
      m.lfgDungeonData = mgr0.lfgDungeonData →
      (∀ e ∈ m.lfgJoinData, JoinDataInCatalog mgr0 e.2) →
      MembersConnected host m →
      mapFind guid timers = some s → mapFind guid m.lfgJoinData = some jd →
      ∃ kept m1 out, updateRoleCheckTimers host diff timers m = .ok (kept, m1, out) ∧
        ∀ n ∈ sendToMembers host jd.PartyMemberRoleData
          (Packet.RoleCheckUpdate
            ⟨LFGRoleCheckState.MissingRole, slots, jd.PartyMemberRoleData, false⟩),
          n ∈ out := by
  intro timers
  induction timers with
  | nil => intro m _ _ _ h; simp [mapFind] at h
  | cons itr rest ih =>
    intro m hcat hinv hconn htimer hjd
    rw [updateRoleCheckTimers]
    unfold mapFind at htimer
    by_cases hk : itr.1 = guid
    · rw [if_pos hk] at htimer
      simp only [Option.some.injEq] at htimer
      rw [if_pos (by omega), hk,
        SendRolecheckUpdate_eq m mgr0 host LFGRoleCheckState.MissingRole false hjd hcat hslots
          (hconn _ (mapFind_some_mem hjd))]
      obtain ⟨kept, m1, out2, hrest⟩ :=
        updateRoleCheckTimers_returns mgr0 host diff rest
          (eraseJoinData guid m) hcat
          (fun e he => hinv e (mem_mapErase he)) (fun e he => hconn e (mem_mapErase he))
      simp only [hrest]
      exact ⟨_, _, _, rfl, fun n hn => List.mem_append_left _ hn⟩
    · rw [if_neg hk] at htimer
      by_cases hexp : itr.2 - (diff : Int) ≤ 0
      · rw [if_pos hexp]
        obtain ⟨out1, hsend⟩ := SendRolecheckUpdate_returns m mgr0 host itr.1
          LFGRoleCheckState.MissingRole false hcat hinv hconn
        obtain ⟨kept, m1, out2, hrest, hmem⟩ :=
          ih (eraseJoinData itr.1 m) hcat
            (fun e he => hinv e (mem_mapErase he)) (fun e he => hconn e (mem_mapErase he))
            htimer ((mapFind_mapErase_ne m.lfgJoinData hk).trans hjd)
        simp only [hsend, hrest]
        exact ⟨_, _, _, rfl, fun n hn => List.mem_append_right _ (hmem n hn)⟩
      · rw [if_neg hexp]
        obtain ⟨kept, m1, out2, hrest, hmem⟩ := ih m hcat hinv hconn htimer hjd
        simp only [hrest]
        exact ⟨_, _, _, rfl, hmem⟩

/-- A tick returns when the members of every JoinRequest are connected. -/
theorem Update_returns (mgr : NewLFGMgr) (host : Host) (diff : Nat) (hreach : Reachable mgr)
    (hconn : MembersConnected host mgr) :
    ∃ mgr1 out, Update mgr host diff = .ok (mgr1, out) := by
  obtain ⟨kept, m1, out1, hloop⟩ := updateRoleCheckTimers_returns mgr host diff
    mgr.lfgRoleCheckTimers mgr rfl (reachable_joinDataInCatalog mgr hreach) hconn
  unfold Update
  simp only [hloop]
  split_ifs <;> exact ⟨_, _, rfl⟩

theorem Update_emits_missingRole (mgr : NewLFGMgr) (host : Host) (diff : Nat)
    (hreach : Reachable mgr) (hconn : MembersConnected host mgr)
    {guid : ObjectGuid} {jd : LFGJoinData} {s : Int}
    (htimer : mapFind guid mgr.lfgRoleCheckTimers = some s) (hle : s ≤ (diff : Int))
    (hjd : mapFind guid mgr.lfgJoinData = some jd) :
    ∃ mgr1 out slots, Update mgr host diff = .ok (mgr1, out) ∧
      slotsOfJoinData mgr jd = .ok slots ∧
      ∀ n ∈ sendToMembers host jd.PartyMemberRoleData
        (Packet.RoleCheckUpdate
          ⟨LFGRoleCheckState.MissingRole, slots, jd.PartyMemberRoleData, false⟩),
        n ∈ out := by
  obtain ⟨slots, hslots⟩ := slots_of_reachable hreach hjd
  obtain ⟨kept, m1, out1, hloop, hmem⟩ := updateRoleCheckTimers_expired mgr host diff guid jd
    slots s hslots hle mgr.lfgRoleCheckTimers mgr rfl (reachable_joinDataInCatalog mgr hreach)
    hconn htimer hjd
  unfold Update
  simp only [hloop]
  split_ifs
  · exact ⟨_, _, slots, rfl, hslots, fun n hn => List.mem_append_left _ (hmem n hn)⟩
  · exact ⟨_, _, slots, rfl, hslots, hmem⟩


theorem mapFind_of_mem_nodup {κ α : Type} [DecidableEq κ] {k : κ} {v : α} :
    ∀ (m : List (κ × α)), (mapKeys m).Nodup → (k, v) ∈ m → mapFind k m = some v := by
  intro m
  induction m with
  | nil => intro _ h; simp at h
  | cons e rest ih =>
    intro hnd hmem
    have hnd1 : e.1 ∉ mapKeys rest ∧ (mapKeys rest).Nodup := by
      simpa [mapKeys] using hnd
    unfold mapFind
    rcases List.mem_cons.1 hmem with h | h
    · rw [← h, if_pos rfl]
    · have hk : e.1 ≠ k := by
        intro he
        apply hnd1.1
        rw [he]
        exact List.mem_map.2 ⟨(k, v), h, rfl⟩
      rw [if_neg hk]
      exact ih hnd1.2 h

theorem mapKeys_map_snd {κ α : Type} (f : κ × α → α) (m : List (κ × α)) :
    mapKeys (m.map (fun e => (e.1, f e))) = mapKeys m := by
  simp [mapKeys, List.map_map, Function.comp]

/-- What one tick does to a group that has a role-check timer and a JoinRequest. -/
theorem Update_timer (mgr : NewLFGMgr) (host : Host) (diff : Nat) (hreach : Reachable mgr)
    (hconn : MembersConnected host mgr)
    {guid : ObjectGuid} {jd : LFGJoinData} {s : Int}
    (htimer : mapFind guid mgr.lfgRoleCheckTimers = some s)
    (hjd : mapFind guid mgr.lfgJoinData = some jd) :
    ∃ mgr1 out, Update mgr host diff = .ok (mgr1, out) ∧
      MembersConnected host mgr1 ∧
      mgr1.nextAvailableTicketId = mgr.nextAvailableTicketId ∧
      mapKeys mgr1.lfgQueuePlayerData = mapKeys mgr.lfgQueuePlayerData ∧
      ((diff : Int) < s →
        mapFind guid mgr1.lfgRoleCheckTimers = some (s - (diff : Int)) ∧
        mapFind guid mgr1.lfgJoinData = some jd) ∧
      (s ≤ (diff : Int) →
        mapFind guid mgr1.lfgRoleCheckTimers = none ∧
        mapFind guid mgr1.lfgJoinData = none ∧
        ∃ slots, slotsOfJoinData mgr jd = .ok slots ∧
          ∀ n ∈ sendToMembers host jd.PartyMemberRoleData
            (Packet.RoleCheckUpdate
              ⟨LFGRoleCheckState.MissingRole, slots, jd.PartyMemberRoleData, false⟩),
            n ∈ out) ∧
      ∀ g r, mapFind g mgr.lfgRoleCheckTimers = some r → (diff : Int) < r →
        mapFind g mgr1.lfgRoleCheckTimers = some (r - (diff : Int)) := by
  have hnd := reachable_timersDistinct mgr hreach
  unfold TimersDistinct at hnd
  obtain ⟨mgr1, out, hrun⟩ := Update_returns mgr host diff hreach hconn
  have hm := Update_state hrun
  refine ⟨mgr1, out, hrun, ?_, by rw [hm], ?_, ?_, ?_, ?_⟩
  · intro e he
    rw [hm] at he
    exact hconn e (mem_foldl_mapErase (fun t : ObjectGuid × Int => t.1) _ _ e he)
  · rw [hm]
    dsimp only
    split_ifs
    · exact mapKeys_map_snd _ _
    · rfl
  · intro hlt
    rw [hm]
    dsimp only
    refine ⟨mapFind_tickTimers_kept diff guid s _ htimer hlt, ?_⟩
    rw [mapFind_foldl_mapErase_ne (fun t : ObjectGuid × Int => t.1) guid _ ?_, hjd]
    intro t ht hk
    obtain ⟨htm, hexp⟩ := List.mem_filter.1 ht
    have ht2 : mapFind guid mgr.lfgRoleCheckTimers = some t.2 :=
      mapFind_of_mem_nodup _ hnd (by rw [← hk]; exact htm)
    rw [htimer] at ht2
    simp only [Option.some.injEq] at ht2
    simp only [decide_eq_true_eq] at hexp
    omega
  · intro hle
    obtain ⟨mgr2, out2, slots, hrun2, hslots, hmem⟩ :=
      Update_emits_missingRole mgr host diff hreach hconn htimer hle hjd
    rw [hrun] at hrun2
    simp only [Except.ok.injEq, Prod.mk.injEq] at hrun2
    rw [hm]
    dsimp only
    refine ⟨mapFind_tickTimers_expired diff guid s _ hnd htimer hle, ?_,
      slots, hslots, hrun2.2 ▸ hmem⟩
    apply mapFind_foldl_mapErase_mem (fun t : ObjectGuid × Int => t.1) guid
    exact ⟨(guid, s), List.mem_filter.2 ⟨mapFind_some_mem htimer,
      by simp only [decide_eq_true_eq]; omega⟩, rfl⟩
  · intro g r hg hlt
    rw [hm]
    exact mapFind_tickTimers_kept diff g r _ hg hlt

theorem tickRun_cons (host : Host) (mgr mgr1 : NewLFGMgr) (out1 : List Notification)
    (diff : Nat) (diffs : List Nat) (h : Update mgr host diff = .ok (mgr1, out1)) :
    tickRun host mgr (diff :: diffs) =
      match tickRun host mgr1 diffs with
      | .error f => .error f
      | .ok (mgr2, out2) => .ok (mgr2, out1 ++ out2) := by
  simp only [tickRun, List.map_cons, runCalls, Call.run, h]

theorem tickRun_before_expiry (host : Host) (guid : ObjectGuid) (jd : LFGJoinData) :
    ∀ (diffs : List Nat) (mgr : NewLFGMgr) (s : Int), Reachable mgr →
      MembersConnected host mgr →
      mapFind guid mgr.lfgRoleCheckTimers = some s → mapFind guid mgr.lfgJoinData = some jd →
      ((diffs.sum : Nat) : Int) < s →
      ∃ mgr1 out, tickRun host mgr diffs = .ok (mgr1, out) ∧ Reachable mgr1 ∧
        MembersConnected host mgr1 ∧
        mapFind guid mgr1.lfgRoleCheckTimers = some (s - ((diffs.sum : Nat) : Int)) ∧
        mapFind guid mgr1.lfgJoinData = some jd := by
  intro diffs
  induction diffs with
  | nil =>
    intro mgr s hreach hconn htimer hjd _
    exact ⟨mgr, [], rfl, hreach, hconn, by simpa using htimer, hjd⟩
  | cons d ds ih =>
    intro mgr s hreach hconn htimer hjd hsum
    rw [List.sum_cons, Nat.cast_add] at hsum
    obtain ⟨m1, o1, hrun, hconn1, _, _, hkeep, _, _⟩ :=
      Update_timer mgr host d hreach hconn htimer hjd
    obtain ⟨ht1, hj1⟩ := hkeep (by omega)
    have hreach1 : Reachable m1 := Reachable.step hreach host (Call.Tick d) hrun
    obtain ⟨m2, o2, hrun2, hreach2, hconn2, ht2, hj2⟩ :=
      ih m1 (s - (d : Int)) hreach1 hconn1 ht1 hj1 (by omega)
    refine ⟨m2, o1 ++ o2, ?_, hreach2, hconn2, ?_, hj2⟩
    · rw [tickRun_cons host mgr m1 o1 d ds hrun, hrun2]
    · rw [ht2, List.sum_cons, Nat.cast_add]
      congr 1
      omega


/-- With the members of every JoinRequest connected: on a manager reachable from the loaded
caches in which the role check of a group has just been launched (its timer stands at
120000 ms and its JoinRequest exists), for every sequence of update ticks whose deltas total
less than 120000 ms the ticks return and leave the timer at 120000 ms minus the total and the
JoinRequest in place; and the next tick returns, generates no ticket (ticket counter and
ticket ids of the queue entries as before) and, if its delta still keeps the total below
120000 ms, leaves the timer reduced by the delta and the JoinRequest in place, while if the
total reaches 120000 ms it removes the timer and the JoinRequest of the group and emits the
role-check update `MissingRole` to every member of the JoinRequest. On every tick the timer
of any group that is above the delta is kept, reduced by the delta. -/
theorem tickRun_role_check_expiry (mgr : NewLFGMgr) (host : Host) (guid : ObjectGuid)
    (jd : LFGJoinData) (diffs : List Nat) (diff : Nat) (hreach : Reachable mgr)
    (hconn : MembersConnected host mgr)
    (hlaunched : mapFind guid mgr.lfgRoleCheckTimers = some LFG_ROLE_CHECK_TIME_LIMIT)
    (hjd : mapFind guid mgr.lfgJoinData = some jd)
    (hearly : ((diffs.sum : Nat) : Int) < LFG_ROLE_CHECK_TIME_LIMIT) :
    ∃ mgr1 out1 mgr2 out2, tickRun host mgr diffs = .ok (mgr1, out1) ∧
      mapFind guid mgr1.lfgRoleCheckTimers =
        some (LFG_ROLE_CHECK_TIME_LIMIT - ((diffs.sum : Nat) : Int)) ∧
      mapFind guid mgr1.lfgJoinData = some jd ∧
      Update mgr1 host diff = .ok (mgr2, out2) ∧
      mgr2.nextAvailableTicketId = mgr1.nextAvailableTicketId ∧
      mapKeys mgr2.lfgQueuePlayerData = mapKeys mgr1.lfgQueuePlayerData ∧
      (((diffs.sum + diff : Nat) : Int) < LFG_ROLE_CHECK_TIME_LIMIT →
        mapFind guid mgr2.lfgRoleCheckTimers =
          some (LFG_ROLE_CHECK_TIME_LIMIT - ((diffs.sum + diff : Nat) : Int)) ∧
        mapFind guid mgr2.lfgJoinData = some jd) ∧
      (LFG_ROLE_CHECK_TIME_LIMIT ≤ ((diffs.sum + diff : Nat) : Int) →
        mapFind guid mgr2.lfgRoleCheckTimers = none ∧
        mapFind guid mgr2.lfgJoinData = none ∧
        ∃ slots, slotsOfJoinData mgr1 jd = .ok slots ∧
          ∀ it ∈ jd.PartyMemberRoleData,
            (⟨it.1, Packet.RoleCheckUpdate
              ⟨LFGRoleCheckState.MissingRole, slots, jd.PartyMemberRoleData, false⟩⟩ :
              Notification) ∈ out2) ∧
      ∀ g r, mapFind g mgr1.lfgRoleCheckTimers = some r → (diff : Int) < r →
        mapFind g mgr2.lfgRoleCheckTimers = some (r - (diff : Int)) := by
  obtain ⟨mgr1, out1, hrun1, hreach1, hconn1, ht1, hj1⟩ :=
    tickRun_before_expiry host guid jd diffs mgr _ hreach hconn hlaunched hjd hearly
  obtain ⟨mgr2, out2, hrun2, _, hcounter, hkeys, hkeep, hexpire, hothers⟩ :=
    Update_timer mgr1 host diff hreach1 hconn1 ht1 hj1
  refine ⟨mgr1, out1, mgr2, out2, hrun1, ht1, hj1, hrun2, hcounter, hkeys, ?_, ?_, hothers⟩
  · intro hlt
    rw [Nat.cast_add] at hlt
    obtain ⟨h1, h2⟩ := hkeep (by omega)
    refine ⟨?_, h2⟩
    rw [h1, Nat.cast_add]
    congr 1
    omega
  · intro hge
    rw [Nat.cast_add] at hge
    obtain ⟨h1, h2, slots, hslots, hmem⟩ := hexpire (by omega)
    refine ⟨h1, h2, slots, hslots, fun it hit => hmem _ ?_⟩
    obtain ⟨p, hp⟩ := Option.isSome_iff_exists.1
      (hconn1 _ (mapFind_some_mem hj1) it hit)
    exact mem_sendToMembers _ hit hp

/-- C23 (the code at the failing input): the role check of the demo group is launched and its
second member disconnects. The ticks of 60000 ms and 59999 ms return and leave the timer at
1 ms with the JoinRequest in place; the tick of 1 ms, on which the accumulated deltas reach
120000 ms, ends in the assertion of the role-check packet builder
(`ASSERT_NOTNULL(FindConnectedPlayer(member))`), reached while the `MissingRole` update is
sent, that is before the JoinRequest and the timer are removed. With both members connected
the same tick does what is claimed: both receive `MissingRole`, the JoinRequest and the timer
are removed and no ticket is created. On every reachable manager, as long as the members of
the JoinRequests are connected, the role check ends exactly on the first tick at which the
accumulated deltas reach 120000 ms, as claimed. -/
theorem role_check_expiry_aborts_when_member_offline :
    (∃ mgr1 out1,
      tickRun hostAfterLogout (finalState roleCheckRun) [60000, 59999] = .ok (mgr1, out1) ∧
      mapFind (ObjectGuid.Group 1) mgr1.lfgRoleCheckTimers = some 1 ∧
      mapFind (ObjectGuid.Group 1) mgr1.lfgJoinData = some roleCheckJoinData ∧
      Update mgr1 hostAfterLogout 1 = .error Fault.assertion) ∧
    tickRun hostAfterLogout (finalState roleCheckRun) [60000, 59999, 1]
      = .error Fault.assertion ∧
    (∃ mgr1 out1 mgr2 data,
      tickRun demoHost (finalState roleCheckRun) [60000, 59999] = .ok (mgr1, out1) ∧
      mapFind (ObjectGuid.Group 1) mgr1.lfgRoleCheckTimers = some 1 ∧
      mapFind (ObjectGuid.Group 1) mgr1.lfgJoinData = some roleCheckJoinData ∧
      Update mgr1 demoHost 1 = .ok (mgr2,
        [⟨ObjectGuid.Player 1, Packet.RoleCheckUpdate data⟩,
          ⟨ObjectGuid.Player 2, Packet.RoleCheckUpdate data⟩]) ∧
      data.State = LFGRoleCheckState.MissingRole ∧
      mgr2.lfgRoleCheckTimers = [] ∧ mgr2.lfgJoinData = [] ∧
      mgr2.lfgQueuePlayerData = [] ∧ mgr2.nextAvailableTicketId = 0) ∧
    (∀ (mgr : NewLFGMgr) (host : Host) (guid : ObjectGuid) (jd : LFGJoinData)
        (diffs : List Nat) (diff : Nat),
      Reachable mgr →
      MembersConnected host mgr →
      mapFind guid mgr.lfgRoleCheckTimers = some LFG_ROLE_CHECK_TIME_LIMIT →
      mapFind guid mgr.lfgJoinData = some jd →
      ((diffs.sum : Nat) : Int) < LFG_ROLE_CHECK_TIME_LIMIT →
      ∃ mgr1 out1 mgr2 out2, tickRun host mgr diffs = .ok (mgr1, out1) ∧
        mapFind guid mgr1.lfgRoleCheckTimers =
          some (LFG_ROLE_CHECK_TIME_LIMIT - ((diffs.sum : Nat) : Int)) ∧
        mapFind guid mgr1.lfgJoinData = some jd ∧
        Update mgr1 host diff = .ok (mgr2, out2) ∧
        mgr2.nextAvailableTicketId = mgr1.nextAvailableTicketId ∧
        mapKeys mgr2.lfgQueuePlayerData = mapKeys mgr1.lfgQueuePlayerData ∧
        (((diffs.sum + diff : Nat) : Int) < LFG_ROLE_CHECK_TIME_LIMIT →
          mapFind guid mgr2.lfgRoleCheckTimers =
            some (LFG_ROLE_CHECK_TIME_LIMIT - ((diffs.sum + diff : Nat) : Int)) ∧
          mapFind guid mgr2.lfgJoinData = some jd) ∧
        (LFG_ROLE_CHECK_TIME_LIMIT ≤ ((diffs.sum + diff : Nat) : Int) →
          mapFind guid mgr2.lfgRoleCheckTimers = none ∧
          mapFind guid mgr2.lfgJoinData = none ∧
          ∃ slots, slotsOfJoinData mgr1 jd = .ok slots ∧
            ∀ it ∈ jd.PartyMemberRoleData,
              (⟨it.1, Packet.RoleCheckUpdate
                ⟨LFGRoleCheckState.MissingRole, slots, jd.PartyMemberRoleData, false⟩⟩ :
                Notification) ∈ out2) ∧
        ∀ g r, mapFind g mgr1.lfgRoleCheckTimers = some r → (diff : Int) < r →
          mapFind g mgr2.lfgRoleCheckTimers = some (r - (diff : Int))) :=
  ⟨⟨finalState (tickRun hostAfterLogout (finalState roleCheckRun) [60000, 59999]),
      emitted (tickRun hostAfterLogout (finalState roleCheckRun) [60000, 59999]),
      eq_ok_of_returned _ (by decide), by decide, by decide,
      eq_error_of_faultOf _ _ (by decide)⟩,
    eq_error_of_faultOf _ _ (by decide),
    ⟨finalState (tickRun demoHost (finalState roleCheckRun) [60000, 59999]),
      emitted (tickRun demoHost (finalState roleCheckRun) [60000, 59999]),
      finalState (tickRun demoHost (finalState roleCheckRun) [60000, 59999, 1]),
      ⟨LFGRoleCheckState.MissingRole, [16777317], roleCheckJoinData.PartyMemberRoleData,
        false⟩,
      eq_ok_of_returned _ (by decide), by decide, by decide,
      eq_ok_of_toOption _ _ (by decide), rfl, by decide, by decide, by decide, by decide⟩,
    fun mgr host guid jd diffs diff hreach hconn hlaunched hjd hearly =>
      tickRun_role_check_expiry mgr host guid jd diffs diff hreach hconn hlaunched hjd
        hearly⟩


/-- A tick on a manager without role-check timers returns, for every host, and leaves the
manager without role-check timers. -/
theorem Update_without_timers (mgr : NewLFGMgr) (host : Host) (diff : Nat)
    (htimers : mgr.lfgRoleCheckTimers = []) :
    ∃ mgr1 out, Update mgr host diff = .ok (mgr1, out) ∧ mgr1.lfgRoleCheckTimers = [] := by
  have hrun : ∃ mgr1 out, Update mgr host diff = .ok (mgr1, out) := by
    unfold Update
    rw [htimers]
    simp only [updateRoleCheckTimers]
    split_ifs <;> exact ⟨_, _, rfl⟩
  obtain ⟨mgr1, out, hrun⟩ := hrun
  have hm := Update_state hrun
  refine ⟨mgr1, out, hrun, ?_⟩
  rw [hm, htimers]
  rfl

theorem tickRun_interval (host : Host) :
    ∀ (diffs : List Nat) (mgr : NewLFGMgr) (acc : Int), mgr.lfgRoleCheckTimers = [] →
      mgr.lfgQueueUpdateInterval = LFG_QUEUE_UPDATE_INTERVAL - acc → 0 ≤ acc →
      acc < LFG_QUEUE_UPDATE_INTERVAL →
      ∃ mgr1 out, tickRun host mgr diffs = .ok (mgr1, out) ∧ mgr1.lfgRoleCheckTimers = [] ∧
        mgr1.lfgQueueUpdateInterval =
          LFG_QUEUE_UPDATE_INTERVAL - sinceLastPass host mgr diffs acc ∧
        0 ≤ sinceLastPass host mgr diffs acc ∧
        sinceLastPass host mgr diffs acc < LFG_QUEUE_UPDATE_INTERVAL := by
  intro diffs
  induction diffs with
  | nil =>
    intro mgr acc hreach hint h0 hlt
    exact ⟨mgr, [], rfl, hreach, hint, h0, hlt⟩
  | cons d ds ih =>
    intro mgr acc hreach hint h0 hlt
    obtain ⟨m1, o1, hrun, hreach1⟩ := Update_without_timers mgr host d hreach
    have hm := Update_state hrun
    have hint1 : m1.lfgQueueUpdateInterval =
        if mgr.lfgQueueUpdateInterval - (d : Int) ≤ 0 then LFG_QUEUE_UPDATE_INTERVAL
        else mgr.lfgQueueUpdateInterval - (d : Int) := by rw [hm]
    have hstep : sinceLastPass host mgr (d :: ds) acc =
        sinceLastPass host m1 ds (if queueUpdateDue mgr d then 0 else acc + (d : Int)) := by
      rw [sinceLastPass, hrun]
      rfl
    rw [hstep, tickRun_cons host mgr m1 o1 d ds hrun]
    unfold queueUpdateDue
    by_cases hdue : mgr.lfgQueueUpdateInterval - (d : Int) ≤ 0
    · rw [if_pos hdue] at hint1
      rw [if_pos (decide_eq_true hdue)]
      obtain ⟨m2, o2, hrun2, hreach2, hi2, h02, hlt2⟩ :=
        ih m1 0 hreach1 (by rw [hint1]; simp) (le_refl 0) (by decide)
      rw [hrun2]
      exact ⟨m2, o1 ++ o2, rfl, hreach2, hi2, h02, hlt2⟩
    · rw [if_neg hdue] at hint1
      rw [if_neg (by simpa using hdue)]
      obtain ⟨m2, o2, hrun2, hreach2, hi2, h02, hlt2⟩ :=
        ih m1 (acc + (d : Int)) hreach1 (by rw [hint1, hint]; ring) (by omega) (by omega)
      rw [hrun2]
      exact ⟨m2, o1 ++ o2, rfl, hreach2, hi2, h02, hlt2⟩

/-- C24: on a manager that has no role check pending and whose queue-update interval stands
at 5000 ms (a fresh manager in particular, before and after the dungeon data is loaded), for
every host and every sequence of update ticks: the ticks return; the remaining interval is 5000 ms minus the deltas accumulated since the last tick
that ran the queue-update pass (since the start when none did); the next tick runs the pass
exactly when the deltas accumulated since then, its own included, total at least 5000 ms; a
tick that does not run the pass leaves the queue entries and the scheduler untouched (no
status push), a tick that runs it leaves no entry flagged for a status push; and after the
tick the remaining interval is greater than 0 and at most 5000 ms. -/
theorem queue_update_pass_interval (mgr : NewLFGMgr) (host : Host) (diffs : List Nat)
    (diff : Nat) (htimers : mgr.lfgRoleCheckTimers = [])
    (hstart : mgr.lfgQueueUpdateInterval = LFG_QUEUE_UPDATE_INTERVAL) :
    ∃ mgr1 out1 mgr2 out2, tickRun host mgr diffs = .ok (mgr1, out1) ∧
      Update mgr1 host diff = .ok (mgr2, out2) ∧
      mgr1.lfgQueueUpdateInterval =
        LFG_QUEUE_UPDATE_INTERVAL - sinceLastPass host mgr diffs 0 ∧
      (queueUpdateDue mgr1 diff = true ↔
        LFG_QUEUE_UPDATE_INTERVAL ≤ sinceLastPass host mgr diffs 0 + (diff : Int)) ∧
      (queueUpdateDue mgr1 diff = false →
        mgr2.lfgQueuePlayerData = mgr1.lfgQueuePlayerData ∧ mgr2.lfgQueue = mgr1.lfgQueue ∧
        mgr2.lfgQueueUpdateInterval = mgr1.lfgQueueUpdateInterval - (diff : Int)) ∧
      (queueUpdateDue mgr1 diff = true →
        mgr2.lfgQueueUpdateInterval = LFG_QUEUE_UPDATE_INTERVAL ∧
        ∀ e ∈ mgr2.lfgQueuePlayerData, e.2.NeedsQueueUpdate = false) ∧
      0 < mgr2.lfgQueueUpdateInterval ∧
      mgr2.lfgQueueUpdateInterval ≤ LFG_QUEUE_UPDATE_INTERVAL := by
  obtain ⟨mgr1, out1, hrun1, hreach1, hint, h0, hlt⟩ :=
    tickRun_interval host diffs mgr 0 htimers (by rw [hstart]; simp) (le_refl 0) (by decide)
  obtain ⟨mgr2, out2, hrun2, _⟩ := Update_without_timers mgr1 host diff hreach1
  have hm := Update_state hrun2
  have hlimit : LFG_QUEUE_UPDATE_INTERVAL = 5000 := rfl
  refine ⟨mgr1, out1, mgr2, out2, hrun1, hrun2, hint, ?_, ?_, ?_, ?_⟩
  · unfold queueUpdateDue
    rw [decide_eq_true_eq, hint]
    constructor <;> intro h <;> omega
  · intro hdue
    unfold queueUpdateDue at hdue
    have hnot : ¬ mgr1.lfgQueueUpdateInterval - (diff : Int) ≤ 0 := by simpa using hdue
    rw [hm]
    dsimp only
    rw [if_neg hnot, if_neg hnot]
    exact ⟨rfl, rfl, rfl⟩
  · intro hdue
    unfold queueUpdateDue at hdue
    have hyes : mgr1.lfgQueueUpdateInterval - (diff : Int) ≤ 0 := by simpa using hdue
    rw [hm]
    dsimp only
    rw [if_pos hyes, if_pos hyes]
    refine ⟨rfl, ?_⟩
    intro e he
    obtain ⟨e0, _, rfl⟩ := List.mem_map.1 he
    rfl
  · rw [hm]
    dsimp only
    by_cases hdue : mgr1.lfgQueueUpdateInterval - (diff : Int) ≤ 0
    · rw [if_pos hdue]
      exact ⟨by decide, le_refl _⟩
    · rw [if_neg hdue]
      constructor <;> omega


/-- Witness of `queue_update_pass_interval`: on the freshly loaded manager, and after the solo
join of the demo world, ticks of 3000 ms and 1999 ms run no pass and leave 1 ms of the
interval; a further tick of 1 ms runs the pass, which resets the interval to 5000 ms and
leaves no entry flagged. -/
theorem queue_update_pass_interval_witness :
    (∃ mgr1 out1 mgr2 out2,
      tickRun demoHost (InitializeDungeonData NewLFGMgr.new demoSources) [3000, 1999]
        = .ok (mgr1, out1) ∧
      Update mgr1 demoHost 1 = .ok (mgr2, out2) ∧
      sinceLastPass demoHost (InitializeDungeonData NewLFGMgr.new demoSources) [3000, 1999] 0
        = 4999 ∧
      mgr1.lfgQueueUpdateInterval = 1 ∧
      queueUpdateDue mgr1 1 = true ∧
      mgr2.lfgQueueUpdateInterval = 5000) ∧
    ∃ mgr1 out1 mgr2 out2,
      tickRun demoHost (finalState soloJoinRun) [3000, 1999] = .ok (mgr1, out1) ∧
      Update mgr1 demoHost 1 = .ok (mgr2, out2) ∧
      sinceLastPass demoHost (finalState soloJoinRun) [3000, 1999] 0 = 4999 ∧
      mgr1.lfgQueueUpdateInterval = 1 ∧
      queueUpdateDue mgr1 1 = true ∧
      mgr2.lfgQueueUpdateInterval = 5000 ∧
      ∀ e ∈ mgr2.lfgQueuePlayerData, e.2.NeedsQueueUpdate = false := by
  constructor
  · obtain ⟨mgr1, out1, mgr2, out2, hrun1, hrun2, hint, hdue, _, hpass, _, _⟩ :=
      queue_update_pass_interval (InitializeDungeonData NewLFGMgr.new demoSources) demoHost
        [3000, 1999] 1 (by decide) (by decide)
    have hacc : sinceLastPass demoHost (InitializeDungeonData NewLFGMgr.new demoSources)
        [3000, 1999] 0 = 4999 := by
      decide
    rw [hacc] at hint hdue
    have hd : queueUpdateDue mgr1 1 = true := hdue.2 (by decide)
    exact ⟨mgr1, out1, mgr2, out2, hrun1, hrun2, hacc, by rw [hint]; decide, hd,
      (hpass hd).1⟩
  · obtain ⟨mgr1, out1, mgr2, out2, hrun1, hrun2, hint, hdue, _, hpass, _, _⟩ :=
      queue_update_pass_interval (finalState soloJoinRun) demoHost [3000, 1999] 1
        (by decide) (by decide)
    have hacc : sinceLastPass demoHost (finalState soloJoinRun) [3000, 1999] 0 = 4999 := by
      decide
    rw [hacc] at hint hdue
    have hd : queueUpdateDue mgr1 1 = true := hdue.2 (by decide)
    exact ⟨mgr1, out1, mgr2, out2, hrun1, hrun2, hacc, by rw [hint]; decide, hd,
      (hpass hd).1, (hpass hd).2⟩

/-! ## The join permission and the GM freeze in the base check -/

theorem groupJoinLoop_of_not_ok (player : Player) (members : List (Option Player))
    (result : LFGJoinResult) (memberCount : Nat) (h : result ≠ LFGJoinResult.OK) :
    groupJoinLoop player members result memberCount = (result, memberCount) := by
  cases members with
  | nil => rfl
  | cons itr rest =>
    cases itr <;> rw [groupJoinLoop, if_pos h]

theorem GetPlayerAndGroupJoinResult_no_permission (host : Host) (player : Player)
    (group : Option Group) (roleMask : Nat) (hperm : player.HasPermission = false) :
    GetPlayerAndGroupJoinResult host player group roleMask ≠ LFGJoinResult.OK := by
  unfold GetPlayerAndGroupJoinResult
  simp only [hperm, Bool.not_false, if_true]
  split_ifs <;> try simp
  cases group with
  | none => simp
  | some g =>
    dsimp only
    split_ifs <;> try simp
    rw [groupJoinLoop_of_not_ok _ _ _ _ (by simp)]
    simp

/-- C40: for every requester who lacks the join-dungeon-finder permission, solo or in a group
and whatever the other conditions, the selection and the role mask,
`GetPlayerAndGroupJoinResult` does not return `OK`, and `ProcessLFGJoinRequest` returns with
the manager exactly as it was before the call (no JoinRequest, no ticket, no queue entry and
no role-check timer is created), sending only the join result of the base check. -/
theorem no_permission_creates_nothing (mgr : NewLFGMgr) (host : Host) (player : Player)
    (group : Option Group) (dungeonIds : List Nat) (roleMask : Nat)
    (hperm : player.HasPermission = false) :
    GetPlayerAndGroupJoinResult host player group roleMask ≠ LFGJoinResult.OK ∧
    ProcessLFGJoinRequest mgr host player group dungeonIds roleMask =
      .ok (mgr, SendJoinResult host (requesterGuid player group)
        (GetPlayerAndGroupJoinResult host player group roleMask) LFGRoleCheckState.Default
        (some [])) := by
  have hres := GetPlayerAndGroupJoinResult_no_permission host player group roleMask hperm
  refine ⟨hres, ?_⟩
  unfold ProcessLFGJoinRequest joinChecks
  dsimp only
  rw [if_pos hres]
  dsimp only
  rw [if_neg hres]

/-- Witness of `no_permission_creates_nothing`: the paladin without the permission (who also
carries the deserter debuff) asks for dungeon 101 on the loaded caches; the base check gives
`Deserter` and the manager stays as loaded. -/
theorem no_permission_creates_nothing_witness :
    GetPlayerAndGroupJoinResult demoHost deserterWithoutPermission none 8 ≠ LFGJoinResult.OK ∧
    ProcessLFGJoinRequest demoMgr demoHost deserterWithoutPermission none [101] 8 =
      .ok (demoMgr, SendJoinResult demoHost (requesterGuid deserterWithoutPermission none)
        (GetPlayerAndGroupJoinResult demoHost deserterWithoutPermission none 8)
        LFGRoleCheckState.Default (some [])) :=
  no_permission_creates_nothing demoMgr demoHost deserterWithoutPermission none [101] 8 rfl

/-- C32 (the code at the failing input): `playerA` passes every individual check and leads a
group of two, below the maximum size, whose other member `frozenPlayerB` is GM-frozen (aura
9454) and passes every other check of the group loop; `GetPlayerAndGroupJoinResult` returns
`OK`. The group loop tests the aura on the requester, not on the member it visits: with the
frozen member as the requester of the same group the result is `InternalError`. -/
theorem frozen_member_not_rejected :
    passesIndividualChecks playerA LFG_ROLE_TANK ∧
    groupWithFrozen.GetMembersCount < demoHost.MAXGROUPSIZE ∧
    frozenPlayerB ∈ reachableMembers groupWithFrozen ∧
    frozenPlayerB.HasAura 9454 = true ∧ memberPassesChecks frozenPlayerB ∧
    GetPlayerAndGroupJoinResult demoHost playerA (some groupWithFrozen) LFG_ROLE_TANK
      = LFGJoinResult.OK ∧
    GetPlayerAndGroupJoinResult demoHost frozenPlayerB (some groupWithFrozen) LFG_ROLE_TANK
      = LFGJoinResult.InternalError := by
  refine ⟨?_, by decide, ?_, by decide, ?_, by decide, by decide⟩
  · unfold passesIndividualChecks
    decide
  · simp [reachableMembers, groupWithFrozen]
  · unfold memberPassesChecks
    decide

/-! ## The enumeration loop of the validator always finds a split -/

theorem split_arith_exists (c2 c4 c6 c8 c10 c12 c14 : Nat)
    (hsum : c2 + c4 + c6 + c8 + c10 + c12 + c14 ≤ 5)
    (h2 : c2 ≤ 1) (h4 : c4 ≤ 1) (h8 : c8 ≤ 3)
    (hs1 : c10 ≤ 3 - c8 + (1 - c2)) (hs2 : c12 ≤ 3 - c8 + (1 - c4))
    (hs3 : c6 ≤ 1 - c2 + (1 - c4)) :
    ∃ i, i < min c6 (1 - c2) + 1 ∧ c6 - i ≤ 1 - c4 ∧
      (c10 - min (1 - c2 - i) c10) + (c12 - min (1 - c4 - (c6 - i)) c12) ≤ 3 - c8 := by
  by_cases h60 : c6 = 0
  · exact ⟨0, by omega, by omega, by omega⟩
  by_cases h62 : c6 = 2
  · exact ⟨1, by omega, by omega, by omega⟩
  have h61 : c6 = 1 := by omega
  subst h61
  by_cases hc2 : c2 = 1
  · exact ⟨0, by omega, by omega, by omega⟩
  by_cases hc4 : c4 = 1
  · exact ⟨1, by omega, by omega, by omega⟩
  by_cases hc12 : c12 = 0
  · by_cases hc10 : c10 = 0
    · exact ⟨1, by omega, by omega, by omega⟩
    · exact ⟨0, by omega, by omega, by omega⟩
  · exact ⟨1, by omega, by omega, by omega⟩

/-- C38: for the composition 1 tank, 1 heal, 3 dps and every table of member masks,
`IsRoleCheckValid` returns the value of the simpler validator `simpleRoleCheck`, which makes
the member-count check, the first pass over the masks and the three pairwise capacity checks
and then accepts: whenever those checks pass the enumeration loop finds a split, so the
`return false` after the loop is not reached. -/
theorem enumeration_loop_always_succeeds (selected : List (ObjectGuid × Nat)) :
    IsRoleCheckValid selected 3 1 1 = some (simpleRoleCheck selected 3 1 1) := by
  set ms := selected.map Prod.snd with hms
  have hlen : selected.length = ms.length := by simp [hms]
  have hsum := length_eq_kindCount ms
  unfold IsRoleCheckValid simpleRoleCheck
  rw [← hms, hlen]
  by_cases hbig : 3 + 1 + 1 < ms.length
  · rw [if_pos hbig, if_pos hbig]
  · rw [if_neg hbig, if_neg hbig, roleTally_eq ms _ (by decide) (by decide) (by decide)]
    dsimp only
    by_cases hc : kindCount 0 ms = 0 ∧ kindCount 8 ms ≤ 3 ∧ kindCount 2 ms ≤ 1 ∧ kindCount 4 ms ≤ 1
    · rw [if_pos hc]
      dsimp only
      obtain ⟨h0, h8, h2, h4⟩ := hc
      have e10 : (0 + kindCount 10 ms) % 256 = kindCount 10 ms := by omega
      have e12 : (0 + kindCount 12 ms) % 256 = kindCount 12 ms := by omega
      have e6 : (0 + kindCount 6 ms) % 256 = kindCount 6 ms := by omega
      rw [e10, e12, e6]
      by_cases hs1 : 3 - kindCount 8 ms + (1 - kindCount 2 ms) < kindCount 10 ms
      · rw [if_pos hs1, if_pos hs1]
      rw [if_neg hs1, if_neg hs1]
      by_cases hs2 : 3 - kindCount 8 ms + (1 - kindCount 4 ms) < kindCount 12 ms
      · rw [if_pos hs2, if_pos hs2]
      rw [if_neg hs2, if_neg hs2]
      by_cases hs3 : 1 - kindCount 2 ms + (1 - kindCount 4 ms) < kindCount 6 ms
      · rw [if_pos hs3, if_pos hs3]
      rw [if_neg hs3, if_neg hs3, roleSplitLoop_eq]
      have hex : ∃ i, i < min (kindCount 6 ms) (1 - kindCount 2 ms) + 1 ∧
          roleSplitOk ⟨3 - kindCount 8 ms, 1 - kindCount 2 ms, 1 - kindCount 4 ms,
            kindCount 10 ms, kindCount 12 ms, kindCount 6 ms⟩ (0 + i) = true := by
        obtain ⟨i, hi, hok⟩ := split_arith_exists (kindCount 2 ms) (kindCount 4 ms)
          (kindCount 6 ms) (kindCount 8 ms) (kindCount 10 ms) (kindCount 12 ms)
          (kindCount 14 ms) (by omega) h2 h4 h8 (by omega) (by omega) (by omega)
        refine ⟨i, hi, ?_⟩
        rw [roleSplitOk_iff, Nat.zero_add]
        exact hok
      rw [if_pos hex]
    · rw [if_neg hc]

/-! ## Monotonicity of the validator in the offered roles -/

theorem roleKind_xor_leader (mask : Nat) : roleKind (mask ^^^ LFG_ROLE_LEADER) = roleKind mask := by
  unfold roleKind
  rw [Nat.and_xor_distrib_right]
  have h : LFG_ROLE_LEADER &&& LFG_ROLE_MASK_ALL_NEEDED = 0 := by decide
  rw [h, Nat.xor_zero]

theorem IsRoleCheckValid_of_kinds {sel1 sel2 : List (ObjectGuid × Nat)}
    (h : (sel1.map Prod.snd).map roleKind = (sel2.map Prod.snd).map roleKind)
    (numDps numTank numHeal : Nat) :
    IsRoleCheckValid sel1 numDps numTank numHeal =
      IsRoleCheckValid sel2 numDps numTank numHeal := by
  have hlen : sel1.length = sel2.length := by
    have := congrArg List.length h
    simpa using this
  have hk : ∀ k, kindCount k (sel1.map Prod.snd) = kindCount k (sel2.map Prod.snd) := by
    intro k
    unfold kindCount
    rw [h]
  unfold IsRoleCheckValid
  have h0 : (0 : Nat) < 256 := by decide
  rw [roleTally_eq _ _ h0 h0 h0, roleTally_eq _ _ h0 h0 h0, hlen]
  simp only [hk]

theorem roleOffered_mono {mask mask1 : Nat} (hsub : roleKind mask &&& mask1 = roleKind mask)
    (r : PartyRole) (h : RoleOffered mask r) : RoleOffered mask1 r := by
  rw [roleOffered_kind] at h
  unfold RoleOffered
  intro h1
  apply h
  rw [← hsub, Nat.and_assoc, h1, Nat.and_zero]

theorem forall₂_roleOffered_replace (ms1 ms2 : List Nat) {mask mask1 : Nat}
    (hsub : roleKind mask &&& mask1 = roleKind mask) :
    ∀ roles : List PartyRole, List.Forall₂ RoleOffered (ms1 ++ mask :: ms2) roles →
      List.Forall₂ RoleOffered (ms1 ++ mask1 :: ms2) roles := by
  induction ms1 with
  | nil =>
    intro roles h
    cases h with
    | cons hr hrest => exact List.Forall₂.cons (roleOffered_mono hsub _ hr) hrest
  | cons m ms ih =>
    intro roles h
    cases h with
    | cons hr hrest => exact List.Forall₂.cons hr (ih _ hrest)

theorem roleAssignment_replace (ms1 ms2 : List Nat) {mask mask1 : Nat}
    (hsub : roleKind mask &&& mask1 = roleKind mask) (nT nH nD : Nat)
    (h : RoleAssignment (ms1 ++ mask :: ms2) nT nH nD) :
    RoleAssignment (ms1 ++ mask1 :: ms2) nT nH nD := by
  obtain ⟨roles, hall, hcount⟩ := h
  exact ⟨roles, forall₂_roleOffered_replace ms1 ms2 hsub roles hall, hcount⟩

theorem IsRoleCheckValid_replace (sel1 sel2 : List (ObjectGuid × Nat)) (guid : ObjectGuid)
    {mask mask1 : Nat} (hsub : roleKind mask &&& mask1 = roleKind mask)
    (hvalid : IsRoleCheckValid (sel1 ++ (guid, mask) :: sel2) 3 1 1 = some true) :
    IsRoleCheckValid (sel1 ++ (guid, mask1) :: sel2) 3 1 1 = some true := by
  obtain ⟨b, hb, hiff⟩ := isRoleCheckValid_splitFeasible (sel1 ++ (guid, mask) :: sel2)
  obtain ⟨b1, hb1, hiff1⟩ := isRoleCheckValid_splitFeasible (sel1 ++ (guid, mask1) :: sel2)
  rw [hb] at hvalid
  have hbt : b = true := Option.some.inj hvalid
  have hs := hiff.1 hbt
  rw [List.map_append, List.map_cons] at hs hiff1
  have ha := roleAssignment_replace _ _ hsub 1 1 3 (splitFeasible_roleAssignment _ 1 1 3 hs)
  rw [hb1, hiff1.2 (roleAssignment_splitFeasible _ 1 1 3 ha)]

/-- C39: role-set validity for the composition 1 tank, 1 heal, 3 dps is monotone in the
offered roles: when `IsRoleCheckValid` accepts a member table, it also accepts the table in
which the mask of one member is replaced by a mask that contains all of its tank, heal and
damage bits (and any further bits); and toggling the leader bit of a member never changes
the outcome of the validator. -/
theorem role_validity_monotone (sel1 sel2 : List (ObjectGuid × Nat)) (guid : ObjectGuid)
    (mask mask1 : Nat) (hsub : roleKind mask &&& mask1 = roleKind mask) :
    (IsRoleCheckValid (sel1 ++ (guid, mask) :: sel2) 3 1 1 = some true →
      IsRoleCheckValid (sel1 ++ (guid, mask1) :: sel2) 3 1 1 = some true) ∧
    IsRoleCheckValid (sel1 ++ (guid, mask ^^^ LFG_ROLE_LEADER) :: sel2) 3 1 1 =
      IsRoleCheckValid (sel1 ++ (guid, mask) :: sel2) 3 1 1 := by
  refine ⟨IsRoleCheckValid_replace sel1 sel2 guid hsub, ?_⟩
  apply IsRoleCheckValid_of_kinds
  simp only [List.map_append, List.map_cons, roleKind_xor_leader]

/-- Witness of `role_validity_monotone`: a tank, a damage dealer and a healer are accepted;
with the mask of the damage dealer replaced by 11 (damage, tank and the leader bit, which
contains the role bits of mask 8) the table is still accepted, and toggling the leader bit
of the damage dealer gives the same outcome. -/
theorem role_validity_monotone_witness :
    IsRoleCheckValid
      [(ObjectGuid.Player 1, 2), (ObjectGuid.Player 2, 11), (ObjectGuid.Player 3, 4)] 3 1 1 =
      some true ∧
    IsRoleCheckValid
      [(ObjectGuid.Player 1, 2), (ObjectGuid.Player 2, 8 ^^^ LFG_ROLE_LEADER),
        (ObjectGuid.Player 3, 4)] 3 1 1 =
    IsRoleCheckValid
      [(ObjectGuid.Player 1, 2), (ObjectGuid.Player 2, 8), (ObjectGuid.Player 3, 4)] 3 1 1 :=
  ⟨(role_validity_monotone [(ObjectGuid.Player 1, 2)] [(ObjectGuid.Player 3, 4)]
      (ObjectGuid.Player 2) 8 11 (by decide)).1 (by decide),
    (role_validity_monotone [(ObjectGuid.Player 1, 2)] [(ObjectGuid.Player 3, 4)]
      (ObjectGuid.Player 2) 8 11 (by decide)).2⟩

/-! ## The status push of the queue-update pass -/

theorem sendRolecheckToMembers_packets (host : Host) (rolecheckData : LFGRolecheckUpdateData) :
    ∀ (members : List (ObjectGuid × LFGPartyMemberRoleData)) (out : List Notification),
      sendRolecheckToMembers host rolecheckData members = .ok out →
      ∀ n ∈ out, n.packet = Packet.RoleCheckUpdate rolecheckData := by
  intro members
  induction members with
  | nil =>
    intro out h n hn
    simp only [sendRolecheckToMembers, Except.ok.injEq] at h
    rw [← h] at hn
    simp at hn
  | cons it rest ih =>
    intro out h n hn
    rw [sendRolecheckToMembers] at h
    split at h
    · exact ih out h n hn
    · split at h
      · simp at h
      · rename_i n1 hsend
        split at h
        · simp at h
        · rename_i out1 hrest
          simp only [Except.ok.injEq] at h
          rw [← h] at hn
          rcases List.mem_cons.1 hn with h1 | h1
          · unfold SendLfgRoleCheckUpdateNew at hsend
            split_ifs at hsend
            simp only [Except.ok.injEq] at hsend
            rw [h1, ← hsend]
          · exact ih out1 hrest n h1

theorem SendRolecheckUpdate_packets {mgr : NewLFGMgr} {host : Host} {guid : ObjectGuid}
    {state : LFGRoleCheckState} {beginning : Bool} {out : List Notification}
    (h : SendRolecheckUpdate mgr host guid state beginning = .ok out) :
    ∀ n ∈ out, ∃ d, n.packet = Packet.RoleCheckUpdate d ∧ d.State = state := by
  unfold SendRolecheckUpdate at h
  split at h
  · simp only [Except.ok.injEq] at h
    subst h
    intro n hn
    simp at hn
  · split at h
    · simp at h
    · intro n hn
      exact ⟨_, sendRolecheckToMembers_packets host _ _ _ h n hn, rfl⟩

theorem updateRoleCheckTimers_packets (host : Host) (diff : Nat)
    (timers : List (ObjectGuid × Int)) :
    ∀ (mgr mgr1 : NewLFGMgr) (kept : List (ObjectGuid × Int)) (out : List Notification),
      updateRoleCheckTimers host diff timers mgr = .ok (kept, mgr1, out) →
      (∀ n ∈ out, ∃ d, n.packet = Packet.RoleCheckUpdate d ∧
        d.State = LFGRoleCheckState.MissingRole) ∧
      ((∀ t ∈ timers, ¬ t.2 - (diff : Int) ≤ 0) → out = []) := by
  induction timers with
  | nil =>
    intro mgr mgr1 kept out h
    simp only [updateRoleCheckTimers, Except.ok.injEq, Prod.mk.injEq] at h
    rw [← h.2.2]
    exact ⟨fun n hn => by simp at hn, fun _ => rfl⟩
  | cons itr rest ih =>
    intro mgr mgr1 kept out h
    rw [updateRoleCheckTimers] at h
    by_cases hexp : itr.2 - (diff : Int) ≤ 0
    · rw [if_pos hexp] at h
      split at h
      · simp at h
      · rename_i out1 hsend
        split at h
        · simp at h
        · rename_i kept1 mgr2 out2 hrest
          simp only [Except.ok.injEq, Prod.mk.injEq] at h
          rw [← h.2.2]
          refine ⟨fun n hn => ?_, fun hall => absurd hexp (hall itr (by simp))⟩
          rcases List.mem_append.1 hn with h1 | h1
          · exact SendRolecheckUpdate_packets hsend n h1
          · exact (ih _ _ _ _ hrest).1 n h1
    · rw [if_neg hexp] at h
      split at h
      · simp at h
      · rename_i kept1 mgr2 out2 hrest
        simp only [Except.ok.injEq, Prod.mk.injEq] at h
        rw [← h.2.2]
        exact ⟨(ih _ _ _ _ hrest).1,
          fun hall => (ih _ _ _ _ hrest).2 (fun t ht => hall t (by simp [ht]))⟩

theorem Update_pass_packets {mgr mgr1 : NewLFGMgr} {host : Host} {diff : Nat}
    {out : List Notification} (h : Update mgr host diff = .ok (mgr1, out)) :
    (∀ n ∈ out, ∃ d, n.packet = Packet.RoleCheckUpdate d ∧
      d.State = LFGRoleCheckState.MissingRole) ∧
    ((∀ t ∈ mgr.lfgRoleCheckTimers, ¬ t.2 - (diff : Int) ≤ 0) → out = []) := by
  unfold Update at h
  split at h
  · simp at h
  · rename_i kept mgr2 out1 hloop
    have hp := updateRoleCheckTimers_packets host diff _ _ _ _ _ hloop
    dsimp only at h
    split_ifs at h
    · simp only [NewLFGQueue.Update, pushQueueStatus_eq, Except.ok.injEq, Prod.mk.injEq,
        List.append_nil] at h
      rw [← h.2]
      exact hp
    · simp only [Except.ok.injEq, Prod.mk.injEq] at h
      rw [← h.2]
      exact hp

/-- C33 (the code at the failing input): after the solo join of the demo world the queue
entry of ticket 0 is flagged for a status push and its member is connected; the tick of
5000 ms is a queue-update pass, it clears the flag and emits nothing at all: `SendQueueStatus`
is called for the flagged entry and sends no notification, its body being commented out, so
the member of the flagged entry receives no queue-status. -/
theorem flagged_entry_gets_no_queue_status :
    mapFind 0 (finalState soloJoinRun).lfgQueuePlayerData = some (queueEntryOf soloTicket) ∧
    (queueEntryOf soloTicket).NeedsQueueUpdate = true ∧
    mapFind (ObjectGuid.Player 1) (finalState soloJoinRun).lfgJoinData = some soloJoinData ∧
    (demoHost.FindConnectedPlayer (ObjectGuid.Player 1)).isSome = true ∧
    queueUpdateDue (finalState soloJoinRun) 5000 = true ∧
    returned (Update (finalState soloJoinRun) demoHost 5000) = true ∧
    emitted (Update (finalState soloJoinRun) demoHost 5000) = [] ∧
    (finalState (Update (finalState soloJoinRun) demoHost 5000)).lfgQueuePlayerData =
      [(0, { queueEntryOf soloTicket with NeedsQueueUpdate := false })] := by
  decide

/-- What a queue-update pass that returns does: the flag of every queue entry whose flag is
set is cleared and the entries are otherwise unchanged, so that after the pass no entry is
flagged; every notification of the tick is the `MissingRole` role-check update of an expired
role check, and a tick on which no role check expires emits nothing. -/
theorem Update_pass_clears_flags {mgr mgr1 : NewLFGMgr} {host : Host} {diff : Nat}
    {out : List Notification} (hrun : Update mgr host diff = .ok (mgr1, out))
    (hdue : queueUpdateDue mgr diff = true) :
    mgr1.lfgQueuePlayerData =
      mgr.lfgQueuePlayerData.map
        (fun data => (data.1, { data.2 with NeedsQueueUpdate := false })) ∧
    (∀ e ∈ mgr1.lfgQueuePlayerData, e.2.NeedsQueueUpdate = false) ∧
    (∀ n ∈ out, ∃ d, n.packet = Packet.RoleCheckUpdate d ∧
      d.State = LFGRoleCheckState.MissingRole) ∧
    ((∀ t ∈ mgr.lfgRoleCheckTimers, ¬ t.2 - (diff : Int) ≤ 0) → out = []) := by
  have hm := Update_state hrun
  have hp := Update_pass_packets hrun
  unfold queueUpdateDue at hdue
  have hle : mgr.lfgQueueUpdateInterval - (diff : Int) ≤ 0 := by simpa using hdue
  have hq : mgr1.lfgQueuePlayerData =
      mgr.lfgQueuePlayerData.map
        (fun data => (data.1, { data.2 with NeedsQueueUpdate := false })) := by
    rw [hm]
    dsimp only
    rw [if_pos hle]
  refine ⟨hq, ?_, hp.1, hp.2⟩
  intro e he
  rw [hq] at he
  obtain ⟨e0, _, he0⟩ := List.mem_map.1 he
  rw [← he0]

/-! ## The catalog is a map: its keys are distinct and no call changes it -/

theorem loadTemplateRows_nodup (src : LoadSources) (rows : List DungeonTemplateRow) :
    ∀ data : List (Nat × LFGDungeonData), (mapKeys data).Nodup →
      (mapKeys (loadTemplateRows src rows data)).Nodup := by
  induction rows with
  | nil => intro data h; exact h
  | cons row rows ih =>
    intro data h
    rw [loadTemplateRows]
    split
    · exact ih data h
    · split
      · split
        · exact ih data h
        · exact ih _ (nodup_mapEmplace _ _ _ h)
      · exact ih _ (nodup_mapEmplace _ _ _ h)

theorem loadRewardRows_nodup (rows : List DungeonRewardRow) :
    ∀ data : List (Nat × LFGDungeonData), (mapKeys data).Nodup →
      (mapKeys (loadRewardRows rows data)).Nodup := by
  induction rows with
  | nil => intro data h; exact h
  | cons row rows ih =>
    intro data h
    rw [loadRewardRows]
    split
    · exact ih data h
    · exact ih _ (nodup_mapAdjust _ _ _ h)

theorem InitializeDungeonData_catalogDistinct (src : LoadSources) :
    CatalogDistinct (InitializeDungeonData NewLFGMgr.new src) := by
  have hnil : (mapKeys ([] : List (Nat × LFGDungeonData))).Nodup := List.nodup_nil
  unfold CatalogDistinct InitializeDungeonData
  split_ifs
  · exact hnil
  · exact loadTemplateRows_nodup src _ _ hnil
  · exact loadRewardRows_nodup _ _ (loadTemplateRows_nodup src _ _ hnil)

theorem catalog_step {mgr mgr1 : NewLFGMgr} {host : Host} {call : Call}
    {out : List Notification} (hrun : call.run mgr host = .ok (mgr1, out)) :
    mgr1.lfgDungeonData = mgr.lfgDungeonData := by
  cases call with
  | Join player group dungeonIds roleMask =>
    obtain ⟨c, _, hcase⟩ := ProcessLFGJoinRequest_state hrun
    rcases hcase with ⟨_, hm⟩ | ⟨_, _, _, queue, hm⟩ | ⟨_, _, hm⟩ <;> subst hm <;> rfl
  | Leave ticketId groupGuid =>
    rcases ProcessLFGLeaveRequest_state hrun with ⟨_, hm⟩ | ⟨_, hcase⟩
    · subst hm
      rfl
    · rcases hcase with ⟨_, hm, _⟩ | ⟨it, _, ⟨_, hm⟩ | ⟨_, hm⟩⟩ <;> subst hm <;> rfl
  | SetRoles groupGuid playerGuid desiredRoles =>
    rcases ProcessPlayerRoleRequest_state hrun with ⟨hm, _⟩ | ⟨jd0, _, hcase⟩
    · subst hm
      rfl
    · rcases hcase with ⟨_, hm⟩ | ⟨_, _, queue, hm⟩ | ⟨_, hm⟩ <;> subst hm <;> rfl
  | Tick diff =>
    have hm := Update_state hrun
    subst hm
    rfl

theorem reachable_catalogDistinct (mgr : NewLFGMgr) (h : Reachable mgr) :
    CatalogDistinct mgr := by
  induction h with
  | init src => exact InitializeDungeonData_catalogDistinct src
  | step _ host call hrun ih =>
    unfold CatalogDistinct
    rw [catalog_step hrun]
    exact ih

/-- A catalog record of a reachable manager is found under its id. -/
theorem mapFind_of_mem_catalog {mgr : NewLFGMgr} (hreach : Reachable mgr)
    {e : Nat × LFGDungeonData} (he : e ∈ mgr.lfgDungeonData) :
    mapFind e.2.DungeonEntry.ID mgr.lfgDungeonData = some e.2 := by
  rw [(reachable_wellFormed mgr hreach).keyed e he]
  exact mapFind_of_mem_nodup _ (reachable_catalogDistinct mgr hreach) he

/-! ## The ids offered for the random, seasonal and raid lists -/

theorem lor_eq_zero_iff (x y : Nat) : x ||| y = 0 ↔ x = 0 ∧ y = 0 := by
  constructor
  · intro h
    have hb : ∀ i, (x.testBit i || y.testBit i) = false := by
      intro i
      rw [← Nat.testBit_or, h, Nat.zero_testBit]
    constructor <;> apply Nat.eq_of_testBit_eq <;> intro i <;> have := hb i <;>
      simp only [Bool.or_eq_false_iff] at this <;> simp [this]
  · rintro ⟨rfl, rfl⟩
    rfl

theorem seasonal_or_lfr_flag (flags : Nat) :
    flags &&& (LFGFlags.Seasonal ||| LFGFlags.Unk4) ≠ 0 ↔
      flags &&& LFGFlags.Seasonal ≠ 0 ∨ flags &&& LFGFlags.Unk4 ≠ 0 := by
  rw [Nat.and_or_distrib_left, Ne, lor_eq_zero_iff]
  tauto

theorem availableDungeon_iff (host : Host) (level expansion : Nat) (data : LFGDungeonData) :
    availableDungeon host level expansion data = true ↔ AvailableAt host level expansion data := by
  unfold availableDungeon AvailableAt
  dsimp only
  rw [← seasonal_or_lfr_flag]
  have hne : LFGType.Dungeon ≠ LFGType.Random ∧ LFGType.Dungeon ≠ LFGType.Raid := by decide
  by_cases h1 : data.DungeonEntry.TypeID = LFGType.Random ∨
      data.DungeonEntry.TypeID = LFGType.Raid
  · rw [if_pos h1]
    have ht : data.DungeonEntry.TypeID = LFGType.Random ∨
        data.DungeonEntry.TypeID = LFGType.Raid ∨
        (data.DungeonEntry.TypeID = LFGType.Dungeon ∧
          data.DungeonEntry.Flags &&& (LFGFlags.Seasonal ||| LFGFlags.Unk4) ≠ 0) := by tauto
    simp only [Bool.not_true, Bool.false_eq_true, if_false, ht, true_and]
    split_ifs with h2 h3 h4
    · simp only [Bool.false_eq_true, false_iff]
      rintro ⟨_, _, hs⟩
      have := hs h2.1
      simp [this] at h2
    · simp only [Bool.false_eq_true, false_iff]
      rintro ⟨hl, _, _⟩
      omega
    · simp only [Bool.false_eq_true, false_iff]
      rintro ⟨_, he, _⟩
      omega
    · simp only [true_iff]
      refine ⟨by omega, by omega, fun hs => ?_⟩
      by_contra hc
      exact h2 ⟨hs, by simpa using hc⟩
  · rw [if_neg h1]
    by_cases h5 : data.DungeonEntry.TypeID = LFGType.Dungeon
    · rw [if_pos h5]
      by_cases h6 : data.DungeonEntry.Flags &&& (LFGFlags.Seasonal ||| LFGFlags.Unk4) ≠ 0
      · have ht : data.DungeonEntry.TypeID = LFGType.Random ∨
            data.DungeonEntry.TypeID = LFGType.Raid ∨
            (data.DungeonEntry.TypeID = LFGType.Dungeon ∧
              data.DungeonEntry.Flags &&& (LFGFlags.Seasonal ||| LFGFlags.Unk4) ≠ 0) := by
          tauto
        simp only [decide_eq_true h6, Bool.not_true, Bool.false_eq_true, if_false, ht,
          true_and]
        split_ifs with h2 h3 h4
        · simp only [Bool.false_eq_true, false_iff]
          rintro ⟨_, _, hs⟩
          have := hs h2.1
          simp [this] at h2
        · simp only [Bool.false_eq_true, false_iff]
          rintro ⟨hl, _, _⟩
          omega
        · simp only [Bool.false_eq_true, false_iff]
          rintro ⟨_, he, _⟩
          omega
        · simp only [true_iff]
          refine ⟨by omega, by omega, fun hs => ?_⟩
          by_contra hc
          exact h2 ⟨hs, by simpa using hc⟩
      · simp only [decide_eq_false h6, Bool.not_false, if_true, Bool.false_eq_true, false_iff]
        rintro ⟨ht, _⟩
        tauto
    · rw [if_neg h5]
      simp only [Bool.not_false, if_true, Bool.false_eq_true, false_iff]
      rintro ⟨ht, _⟩
      tauto

theorem mem_availableFold (host : Host) (level expansion : Nat)
    (l : List (Nat × LFGDungeonData)) :
    ∀ (acc : List Nat) (id : Nat),
      id ∈ l.foldl
        (fun dungeons itr =>
          if availableDungeon host level expansion itr.2 then
            setInsert itr.2.DungeonEntry.ID dungeons
          else dungeons) acc ↔
      id ∈ acc ∨ ∃ e ∈ l, availableDungeon host level expansion e.2 = true ∧
        e.2.DungeonEntry.ID = id := by
  induction l with
  | nil => intro acc id; simp
  | cons itr rest ih =>
    intro acc id
    rw [List.foldl_cons, ih]
    by_cases hav : availableDungeon host level expansion itr.2 = true
    · rw [if_pos hav]
      have hins : id ∈ setInsert itr.2.DungeonEntry.ID acc ↔
          id ∈ acc ∨ id = itr.2.DungeonEntry.ID := by
        unfold setInsert
        split_ifs with hm
        · constructor
          · exact Or.inl
          · rintro (h | h)
            · exact h
            · rw [h]; exact hm
        · simp
      rw [hins]
      constructor
      · rintro ((h | h) | ⟨e, he, h⟩)
        · exact Or.inl h
        · exact Or.inr ⟨itr, List.mem_cons_self _ _, hav, h.symm⟩
        · exact Or.inr ⟨e, List.mem_cons_of_mem _ he, h⟩
      · rintro (h | ⟨e, he, h⟩)
        · exact Or.inl (Or.inl h)
        · rcases List.mem_cons.1 he with h1 | h1
          · subst h1
            exact Or.inl (Or.inr h.2.symm)
          · exact Or.inr ⟨e, h1, h⟩
    · rw [if_neg hav]
      constructor
      · rintro (h | ⟨e, he, h⟩)
        · exact Or.inl h
        · exact Or.inr ⟨e, List.mem_cons_of_mem _ he, h⟩
      · rintro (h | ⟨e, he, h⟩)
        · exact Or.inl h
        · rcases List.mem_cons.1 he with h1 | h1
          · subst h1
            exact absurd h.1 hav
          · exact Or.inr ⟨e, h1, h⟩

/-- The ids returned are those of the catalog records that pass the loop body. -/
theorem mem_availableIds {mgr : NewLFGMgr} (hreach : Reachable mgr) (host : Host)
    (level expansion id : Nat) :
    id ∈ GetAvailableSeasonalRandomAndRaidDungeonIds mgr host level expansion ↔
      ∃ data, mapFind id mgr.lfgDungeonData = some data ∧
        availableDungeon host level expansion data = true := by
  unfold GetAvailableSeasonalRandomAndRaidDungeonIds
  rw [mem_availableFold]
  constructor
  · rintro (h | ⟨e, he, hav, hid⟩)
    · simp at h
    · refine ⟨e.2, ?_, hav⟩
      rw [← hid]
      exact mapFind_of_mem_catalog hreach he
  · rintro ⟨data, hdata, hav⟩
    have hmem := mapFind_some_mem hdata
    exact Or.inr ⟨(id, data), hmem, hav, (reachable_wellFormed mgr hreach).keyed _ hmem⟩

/-- C31: on a manager reachable from the loaded caches, for every level and expansion,
`GetAvailableSeasonalRandomAndRaidDungeonIds` returns exactly the catalog ids whose activity
(i) is of type random or raid, or of type dungeon with the seasonal flag (0x004) or the LFR
flag (0x040), (ii) has `MinLevel ≤ level ≤ Maxlevel`, (iii) has a required expansion at most
the given one, and (iv) with the seasonal flag is in season; no other id is returned: none
without a catalog record, and none whose activity is of type world or heroic. -/
theorem available_ids_exact (mgr : NewLFGMgr) (host : Host) (level expansion id : Nat)
    (hreach : Reachable mgr) :
    (id ∈ GetAvailableSeasonalRandomAndRaidDungeonIds mgr host level expansion ↔
      ∃ data, mapFind id mgr.lfgDungeonData = some data ∧
        AvailableAt host level expansion data) ∧
    (id ∈ GetAvailableSeasonalRandomAndRaidDungeonIds mgr host level expansion →
      InCatalog mgr id ∧ typeOfId mgr id ≠ some LFGType.World ∧
        typeOfId mgr id ≠ some LFGType.Heroic) := by
  have hiff : id ∈ GetAvailableSeasonalRandomAndRaidDungeonIds mgr host level expansion ↔
      ∃ data, mapFind id mgr.lfgDungeonData = some data ∧
        AvailableAt host level expansion data := by
    rw [mem_availableIds hreach]
    constructor
    · rintro ⟨data, hdata, hav⟩
      exact ⟨data, hdata, (availableDungeon_iff _ _ _ _).1 hav⟩
    · rintro ⟨data, hdata, hav⟩
      exact ⟨data, hdata, (availableDungeon_iff _ _ _ _).2 hav⟩
  refine ⟨hiff, fun hmem => ?_⟩
  obtain ⟨data, hdata, htype, _⟩ := hiff.1 hmem
  unfold InCatalog typeOfId
  rw [hdata]
  refine ⟨rfl, ?_, ?_⟩
  · simp only [Option.map_some', ne_eq, Option.some.injEq]
    intro hw
    rw [hw] at htype
    rcases htype with h | h | ⟨h, _⟩ <;> exact absurd h (by decide)
  · simp only [Option.map_some', ne_eq, Option.some.injEq]
    intro hw
    rw [hw] at htype
    rcases htype with h | h | ⟨h, _⟩ <;> exact absurd h (by decide)

/-- Witness of `available_ids_exact`: on the demo caches, at level 80 and expansion 2, the
random dungeon 301 is returned and the dungeon 101, which carries neither flag, is not. -/
theorem available_ids_exact_witness :
    ((301 ∈ GetAvailableSeasonalRandomAndRaidDungeonIds demoMgr demoHost 80 2 ↔
      ∃ data, mapFind 301 demoMgr.lfgDungeonData = some data ∧
        AvailableAt demoHost 80 2 data) ∧
    (301 ∈ GetAvailableSeasonalRandomAndRaidDungeonIds demoMgr demoHost 80 2 →
      InCatalog demoMgr 301 ∧ typeOfId demoMgr 301 ≠ some LFGType.World ∧
        typeOfId demoMgr 301 ≠ some LFGType.Heroic)) ∧
    GetAvailableSeasonalRandomAndRaidDungeonIds demoMgr demoHost 80 2 = [301] :=
  ⟨available_ids_exact demoMgr demoHost 80 2 301 (Reachable.init demoSources), by decide⟩

/-! ## The two lock loops as folds over catalog records -/

theorem lockedDungeonReason_eq (host : Host) (player : Player) (data : LFGDungeonData) :
    lockedDungeonReason host player player.getLevel player.GetExpansion
      (!player.HasPermission) data = checkLockReason host player data := rfl

theorem recordLocks_cons (host : Host) (player : Player) (data : LFGDungeonData)
    (rest : List LFGDungeonData) (lockMap : LockMap) :
    recordLocks host player (data :: rest) lockMap =
      recordLocks host player rest (recordFirstMatchingRule host player data lockMap) := rfl

theorem lockedDungeonsLoop_eq (host : Host) (player : Player)
    (l : List (Nat × LFGDungeonData)) :
    ∀ lockMap : LockMap,
      lockedDungeonsLoop host player player.getLevel player.GetExpansion
        (!player.HasPermission) l lockMap =
      recordLocks host player (l.map Prod.snd) lockMap := by
  induction l with
  | nil => intro lockMap; rfl
  | cons itr rest ih =>
    intro lockMap
    rw [lockedDungeonsLoop, lockedDungeonReason_eq, List.map_cons, recordLocks_cons]
    cases hr : checkLockReason host player itr.2 with
    | none =>
      rw [recordFirstMatchingRule_none _ hr]
      exact ih _
    | some reason =>
      rw [recordFirstMatchingRule_some _ hr]
      dsimp only
      unfold lockOfReason
      by_cases hg : reason = LFGLockStatusType.TooLowGearScore
      · rw [if_pos hg, if_pos hg]
        exact ih _
      · rw [if_neg hg, if_neg hg]
        exact ih _

theorem recordsToCheck_cons_random (mgr : NewLFGMgr) {id : Nat} {data : LFGDungeonData}
    (rest : List Nat) (hdata : mapFind id mgr.lfgDungeonData = some data)
    (htype : data.DungeonEntry.TypeID = LFGType.Random) :
    recordsToCheck mgr (id :: rest) = recordsToCheck mgr rest := by
  unfold recordsToCheck
  rw [List.filterMap_cons]
  simp only [hdata, if_pos htype]

theorem recordsToCheck_cons (mgr : NewLFGMgr) {id : Nat} {data : LFGDungeonData}
    (rest : List Nat) (hdata : mapFind id mgr.lfgDungeonData = some data)
    (htype : data.DungeonEntry.TypeID ≠ LFGType.Random) :
    recordsToCheck mgr (id :: rest) = data :: recordsToCheck mgr rest := by
  unfold recordsToCheck
  rw [List.filterMap_cons]
  simp only [hdata, if_neg htype]

theorem CheckDungeonIdsForLocks_random (mgr : NewLFGMgr) (host : Host) (player : Player)
    {id : Nat} {data : LFGDungeonData} (rest : List Nat) (lockMap : LockMap)
    (hdata : mapFind id mgr.lfgDungeonData = some data)
    (htype : data.DungeonEntry.TypeID = LFGType.Random) :
    CheckDungeonIdsForLocks mgr host player (id :: rest) lockMap =
      CheckDungeonIdsForLocks mgr host player rest lockMap := by
  rw [CheckDungeonIdsForLocks]
  simp only [hdata]
  rw [if_pos htype]

/-- With every selected id in the catalog the lock loop returns, with the locks of the
records it checks. -/
theorem CheckDungeonIdsForLocks_eq (mgr : NewLFGMgr) (host : Host) (player : Player)
    (ids : List Nat) :
    ∀ lockMap : LockMap, (∀ i ∈ ids, InCatalog mgr i) →
      CheckDungeonIdsForLocks mgr host player ids lockMap =
        .ok (recordLocks host player (recordsToCheck mgr ids) lockMap) := by
  induction ids with
  | nil => intro lockMap _; rfl
  | cons id rest ih =>
    intro lockMap hids
    have hin : InCatalog mgr id := hids id (List.mem_cons_self _ _)
    unfold InCatalog at hin
    obtain ⟨data, hdata⟩ := Option.isSome_iff_exists.1 hin
    have hrest : ∀ i ∈ rest, InCatalog mgr i := fun i hi => hids i (List.mem_cons_of_mem _ hi)
    by_cases htype : data.DungeonEntry.TypeID = LFGType.Random
    · rw [CheckDungeonIdsForLocks_random mgr host player rest lockMap hdata htype,
        recordsToCheck_cons_random mgr rest hdata htype]
      exact ih lockMap hrest
    · rw [CheckDungeonIdsForLocks_cons mgr host player rest lockMap hdata htype,
        recordsToCheck_cons mgr rest hdata htype, recordLocks_cons]
      exact ih _ hrest

/-- When the lock loop returns, every selected id is in the catalog. -/
theorem CheckDungeonIdsForLocks_inCatalog (mgr : NewLFGMgr) (host : Host) (player : Player)
    (ids : List Nat) :
    ∀ lockMap result : LockMap,
      CheckDungeonIdsForLocks mgr host player ids lockMap = .ok result →
      ∀ i ∈ ids, InCatalog mgr i := by
  induction ids with
  | nil => intro _ _ _ i hi; simp at hi
  | cons id rest ih =>
    intro lockMap result h i hi
    cases hdata : mapFind id mgr.lfgDungeonData with
    | none =>
      rw [CheckDungeonIdsForLocks] at h
      simp only [hdata] at h
      cases h
    | some data =>
      rcases List.mem_cons.1 hi with h1 | h1
      · subst h1
        unfold InCatalog
        rw [hdata]
        rfl
      · by_cases htype : data.DungeonEntry.TypeID = LFGType.Random
        · rw [CheckDungeonIdsForLocks_random mgr host player rest lockMap hdata htype] at h
          exact ih _ _ h i h1
        · rw [CheckDungeonIdsForLocks_cons mgr host player rest lockMap hdata htype] at h
          exact ih _ _ h i h1

theorem mem_recordsToCheck {mgr : NewLFGMgr} {ids : List Nat} {data : LFGDungeonData}
    (h : data ∈ recordsToCheck mgr ids) :
    ∃ id ∈ ids, mapFind id mgr.lfgDungeonData = some data ∧
      data.DungeonEntry.TypeID ≠ LFGType.Random := by
  unfold recordsToCheck at h
  obtain ⟨id, hid, hsome⟩ := List.mem_filterMap.1 h
  refine ⟨id, hid, ?_⟩
  cases hdata : mapFind id mgr.lfgDungeonData with
  | none => simp [hdata] at hsome
  | some d =>
    simp only [hdata] at hsome
    split_ifs at hsome with htype
    simp only [Option.some.injEq] at hsome
    subst hsome
    exact ⟨rfl, htype⟩

theorem recordsToCheck_mem {mgr : NewLFGMgr} {ids : List Nat} {id : Nat} {data : LFGDungeonData}
    (hid : id ∈ ids) (hdata : mapFind id mgr.lfgDungeonData = some data)
    (htype : data.DungeonEntry.TypeID ≠ LFGType.Random) : data ∈ recordsToCheck mgr ids := by
  unfold recordsToCheck
  refine List.mem_filterMap.2 ⟨id, hid, ?_⟩
  simp only [hdata, if_neg htype]

/-! ## The entries of the lock maps -/

theorem mem_recordLocks (host : Host) (player : Player) (records : List LFGDungeonData) :
    ∀ (lockMap : LockMap) (e : Nat × LFGDungeonLockData),
      e ∈ recordLocks host player records lockMap →
      e ∈ lockMap ∨ ∃ data ∈ records, ∃ reason,
        firstMatchingRule host player data = some reason ∧
        e = (data.DungeonEntry.Entry, lockOfReason player data reason) := by
  induction records with
  | nil => intro lockMap e he; exact Or.inl he
  | cons data rest ih =>
    intro lockMap e he
    rw [recordLocks_cons] at he
    rcases ih _ e he with h1 | ⟨d, hd, reason, hr, heq⟩
    · unfold recordFirstMatchingRule at h1
      cases hrule : firstMatchingRule host player data with
      | none =>
        simp only [hrule] at h1
        exact Or.inl h1
      | some reason =>
        simp only [hrule] at h1
        rcases mem_mapEmplace h1 with h2 | h2
        · exact Or.inl h2
        · exact Or.inr ⟨data, List.mem_cons_self _ _, reason, hrule, h2⟩
    · exact Or.inr ⟨d, List.mem_cons_of_mem _ hd, reason, hr, heq⟩

theorem mem_lockedByDefault (mgr : NewLFGMgr) (store : List LFGDungeonEntry) :
    ∀ (lockMap : LockMap) (e : Nat × LFGDungeonLockData),
      e ∈ lockedByDefault mgr store lockMap →
      e ∈ lockMap ∨ (e.2 = ⟨LFGLockStatusType.None, 0, 0⟩ ∧ ∃ entry ∈ store,
        e.1 = entry.Entry ∧ mapFind entry.ID mgr.lfgDungeonData = none ∧
        entry.TypeID ≠ LFGType.World) := by
  induction store with
  | nil => intro lockMap e he; exact Or.inl he
  | cons entry rest ih =>
    intro lockMap e he
    rw [lockedByDefault] at he
    have hlift : (e ∈ lockMap ∨ (e.2 = ⟨LFGLockStatusType.None, 0, 0⟩ ∧ ∃ entry1 ∈ rest,
        e.1 = entry1.Entry ∧ mapFind entry1.ID mgr.lfgDungeonData = none ∧
        entry1.TypeID ≠ LFGType.World)) →
        (e ∈ lockMap ∨ (e.2 = ⟨LFGLockStatusType.None, 0, 0⟩ ∧ ∃ entry1 ∈ entry :: rest,
        e.1 = entry1.Entry ∧ mapFind entry1.ID mgr.lfgDungeonData = none ∧
        entry1.TypeID ≠ LFGType.World)) := by
      rintro (h | ⟨h1, en, hen, h2⟩)
      · exact Or.inl h
      · exact Or.inr ⟨h1, en, List.mem_cons_of_mem _ hen, h2⟩
    by_cases hfound : (mapFind entry.ID mgr.lfgDungeonData).isSome = true
    · rw [if_pos hfound] at he
      exact hlift (ih _ e he)
    · rw [if_neg hfound] at he
      by_cases hworld : entry.TypeID = LFGType.World
      · rw [if_pos hworld] at he
        exact hlift (ih _ e he)
      · rw [if_neg hworld] at he
        rcases ih _ e he with h1 | h1
        · rcases mem_mapEmplace h1 with h2 | h2
          · exact Or.inl h2
          · refine Or.inr ⟨by rw [h2], entry, List.mem_cons_self _ _, by rw [h2], ?_, hworld⟩
            cases hm : mapFind entry.ID mgr.lfgDungeonData with
            | none => rfl
            | some d => rw [hm] at hfound; simp at hfound
        · exact hlift (Or.inr h1)

theorem firstMatchingRule_notInSeason {host : Host} {player : Player} {data : LFGDungeonData}
    (h : firstMatchingRule host player data = some LFGLockStatusType.NotInSeason) :
    data.DungeonEntry.Flags &&& LFGFlags.Seasonal ≠ 0 ∧
      IsSeasonActive host data.DungeonEntry.ID = false := by
  unfold firstMatchingRule at h
  obtain ⟨rule, hfind, hreason⟩ := Option.map_eq_some'.1 h
  have hcond : rule.1 = true := by
    have := List.find?_some hfind
    simpa using this
  have hmem := List.mem_of_find?_eq_some hfind
  unfold lockRules at hmem
  simp only [List.mem_cons, List.mem_singleton, List.not_mem_nil, or_false] at hmem
  rcases hmem with h1 | h1 | h1 | h1 | h1 | h1 | h1 | h1 | h1 | h1 | h1 <;>
    rw [h1] at hreason hcond <;> dsimp only at hreason hcond <;> first
      | exact absurd hreason (by decide)
      | (simp only [Bool.and_eq_true, decide_eq_true_eq, Bool.not_eq_true'] at hcond
         exact hcond)

theorem lockOfReason_reason (player : Player) (data : LFGDungeonData)
    (reason : LFGLockStatusType) : (lockOfReason player data reason).Reason = reason := by
  unfold lockOfReason
  split_ifs <;> rfl

/-! ## The season rule -/

/-- C36 (counterexample): the raid 500 of the loaded `seasonalSources` carries the seasonal
flag and its id is not in the season table (285, 286, 287, 288). With every holiday active
and a player who meets every other condition, it is locked with `NotInSeason` by
`CheckDungeonIdsForLocks` and by `GetLockedDungeonsForPlayer`, and it is left out of the
ids of `GetAvailableSeasonalRandomAndRaidDungeonIds`, of which it meets every condition
other than the season: `IsSeasonActive` answers `false` for an id outside the table. -/
theorem seasonal_flag_outside_table_locked :
    Reachable seasonalMgr ∧
    mapFind 500 seasonalMgr.lfgDungeonData = some seasonalRaid500 ∧
    seasonalRaid500.DungeonEntry.Flags &&& LFGFlags.Seasonal ≠ 0 ∧
    (∀ holiday, holidayHost.IsHolidayActive holiday = true) ∧
    IsSeasonActive holidayHost 500 = false ∧
    CheckDungeonIdsForLocks seasonalMgr holidayHost playerA [500] [] =
      .ok [(500 + 2 * 2 ^ 24, ⟨LFGLockStatusType.NotInSeason, 0, 0⟩)] ∧
    GetLockedDungeonsForPlayer seasonalMgr holidayHost seasonalSources.sLFGDungeonStore
      (ObjectGuid.Player 1) = [(500 + 2 * 2 ^ 24, ⟨LFGLockStatusType.NotInSeason, 0, 0⟩)] ∧
    AvailableApartFromSeason 80 2 seasonalRaid500 ∧
    GetAvailableSeasonalRandomAndRaidDungeonIds seasonalMgr holidayHost 80 2 = [285] := by
  refine ⟨Reachable.init seasonalSources, by decide, by decide, fun _ => rfl, by decide,
    eq_ok_of_toOption _ _ (by decide), by decide, ?_, by decide⟩
  unfold AvailableApartFromSeason
  decide

/-- C36 (amended): on a manager reachable from the loaded caches, an activity that does not
carry the seasonal flag is not seasonal, whatever its id: every lock with `NotInSeason` that
`CheckDungeonIdsForLocks` or `GetLockedDungeonsForPlayer` records is recorded under the slot
code of a catalog activity that carries the seasonal flag and is out of season, and an
activity without the flag is returned by `GetAvailableSeasonalRandomAndRaidDungeonIds`
exactly when it meets the conditions on type, level and expansion. An id that is not in the
season table (285, 286, 287, 288) is never in season, and an id of the table is in season
exactly when its holiday is active (Hallow's End, Fire Festival, Brewfest, Love is in the
Air). -/
theorem season_rule_follows_flag (mgr : NewLFGMgr) (host : Host) (store : List LFGDungeonEntry)
    (hreach : Reachable mgr) :
    (∀ (player : Player) (ids : List Nat) (lockMap : LockMap) (slot : Nat)
        (lock : LFGDungeonLockData),
      CheckDungeonIdsForLocks mgr host player ids [] = .ok lockMap →
      (slot, lock) ∈ lockMap → lock.Reason = LFGLockStatusType.NotInSeason →
      ∃ id ∈ ids, ∃ data, mapFind id mgr.lfgDungeonData = some data ∧
        data.DungeonEntry.Entry = slot ∧ data.DungeonEntry.Flags &&& LFGFlags.Seasonal ≠ 0 ∧
        IsSeasonActive host data.DungeonEntry.ID = false) ∧
    (∀ (playerGuid : ObjectGuid) (slot : Nat) (lock : LFGDungeonLockData),
      (slot, lock) ∈ GetLockedDungeonsForPlayer mgr host store playerGuid →
      lock.Reason = LFGLockStatusType.NotInSeason →
      ∃ id data, mapFind id mgr.lfgDungeonData = some data ∧
        data.DungeonEntry.Entry = slot ∧ data.DungeonEntry.Flags &&& LFGFlags.Seasonal ≠ 0 ∧
        IsSeasonActive host data.DungeonEntry.ID = false) ∧
    (∀ (level expansion id : Nat) (data : LFGDungeonData),
      mapFind id mgr.lfgDungeonData = some data →
      data.DungeonEntry.Flags &&& LFGFlags.Seasonal = 0 →
      (id ∈ GetAvailableSeasonalRandomAndRaidDungeonIds mgr host level expansion ↔
        AvailableApartFromSeason level expansion data)) ∧
    (∀ id, id ≠ 285 → id ≠ 286 → id ≠ 287 → id ≠ 288 → IsSeasonActive host id = false) ∧
    IsSeasonActive host 285 = host.IsHolidayActive HolidayIds.HOLIDAY_HALLOWS_END ∧
    IsSeasonActive host 286 = host.IsHolidayActive HolidayIds.HOLIDAY_FIRE_FESTIVAL ∧
    IsSeasonActive host 287 = host.IsHolidayActive HolidayIds.HOLIDAY_BREWFEST ∧
    IsSeasonActive host 288 = host.IsHolidayActive HolidayIds.HOLIDAY_LOVE_IS_IN_THE_AIR := by
  refine ⟨?_, ?_, ?_, ?_, rfl, rfl, rfl, rfl⟩
  · intro player ids lockMap slot lock hrun hmem hreason
    have hids := CheckDungeonIdsForLocks_inCatalog mgr host player ids _ _ hrun
    rw [CheckDungeonIdsForLocks_eq mgr host player ids [] hids] at hrun
    simp only [Except.ok.injEq] at hrun
    rw [← hrun] at hmem
    rcases mem_recordLocks host player _ _ _ hmem with h1 | ⟨data, hd, reason, hrule, heq⟩
    · simp at h1
    · obtain ⟨id, hid, hdata, _⟩ := mem_recordsToCheck hd
      simp only [Prod.mk.injEq] at heq
      rw [heq.2, lockOfReason_reason] at hreason
      rw [hreason] at hrule
      exact ⟨id, hid, data, hdata, heq.1.symm, firstMatchingRule_notInSeason hrule⟩
  · intro playerGuid slot lock hmem hreason
    unfold GetLockedDungeonsForPlayer at hmem
    cases hconn : host.FindConnectedPlayer playerGuid with
    | none => simp [hconn] at hmem
    | some player =>
      simp only [hconn] at hmem
      rw [lockedDungeonsLoop_eq] at hmem
      rcases mem_recordLocks host player _ _ _ hmem with h1 | ⟨data, hd, reason, hrule, heq⟩
      · rcases mem_lockedByDefault mgr store _ _ h1 with h2 | ⟨h2, _⟩
        · simp at h2
        · simp only at h2
          rw [h2] at hreason
          exact absurd hreason (by decide)
      · obtain ⟨e, he, hed⟩ := List.mem_map.1 hd
        simp only [Prod.mk.injEq] at heq
        rw [heq.2, lockOfReason_reason] at hreason
        rw [hreason] at hrule
        refine ⟨e.2.DungeonEntry.ID, data, ?_, heq.1.symm, firstMatchingRule_notInSeason hrule⟩
        rw [← hed]
        exact mapFind_of_mem_catalog hreach he
  · intro level expansion id data hdata hflag
    rw [mem_availableIds hreach]
    constructor
    · rintro ⟨d, hd, hav⟩
      rw [hdata] at hd
      simp only [Option.some.injEq] at hd
      subst hd
      obtain ⟨h1, h2, h3, _⟩ := (availableDungeon_iff _ _ _ _).1 hav
      exact ⟨h1, h2, h3⟩
    · rintro ⟨h1, h2, h3⟩
      exact ⟨data, hdata, (availableDungeon_iff _ _ _ _).2 ⟨h1, h2, h3, fun h => absurd hflag h⟩⟩
  · intro id h1 h2 h3 h4
    unfold IsSeasonActive
    rw [if_neg h1, if_neg h2, if_neg h3, if_neg h4]

/-- Witness of `season_rule_follows_flag`: the loaded `seasonalSources` with every holiday
active; the only lock of the connected player is the `NotInSeason` lock of the raid 500,
and the dungeon 285 of the table is in season. -/
theorem season_rule_follows_flag_witness :
    (∃ id data, mapFind id seasonalMgr.lfgDungeonData = some data ∧
      data.DungeonEntry.Entry = 500 + 2 * 2 ^ 24 ∧
      data.DungeonEntry.Flags &&& LFGFlags.Seasonal ≠ 0 ∧
      IsSeasonActive holidayHost data.DungeonEntry.ID = false) ∧
    IsSeasonActive holidayHost 285 = true :=
  ⟨(season_rule_follows_flag seasonalMgr holidayHost seasonalSources.sLFGDungeonStore
      (Reachable.init seasonalSources)).2.1 (ObjectGuid.Player 1) (500 + 2 * 2 ^ 24)
      ⟨LFGLockStatusType.NotInSeason, 0, 0⟩ (by decide) rfl, by decide⟩

/-! ## The two copies of the lock cascade -/

theorem mapFind_mapEmplace_of_some {κ α : Type} [DecidableEq κ] {k : κ} {m : List (κ × α)}
    {w : α} (k1 : κ) (v : α) (h : mapFind k m = some w) :
    mapFind k (mapEmplace k1 v m) = some w := by
  unfold mapEmplace
  split
  · exact h
  · induction m with
    | nil => simp [mapFind] at h
    | cons e rest ih =>
      rename_i hk1
      by_cases he : e.1 = k
      · simp only [mapFind, if_pos he] at h
        simp only [List.cons_append, mapFind, if_pos he]
        exact h
      · simp only [mapFind, if_neg he] at h
        have hk1r : mapFind k1 rest = none := by
          by_cases he1 : e.1 = k1
          · simp [mapFind, he1] at hk1
          · simpa [mapFind, he1] using hk1
        simp only [List.cons_append, mapFind, if_neg he]
        exact ih h hk1r

theorem mapFind_mapEmplace_self {κ α : Type} [DecidableEq κ] {k : κ} {m : List (κ × α)}
    (v : α) (h : mapFind k m = none) : mapFind k (mapEmplace k v m) = some v := by
  unfold mapEmplace
  rw [h]
  exact mapFind_append_fresh k v m h

theorem mapFind_mapEmplace_ne {κ α : Type} [DecidableEq κ] {k k1 : κ} (m : List (κ × α))
    (v : α) (h : k1 ≠ k) : mapFind k (mapEmplace k1 v m) = mapFind k m := by
  unfold mapEmplace
  split
  · rfl
  · induction m with
    | nil => simp [mapFind, h]
    | cons e rest ih =>
      rename_i hk1
      have hk1r : mapFind k1 rest = none := by
        by_cases he1 : e.1 = k1
        · simp [mapFind, he1] at hk1
        · simpa [mapFind, he1] using hk1
      by_cases he : e.1 = k
      · simp only [List.cons_append, mapFind, if_pos he]
      · simp only [List.cons_append, mapFind, if_neg he]
        exact ih hk1r

theorem mapFind_record_of_some {host : Host} {player : Player} {lockMap : LockMap} {k : Nat}
    {w : LFGDungeonLockData} (data : LFGDungeonData) (h : mapFind k lockMap = some w) :
    mapFind k (recordFirstMatchingRule host player data lockMap) = some w := by
  unfold recordFirstMatchingRule
  split
  · exact mapFind_mapEmplace_of_some _ _ h
  · exact h

theorem mapFind_recordLocks_of_some (host : Host) (player : Player)
    (records : List LFGDungeonData) :
    ∀ (lockMap : LockMap) (k : Nat) (w : LFGDungeonLockData), mapFind k lockMap = some w →
      mapFind k (recordLocks host player records lockMap) = some w := by
  induction records with
  | nil => intro lockMap k w h; exact h
  | cons data rest ih =>
    intro lockMap k w h
    rw [recordLocks_cons]
    exact ih _ k w (mapFind_record_of_some data h)

/-- The lock found under the slot code of an activity after the locks of a list of records
are entered into a lock map without an entry for it, when no other record of the list has
the same slot code. -/
theorem mapFind_recordLocks (host : Host) (player : Player) (data : LFGDungeonData)
    (records : List LFGDungeonData) :
    ∀ (lockMap : LockMap),
      (∀ d ∈ records, d.DungeonEntry.Entry = data.DungeonEntry.Entry → d = data) →
      mapFind data.DungeonEntry.Entry lockMap = none →
      mapFind data.DungeonEntry.Entry (recordLocks host player records lockMap) =
        if data ∈ records then lockFor host player data else none := by
  induction records with
  | nil =>
    intro lockMap _ hnone
    simpa using hnone
  | cons d rest ih =>
    intro lockMap huniq hnone
    rw [recordLocks_cons]
    have hrest : ∀ d1 ∈ rest, d1.DungeonEntry.Entry = data.DungeonEntry.Entry → d1 = data :=
      fun d1 h1 => huniq d1 (List.mem_cons_of_mem _ h1)
    by_cases hd : d.DungeonEntry.Entry = data.DungeonEntry.Entry
    · have hdd : d = data := huniq d (List.mem_cons_self _ _) hd
      subst hdd
      rw [if_pos (List.mem_cons_self _ _)]
      unfold lockFor
      cases hrule : firstMatchingRule host player d with
      | none =>
        have hrec : recordFirstMatchingRule host player d lockMap = lockMap := by
          simp only [recordFirstMatchingRule, hrule]
        rw [hrec, ih lockMap hrest hnone]
        split_ifs
        · unfold lockFor
          rw [hrule]
        · rfl
      | some reason =>
        have hrec : recordFirstMatchingRule host player d lockMap =
            mapEmplace d.DungeonEntry.Entry (lockOfReason player d reason) lockMap := by
          simp only [recordFirstMatchingRule, hrule]
        rw [hrec]
        exact mapFind_recordLocks_of_some host player rest _ _ _
          (mapFind_mapEmplace_self _ hnone)
    · have hne : d ≠ data := fun h => hd (by rw [h])
      have hrec : mapFind data.DungeonEntry.Entry
          (recordFirstMatchingRule host player d lockMap) = none := by
        unfold recordFirstMatchingRule
        split
        · rw [mapFind_mapEmplace_ne _ _ hd]
          exact hnone
        · exact hnone
      rw [ih _ hrest hrec]
      have hiff : data ∈ d :: rest ↔ data ∈ rest := by
        simp only [List.mem_cons]
        constructor
        · rintro (h | h)
          · exact absurd h.symm hne
          · exact h
        · exact Or.inr
      simp only [hiff]

theorem mapFind_lockedByDefault_none (mgr : NewLFGMgr) (store : List LFGDungeonEntry)
    (k : Nat)
    (hstore : ∀ entry ∈ store, mapFind entry.ID mgr.lfgDungeonData = none → entry.Entry ≠ k) :
    mapFind k (lockedByDefault mgr store []) = none := by
  cases hfind : mapFind k (lockedByDefault mgr store []) with
  | none => rfl
  | some w =>
    rcases mem_lockedByDefault mgr store _ _ (mapFind_some_mem hfind) with
      h | ⟨_, entry, hentry, hk, hnone, _⟩
    · simp at h
    · exact absurd hk.symm (hstore entry hentry hnone)

/-- On a reachable manager whose slot codes carry the dungeon id in their low 24 bits, the
slot code of a catalog record determines the record. -/
theorem slot_determines_record {mgr : NewLFGMgr} (hreach : Reachable mgr)
    (hslot : ∀ e ∈ mgr.lfgDungeonData,
      e.2.DungeonEntry.Entry &&& 0x00FFFFFF = e.2.DungeonEntry.ID)
    {e1 e2 : Nat × LFGDungeonData} (h1 : e1 ∈ mgr.lfgDungeonData)
    (h2 : e2 ∈ mgr.lfgDungeonData)
    (heq : e1.2.DungeonEntry.Entry = e2.2.DungeonEntry.Entry) : e1.2 = e2.2 := by
  have hid : e1.2.DungeonEntry.ID = e2.2.DungeonEntry.ID := by
    rw [← hslot e1 h1, ← hslot e2 h2, heq]
  have hf1 := mapFind_of_mem_catalog hreach h1
  have hf2 := mapFind_of_mem_catalog hreach h2
  rw [hid, hf2] at hf1
  exact (Option.some.inj hf1).symm

/-- C37: the two copies of the lock cascade agree. On a manager reachable from the loaded
caches whose slot codes (of the catalog records and of the master store) carry the dungeon
id in their low 24 bits, for every connected player and every catalog activity of
non-random type that is in a selection of catalog ids, `CheckDungeonIdsForLocks` returns
and the lock it records under the slot code of the activity (reason and both detail
numbers, or no lock) is the one `GetLockedDungeonsForPlayer` records under the same slot
code: the lock of the first matching rule. -/
theorem lock_cascades_agree (mgr : NewLFGMgr) (host : Host) (store : List LFGDungeonEntry)
    (player : Player) (playerGuid : ObjectGuid) (ids : List Nat) (id : Nat)
    (data : LFGDungeonData) (hreach : Reachable mgr)
    (hconn : host.FindConnectedPlayer playerGuid = some player)
    (hdata : mapFind id mgr.lfgDungeonData = some data)
    (htype : data.DungeonEntry.TypeID ≠ LFGType.Random)
    (hmem : id ∈ ids) (hids : ∀ i ∈ ids, InCatalog mgr i)
    (hslot : ∀ e ∈ mgr.lfgDungeonData,
      e.2.DungeonEntry.Entry &&& 0x00FFFFFF = e.2.DungeonEntry.ID)
    (hstore : ∀ entry ∈ store, entry.Entry &&& 0x00FFFFFF = entry.ID) :
    ∃ lockMap, CheckDungeonIdsForLocks mgr host player ids [] = .ok lockMap ∧
      mapFind data.DungeonEntry.Entry lockMap =
        mapFind data.DungeonEntry.Entry
          (GetLockedDungeonsForPlayer mgr host store playerGuid) ∧
      mapFind data.DungeonEntry.Entry lockMap = lockFor host player data := by
  have hdmem : (id, data) ∈ mgr.lfgDungeonData := mapFind_some_mem hdata
  have hkey : data.DungeonEntry.ID = id := (reachable_wellFormed mgr hreach).keyed _ hdmem
  have hcheck : mapFind data.DungeonEntry.Entry
      (recordLocks host player (recordsToCheck mgr ids) []) = lockFor host player data := by
    rw [mapFind_recordLocks host player data _ [] ?_ rfl,
      if_pos (recordsToCheck_mem hmem hdata htype)]
    intro d hd heq
    obtain ⟨i, _, hi, _⟩ := mem_recordsToCheck hd
    exact slot_determines_record hreach hslot (mapFind_some_mem hi) hdmem heq
  refine ⟨_, CheckDungeonIdsForLocks_eq mgr host player ids [] hids, ?_, hcheck⟩
  rw [hcheck]
  unfold GetLockedDungeonsForPlayer
  simp only [hconn]
  rw [lockedDungeonsLoop_eq, mapFind_recordLocks host player data _ _ ?_ ?_, if_pos]
  · exact List.mem_map.2 ⟨(id, data), hdmem, rfl⟩
  · intro d hd heq
    obtain ⟨e, he, hed⟩ := List.mem_map.1 hd
    rw [← hed] at heq ⊢
    exact slot_determines_record hreach hslot he hdmem heq
  · apply mapFind_lockedByDefault_none
    intro entry hentry hnone heq
    have hid : entry.ID = id := by
      rw [← hstore entry hentry, heq, hslot _ hdmem]
      exact hkey
    rw [hid, hdata] at hnone
    cases hnone

/-- Witness of `lock_cascades_agree`: for the level-80 warrior of the demo world and the
dungeon 102, which needs level 85, both functions record `TooLowLevel` with details
`(0, 0)` under the slot code of the dungeon. -/
theorem lock_cascades_agree_witness :
    ∃ lockMap, CheckDungeonIdsForLocks demoMgr demoHost playerA [101, 102] [] = .ok lockMap ∧
      mapFind demoDungeon102.DungeonEntry.Entry lockMap =
        mapFind demoDungeon102.DungeonEntry.Entry
          (GetLockedDungeonsForPlayer demoMgr demoHost demoSources.sLFGDungeonStore
            (ObjectGuid.Player 1)) ∧
      mapFind demoDungeon102.DungeonEntry.Entry lockMap =
        lockFor demoHost playerA demoDungeon102 ∧
      lockFor demoHost playerA demoDungeon102 = some ⟨LFGLockStatusType.TooLowLevel, 0, 0⟩ := by
  obtain ⟨lockMap, h1, h2, h3⟩ := lock_cascades_agree demoMgr demoHost
    demoSources.sLFGDungeonStore playerA (ObjectGuid.Player 1) [101, 102] 102 demoDungeon102
    (Reachable.init demoSources) rfl (by decide) (by decide) (by decide)
    (by unfold InCatalog; decide) (by decide) (by decide)
  exact ⟨lockMap, h1, h2, h3, by decide⟩

/-! ## The random groups built by the loader -/

theorem InitializeDungeonData_loaded (mgr : NewLFGMgr) (src : LoadSources)
    (htemplate : src.lfg_dungeon_template ≠ []) (hrewards : src.lfg_dungeon_rewards ≠ []) :
    InitializeDungeonData mgr src =
      { mgr with
        lfgDungeonData :=
          loadRewardRows src.lfg_dungeon_rewards
            (loadTemplateRows src src.lfg_dungeon_template mgr.lfgDungeonData),
        lfgDungeonsIdsForRandomDungeonId :=
          buildRandomGroups src
            (loadRewardRows src.lfg_dungeon_rewards
              (loadTemplateRows src src.lfg_dungeon_template mgr.lfgDungeonData))
            (loadRewardRows src.lfg_dungeon_rewards
              (loadTemplateRows src src.lfg_dungeon_template mgr.lfgDungeonData))
            mgr.lfgDungeonsIdsForRandomDungeonId } := by
  unfold InitializeDungeonData
  rw [if_neg htemplate, if_neg hrewards]

theorem mem_setInsert (x id : Nat) (s : List Nat) : x ∈ setInsert id s ↔ x ∈ s ∨ x = id := by
  unfold setInsert
  split_ifs with hm
  · constructor
    · exact Or.inl
    · rintro (h | h)
      · exact h
      · rw [h]; exact hm
  · simp

theorem mem_randomGroupInsert (r id k x : Nat) (index : List (Nat × List Nat)) :
    x ∈ (mapFind k (randomGroupInsert r id index)).getD [] ↔
      x ∈ (mapFind k index).getD [] ∨ (k = r ∧ x = id) := by
  unfold randomGroupInsert
  by_cases hk : k = r
  · subst hk
    rw [mapFind_mapModify_self]
    simp only [Option.getD_some, mem_setInsert, true_and]
  · rw [mapFind_mapModify_ne _ _ _ _ _ hk]
    simp only [hk, false_and, or_false]

theorem keys_randomGroupInsert {r id k : Nat} {index : List (Nat × List Nat)}
    (h : k ∈ mapKeys (randomGroupInsert r id index)) : k ∈ mapKeys index ∨ k = r := by
  unfold randomGroupInsert at h
  rw [mapKeys_mapModify] at h
  split_ifs at h
  · exact Or.inl h
  · rcases List.mem_append.1 h with h1 | h1
    · exact Or.inl h1
    · exact Or.inr (by simpa using h1)

theorem mem_randomGroupFromStore (data : List (Nat × LFGDungeonData)) (r k x : Nat)
    (store : List LFGDungeonEntry) :
    ∀ index : List (Nat × List Nat),
      x ∈ (mapFind k (randomGroupFromStore data r store index)).getD [] ↔
        x ∈ (mapFind k index).getD [] ∨
        (k = r ∧ (mapFind x data).isSome = true ∧ ∃ entry ∈ store,
          entry.ID = x ∧ entry.RandomID = r ∧ entry.TypeID ≠ LFGType.Random) := by
  induction store with
  | nil => intro index; simp [randomGroupFromStore]
  | cons entry rest ih =>
    intro index
    rw [randomGroupFromStore]
    by_cases hc : (mapFind entry.ID data).isSome = true ∧ entry.RandomID = r
        ∧ entry.TypeID ≠ LFGType.Random
    · rw [if_pos hc, ih, mem_randomGroupInsert]
      constructor
      · rintro ((h | ⟨hk, hx⟩) | ⟨hk, hd, en, hen, h⟩)
        · exact Or.inl h
        · subst hx
          exact Or.inr ⟨hk, hc.1, entry, List.mem_cons_self _ _, rfl, hc.2⟩
        · exact Or.inr ⟨hk, hd, en, List.mem_cons_of_mem _ hen, h⟩
      · rintro (h | ⟨hk, hd, en, hen, h⟩)
        · exact Or.inl (Or.inl h)
        · rcases List.mem_cons.1 hen with h1 | h1
          · subst h1
            exact Or.inl (Or.inr ⟨hk, h.1.symm⟩)
          · exact Or.inr ⟨hk, hd, en, h1, h⟩
    · rw [if_neg hc, ih]
      constructor
      · rintro (h | ⟨hk, hd, en, hen, h⟩)
        · exact Or.inl h
        · exact Or.inr ⟨hk, hd, en, List.mem_cons_of_mem _ hen, h⟩
      · rintro (h | ⟨hk, hd, en, hen, h⟩)
        · exact Or.inl h
        · rcases List.mem_cons.1 hen with h1 | h1
          · subst h1
            rw [h.1] at hc
            exact absurd ⟨hd, h.2⟩ hc
          · exact Or.inr ⟨hk, hd, en, h1, h⟩

theorem mem_randomGroupFromGrouping (data : List (Nat × LFGDungeonData)) (r k x : Nat)
    (store : List LFGDungeonsGroupingMapEntry) :
    ∀ index : List (Nat × List Nat),
      x ∈ (mapFind k (randomGroupFromGrouping data r store index)).getD [] ↔
        x ∈ (mapFind k index).getD [] ∨
        (k = r ∧ (mapFind x data).isSome = true ∧ ∃ row ∈ store,
          row.LfgDungeonsID = x ∧ row.RandomLfgDungeonsID = r) := by
  induction store with
  | nil => intro index; simp [randomGroupFromGrouping]
  | cons entry rest ih =>
    intro index
    rw [randomGroupFromGrouping]
    by_cases hc : entry.RandomLfgDungeonsID = r ∧ (mapFind entry.LfgDungeonsID data).isSome = true
    · rw [if_pos hc, ih, mem_randomGroupInsert]
      constructor
      · rintro ((h | ⟨hk, hx⟩) | ⟨hk, hd, en, hen, h⟩)
        · exact Or.inl h
        · subst hx
          exact Or.inr ⟨hk, hc.2, entry, List.mem_cons_self _ _, rfl, hc.1⟩
        · exact Or.inr ⟨hk, hd, en, List.mem_cons_of_mem _ hen, h⟩
      · rintro (h | ⟨hk, hd, en, hen, h⟩)
        · exact Or.inl (Or.inl h)
        · rcases List.mem_cons.1 hen with h1 | h1
          · subst h1
            exact Or.inl (Or.inr ⟨hk, h.1.symm⟩)
          · exact Or.inr ⟨hk, hd, en, h1, h⟩
    · rw [if_neg hc, ih]
      constructor
      · rintro (h | ⟨hk, hd, en, hen, h⟩)
        · exact Or.inl h
        · exact Or.inr ⟨hk, hd, en, List.mem_cons_of_mem _ hen, h⟩
      · rintro (h | ⟨hk, hd, en, hen, h⟩)
        · exact Or.inl h
        · rcases List.mem_cons.1 hen with h1 | h1
          · subst h1
            rw [h.1] at hc
            exact absurd ⟨h.2, hd⟩ hc
          · exact Or.inr ⟨hk, hd, en, h1, h⟩

theorem keys_randomGroupFromStore (data : List (Nat × LFGDungeonData)) (r k : Nat)
    (store : List LFGDungeonEntry) :
    ∀ index : List (Nat × List Nat),
      k ∈ mapKeys (randomGroupFromStore data r store index) → k ∈ mapKeys index ∨ k = r := by
  induction store with
  | nil => intro index h; exact Or.inl h
  | cons entry rest ih =>
    intro index h
    rw [randomGroupFromStore] at h
    split_ifs at h
    · rcases ih _ h with h1 | h1
      · exact keys_randomGroupInsert h1
      · exact Or.inr h1
    · exact ih _ h

theorem keys_randomGroupFromGrouping (data : List (Nat × LFGDungeonData)) (r k : Nat)
    (store : List LFGDungeonsGroupingMapEntry) :
    ∀ index : List (Nat × List Nat),
      k ∈ mapKeys (randomGroupFromGrouping data r store index) →
        k ∈ mapKeys index ∨ k = r := by
  induction store with
  | nil => intro index h; exact Or.inl h
  | cons entry rest ih =>
    intro index h
    rw [randomGroupFromGrouping] at h
    split_ifs at h
    · rcases ih _ h with h1 | h1
      · exact keys_randomGroupInsert h1
      · exact Or.inr h1
    · exact ih _ h

theorem mem_buildRandomGroups (src : LoadSources) (data : List (Nat × LFGDungeonData))
    (k x : Nat) (itrs : List (Nat × LFGDungeonData)) :
    ∀ index : List (Nat × List Nat),
      x ∈ (mapFind k (buildRandomGroups src data itrs index)).getD [] ↔
        x ∈ (mapFind k index).getD [] ∨
        ((∃ itr ∈ itrs, itr.2.DungeonEntry.TypeID = LFGType.Random ∧
            itr.2.DungeonEntry.ID = k) ∧
          (mapFind x data).isSome = true ∧ (StoreChild src k x ∨ GroupingChild src k x)) := by
  induction itrs with
  | nil => intro index; simp [buildRandomGroups]
  | cons itr rest ih =>
    intro index
    rw [buildRandomGroups]
    by_cases ht : itr.2.DungeonEntry.TypeID ≠ LFGType.Random
    · rw [if_pos ht, ih]
      constructor
      · rintro (h | ⟨⟨it, hit, h1⟩, h2⟩)
        · exact Or.inl h
        · exact Or.inr ⟨⟨it, List.mem_cons_of_mem _ hit, h1⟩, h2⟩
      · rintro (h | ⟨⟨it, hit, h1⟩, h2⟩)
        · exact Or.inl h
        · rcases List.mem_cons.1 hit with h3 | h3
          · subst h3
            exact absurd h1.1 ht
          · exact Or.inr ⟨⟨it, h3, h1⟩, h2⟩
    · rw [if_neg ht, ih, mem_randomGroupFromGrouping, mem_randomGroupFromStore]
      have htype : itr.2.DungeonEntry.TypeID = LFGType.Random := by
        by_contra hc
        exact ht hc
      unfold StoreChild GroupingChild
      constructor
      · rintro (((h | ⟨hk, hd, hs⟩) | ⟨hk, hd, hg⟩) | ⟨⟨it, hit, h1⟩, h2⟩)
        · exact Or.inl h
        · refine Or.inr ⟨⟨itr, List.mem_cons_self _ _, htype, hk.symm⟩, hd, Or.inl ?_⟩
          rw [hk]
          exact hs
        · refine Or.inr ⟨⟨itr, List.mem_cons_self _ _, htype, hk.symm⟩, hd, Or.inr ?_⟩
          rw [hk]
          exact hg
        · exact Or.inr ⟨⟨it, List.mem_cons_of_mem _ hit, h1⟩, h2⟩
      · rintro (h | ⟨⟨it, hit, h1⟩, hd, h2⟩)
        · exact Or.inl (Or.inl (Or.inl h))
        · rcases List.mem_cons.1 hit with h3 | h3
          · subst h3
            rcases h2 with hs | hg
            · refine Or.inl (Or.inl (Or.inr ⟨h1.2.symm, hd, ?_⟩))
              rw [h1.2]
              exact hs
            · refine Or.inl (Or.inr ⟨h1.2.symm, hd, ?_⟩)
              rw [h1.2]
              exact hg
          · exact Or.inr ⟨⟨it, h3, h1⟩, hd, h2⟩

theorem keys_buildRandomGroups (src : LoadSources) (data : List (Nat × LFGDungeonData))
    (k : Nat) (itrs : List (Nat × LFGDungeonData)) :
    ∀ index : List (Nat × List Nat),
      k ∈ mapKeys (buildRandomGroups src data itrs index) →
        k ∈ mapKeys index ∨ ∃ itr ∈ itrs, itr.2.DungeonEntry.TypeID = LFGType.Random ∧
          itr.2.DungeonEntry.ID = k := by
  induction itrs with
  | nil => intro index h; exact Or.inl h
  | cons itr rest ih =>
    intro index h
    rw [buildRandomGroups] at h
    by_cases ht : itr.2.DungeonEntry.TypeID ≠ LFGType.Random
    · rw [if_pos ht] at h
      rcases ih _ h with h1 | ⟨it, hit, h2⟩
      · exact Or.inl h1
      · exact Or.inr ⟨it, List.mem_cons_of_mem _ hit, h2⟩
    · rw [if_neg ht] at h
      have htype : itr.2.DungeonEntry.TypeID = LFGType.Random := by
        by_contra hc
        exact ht hc
      rcases ih _ h with h1 | ⟨it, hit, h2⟩
      · rcases keys_randomGroupFromGrouping _ _ _ _ _ h1 with h3 | h3
        · rcases keys_randomGroupFromStore _ _ _ _ _ h3 with h4 | h4
          · exact Or.inl h4
          · exact Or.inr ⟨itr, List.mem_cons_self _ _, htype, h4.symm⟩
        · exact Or.inr ⟨itr, List.mem_cons_self _ _, htype, h3.symm⟩
      · exact Or.inr ⟨it, List.mem_cons_of_mem _ hit, h2⟩

/-- C35: after `InitializeDungeonData` on a fresh manager with both tables returning rows,
for every catalog entry `r` of type random the expansion set of `r` is exactly the set of
ids `e` that have a catalog entry and for which the master store has an activity `e` with
random parent `r` that is not itself of type random, or the grouping table has a row
linking `e` to `r`; an expansion set is recorded only under the id of a catalog entry of
type random, and every member of every expansion set has a catalog entry. -/
theorem expansion_sets_after_load (src : LoadSources)
    (htemplate : src.lfg_dungeon_template ≠ []) (hrewards : src.lfg_dungeon_rewards ≠ []) :
    (∀ (r e : Nat) (data : LFGDungeonData),
      mapFind r (InitializeDungeonData NewLFGMgr.new src).lfgDungeonData = some data →
      data.DungeonEntry.TypeID = LFGType.Random →
      (e ∈ expansionSet (InitializeDungeonData NewLFGMgr.new src) r ↔
        InCatalog (InitializeDungeonData NewLFGMgr.new src) e ∧
          (StoreChild src r e ∨ GroupingChild src r e))) ∧
    (∀ r, r ∈ mapKeys (InitializeDungeonData NewLFGMgr.new src).lfgDungeonsIdsForRandomDungeonId →
      typeOfId (InitializeDungeonData NewLFGMgr.new src) r = some LFGType.Random) ∧
    (∀ r e, e ∈ expansionSet (InitializeDungeonData NewLFGMgr.new src) r →
      InCatalog (InitializeDungeonData NewLFGMgr.new src) e) := by
  have hreach : Reachable (InitializeDungeonData NewLFGMgr.new src) := Reachable.init src
  have hwf := reachable_wellFormed _ hreach
  have hload := InitializeDungeonData_loaded NewLFGMgr.new src htemplate hrewards
  obtain ⟨data1, hdata1⟩ : ∃ d, d = loadRewardRows src.lfg_dungeon_rewards
      (loadTemplateRows src src.lfg_dungeon_template NewLFGMgr.new.lfgDungeonData) := ⟨_, rfl⟩
  rw [← hdata1] at hload
  have hcat : (InitializeDungeonData NewLFGMgr.new src).lfgDungeonData = data1 := by
    rw [hload]
  have hidx : (InitializeDungeonData NewLFGMgr.new src).lfgDungeonsIdsForRandomDungeonId =
      buildRandomGroups src data1 data1 [] := by
    rw [hload]
    rfl
  refine ⟨?_, ?_, fun r e he => mem_expansionSet_inCatalog hwf r e he⟩
  · intro r e data hdata htype
    unfold expansionSet InCatalog
    rw [hidx, mem_buildRandomGroups, hcat]
    have hmem : (r, data) ∈ data1 := by
      rw [← hcat]
      exact mapFind_some_mem hdata
    have hkey : data.DungeonEntry.ID = r := hwf.keyed _ (by rw [hcat]; exact hmem)
    constructor
    · rintro (h | ⟨_, h⟩)
      · simp [mapFind] at h
      · exact h
    · intro h
      exact Or.inr ⟨⟨(r, data), hmem, htype, hkey⟩, h⟩
  · intro r hr
    rw [hidx] at hr
    rcases keys_buildRandomGroups src data1 r data1 [] hr with h | ⟨itr, hitr, htype, hid⟩
    · simp [mapKeys] at h
    · have hfind := mapFind_of_mem_catalog hreach (by rw [hcat]; exact hitr)
      rw [hid] at hfind
      unfold typeOfId
      rw [hfind, Option.map_some', htype]

/-- Witness of `expansion_sets_after_load`: the loaded demo sources; the expansion set of the
random dungeon 301 holds the dungeons 101 and 102, whose random parent it is. -/
theorem expansion_sets_after_load_witness :
    (∀ (r e : Nat) (data : LFGDungeonData),
      mapFind r (InitializeDungeonData NewLFGMgr.new demoSources).lfgDungeonData = some data →
      data.DungeonEntry.TypeID = LFGType.Random →
      (e ∈ expansionSet (InitializeDungeonData NewLFGMgr.new demoSources) r ↔
        InCatalog (InitializeDungeonData NewLFGMgr.new demoSources) e ∧
          (StoreChild demoSources r e ∨ GroupingChild demoSources r e))) ∧
    expansionSet (InitializeDungeonData NewLFGMgr.new demoSources) 301 = [101, 102] :=
  ⟨(expansion_sets_after_load demoSources (by decide) (by decide)).1, by decide⟩

/-! ## The random groups do not depend on the reward rows -/

theorem mapAdjust_map {κ α β : Type} [DecidableEq κ] (k : κ) (f : α → α) (g : κ × α → β)
    (hg : ∀ e : κ × α, g (e.1, f e.2) = g e) (m : List (κ × α)) :
    (mapAdjust k f m).map g = m.map g := by
  induction m with
  | nil => rfl
  | cons e rest ih =>
    unfold mapAdjust
    split_ifs
    · rw [List.map_cons, List.map_cons, hg]
    · rw [List.map_cons, List.map_cons, ih]

/-- The reward rows leave the keys and the dungeon entries of the catalog as they are. -/
theorem loadRewardRows_entries (rows : List DungeonRewardRow) :
    ∀ data : List (Nat × LFGDungeonData),
      (loadRewardRows rows data).map (fun e => (e.1, e.2.DungeonEntry)) =
        data.map (fun e => (e.1, e.2.DungeonEntry)) := by
  induction rows with
  | nil => intro data; rfl
  | cons row rest ih =>
    intro data
    rw [loadRewardRows]
    split
    · exact ih data
    · rw [ih]
      exact mapAdjust_map _ _ _ (fun _ => rfl) _

theorem randomGroupFromStore_congr {data data1 : List (Nat × LFGDungeonData)}
    (hkeys : mapKeys data1 = mapKeys data) (r : Nat) (store : List LFGDungeonEntry) :
    ∀ index, randomGroupFromStore data1 r store index =
      randomGroupFromStore data r store index := by
  induction store with
  | nil => intro index; rfl
  | cons entry rest ih =>
    intro index
    rw [randomGroupFromStore, randomGroupFromStore, mapFind_isSome_of_keys hkeys, ih, ih]

theorem randomGroupFromGrouping_congr {data data1 : List (Nat × LFGDungeonData)}
    (hkeys : mapKeys data1 = mapKeys data) (r : Nat)
    (store : List LFGDungeonsGroupingMapEntry) :
    ∀ index, randomGroupFromGrouping data1 r store index =
      randomGroupFromGrouping data r store index := by
  induction store with
  | nil => intro index; rfl
  | cons entry rest ih =>
    intro index
    rw [randomGroupFromGrouping, randomGroupFromGrouping, mapFind_isSome_of_keys hkeys, ih, ih]

theorem buildRandomGroups_congr (src : LoadSources) {data data1 : List (Nat × LFGDungeonData)}
    (hkeys : mapKeys data1 = mapKeys data) :
    ∀ (itrs itrs1 : List (Nat × LFGDungeonData)),
      itrs1.map (fun e => (e.1, e.2.DungeonEntry)) = itrs.map (fun e => (e.1, e.2.DungeonEntry)) →
      ∀ index, buildRandomGroups src data1 itrs1 index =
        buildRandomGroups src data itrs index := by
  intro itrs
  induction itrs with
  | nil =>
    intro itrs1 h index
    have : itrs1 = [] := by simpa using h
    simp only [this, buildRandomGroups]
  | cons itr rest ih =>
    intro itrs1 h index
    cases itrs1 with
    | nil => simp at h
    | cons itr1 rest1 =>
      simp only [List.map_cons, List.cons.injEq, Prod.mk.injEq] at h
      rw [buildRandomGroups, buildRandomGroups, h.1.2, randomGroupFromStore_congr hkeys,
        randomGroupFromGrouping_congr hkeys, ih rest1 h.2, ih rest1 h.2]

theorem buildRandomGroups_rewards (rows : List DungeonRewardRow) (src : LoadSources)
    (data : List (Nat × LFGDungeonData)) (index : List (Nat × List Nat)) :
    buildRandomGroups src (loadRewardRows rows data) (loadRewardRows rows data) index =
      buildRandomGroups src data data index := by
  have hent := loadRewardRows_entries rows data
  have hkeys : mapKeys (loadRewardRows rows data) = mapKeys data := by
    have := congrArg (List.map Prod.fst) hent
    simpa [mapKeys, List.map_map, Function.comp_def] using this
  exact buildRandomGroups_congr src hkeys _ _ hent index

theorem loadTemplateRows_rewards (src : LoadSources) (rewards : List DungeonRewardRow)
    (rows : List DungeonTemplateRow) :
    ∀ data, loadTemplateRows { src with lfg_dungeon_rewards := rewards } rows data =
      loadTemplateRows src rows data := by
  induction rows with
  | nil => intro data; rfl
  | cons row rest ih =>
    intro data
    rw [loadTemplateRows, loadTemplateRows]
    simp only [ih]

theorem buildRandomGroups_source (src : LoadSources) (rewards : List DungeonRewardRow)
    (data : List (Nat × LFGDungeonData)) (itrs : List (Nat × LFGDungeonData)) :
    ∀ index, buildRandomGroups { src with lfg_dungeon_rewards := rewards } data itrs index =
      buildRandomGroups src data itrs index := by
  induction itrs with
  | nil => intro index; rfl
  | cons itr rest ih =>
    intro index
    rw [buildRandomGroups, buildRandomGroups]
    simp only [ih]

/-- The random group cache after a load with rows in both tables: it is built from the
catalog of the template rows alone. -/
theorem index_of_load (mgr : NewLFGMgr) (src : LoadSources) (rewards : List DungeonRewardRow)
    (htemplate : src.lfg_dungeon_template ≠ []) (hrewards : rewards ≠ []) :
    (InitializeDungeonData mgr
      { src with lfg_dungeon_rewards := rewards }).lfgDungeonsIdsForRandomDungeonId =
      buildRandomGroups src
        (loadTemplateRows src src.lfg_dungeon_template mgr.lfgDungeonData)
        (loadTemplateRows src src.lfg_dungeon_template mgr.lfgDungeonData)
        mgr.lfgDungeonsIdsForRandomDungeonId := by
  rw [InitializeDungeonData_loaded mgr { src with lfg_dungeon_rewards := rewards } htemplate
    hrewards]
  dsimp only
  rw [buildRandomGroups_source, buildRandomGroups_rewards, loadTemplateRows_rewards]

/-- C34 (counterexample): the demo sources have three template rows and make the random
dungeon 301 a catalog entry; loaded with their reward row, the expansion set of 301 is
computed (101 and 102), loaded with a reward table without rows the random group cache
stays empty: `InitializeDungeonData` returns when the reward query gives no rows, before
the loop that builds the groups. -/
theorem empty_reward_table_skips_groups :
    demoSourcesNoRewards.lfg_dungeon_template = demoSources.lfg_dungeon_template ∧
    demoSourcesNoRewards.lfg_dungeon_template ≠ [] ∧
    demoSourcesNoRewards.lfg_dungeon_rewards = [] ∧
    (InitializeDungeonData NewLFGMgr.new demoSources).lfgDungeonsIdsForRandomDungeonId =
      [(301, [101, 102])] ∧
    typeOfId (InitializeDungeonData NewLFGMgr.new demoSourcesNoRewards) 301 =
      some LFGType.Random ∧
    (InitializeDungeonData NewLFGMgr.new demoSourcesNoRewards).lfgDungeonsIdsForRandomDungeonId
      = [] ∧
    expansionSet (InitializeDungeonData NewLFGMgr.new demoSourcesNoRewards) 301 = [] := by
  decide

/-- C34 (amended): for every load with a non-empty template table and a reward table with at
least one row, `InitializeDungeonData` computes the expansion set of every catalog entry of
type random whatever the rows of the reward table contain: the resulting random-expansion
index is the same for every non-empty content of the reward table. With a reward table with
no rows the load stops after the template rows: the catalog is loaded and the index is left
as it was before the load. -/
theorem index_independent_of_reward_rows (mgr : NewLFGMgr) (src : LoadSources)
    (rewards1 rewards2 : List DungeonRewardRow) (htemplate : src.lfg_dungeon_template ≠ [])
    (h1 : rewards1 ≠ []) (h2 : rewards2 ≠ []) :
    (InitializeDungeonData mgr
      { src with lfg_dungeon_rewards := rewards1 }).lfgDungeonsIdsForRandomDungeonId =
    (InitializeDungeonData mgr
      { src with lfg_dungeon_rewards := rewards2 }).lfgDungeonsIdsForRandomDungeonId ∧
    (InitializeDungeonData mgr
      { src with lfg_dungeon_rewards := [] }).lfgDungeonsIdsForRandomDungeonId =
      mgr.lfgDungeonsIdsForRandomDungeonId ∧
    (InitializeDungeonData mgr { src with lfg_dungeon_rewards := [] }).lfgDungeonData =
      loadTemplateRows src src.lfg_dungeon_template mgr.lfgDungeonData := by
  refine ⟨?_, ?_, ?_⟩
  · rw [index_of_load mgr src rewards1 htemplate h1, index_of_load mgr src rewards2 htemplate h2]
  · unfold InitializeDungeonData
    rw [if_neg htemplate, if_pos rfl]
  · unfold InitializeDungeonData
    rw [if_neg htemplate, if_pos rfl]
    exact loadTemplateRows_rewards src [] _ _

/-- Witness of `index_independent_of_reward_rows`: the demo sources loaded with a reward row
for the random dungeon 301 and loaded with a reward row for an id without a catalog entry
give the same index. -/
theorem index_independent_of_reward_rows_witness :
    (InitializeDungeonData NewLFGMgr.new
      { demoSources with
        lfg_dungeon_rewards := [⟨301, 85, 1, 2, 3, 1, 1⟩] }).lfgDungeonsIdsForRandomDungeonId =
    (InitializeDungeonData NewLFGMgr.new
      { demoSources with
        lfg_dungeon_rewards := [⟨999, 80, 0, 0, 0, 0, 0⟩] }).lfgDungeonsIdsForRandomDungeonId ∧
    (InitializeDungeonData NewLFGMgr.new
      { demoSources with
        lfg_dungeon_rewards := [⟨999, 80, 0, 0, 0, 0, 0⟩] }).lfgDungeonsIdsForRandomDungeonId =
      [(301, [101, 102])] :=
  ⟨(index_independent_of_reward_rows NewLFGMgr.new demoSources [⟨301, 85, 1, 2, 3, 1, 1⟩]
      [⟨999, 80, 0, 0, 0, 0, 0⟩] (by decide) (by decide) (by decide)).1, by decide⟩

end NewLFG
